import Mathlib

/-!
# Luna parser (`src/parser.c`): shallow embedding and checked properties

The recursive-descent parser of `parser.c` is embedded as Lean functions that
thread the parser state explicitly.  Every C function keeps its name.  The
functions recurse through one another, so each takes a fuel argument that
bounds the depth of the call stack and the number of loop iterations; running
out of fuel is its own outcome (`Res.fuel`), distinct from every outcome of the
C code.

A C pointer that may be `NULL` is an `Option`; the failure sentinel of the
grammar functions is `none`.  Where the C code dereferences a pointer that is
`NULL`, or reads a node through a struct it is not, the outcome is
`Res.undefined`.

`function_expr` is left out: no function of `parser.c` calls it.  Allocation
failure inside the node constructors is not modelled.
-/

namespace Luna

/-! ## Tokens and the lexer interface -/

/-- Modelled from the spec: `token.h` is not among the sources; these are the
token kinds `parser.c` names as `LUNA_TOKEN_*`, plus `ILLEGAL` for any other
kind the lexer may produce. -/
inductive luna_token
  | ILLEGAL | EOS | ID | INT | FLOAT | STRING
  | LPAREN | RPAREN | LBRACK | RBRACK | LBRACE | RBRACE | COMMA | COLON
  | OP_DOT | OP_POW | OP_INCR | OP_DECR | OP_BIT_NOT | OP_PLUS | OP_MINUS | OP_NOT
  | OP_MUL | OP_DIV | OP_MOD | OP_BIT_SHL | OP_BIT_SHR
  | OP_LT | OP_LTE | OP_GT | OP_GTE | OP_EQ | OP_NEQ
  | OP_BIT_AND | OP_BIT_XOR | OP_BIT_OR | OP_AND | OP_OR | OP_FORK
  | OP_ASSIGN | OP_PLUS_ASSIGN | OP_MINUS_ASSIGN | OP_DIV_ASSIGN | OP_MUL_ASSIGN
  | OP_OR_ASSIGN | OP_AND_ASSIGN | OP_LNOT
  | LET | TYPE | DEF | IF | UNLESS | ELSE | WHILE | UNTIL | RETURN | END
  deriving DecidableEq, Repr, Fintype

/-- Modelled from the spec: a token is a kind tag and a payload.  The payload
union `value` is kept as one field per member the parser reads
(`value.as_string`, `value.as_int`, `value.as_float`); a float payload is its
64-bit pattern. -/
structure luna_token_t where
  type : luna_token
  as_string : String := ""
  as_int : Int := 0
  as_float : Nat := 0
  deriving DecidableEq, Repr

/-- The end-of-stream token. -/
def eos : luna_token_t := { type := .EOS }

/-- Modelled from the spec: the lexer is external.  Its state is the list of
tokens it has yet to produce; `luna_scan` yields the next one, and once the
list is exhausted it keeps yielding end-of-stream. -/
def luna_scan : List luna_token_t → luna_token_t × List luna_token_t
  | [] => (eos, [])
  | t :: ts => (t, ts)

/-! ## AST nodes -/

/-- Modelled from the spec: `ast.h` is not among the sources.  The argument
container of a call: the positional vector and the name to value table.  A
table entry holds the pointer `call_args` stored, which may be `NULL`. -/
structure luna_args_node_t (N : Type) where
  vec : List N
  hash : List (String × Option N)

mutual
/-- Modelled from the spec: `ast.h` is not among the sources.  One constructor
per node struct built by `parser.c`; a child is an `Option` exactly where the
parser can store a `NULL` pointer in it. -/
inductive luna_node_t
  | id (val : String)
  | int (val : Int)
  | float (val : Nat)
  | string (val : String)
  | array (vals : List luna_node_t)
  | hash (vals : List (String × luna_node_t))
  | unary_op (op : luna_token) (expr : Option luna_node_t) (is_post : Bool)
  | binary_op (op : luna_token) (left right : luna_node_t) (is_let : Bool)
  | call (expr : luna_node_t) (args : Option (luna_args_node_t luna_node_t))
  | slot (left right : luna_node_t)
  | if_stmt (negate : Bool) (expr : luna_node_t) (block : luna_block_node_t)
      (else_ifs : List luna_node_t) (else_block : Option luna_block_node_t)
  | while_stmt (negate : Bool) (expr : luna_node_t) (block : luna_block_node_t)
  | return_stmt (expr : luna_node_t)
  | function (name : String) (type : Option String) (block : luna_block_node_t)
      (params : List luna_node_t)
  | decl (name type : String) (val : Option luna_node_t)
  | type (name : String)
/-- A block node: the statements in source order. -/
inductive luna_block_node_t
  | mk (stmts : List luna_node_t)
end

/-- Modelled from the spec: `luna_hash_set` of `hash.c`, on a table kept in
insertion order with unique keys; setting a key already present overwrites its
value in place. -/
def luna_hash_set {α : Type} : List (String × α) → String → α → List (String × α)
  | [], key, val => [(key, val)]
  | (k, v) :: rest, key, val =>
    if k = key then (k, val) :: rest else (k, v) :: luna_hash_set rest key val

/-- Modelled from the spec: `luna_hash_get` of `hash.c`. -/
def luna_hash_get {α : Type} : List (String × α) → String → Option α
  | [], _ => none
  | (k, v) :: rest, key => if k = key then some v else luna_hash_get rest key

/-! ## Parser state, token cursor, diagnostic channel -/

/-- The parser struct.  `la` is `NULL` or points at the lexer's current token,
which changes only while `la` is `NULL`, so it is kept as a copy of that token.
`lb` is the look-behind copy.  The scratch pointer `tmp` of the `next` macro is
written and read inside one expression and is left out. -/
structure luna_parser_t where
  lex : List luna_token_t
  la : Option luna_token_t
  lb : luna_token_t
  ctx : Option String
  err : Option String
  in_args : Int
  deriving DecidableEq, Repr

/-- Outcome of running a parser function. -/
inductive Res (α : Type)
  | ok (val : α) (self : luna_parser_t)
  | undefined
  | fuel

/-- Sequencing: run the continuation on a returned value and state. -/
def Res.bind {α β : Type} (r : Res α) (f : α → luna_parser_t → Res β) : Res β :=
  match r with
  | .ok v s => f v s
  | .undefined => .undefined
  | .fuel => .fuel

/-- `luna_parser_init`: every field but `lb` is reset. -/
def luna_parser_init (self : luna_parser_t) (lex : List luna_token_t) : luna_parser_t :=
  { self with lex := lex, la := none, ctx := none, err := none, in_args := 0 }

/-- The `peek` macro: the buffered token, scanning one if none is buffered. -/
def peek (self : luna_parser_t) : luna_token_t × luna_parser_t :=
  match self.la with
  | some t => (t, self)
  | none =>
    let r := luna_scan self.lex
    (r.1, { self with la := some r.1, lex := r.2 })

/-- The `next` macro: the buffered token (clearing the buffer) or a fresh one. -/
def next (self : luna_parser_t) : luna_token_t × luna_parser_t :=
  match self.la with
  | some t => (t, { self with la := none })
  | none =>
    let r := luna_scan self.lex
    (r.1, { self with lex := r.2 })

/-- The `is(t)` macro. -/
def is (t : luna_token) (self : luna_parser_t) : Bool × luna_parser_t :=
  let r := peek self
  (decide (r.1.type = t), r.2)

/-- The `accept(t)` macro: on a match the token is copied to `lb` and the
buffer cleared; the result tells whether the pointer returned is non-null. -/
def accept (t : luna_token) (self : luna_parser_t) : Bool × luna_parser_t :=
  let r := peek self
  if r.1.type = t then (true, { r.2 with lb := r.1, la := none }) else (false, r.2)

/-- Short-circuit disjunction `accept(t1) || accept(t2) || ...`. -/
def accept_any : List luna_token → luna_parser_t → Bool × luna_parser_t
  | [], self => (false, self)
  | t :: ts, self =>
    let r := accept t self
    if r.1 then r else accept_any ts r.2

/-- The `context(str)` macro. -/
def context (str : String) (self : luna_parser_t) : luna_parser_t :=
  { self with ctx := some str }

/-- The `error(str)` macro: the message is stored only when none is set; the
value of the macro is `NULL`. -/
def error (str : String) (self : luna_parser_t) : luna_parser_t :=
  { self with err := match self.err with | some e => some e | none => some str }

/-- The `prev->type` read. -/
def prev_type (self : luna_parser_t) : luna_token := self.lb.type

/-! ## Expression grammar -/

/-- The `while` loop shared by the left-associative binary levels
(`multiplicative_expr` .. `logical_or_expr`): while one of `ops` is accepted,
set the context, parse the right operand with `operand` and fold it into
`node`; a missing right operand is an error.  `op` is the operator recorded in
the node (`prev->type` read right after the accept, or the level's constant). -/
def binary_loop (ops : List luna_token) (op : luna_parser_t → luna_token) (ctx : String)
    (operand : luna_parser_t → Res (Option luna_node_t)) :
    Nat → luna_node_t → luna_parser_t → Res (Option luna_node_t)
  | 0, _, _ => .fuel
  | k + 1, node, self =>
    let r := accept_any ops self
    if r.1 then
      let o := op r.2
      (operand (context ctx r.2)).bind fun right self =>
        match right with
        | some right => binary_loop ops op ctx operand k (.binary_op o node right false) self
        | none => .ok none (error "missing right-hand expression" self)
    else .ok (some node) r.2

mutual

/-- C `paren_expr`: `'(' expr ')'`. -/
def paren_expr : Nat → luna_parser_t → Res (Option luna_node_t)
  | 0, _ => .fuel
  | n + 1, self =>
    let r := accept .LPAREN self
    if r.1 then
      (expr n r.2).bind fun node self =>
        match node with
        | none => .ok none self
        | some node =>
          let r := accept .RPAREN self
          if r.1 then .ok (some node) r.2
          else .ok none (error "expression missing closing ')'" r.2)
    else .ok none r.2

/-- C `arg_list`: the result is the returned flag and the contents of
`arr->vals` on return. -/
def arg_list : Nat → List luna_node_t → luna_token → luna_parser_t →
    Res (Bool × List luna_node_t)
  | 0, _, _, _ => .fuel
  | n + 1, arr, delim, self =>
    let r := peek self
    if delim = r.1.type then .ok (true, arr) r.2
    else
      (expr n r.2).bind fun val self =>
        match val with
        | none => .ok (false, arr) self
        | some val =>
          let arr := arr ++ [val]
          let r := accept .COMMA self
          if r.1 then
            (arg_list n arr delim r.2).bind fun res self =>
              if res.1 then .ok (true, res.2) self else .ok (false, res.2) self
          else .ok (true, arr) r.2

/-- C `array_expr`: `'[' arg_list? ']'`. -/
def array_expr : Nat → luna_parser_t → Res (Option luna_node_t)
  | 0, _ => .fuel
  | n + 1, self =>
    let r := accept .LBRACK self
    if r.1 then
      (arg_list n [] .RBRACK (context "array" r.2)).bind fun res self =>
        if res.1 then
          let r := accept .RBRACK self
          if r.1 then .ok (some (.array res.2)) r.2
          else .ok none (error "array missing closing ']'" r.2)
        else .ok none self
    else .ok none r.2

/-- C `hash_pairs`: the result is the returned flag and the contents of
`hash->vals` on return. -/
def hash_pairs : Nat → List (String × luna_node_t) → luna_token → luna_parser_t →
    Res (Bool × List (String × luna_node_t))
  | 0, _, _, _ => .fuel
  | n + 1, hash, delim, self =>
    let r := peek self
    if delim = r.1.type then .ok (true, hash) r.2
    else
      let r := is .ID r.2
      if r.1 then
        let t := next r.2
        let id := t.1.as_string
        let r := accept .COLON t.2
        if r.1 then
          (expr n r.2).bind fun val self =>
            match val with
            | none => .ok (false, hash) self
            | some val =>
              let hash := luna_hash_set hash id val
              let r := accept .COMMA self
              if r.1 then
                (hash_pairs n hash delim r.2).bind fun res self =>
                  if res.1 then .ok (true, res.2) self else .ok (false, res.2) self
              else .ok (true, hash) r.2
        else .ok (false, hash) (error "hash pair ':' missing" r.2)
      else .ok (false, hash) (error "hash pair key expected" r.2)

/-- C `hash_expr`: `'\x7b' hash_pairs? '\x7d'`. -/
def hash_expr : Nat → luna_parser_t → Res (Option luna_node_t)
  | 0, _ => .fuel
  | n + 1, self =>
    let r := accept .LBRACE self
    if r.1 then
      (hash_pairs n [] .RBRACE (context "hash" r.2)).bind fun res self =>
        if res.1 then
          let r := accept .RBRACE self
          if r.1 then .ok (some (.hash res.2)) r.2
          else .ok none (error "hash missing closing '\x7d'" r.2)
        else .ok none self
    else .ok none r.2

/-- C `primary_expr`: a leaf, an array, a hash, or else `paren_expr`. -/
def primary_expr : Nat → luna_parser_t → Res (Option luna_node_t)
  | 0, _ => .fuel
  | n + 1, self =>
    let r := peek self
    match r.1.type with
    | .ID => let t := next r.2; .ok (some (.id t.1.as_string)) t.2
    | .INT => let t := next r.2; .ok (some (.int t.1.as_int)) t.2
    | .FLOAT => let t := next r.2; .ok (some (.float t.1.as_float)) t.2
    | .STRING => let t := next r.2; .ok (some (.string t.1.as_string)) t.2
    | .LBRACK => array_expr n r.2
    | .LBRACE => hash_expr n r.2
    | _ => paren_expr n r.2

/-- C `slot_access_expr`: the slot loop is commented out in the source, so this
is `primary_expr`. -/
def slot_access_expr : Nat → luna_parser_t → Res (Option luna_node_t)
  | 0, _ => .fuel
  | n + 1, self => primary_expr n self

/-- The `do .. while (accept(COMMA))` loop of C `call_args`.  The key of a named
argument is read through `luna_id_node_t`, which is undefined for a node that
is not an identifier.  Every first expression is pushed onto `vec`, named or
not. -/
def call_args_loop : Nat → luna_args_node_t luna_node_t → luna_parser_t →
    Res (Option (luna_args_node_t luna_node_t))
  | 0, _, _ => .fuel
  | n + 1, args, self =>
    (expr n self).bind fun node self =>
      match node with
      | none => .ok none self
      | some node =>
        let r := accept .COLON self
        let named : Res (luna_args_node_t luna_node_t) :=
          if r.1 then
            (expr n r.2).bind fun val self =>
              match node with
              | .id str => .ok { args with hash := luna_hash_set args.hash str val } self
              | _ => .undefined
          else .ok args r.2
        named.bind fun args self =>
          let args := { args with vec := args.vec ++ [node] }
          let r := accept .COMMA self
          if r.1 then call_args_loop n args r.2
          else .ok (some args) { r.2 with in_args := r.2.in_args - 1 }

/-- C `call_args`: `in_args` is incremented, and decremented only on the
successful exit. -/
def call_args : Nat → luna_parser_t → Res (Option (luna_args_node_t luna_node_t))
  | 0, _ => .fuel
  | n + 1, self =>
    call_args_loop n { vec := [], hash := [] } { self with in_args := self.in_args + 1 }

/-- C `call_expr`.  `luna_call_node_new` creates the call with an empty
argument container (`logical_or_expr` pushes into it right after creating one);
`call->args` is then overwritten with whatever `call_args` returns, unchecked.
After a `'.'` the nested result is dereferenced unchecked. -/
def call_expr : Nat → luna_parser_t → Res (Option luna_node_t)
  | 0, _ => .fuel
  | n + 1, self =>
    (slot_access_expr n self).bind fun node self =>
      match node with
      | none => .ok none self
      | some node =>
        let r := accept .LPAREN self
        let called : Res (Option luna_node_t) :=
          if r.1 then
            let r := accept .RPAREN (context "function call" r.2)
            if r.1 then .ok (some (.call node (some { vec := [], hash := [] }))) r.2
            else
              (call_args n r.2).bind fun args self =>
                let r := accept .RPAREN self
                if r.1 then .ok (some (.call node args)) r.2
                else .ok none (error "missing closing ')'" r.2)
          else .ok (some node) r.2
        called.bind fun node self =>
          match node with
          | none => .ok none self
          | some node =>
            let r := accept .OP_DOT self
            if r.1 then
              (call_expr n r.2).bind fun e self =>
                match e with
                | none => .undefined
                | some (.call callee (some args)) =>
                  .ok (some (.call callee (some { args with vec := args.vec ++ [node] }))) self
                | some (.call _ none) => .undefined
                | some e => .ok (some (.slot node e)) self
            else .ok (some node) r.2

/-- C `pow_expr`: one optional `'**'`, no loop. -/
def pow_expr : Nat → luna_parser_t → Res (Option luna_node_t)
  | 0, _ => .fuel
  | n + 1, self =>
    (call_expr n self).bind fun node self =>
      match node with
      | none => .ok none self
      | some node =>
        let r := accept .OP_POW self
        if r.1 then
          (call_expr n (context "** operation" r.2)).bind fun right self =>
            match right with
            | some right => .ok (some (.binary_op .OP_POW node right false)) self
            | none => .ok none (error "missing right-hand expression" self)
        else .ok (some node) r.2

/-- C `postfix_expr`: at most one `'++'` or `'--'`. -/
def postfix_expr : Nat → luna_parser_t → Res (Option luna_node_t)
  | 0, _ => .fuel
  | n + 1, self =>
    (pow_expr n self).bind fun node self =>
      match node with
      | none => .ok none self
      | some node =>
        let r := accept_any [.OP_INCR, .OP_DECR] self
        if r.1 then .ok (some (.unary_op (prev_type r.2) (some node) true)) r.2
        else .ok (some node) r.2

/-- C `unary_expr`.  The arguments of `luna_unary_op_node_new(prev->type,
unary_expr(self), 0)` are taken in the order written: `prev->type` is read
before the operand is parsed.  C leaves that order to the compiler; `unary_expr_rtl`
is the same function with the operand parsed first.  The operand pointer is stored
unchecked. -/
def unary_expr : Nat → luna_parser_t → Res (Option luna_node_t)
  | 0, _ => .fuel
  | n + 1, self =>
    let r := accept_any [.OP_INCR, .OP_DECR, .OP_BIT_NOT, .OP_PLUS, .OP_MINUS, .OP_NOT] self
    if r.1 then
      let op := prev_type r.2
      (unary_expr n r.2).bind fun operand self => .ok (some (.unary_op op operand false)) self
    else postfix_expr n r.2

/-- C `multiplicative_expr`. -/
def multiplicative_expr : Nat → luna_parser_t → Res (Option luna_node_t)
  | 0, _ => .fuel
  | n + 1, self =>
    (unary_expr n self).bind fun node self =>
      match node with
      | none => .ok none self
      | some node =>
        binary_loop [.OP_MUL, .OP_DIV, .OP_MOD] prev_type "multiplicative operation"
          (unary_expr n) n node self

/-- C `additive_expr`. -/
def additive_expr : Nat → luna_parser_t → Res (Option luna_node_t)
  | 0, _ => .fuel
  | n + 1, self =>
    (multiplicative_expr n self).bind fun node self =>
      match node with
      | none => .ok none self
      | some node =>
        binary_loop [.OP_PLUS, .OP_MINUS] prev_type "additive operation"
          (multiplicative_expr n) n node self

/-- C `shift_expr`. -/
def shift_expr : Nat → luna_parser_t → Res (Option luna_node_t)
  | 0, _ => .fuel
  | n + 1, self =>
    (additive_expr n self).bind fun node self =>
      match node with
      | none => .ok none self
      | some node =>
        binary_loop [.OP_BIT_SHL, .OP_BIT_SHR] prev_type "shift operation"
          (additive_expr n) n node self

/-- C `relational_expr`. -/
def relational_expr : Nat → luna_parser_t → Res (Option luna_node_t)
  | 0, _ => .fuel
  | n + 1, self =>
    (shift_expr n self).bind fun node self =>
      match node with
      | none => .ok none self
      | some node =>
        binary_loop [.OP_LT, .OP_LTE, .OP_GT, .OP_GTE] prev_type "relational operation"
          (shift_expr n) n node self

/-- C `equality_expr`. -/
def equality_expr : Nat → luna_parser_t → Res (Option luna_node_t)
  | 0, _ => .fuel
  | n + 1, self =>
    (relational_expr n self).bind fun node self =>
      match node with
      | none => .ok none self
      | some node =>
        binary_loop [.OP_EQ, .OP_NEQ] prev_type "equality operation"
          (relational_expr n) n node self

/-- C `bitwise_and_expr`. -/
def bitwise_and_expr : Nat → luna_parser_t → Res (Option luna_node_t)
  | 0, _ => .fuel
  | n + 1, self =>
    (equality_expr n self).bind fun node self =>
      match node with
      | none => .ok none self
      | some node =>
        binary_loop [.OP_BIT_AND] (fun _ => .OP_BIT_AND) "& operation"
          (equality_expr n) n node self

/-- C `bitwise_xor_expr`. -/
def bitwise_xor_expr : Nat → luna_parser_t → Res (Option luna_node_t)
  | 0, _ => .fuel
  | n + 1, self =>
    (bitwise_and_expr n self).bind fun node self =>
      match node with
      | none => .ok none self
      | some node =>
        binary_loop [.OP_BIT_XOR] (fun _ => .OP_BIT_XOR) "^ operation"
          (bitwise_and_expr n) n node self

/-- C `bitswise_or_expr` (spelled as in the source). -/
def bitswise_or_expr : Nat → luna_parser_t → Res (Option luna_node_t)
  | 0, _ => .fuel
  | n + 1, self =>
    (bitwise_xor_expr n self).bind fun node self =>
      match node with
      | none => .ok none self
      | some node =>
        binary_loop [.OP_BIT_OR] (fun _ => .OP_BIT_OR) "| operation"
          (bitwise_xor_expr n) n node self

/-- C `logical_and_expr`. -/
def logical_and_expr : Nat → luna_parser_t → Res (Option luna_node_t)
  | 0, _ => .fuel
  | n + 1, self =>
    (bitswise_or_expr n self).bind fun node self =>
      match node with
      | none => .ok none self
      | some node =>
        binary_loop [.OP_AND] (fun _ => .OP_AND) "&& operation"
          (bitswise_or_expr n) n node self

/-- C `logical_or_expr`: the `'||'` fold, then the optional fork `'&'`. -/
def logical_or_expr : Nat → luna_parser_t → Res (Option luna_node_t)
  | 0, _ => .fuel
  | n + 1, self =>
    (logical_and_expr n self).bind fun node self =>
      match node with
      | none => .ok none self
      | some node =>
        (binary_loop [.OP_OR] (fun _ => .OP_OR) "|| operation"
          (logical_and_expr n) n node self).bind fun node self =>
          match node with
          | none => .ok none self
          | some node =>
            let r := accept .OP_FORK self
            if r.1 then
              .ok (some (.call (.id "fork") (some { vec := [node], hash := [] }))) r.2
            else .ok (some node) r.2

/-- C `assignment_expr`. -/
def assignment_expr : Nat → luna_parser_t → Res (Option luna_node_t)
  | 0, _ => .fuel
  | n + 1, self =>
    let l := accept .LET self
    (logical_or_expr n l.2).bind fun node self =>
      match node with
      | none => .ok none self
      | some node =>
        let r := accept .OP_ASSIGN self
        if r.1 then
          let op := prev_type r.2
          (not_expr n (context "assignment" r.2)).bind fun right self =>
            match right with
            | none => .ok none self
            | some right => .ok (some (.binary_op op node right l.1)) self
        else
          let r := accept_any [.OP_PLUS_ASSIGN, .OP_MINUS_ASSIGN, .OP_DIV_ASSIGN,
            .OP_MUL_ASSIGN, .OP_OR_ASSIGN, .OP_AND_ASSIGN] r.2
          if r.1 then
            let op := prev_type r.2
            (not_expr n (context "compoound assignment" r.2)).bind fun right self =>
              match right with
              | none => .ok none self
              | some right => .ok (some (.binary_op op node right false)) self
          else .ok (some node) r.2

/-- C `not_expr`. -/
def not_expr : Nat → luna_parser_t → Res (Option luna_node_t)
  | 0, _ => .fuel
  | n + 1, self =>
    let r := accept .OP_LNOT self
    if r.1 then
      (not_expr n r.2).bind fun e self =>
        match e with
        | none => .ok none self
        | some e => .ok (some (.unary_op .OP_LNOT (some e) false)) self
    else assignment_expr n r.2

/-- C `expr`. -/
def expr : Nat → luna_parser_t → Res (Option luna_node_t)
  | 0, _ => .fuel
  | n + 1, self => not_expr n self

/-- C `expr_stmt`. -/
def expr_stmt : Nat → luna_parser_t → Res (Option luna_node_t)
  | 0, _ => .fuel
  | n + 1, self =>
    (expr n self).bind fun node self =>
      match node with
      | none => .ok none self
      | some node =>
        let r := is .RPAREN self
        if r.1 then .ok (some node) r.2
        else
          let r := is .EOS r.2
          if r.1 then .ok (some node) r.2
          else .ok none (error "missing newline" r.2)

/-- The `do .. while (!accept(END))` field loop of C `type_stmt`. -/
def type_stmt_loop : Nat → luna_node_t → luna_parser_t → Res (Option luna_node_t)
  | 0, _, _ => .fuel
  | n + 1, type, self =>
    let r := is .ID self
    if r.1 then
      let t := next r.2
      let r := accept .COLON t.2
      if r.1 then
        let r := is .ID r.2
        if r.1 then
          let t := next r.2
          let r := accept .END t.2
          if r.1 then .ok (some type) r.2 else type_stmt_loop n type r.2
        else .ok none (error "expecting field type" r.2)
      else .ok none (error "expecting ':'" r.2)
    else .ok none (error "expecting field" r.2)

/-- C `type_stmt`. -/
def type_stmt : Nat → luna_parser_t → Res (Option luna_node_t)
  | 0, _ => .fuel
  | n + 1, self =>
    let r := accept .TYPE (context "type statement" self)
    if r.1 then
      let r := is .ID r.2
      if r.1 then
        let t := next r.2
        type_stmt_loop n (.type t.1.as_string) t.2
      else .ok none (error "missing type name" r.2)
    else .ok none r.2

/-- The `do .. while (accept(COMMA))` loop of C `function_params`. -/
def function_params_loop : Nat → List luna_node_t → luna_parser_t →
    Res (Option (List luna_node_t))
  | 0, _, _ => .fuel
  | n + 1, params, self =>
    let r := is .ID self
    if r.1 then
      let t := next r.2
      let id := t.1.as_string
      let r := accept .COLON t.2
      if r.1 then
        let r := is .ID r.2
        if r.1 then
          let t := next r.2
          let type := t.1.as_string
          let r := accept .OP_ASSIGN t.2
          let param : Res (Option luna_node_t) :=
            if r.1 then
              (expr n r.2).bind fun val self =>
                match val with
                | none => .ok none self
                | some val => .ok (some (.decl id type (some val))) self
            else .ok (some (.decl id type none)) r.2
          param.bind fun param self =>
            match param with
            | none => .ok none self
            | some param =>
              let params := params ++ [param]
              let r := accept .COMMA self
              if r.1 then function_params_loop n params r.2 else .ok (some params) r.2
        else .ok none (error "missing parameter type name" r.2)
      else .ok none (error "missing parameter type" r.2)
    else .ok none (error "missing identifier" r.2)

/-- C `function_params`. -/
def function_params : Nat → luna_parser_t → Res (Option (List luna_node_t))
  | 0, _ => .fuel
  | n + 1, self =>
    let r := is .ID (context "function params" self)
    if r.1 then function_params_loop n [] r.2 else .ok (some []) r.2

/-- C `function_stmt`. -/
def function_stmt : Nat → luna_parser_t → Res (Option luna_node_t)
  | 0, _ => .fuel
  | n + 1, self =>
    let r := accept .DEF (context "function statement" self)
    if r.1 then
      let r := is .ID r.2
      if r.1 then
        let t := next r.2
        let name := t.1.as_string
        let r := accept .LPAREN t.2
        let ps : Res (Option (List luna_node_t)) :=
          if r.1 then
            (function_params n r.2).bind fun params self =>
              match params with
              | none => .ok none self
              | some params =>
                let r := accept .RPAREN (context "function" self)
                if r.1 then .ok (some params) r.2
                else .ok none (error "missing closing ')'" r.2)
          else .ok (some []) r.2
        ps.bind fun params self =>
          match params with
          | none => .ok none self
          | some params =>
            let r := accept .COLON (context "function" self)
            let ty : Res (Option (Option String)) :=
              if r.1 then
                let r := is .ID r.2
                if r.1 then
                  let t := next r.2
                  .ok (some (some t.1.as_string)) t.2
                else .ok none (error "missing type after ':'" r.2)
              else .ok (some none) r.2
            ty.bind fun type self =>
              match type with
              | none => .ok none self
              | some type =>
                (block n self).bind fun body self =>
                  match body with
                  | some body => .ok (some (.function name type body params)) self
                  | none => .ok none self
      else .ok none (error "missing function name" r.2)
    else .ok none r.2

/-- The `loop:` label of C `if_stmt` and what follows it; the node built so
far is carried as its fields. -/
def if_stmt_loop : Nat → Bool → luna_node_t → luna_block_node_t → List luna_node_t →
    luna_parser_t → Res (Option luna_node_t)
  | 0, _, _, _, _, _ => .fuel
  | n + 1, negate, cond, body, else_ifs, self =>
    let r := accept .ELSE self
    if r.1 then
      let r := accept .IF r.2
      if r.1 then
        (expr n (context "else if statement condition" r.2)).bind fun c self =>
          match c with
          | none => .ok none self
          | some c =>
            (block n (context "else if statement" self)).bind fun b self =>
              match b with
              | none => .ok none self
              | some b =>
                if_stmt_loop n negate cond body (else_ifs ++ [.if_stmt false c b [] none]) self
      else
        (block n (context "else statement" r.2)).bind fun b self =>
          match b with
          | none => .ok none self
          | some b => .ok (some (.if_stmt negate cond body else_ifs (some b))) self
    else .ok (some (.if_stmt negate cond body else_ifs none)) r.2

/-- C `if_stmt`. -/
def if_stmt : Nat → luna_parser_t → Res (Option luna_node_t)
  | 0, _ => .fuel
  | n + 1, self =>
    let r := accept_any [.IF, .UNLESS] self
    if r.1 then
      let negate := decide (luna_token.UNLESS = prev_type r.2)
      (expr n (context "if statement condition" r.2)).bind fun cond self =>
        match cond with
        | none => .ok none self
        | some cond =>
          (block n (context "if statement" self)).bind fun body self =>
            match body with
            | none => .ok none self
            | some body => if_stmt_loop n negate cond body [] self
    else .ok none r.2

/-- C `while_stmt`. -/
def while_stmt : Nat → luna_parser_t → Res (Option luna_node_t)
  | 0, _ => .fuel
  | n + 1, self =>
    let r := accept_any [.UNTIL, .WHILE] self
    if r.1 then
      let negate := decide (luna_token.UNTIL = prev_type r.2)
      (expr n (context "while statement condition" r.2)).bind fun cond self =>
        match cond with
        | none => .ok none self
        | some cond =>
          (block n (context "while statement" self)).bind fun body self =>
            match body with
            | none => .ok none self
            | some body => .ok (some (.while_stmt negate cond body)) self
    else .ok none r.2

/-- C `return_stmt`. -/
def return_stmt : Nat → luna_parser_t → Res (Option luna_node_t)
  | 0, _ => .fuel
  | n + 1, self =>
    let r := accept .RETURN (context "return statement" self)
    if r.1 then
      (expr n r.2).bind fun node self =>
        match node with
        | none => .ok none self
        | some node => .ok (some (.return_stmt node)) self
    else .ok none r.2

/-- C `stmt`: dispatch on the leading keyword. -/
def stmt : Nat → luna_parser_t → Res (Option luna_node_t)
  | 0, _ => .fuel
  | n + 1, self =>
    let self := context "statement" self
    let r := is .IF self
    if r.1 then if_stmt n r.2 else
    let r := is .UNLESS r.2
    if r.1 then if_stmt n r.2 else
    let r := is .WHILE r.2
    if r.1 then while_stmt n r.2 else
    let r := is .UNTIL r.2
    if r.1 then while_stmt n r.2 else
    let r := is .RETURN r.2
    if r.1 then return_stmt n r.2 else
    let r := is .DEF r.2
    if r.1 then function_stmt n r.2 else
    let r := is .TYPE r.2
    if r.1 then type_stmt n r.2 else
    expr_stmt n r.2

/-- The `do .. while (!accept(END))` loop of C `block`. -/
def block_loop : Nat → List luna_node_t → luna_parser_t → Res (Option luna_block_node_t)
  | 0, _, _ => .fuel
  | n + 1, stmts, self =>
    (stmt n self).bind fun node self =>
      match node with
      | none => .ok none self
      | some node =>
        let stmts := stmts ++ [node]
        let r := accept .END self
        if r.1 then .ok (some (.mk stmts)) r.2 else block_loop n stmts r.2

/-- C `block`. -/
def block : Nat → luna_parser_t → Res (Option luna_block_node_t)
  | 0, _ => .fuel
  | n + 1, self =>
    let r := accept .END self
    if r.1 then .ok (some (.mk [])) r.2 else block_loop n [] r.2

end

/-- The `while (!accept(EOS))` loop of C `program`. -/
def program_loop : Nat → List luna_node_t → luna_parser_t → Res (Option luna_block_node_t)
  | 0, _, _ => .fuel
  | n + 1, stmts, self =>
    let r := accept .EOS self
    if r.1 then .ok (some (.mk stmts)) r.2
    else
      (stmt n r.2).bind fun node self =>
        match node with
        | some node => program_loop n (stmts ++ [node]) self
        | none => .ok none self

/-- C `program`. -/
def program (fuel : Nat) (self : luna_parser_t) : Res (Option luna_block_node_t) :=
  program_loop fuel [] self

/-- C `luna_parse`. -/
def luna_parse (fuel : Nat) (self : luna_parser_t) : Res (Option luna_block_node_t) :=
  program fuel self

/-! ## Vocabulary of the statements -/

/-- The value returned, if the run returned at all. -/
def Res.value {α : Type} : Res α → Option α
  | .ok v _ => some v
  | _ => none

/-- The parser state on return, if the run returned at all. -/
def Res.state {α : Type} : Res α → Option luna_parser_t
  | .ok _ s => some s
  | _ => none

/-- A token that carries no payload. -/
def tok (t : luna_token) : luna_token_t := { type := t }

/-- An identifier token. -/
def ident (name : String) : luna_token_t := { type := .ID, as_string := name }

/-- An integer literal token. -/
def int_lit (i : Int) : luna_token_t := { type := .INT, as_int := i }

/-- Parser memory before `luna_parser_init` has run on it (all zero). -/
def parser_zero : luna_parser_t :=
  { lex := [], la := none, lb := { type := .ILLEGAL }, ctx := none, err := none, in_args := 0 }

/-- A freshly initialised parser on a token stream. -/
def fresh (toks : List luna_token_t) : luna_parser_t := luna_parser_init parser_zero toks

/-- Kinds of the identifier and literal tokens, the one-token operands. -/
def is_operand (t : luna_token) : Bool :=
  t = .ID || t = .INT || t = .FLOAT || t = .STRING

/-- The leaf node `primary_expr` builds from an identifier or literal token. -/
def leaf (x : luna_token_t) : luna_node_t :=
  match x.type with
  | .INT => .int x.as_int
  | .FLOAT => .float x.as_float
  | .STRING => .string x.as_string
  | _ => .id x.as_string

/-- Kinds that `call_expr`, `pow_expr` or `postfix_expr` consume after a primary. -/
def follows_call (t : luna_token) : Bool :=
  t = .LPAREN || t = .OP_DOT || t = .OP_POW || t = .OP_INCR || t = .OP_DECR

/-- The operators accepted by the ten binary levels, tightest first:
`multiplicative_expr` is level 0 and `logical_or_expr` is level 9. -/
def level_ops : Nat → List luna_token
  | 0 => [.OP_MUL, .OP_DIV, .OP_MOD]
  | 1 => [.OP_PLUS, .OP_MINUS]
  | 2 => [.OP_BIT_SHL, .OP_BIT_SHR]
  | 3 => [.OP_LT, .OP_LTE, .OP_GT, .OP_GTE]
  | 4 => [.OP_EQ, .OP_NEQ]
  | 5 => [.OP_BIT_AND]
  | 6 => [.OP_BIT_XOR]
  | 7 => [.OP_BIT_OR]
  | 8 => [.OP_AND]
  | 9 => [.OP_OR]
  | _ => []

/-- The operator each level records in its node. -/
def level_op : Nat → luna_parser_t → luna_token
  | 5 => fun _ => .OP_BIT_AND
  | 6 => fun _ => .OP_BIT_XOR
  | 7 => fun _ => .OP_BIT_OR
  | 8 => fun _ => .OP_AND
  | 9 => fun _ => .OP_OR
  | _ => prev_type

/-- The context label each level sets. -/
def level_ctx : Nat → String
  | 0 => "multiplicative operation"
  | 1 => "additive operation"
  | 2 => "shift operation"
  | 3 => "relational operation"
  | 4 => "equality operation"
  | 5 => "& operation"
  | 6 => "^ operation"
  | 7 => "| operation"
  | 8 => "&& operation"
  | _ => "|| operation"

/-- The parsing function of each binary level. -/
def level_expr : Nat → Nat → luna_parser_t → Res (Option luna_node_t)
  | 0 => multiplicative_expr
  | 1 => additive_expr
  | 2 => shift_expr
  | 3 => relational_expr
  | 4 => equality_expr
  | 5 => bitwise_and_expr
  | 6 => bitwise_xor_expr
  | 7 => bitswise_or_expr
  | 8 => logical_and_expr
  | _ => logical_or_expr

/-- The function a level parses its operands with: the next tighter level, and
`unary_expr` for the multiplicative level. -/
def operand_expr : Nat → Nat → luna_parser_t → Res (Option luna_node_t)
  | 0 => unary_expr
  | i + 1 => level_expr i

/-- Whether a token kind is consumed by `operand_expr i` after a primary: by the
call, power and postfix levels or by a binary level tighter than level `i`. -/
def binds_tighter : Nat → luna_token → Bool
  | 0, t => follows_call t
  | i + 1, t => binds_tighter i t || decide (t ∈ level_ops i)

/-- The level of a binary operator kind, if it is one. -/
def op_level (t : luna_token) : Option Nat :=
  (List.range 10).find? fun i => decide (t ∈ level_ops i)

/-- The token stream `op1 x1 op2 x2 ...` of operator and operand pairs. -/
def op_stream : List (luna_token_t × luna_token_t) → List luna_token_t
  | [] => []
  | (o, x) :: rest => o :: x :: op_stream rest

/-- The left-deep tree over a first operand and operator and operand pairs. -/
def left_deep (node : luna_node_t) : List (luna_token_t × luna_token_t) → luna_node_t
  | [] => node
  | (o, x) :: rest => left_deep (.binary_op o.type node (leaf x) false) rest

/-- Kinds that end an expression: nothing in the ladder from `unary_expr` up to
`assignment_expr` consumes them after a complete operand. -/
def ends_expr (t : luna_token) : Bool :=
  t = .EOS || t = .RPAREN || t = .RBRACK || t = .RBRACE || t = .COMMA || t = .COLON || t = .END

/-- Kinds that cannot begin `stmt`'s expression statement as a plain logical-or
expression: the statement keywords, end-of-stream, `let` and `not`. -/
def starts_special (t : luna_token) : Bool :=
  t = .IF || t = .UNLESS || t = .WHILE || t = .UNTIL || t = .RETURN || t = .DEF ||
    t = .TYPE || t = .EOS || t = .LET || t = .OP_LNOT


/-- The part of C `call_expr` before the `'.'` check: the primary and the optional
parenthesized call, which is the receiver of a following `'.'`. -/
def call_expr_head (n : Nat) (self : luna_parser_t) : Res (Option luna_node_t) :=
  (slot_access_expr n self).bind fun node self =>
    match node with
    | none => .ok none self
    | some node =>
      let r := accept .LPAREN self
      if r.1 then
        let r := accept .RPAREN (context "function call" r.2)
        if r.1 then .ok (some (.call node (some { vec := [], hash := [] }))) r.2
        else
          (call_args n r.2).bind fun args self =>
            let r := accept .RPAREN self
            if r.1 then .ok (some (.call node args)) r.2
            else .ok none (error "missing closing ')'" r.2)
      else .ok (some node) r.2

/-- The operators `unary_expr` accepts in front of its operand. -/
def unary_ops : List luna_token :=
  [.OP_INCR, .OP_DECR, .OP_BIT_NOT, .OP_PLUS, .OP_MINUS, .OP_NOT]

/-- The nest `UnaryOp(p1, UnaryOp(p2, ... UnaryOp(pn, x)))`, none of them postfix. -/
def unary_chain : List luna_token_t → luna_node_t → luna_node_t
  | [], x => x
  | p :: ps, x => .unary_op p.type (some (unary_chain ps x)) false

/-- Kinds that can begin an expression: those on which `expr` consumes a token. -/
def starts_expr (t : luna_token) : Bool :=
  is_operand t || t = .LBRACK || t = .LBRACE || t = .LPAREN || decide (t ∈ unary_ops) ||
    t = .LET || t = .OP_LNOT

/-- With fuel at least `f0`, `expr` run on the tokens `ts` followed by a token `k` that
ends an expression returns the node `e`, having consumed exactly `ts` and buffered `k`. -/
def ExprRuns (f0 : Nat) (ts : List luna_token_t) (e : luna_node_t) : Prop :=
  ∀ fuel, f0 ≤ fuel → ∀ (k : luna_token_t) (rest : List luna_token_t) (lb : luna_token_t)
    (c err : Option String) (ia : Int), ends_expr k.type = true →
    ∃ lb' c' err' ia', expr fuel ⟨ts ++ k :: rest, none, lb, c, err, ia⟩ =
      .ok (some e) ⟨rest, some k, lb', c', err', ia'⟩

/-- The tokens `ts` are a complete expression that parses to `e`. -/
def ParsesTo (ts : List luna_token_t) (e : luna_node_t) : Prop :=
  ts ≠ [] ∧ ∃ f0, ExprRuns f0 ts e

/-- The token sequences `ts1 , ts2 , ... , tsn`. -/
def comma_sep : List (List luna_token_t) → List luna_token_t
  | [] => []
  | [ts] => ts
  | ts :: more => ts ++ tok .COMMA :: comma_sep more

/-- The tokens `k1 : ts1 , ... , kn : tsn` of the pairs of a hash literal. -/
def hash_stream : List (String × List luna_token_t) → List luna_token_t
  | [] => []
  | [(k, ts)] => ident k :: tok .COLON :: ts
  | (k, ts) :: more => ident k :: tok .COLON :: (ts ++ tok .COMMA :: hash_stream more)

/-- The table `hash_pairs` builds from key and value pairs in source order. -/
def hash_of (pairs : List (String × luna_node_t)) : List (String × luna_node_t) :=
  pairs.foldl (fun h p => luna_hash_set h p.1 p.2) []

/-- The value of the last occurrence of `key` among the pairs, in source order. -/
def last_value (pairs : List (String × luna_node_t)) (key : String) : Option luna_node_t :=
  (pairs.reverse.find? fun p => decide (p.1 = key)).map (·.2)

/-- The run returned no node: it failed, ran into undefined behaviour, or ran out of fuel. -/
def NoNode (r : Res (Option luna_node_t)) : Prop :=
  match r with
  | .ok (some _) _ => False
  | _ => True

/-- The value and state of a run that returned satisfy `P`. -/
def Res.Sat {α : Type} (r : Res α) (P : α → luna_parser_t → Prop) : Prop :=
  match r with
  | .ok v s => P v s
  | _ => True

/-- A relation between parser states that every cursor and diagnostic step respects. -/
structure Frame (R : luna_parser_t → luna_parser_t → Prop) : Prop where
  refl : ∀ s, R s s
  trans : ∀ {a b c}, R a b → R b c → R a c
  peek : ∀ s, R s (peek s).2
  next : ∀ s, R s (next s).2
  accept : ∀ t s, R s (accept t s).2
  context : ∀ c s, R s (context c s)
  error : ∀ m s, R s (error m s)
  in_args : ∀ (s : luna_parser_t) (k : Int), R s { s with in_args := k }

/-- Every grammar function, run with fuel `n`, relates its entry state to its exit state. -/
structure Framed (R : luna_parser_t → luna_parser_t → Prop) (n : Nat) : Prop where
  paren_expr : ∀ s, (Luna.paren_expr n s).Sat fun _ s' => R s s'
  arg_list : ∀ arr d s, (Luna.arg_list n arr d s).Sat fun _ s' => R s s'
  array_expr : ∀ s, (Luna.array_expr n s).Sat fun _ s' => R s s'
  hash_pairs : ∀ h d s, (Luna.hash_pairs n h d s).Sat fun _ s' => R s s'
  hash_expr : ∀ s, (Luna.hash_expr n s).Sat fun _ s' => R s s'
  primary_expr : ∀ s, (Luna.primary_expr n s).Sat fun _ s' => R s s'
  slot_access_expr : ∀ s, (Luna.slot_access_expr n s).Sat fun _ s' => R s s'
  call_args_loop : ∀ a s, (Luna.call_args_loop n a s).Sat fun _ s' => R s s'
  call_args : ∀ s, (Luna.call_args n s).Sat fun _ s' => R s s'
  call_expr : ∀ s, (Luna.call_expr n s).Sat fun _ s' => R s s'
  pow_expr : ∀ s, (Luna.pow_expr n s).Sat fun _ s' => R s s'
  postfix_expr : ∀ s, (Luna.postfix_expr n s).Sat fun _ s' => R s s'
  unary_expr : ∀ s, (Luna.unary_expr n s).Sat fun _ s' => R s s'
  level_expr : ∀ j s, (Luna.level_expr j n s).Sat fun _ s' => R s s'
  assignment_expr : ∀ s, (Luna.assignment_expr n s).Sat fun _ s' => R s s'
  not_expr : ∀ s, (Luna.not_expr n s).Sat fun _ s' => R s s'
  expr : ∀ s, (Luna.expr n s).Sat fun _ s' => R s s'
  expr_stmt : ∀ s, (Luna.expr_stmt n s).Sat fun _ s' => R s s'
  type_stmt_loop : ∀ t s, (Luna.type_stmt_loop n t s).Sat fun _ s' => R s s'
  type_stmt : ∀ s, (Luna.type_stmt n s).Sat fun _ s' => R s s'
  function_params_loop : ∀ p s, (Luna.function_params_loop n p s).Sat fun _ s' => R s s'
  function_params : ∀ s, (Luna.function_params n s).Sat fun _ s' => R s s'
  function_stmt : ∀ s, (Luna.function_stmt n s).Sat fun _ s' => R s s'
  if_stmt_loop : ∀ ng c b e s, (Luna.if_stmt_loop n ng c b e s).Sat fun _ s' => R s s'
  if_stmt : ∀ s, (Luna.if_stmt n s).Sat fun _ s' => R s s'
  while_stmt : ∀ s, (Luna.while_stmt n s).Sat fun _ s' => R s s'
  return_stmt : ∀ s, (Luna.return_stmt n s).Sat fun _ s' => R s s'
  stmt : ∀ s, (Luna.stmt n s).Sat fun _ s' => R s s'
  block_loop : ∀ st s, (Luna.block_loop n st s).Sat fun _ s' => R s s'
  block : ∀ s, (Luna.block n s).Sat fun _ s' => R s s'

/-- The sticky-error relation: an error message that is set stays as it is. -/
def Sticky (s s' : luna_parser_t) : Prop :=
  ∀ e, s.err = some e → s'.err = some e

/-- Kinds that begin one of the alternatives of `primary_expr`. -/
def starts_primary (t : luna_token) : Bool :=
  is_operand t || t = .LBRACK || t = .LBRACE || t = .LPAREN

/-- A failure state the caller can account for: the sticky error is set, or the
unconsumed token in the lookahead cannot begin a primary expression. -/
def Explained (s : luna_parser_t) : Prop :=
  s.err ≠ none ∨ ∃ t, s.la = some t ∧ starts_primary t.type = false

/-- A returned failure sentinel comes with a state that accounts for it. -/
def NonePost {α : Type} (v : Option α) (s : luna_parser_t) : Prop :=
  v = none → Explained s

/-- The same for the `int` results of `arg_list` and `hash_pairs`. -/
def FlagPost {α : Type} (res : Bool × α) (s : luna_parser_t) : Prop :=
  res.1 = false → Explained s

/-- Every grammar function, run with fuel `n`, returns the failure sentinel only in a
state that accounts for it; the functions that begin by accepting a fixed token may
also fail because the first token is not that one. -/
structure Explains (n : Nat) : Prop where
  paren_expr : ∀ s, (Luna.paren_expr n s).Sat fun v s' =>
    v = none → Explained s' ∨ (s' = (peek s).2 ∧ (peek s).1.type ≠ .LPAREN)
  arg_list : ∀ arr d s, (Luna.arg_list n arr d s).Sat FlagPost
  array_expr : ∀ s, (Luna.array_expr n s).Sat fun v s' =>
    v = none → Explained s' ∨ (peek s).1.type ≠ .LBRACK
  hash_pairs : ∀ h d s, (Luna.hash_pairs n h d s).Sat FlagPost
  hash_expr : ∀ s, (Luna.hash_expr n s).Sat fun v s' =>
    v = none → Explained s' ∨ (peek s).1.type ≠ .LBRACE
  primary_expr : ∀ s, (Luna.primary_expr n s).Sat NonePost
  slot_access_expr : ∀ s, (Luna.slot_access_expr n s).Sat NonePost
  call_expr : ∀ s, (Luna.call_expr n s).Sat NonePost
  pow_expr : ∀ s, (Luna.pow_expr n s).Sat NonePost
  postfix_expr : ∀ s, (Luna.postfix_expr n s).Sat NonePost
  unary_expr : ∀ s, (Luna.unary_expr n s).Sat NonePost
  level_expr : ∀ j s, (Luna.level_expr j n s).Sat NonePost
  assignment_expr : ∀ s, (Luna.assignment_expr n s).Sat NonePost
  not_expr : ∀ s, (Luna.not_expr n s).Sat NonePost
  expr : ∀ s, (Luna.expr n s).Sat NonePost
  expr_stmt : ∀ s, (Luna.expr_stmt n s).Sat NonePost
  type_stmt_loop : ∀ t s, (Luna.type_stmt_loop n t s).Sat NonePost
  type_stmt : ∀ s, (Luna.type_stmt n s).Sat fun v s' =>
    v = none → Explained s' ∨ (peek s).1.type ≠ .TYPE
  function_params_loop : ∀ p s, (Luna.function_params_loop n p s).Sat NonePost
  function_params : ∀ s, (Luna.function_params n s).Sat NonePost
  function_stmt : ∀ s, (Luna.function_stmt n s).Sat fun v s' =>
    v = none → Explained s' ∨ (peek s).1.type ≠ .DEF
  if_stmt_loop : ∀ ng c b e s, (Luna.if_stmt_loop n ng c b e s).Sat NonePost
  if_stmt : ∀ s, (Luna.if_stmt n s).Sat fun v s' =>
    v = none → Explained s' ∨ (peek s).1.type ∉ [luna_token.IF, .UNLESS]
  while_stmt : ∀ s, (Luna.while_stmt n s).Sat fun v s' =>
    v = none → Explained s' ∨ (peek s).1.type ∉ [luna_token.UNTIL, .WHILE]
  return_stmt : ∀ s, (Luna.return_stmt n s).Sat fun v s' =>
    v = none → Explained s' ∨ (peek s).1.type ≠ .RETURN
  stmt : ∀ s, (Luna.stmt n s).Sat NonePost
  block_loop : ∀ st s, (Luna.block_loop n st s).Sat NonePost
  block : ∀ s, (Luna.block n s).Sat NonePost

/-- The context-label relation: a label that is set stays set. -/
def CtxKept (s s' : luna_parser_t) : Prop :=
  s.ctx ≠ none → s'.ctx ≠ none


/-! ## Vocabulary of the cursor and statement claims -/

/-- The `i`-th token the cursor has yet to consume: the buffered lookahead first, then
what the lexer has yet to produce, then end-of-stream for ever. -/
def upcoming (s : luna_parser_t) (i : Nat) : luna_token_t :=
  (match s.la with
    | some t => t :: s.lex
    | none => s.lex).getD i eos

/-- The operators `postfix_expr` accepts after its operand. -/
def postfix_ops : List luna_token := [.OP_INCR, .OP_DECR]

/-- The compound assignment operators of `assignment_expr`. -/
def compound_ops : List luna_token :=
  [.OP_PLUS_ASSIGN, .OP_MINUS_ASSIGN, .OP_DIV_ASSIGN, .OP_MUL_ASSIGN, .OP_OR_ASSIGN,
    .OP_AND_ASSIGN]

/-- Kinds consumed above `unary_expr` after a complete operand: the operators of the ten
binary levels, the fork token and the assignment operators. -/
def binds_above (t : luna_token) : Bool :=
  (List.range 10).any (fun j => decide (t ∈ level_ops j)) || t = .OP_FORK || t = .OP_ASSIGN ||
    decide (t ∈ compound_ops)

/-- The keywords on which `stmt` dispatches to a statement other than `expr_stmt`. -/
def starts_stmt (t : luna_token) : Bool :=
  t = .IF || t = .UNLESS || t = .WHILE || t = .UNTIL || t = .RETURN || t = .DEF || t = .TYPE

/-- The part of C `logical_or_expr` before the fork check: the first operand and the
`'||'` loop. -/
def logical_or_fold (n : Nat) (self : luna_parser_t) : Res (Option luna_node_t) :=
  (logical_and_expr n self).bind fun node self =>
    match node with
    | none => .ok none self
    | some node =>
      binary_loop [.OP_OR] (fun _ => .OP_OR) "|| operation" (logical_and_expr n) n node self

/-- The tokens `f1 : t1 f2 : t2 ...` of the field entries of a type declaration. -/
def field_stream : List (luna_token_t × luna_token_t) → List luna_token_t
  | [] => []
  | (f, t) :: more => f :: tok .COLON :: t :: field_stream more

/-- Kinds that may come right after an expression in statement position: those that end
an expression (end-of-stream and `end` among them) and the statement keywords. -/
def ends_clause (t : luna_token) : Bool := ends_expr t || starts_stmt t

/-- Kinds that may begin a block: `end` and the statement keywords. -/
def starts_block (t : luna_token) : Bool := t = .END || starts_stmt t

/-- Kinds that may come right after a statement: `end`, end-of-stream and the statement
keywords. -/
def follows_stmt (t : luna_token) : Bool := t = .END || t = .EOS || starts_stmt t

/-- With fuel at least `f0`, `expr` run on the tokens `ts` followed by a token `k` that may
follow an expression in statement position returns the node `e`, having consumed exactly
`ts` and buffered `k`. -/
def ClauseRuns (f0 : Nat) (ts : List luna_token_t) (e : luna_node_t) : Prop :=
  ∀ fuel, f0 ≤ fuel → ∀ (k : luna_token_t) (rest : List luna_token_t) (lb : luna_token_t)
    (c err : Option String) (ia : Int), ends_clause k.type = true →
    ∃ lb' c' err' ia', expr fuel ⟨ts ++ k :: rest, none, lb, c, err, ia⟩ =
      .ok (some e) ⟨rest, some k, lb', c', err', ia'⟩

/-- The tokens `ts` are an expression that parses to `e` in statement position. -/
def ClauseParses (ts : List luna_token_t) (e : luna_node_t) : Prop :=
  ∃ f0, ClauseRuns f0 ts e

/-- With fuel at least `f0`, `block` run on the tokens `ts` returns the block `b`, having
consumed exactly `ts`, whatever follows. -/
def BlockRuns (f0 : Nat) (ts : List luna_token_t) (b : luna_block_node_t) : Prop :=
  ∀ fuel, f0 ≤ fuel → ∀ (rest : List luna_token_t) (lb : luna_token_t)
    (c err : Option String) (ia : Int),
    ∃ lb' c' err' ia', block fuel ⟨ts ++ rest, none, lb, c, err, ia⟩ =
      .ok (some b) ⟨rest, none, lb', c', err', ia'⟩

/-- The tokens `ts`, beginning with `end` or a statement keyword, are a block that
parses to `b`. -/
def BlockParses (ts : List luna_token_t) (b : luna_block_node_t) : Prop :=
  (∃ t ts', ts = t :: ts' ∧ starts_block t.type = true) ∧ ∃ f0, BlockRuns f0 ts b

/-- With fuel at least `f0`, `stmt` run on the tokens `ts` followed by a token `k` that may
follow a statement returns the node `node`, having consumed exactly `ts`: `k` is the next
token of the state returned. -/
def StmtRuns (f0 : Nat) (ts : List luna_token_t) (node : luna_node_t) : Prop :=
  ∀ fuel, f0 ≤ fuel → ∀ (k : luna_token_t) (rest : List luna_token_t) (lb : luna_token_t)
    (c err : Option String) (ia : Int), follows_stmt k.type = true →
    ∃ s' lb' c' err' ia', stmt fuel ⟨ts ++ k :: rest, none, lb, c, err, ia⟩ = .ok (some node) s' ∧
      (peek s').2 = ⟨rest, some k, lb', c', err', ia'⟩

/-- The tokens `ts`, beginning with a statement keyword, are a statement that parses to
`node`. -/
def StmtParses (ts : List luna_token_t) (node : luna_node_t) : Prop :=
  (∃ t ts', ts = t :: ts' ∧ starts_stmt t.type = true) ∧ ∃ f0, StmtRuns f0 ts node

/-- The tokens of the clauses `else if cond body`, in order. -/
def else_if_stream : List (List luna_token_t × List luna_token_t) → List luna_token_t
  | [] => []
  | (cond, body) :: more => tok .ELSE :: tok .IF :: (cond ++ (body ++ else_if_stream more))

/-- The tokens of the optional final `else body`. -/
def else_stream : Option (List luna_token_t) → List luna_token_t
  | none => []
  | some body => tok .ELSE :: body

/-- The tokens of a conditional: the keyword, the condition, the body, the `else if`
clauses and the optional `else`. -/
def if_stream (kw : luna_token_t) (cond body : List luna_token_t)
    (clauses : List (List luna_token_t × List luna_token_t))
    (els : Option (List luna_token_t)) : List luna_token_t :=
  kw :: (cond ++ (body ++ (else_if_stream clauses ++ else_stream els)))

/-- The tokens of a sequence of statements, one after the other. -/
def stmt_stream : List (List luna_token_t) → List luna_token_t
  | [] => []
  | ts :: more => ts ++ stmt_stream more

/-- The tokens of one parameter: `name : type`, then `= default` when a default is
written. -/
def param_tokens (name type : String) (dflt : Option (List luna_token_t)) : List luna_token_t :=
  ident name :: tok .COLON :: ident type ::
    (match dflt with
      | none => []
      | some ts => tok .OP_ASSIGN :: ts)

/-- The tokens of the optional parenthesized parameter list. -/
def params_stream : Option (List (List luna_token_t)) → List luna_token_t
  | none => []
  | some ps => tok .LPAREN :: (comma_sep ps ++ [tok .RPAREN])

/-- The tokens of the optional return annotation `: type`. -/
def return_stream : Option String → List luna_token_t
  | none => []
  | some t => [tok .COLON, ident t]

/-- The tokens of a function declaration up to and including its body. -/
def function_stream (name : String) (params : Option (List (List luna_token_t)))
    (ret : Option String) (body : List luna_token_t) : List luna_token_t :=
  tok .DEF :: ident name :: (params_stream params ++ (return_stream ret ++ body))

/-- The part of C `function_stmt` after the parameter list: the optional return
annotation and the body. -/
def function_tail (n : Nat) (name : String) (params : List luna_node_t)
    (self : luna_parser_t) : Res (Option luna_node_t) :=
  let r := accept .COLON (context "function" self)
  let ty : Res (Option (Option String)) :=
    if r.1 then
      let r := is .ID r.2
      if r.1 then
        let t := next r.2
        .ok (some (some t.1.as_string)) t.2
      else .ok none (error "missing type after ':'" r.2)
    else .ok (some none) r.2
  ty.bind fun type self =>
    match type with
    | none => .ok none self
    | some type =>
      (block n self).bind fun body self =>
        match body with
        | some body => .ok (some (.function name type body params)) self
        | none => .ok none self

/-! ## Vocabulary of the expression-tier frame -/

/-- The kinds consumed by the expression functions and by `expr_stmt`, `type_stmt` and
`function_params`: every kind but end-of-stream, the keywords `def`, `if`, `unless`,
`else`, `while`, `until`, `return`, and kinds unknown to the parser. -/
def expr_consumes : List luna_token :=
  [.ID, .INT, .FLOAT, .STRING, .LPAREN, .RPAREN, .LBRACK, .RBRACK, .LBRACE, .RBRACE, .COMMA,
    .COLON, .OP_DOT, .OP_POW, .OP_INCR, .OP_DECR, .OP_BIT_NOT, .OP_PLUS, .OP_MINUS, .OP_NOT,
    .OP_MUL, .OP_DIV, .OP_MOD, .OP_BIT_SHL, .OP_BIT_SHR, .OP_LT, .OP_LTE, .OP_GT, .OP_GTE,
    .OP_EQ, .OP_NEQ, .OP_BIT_AND, .OP_BIT_XOR, .OP_BIT_OR, .OP_AND, .OP_OR, .OP_FORK,
    .OP_ASSIGN, .OP_PLUS_ASSIGN, .OP_MINUS_ASSIGN, .OP_DIV_ASSIGN, .OP_MUL_ASSIGN,
    .OP_OR_ASSIGN, .OP_AND_ASSIGN, .OP_LNOT, .LET, .TYPE, .END]

/-- A relation between parser states that is respected by every cursor and diagnostic
step which consumes no token or a token of a kind in `expr_consumes`. -/
structure ExprFrame (R : luna_parser_t → luna_parser_t → Prop) : Prop where
  refl : ∀ s, R s s
  trans : ∀ {a b c}, R a b → R b c → R a c
  peek : ∀ s, R s (peek s).2
  next : ∀ s, (Luna.peek s).1.type ∈ expr_consumes → R s (next s).2
  accept : ∀ t s, t ∈ expr_consumes → R s (accept t s).2
  context : ∀ c s, R s (context c s)
  error : ∀ m s, R s (error m s)
  in_args : ∀ (s : luna_parser_t) (k : Int), R s { s with in_args := k }

/-- Every expression function, and `expr_stmt`, `type_stmt` and `function_params`, run
with fuel `n`, relates its entry state to its exit state. -/
structure ExprFramed (R : luna_parser_t → luna_parser_t → Prop) (n : Nat) : Prop where
  paren_expr : ∀ s, (Luna.paren_expr n s).Sat fun _ s' => R s s'
  arg_list : ∀ arr d s, (Luna.arg_list n arr d s).Sat fun _ s' => R s s'
  array_expr : ∀ s, (Luna.array_expr n s).Sat fun _ s' => R s s'
  hash_pairs : ∀ h d s, (Luna.hash_pairs n h d s).Sat fun _ s' => R s s'
  hash_expr : ∀ s, (Luna.hash_expr n s).Sat fun _ s' => R s s'
  primary_expr : ∀ s, (Luna.primary_expr n s).Sat fun _ s' => R s s'
  slot_access_expr : ∀ s, (Luna.slot_access_expr n s).Sat fun _ s' => R s s'
  call_args_loop : ∀ a s, (Luna.call_args_loop n a s).Sat fun _ s' => R s s'
  call_args : ∀ s, (Luna.call_args n s).Sat fun _ s' => R s s'
  call_expr : ∀ s, (Luna.call_expr n s).Sat fun _ s' => R s s'
  pow_expr : ∀ s, (Luna.pow_expr n s).Sat fun _ s' => R s s'
  postfix_expr : ∀ s, (Luna.postfix_expr n s).Sat fun _ s' => R s s'
  unary_expr : ∀ s, (Luna.unary_expr n s).Sat fun _ s' => R s s'
  level_expr : ∀ j s, (Luna.level_expr j n s).Sat fun _ s' => R s s'
  assignment_expr : ∀ s, (Luna.assignment_expr n s).Sat fun _ s' => R s s'
  not_expr : ∀ s, (Luna.not_expr n s).Sat fun _ s' => R s s'
  expr : ∀ s, (Luna.expr n s).Sat fun _ s' => R s s'
  expr_stmt : ∀ s, (Luna.expr_stmt n s).Sat fun _ s' => R s s'
  type_stmt_loop : ∀ t s, (Luna.type_stmt_loop n t s).Sat fun _ s' => R s s'
  type_stmt : ∀ s, (Luna.type_stmt n s).Sat fun _ s' => R s s'
  function_params_loop : ∀ p s, (Luna.function_params_loop n p s).Sat fun _ s' => R s s'
  function_params : ∀ s, (Luna.function_params n s).Sat fun _ s' => R s s'

/-- The tokens the cursor has yet to consume: the buffered lookahead, then what the
lexer has yet to produce. -/
def pending (s : luna_parser_t) : List luna_token_t :=
  match s.la with
  | some t => t :: s.lex
  | none => s.lex

/-- Whether, before any end-of-stream token, the tokens hold a `return` directly followed
by a token that cannot begin an expression (the end of the tokens counts as
end-of-stream). -/
def return_without_expr : List luna_token_t → Bool
  | [] => false
  | r :: rest =>
    r.type != .EOS &&
      ((r.type == .RETURN && !starts_expr (luna_scan rest).1.type) || return_without_expr rest)

/-- The relation that keeps such a `return` ahead of the cursor. -/
def KeepsReturn (s s' : luna_parser_t) : Prop :=
  return_without_expr (pending s) = true → return_without_expr (pending s') = true

/-- A `return` that is directly followed by a token which cannot begin an expression is
ahead of the cursor, before any end-of-stream token. -/
def ReturnAhead (s : luna_parser_t) : Prop :=
  return_without_expr (pending s) = true

/-- The run returned the failure sentinel, or such a `return` is still ahead. -/
def StopsOrKeeps {α : Type} (v : Option α) (s' : luna_parser_t) : Prop :=
  v = none ∨ ReturnAhead s'

/-- Every statement function, run with fuel `n` from a state that has such a `return`
ahead, fails or leaves it ahead. -/
structure StmtKeeps (n : Nat) : Prop where
  function_stmt : ∀ s, ReturnAhead s → (Luna.function_stmt n s).Sat StopsOrKeeps
  if_stmt_loop : ∀ ng c b e s, ReturnAhead s → (Luna.if_stmt_loop n ng c b e s).Sat StopsOrKeeps
  if_stmt : ∀ s, ReturnAhead s → (Luna.if_stmt n s).Sat StopsOrKeeps
  while_stmt : ∀ s, ReturnAhead s → (Luna.while_stmt n s).Sat StopsOrKeeps
  return_stmt : ∀ s, ReturnAhead s → (Luna.return_stmt n s).Sat StopsOrKeeps
  stmt : ∀ s, ReturnAhead s → (Luna.stmt n s).Sat StopsOrKeeps
  block_loop : ∀ st s, ReturnAhead s → (Luna.block_loop n st s).Sat StopsOrKeeps
  block : ∀ s, ReturnAhead s → (Luna.block n s).Sat StopsOrKeeps

/-! ## Vocabulary of the operand, assignment and termination properties -/

/-- Kinds that can begin an operand of a binary level: those on which `unary_expr`
consumes a token. -/
def starts_unary (t : luna_token) : Bool :=
  starts_primary t || decide (t ∈ unary_ops)

/-- The assignment operators `assignment_expr` accepts: `'='` and the compound ones. -/
def assign_ops : List luna_token := .OP_ASSIGN :: compound_ops

/-- The context label `assignment_expr` sets after an assignment operator (the second
one spelled as in the source). -/
def assign_ctx (t : luna_token) : String :=
  if t = .OP_ASSIGN then "assignment" else "compoound assignment"

/-- The right-nested tree `x0 o1 (x1 o2 (... xn))` over a first operand and operator and
operand pairs, no node flagged as a `let` declaration. -/
def right_nested (x0 : luna_token_t) : List (luna_token_t × luna_token_t) → luna_node_t
  | [] => leaf x0
  | (o, x) :: rest => .binary_op o.type (leaf x0) (right_nested x rest) false

/-- Whether a node is one the statement functions build: a conditional, a loop, a
`return`, a function declaration or a type declaration.  Any other node in a statement
list is an expression statement. -/
def is_stmt_node : luna_node_t → Bool
  | .if_stmt _ _ _ _ _ => true
  | .while_stmt _ _ _ => true
  | .return_stmt _ => true
  | .function _ _ _ _ => true
  | .type _ => true
  | _ => false

mutual
/-- Whether a node is a statement node none of whose `end`-terminated blocks, at any
depth, holds an expression statement. -/
def stmt_closed : luna_node_t → Bool
  | .if_stmt _ _ b else_ifs else_block =>
    block_closed b && stmts_closed else_ifs && else_closed else_block
  | .while_stmt _ _ b => block_closed b
  | .function _ _ b _ => block_closed b
  | .return_stmt _ => true
  | .type _ => true
  | _ => false
/-- Whether a block holds such statement nodes only. -/
def block_closed : luna_block_node_t → Bool
  | .mk stmts => stmts_closed stmts
/-- Whether a statement list holds such statement nodes only. -/
def stmts_closed : List luna_node_t → Bool
  | [] => true
  | e :: es => stmt_closed e && stmts_closed es
/-- Whether an optional else block, when present, holds such statement nodes only. -/
def else_closed : Option luna_block_node_t → Bool
  | none => true
  | some b => block_closed b
end

/-- The shape of a root block: every statement but the last is a statement node without
expression statements in its blocks, and the last is one too or is an expression
statement. -/
def root_shape : luna_block_node_t → Bool
  | .mk stmts =>
    stmts_closed stmts.dropLast &&
      match stmts.getLast? with
      | none => true
      | some e => stmt_closed e || !is_stmt_node e

/-- The value is no statement node. -/
def NodeOk (v : Option luna_node_t) : Prop :=
  ∀ e, v = some e → is_stmt_node e = false

/-- Every expression function that returns a node, run with fuel `n`, returns no
statement node. -/
structure ExprNodes (n : Nat) : Prop where
  paren_expr : ∀ s, (Luna.paren_expr n s).Sat fun v _ => NodeOk v
  array_expr : ∀ s, (Luna.array_expr n s).Sat fun v _ => NodeOk v
  hash_expr : ∀ s, (Luna.hash_expr n s).Sat fun v _ => NodeOk v
  primary_expr : ∀ s, (Luna.primary_expr n s).Sat fun v _ => NodeOk v
  slot_access_expr : ∀ s, (Luna.slot_access_expr n s).Sat fun v _ => NodeOk v
  call_expr : ∀ s, (Luna.call_expr n s).Sat fun v _ => NodeOk v
  pow_expr : ∀ s, (Luna.pow_expr n s).Sat fun v _ => NodeOk v
  postfix_expr : ∀ s, (Luna.postfix_expr n s).Sat fun v _ => NodeOk v
  unary_expr : ∀ s, (Luna.unary_expr n s).Sat fun v _ => NodeOk v
  level_expr : ∀ j s, (Luna.level_expr j n s).Sat fun v _ => NodeOk v
  assignment_expr : ∀ s, (Luna.assignment_expr n s).Sat fun v _ => NodeOk v
  not_expr : ∀ s, (Luna.not_expr n s).Sat fun v _ => NodeOk v
  expr : ∀ s, (Luna.expr n s).Sat fun v _ => NodeOk v

/-- The lookahead holds, unconsumed, a `)` or an end-of-stream token. -/
def AtCloser (s : luna_parser_t) : Prop :=
  ∃ t, s.la = some t ∧ (t.type = .RPAREN ∨ t.type = .EOS)

/-- A returned statement is a statement node without expression statements in its
blocks. -/
def ClosedPost (v : Option luna_node_t) : Prop :=
  ∀ e, v = some e → stmt_closed e = true

/-- A returned block holds no expression statement, at any depth. -/
def BlockPost (v : Option luna_block_node_t) : Prop :=
  ∀ b, v = some b → block_closed b = true

/-- What `stmt` returns: such a statement node, or an expression statement with its
closer left in the lookahead. -/
def StmtPost (v : Option luna_node_t) (s' : luna_parser_t) : Prop :=
  ∀ e, v = some e → stmt_closed e = true ∨ (is_stmt_node e = false ∧ AtCloser s')

/-- Every statement function, run with fuel `n`, returns statement nodes whose blocks
hold no expression statement; the accumulating loops do so when what they were handed
is of that kind. -/
structure StmtsClosed (n : Nat) : Prop where
  function_stmt : ∀ s, (Luna.function_stmt n s).Sat fun v _ => ClosedPost v
  if_stmt_loop : ∀ ng c b e s, block_closed b = true → stmts_closed e = true →
    (Luna.if_stmt_loop n ng c b e s).Sat fun v _ => ClosedPost v
  if_stmt : ∀ s, (Luna.if_stmt n s).Sat fun v _ => ClosedPost v
  while_stmt : ∀ s, (Luna.while_stmt n s).Sat fun v _ => ClosedPost v
  stmt : ∀ s, (Luna.stmt n s).Sat StmtPost
  block_loop : ∀ st s, stmts_closed st = true →
    (Luna.block_loop n st s).Sat fun v _ => BlockPost v
  block : ∀ s, (Luna.block n s).Sat fun v _ => BlockPost v

/-- The number of tokens, end-of-stream tokens apart, that the cursor has yet to consume. -/
def remaining (s : luna_parser_t) : Nat :=
  ((pending s).filter fun t => t.type != .EOS).length

/-- The cursor did not move back: no more tokens are left in `s'` than in `s`. -/
def NoMore (s s' : luna_parser_t) : Prop := remaining s' ≤ remaining s

/-- At least one token was consumed between `s` and `s'`. -/
def Fewer (s s' : luna_parser_t) : Prop := remaining s' < remaining s

/-- What a node-returning call leaves behind, seen from `s`: no more tokens than in `s`,
and fewer when it returned a node. -/
def Prog {α : Type} (s : luna_parser_t) (v : Option α) (s' : luna_parser_t) : Prop :=
  NoMore s s' ∧ (v ≠ none → Fewer s s')

/-- The run did not run out of fuel. -/
def Ends {α : Type} (r : Res α) : Prop := r ≠ .fuel

/-- The cursor of `s'` is that of `s` moved forward by `d` tokens: nothing consumed is
read again. -/
def Advanced (s s' : luna_parser_t) : Prop :=
  ∃ d, ∀ i, upcoming s' i = upcoming s (i + d)

/-- The postcondition "a returned node cost at least one token". -/
def Taken {α : Type} (s : luna_parser_t) (v : Option α) (s' : luna_parser_t) : Prop :=
  v ≠ none → Fewer s s'

/-- Every function that returns a node or a statement, run with fuel `n`, consumes at
least one token when it returns one. -/
structure Consumes (n : Nat) : Prop where
  paren_expr : ∀ s, (Luna.paren_expr n s).Sat (Taken s)
  array_expr : ∀ s, (Luna.array_expr n s).Sat (Taken s)
  hash_expr : ∀ s, (Luna.hash_expr n s).Sat (Taken s)
  primary_expr : ∀ s, (Luna.primary_expr n s).Sat (Taken s)
  slot_access_expr : ∀ s, (Luna.slot_access_expr n s).Sat (Taken s)
  call_expr : ∀ s, (Luna.call_expr n s).Sat (Taken s)
  pow_expr : ∀ s, (Luna.pow_expr n s).Sat (Taken s)
  postfix_expr : ∀ s, (Luna.postfix_expr n s).Sat (Taken s)
  unary_expr : ∀ s, (Luna.unary_expr n s).Sat (Taken s)
  level_expr : ∀ j s, (Luna.level_expr j n s).Sat (Taken s)
  assignment_expr : ∀ s, (Luna.assignment_expr n s).Sat (Taken s)
  not_expr : ∀ s, (Luna.not_expr n s).Sat (Taken s)
  expr : ∀ s, (Luna.expr n s).Sat (Taken s)
  expr_stmt : ∀ s, (Luna.expr_stmt n s).Sat (Taken s)
  type_stmt : ∀ s, (Luna.type_stmt n s).Sat (Taken s)
  function_stmt : ∀ s, (Luna.function_stmt n s).Sat (Taken s)
  if_stmt : ∀ s, (Luna.if_stmt n s).Sat (Taken s)
  while_stmt : ∀ s, (Luna.while_stmt n s).Sat (Taken s)
  return_stmt : ∀ s, (Luna.return_stmt n s).Sat (Taken s)
  stmt : ∀ s, (Luna.stmt n s).Sat (Taken s)

/-- Enough fuel for the tokens left lets every grammar function end: 25 units of fuel for
each token left, plus the depth of the calls that lead to the function without consuming
a token. -/
structure Terminates (n : Nat) : Prop where
  paren_expr : ∀ s, 25 * remaining s + 1 ≤ n → Ends (Luna.paren_expr n s)
  arg_list : ∀ arr d s, 25 * remaining s + 21 ≤ n → Ends (Luna.arg_list n arr d s)
  array_expr : ∀ s, 25 * remaining s + 1 ≤ n → Ends (Luna.array_expr n s)
  hash_pairs : ∀ h d s, 25 * remaining s + 21 ≤ n → Ends (Luna.hash_pairs n h d s)
  hash_expr : ∀ s, 25 * remaining s + 1 ≤ n → Ends (Luna.hash_expr n s)
  primary_expr : ∀ s, 25 * remaining s + 2 ≤ n → Ends (Luna.primary_expr n s)
  slot_access_expr : ∀ s, 25 * remaining s + 3 ≤ n → Ends (Luna.slot_access_expr n s)
  call_args_loop : ∀ a s, 25 * remaining s + 21 ≤ n → Ends (Luna.call_args_loop n a s)
  call_args : ∀ s, 25 * remaining s + 22 ≤ n → Ends (Luna.call_args n s)
  call_expr : ∀ s, 25 * remaining s + 4 ≤ n → Ends (Luna.call_expr n s)
  pow_expr : ∀ s, 25 * remaining s + 5 ≤ n → Ends (Luna.pow_expr n s)
  postfix_expr : ∀ s, 25 * remaining s + 6 ≤ n → Ends (Luna.postfix_expr n s)
  unary_expr : ∀ s, 25 * remaining s + 7 ≤ n → Ends (Luna.unary_expr n s)
  level_expr : ∀ j s, j ≤ 9 → 25 * remaining s + (8 + j) ≤ n → Ends (Luna.level_expr j n s)
  assignment_expr : ∀ s, 25 * remaining s + 18 ≤ n → Ends (Luna.assignment_expr n s)
  not_expr : ∀ s, 25 * remaining s + 19 ≤ n → Ends (Luna.not_expr n s)
  expr : ∀ s, 25 * remaining s + 20 ≤ n → Ends (Luna.expr n s)
  expr_stmt : ∀ s, 25 * remaining s + 21 ≤ n → Ends (Luna.expr_stmt n s)
  type_stmt_loop : ∀ t s, 25 * remaining s + 1 ≤ n → Ends (Luna.type_stmt_loop n t s)
  type_stmt : ∀ s, 25 * remaining s + 2 ≤ n → Ends (Luna.type_stmt n s)
  function_params_loop : ∀ p s, 25 * remaining s + 1 ≤ n →
    Ends (Luna.function_params_loop n p s)
  function_params : ∀ s, 25 * remaining s + 2 ≤ n → Ends (Luna.function_params n s)
  function_stmt : ∀ s, 25 * remaining s + 1 ≤ n → Ends (Luna.function_stmt n s)
  if_stmt_loop : ∀ ng c b e s, 25 * remaining s + 1 ≤ n →
    Ends (Luna.if_stmt_loop n ng c b e s)
  if_stmt : ∀ s, 25 * remaining s + 1 ≤ n → Ends (Luna.if_stmt n s)
  while_stmt : ∀ s, 25 * remaining s + 1 ≤ n → Ends (Luna.while_stmt n s)
  return_stmt : ∀ s, 25 * remaining s + 1 ≤ n → Ends (Luna.return_stmt n s)
  stmt : ∀ s, 25 * remaining s + 22 ≤ n → Ends (Luna.stmt n s)
  block_loop : ∀ st s, 25 * remaining s + 23 ≤ n → Ends (Luna.block_loop n st s)
  block : ∀ s, 25 * remaining s + 24 ≤ n → Ends (Luna.block n s)

/-! ## The grammar with the operand of a prefix operator parsed first

C leaves the order in which the arguments of a call are evaluated to the compiler.  In
`unary_expr`, the call `luna_unary_op_node_new(prev->type, unary_expr(self), 0)` reads
`self->lb` in its first argument and overwrites it in its second.  The functions above
read `prev->type` first; the functions below are the same grammar, function by function,
with the operand parsed first.  Only `unary_expr_rtl` differs in its body. -/

mutual

/-- C `paren_expr`: `'(' expr ')'`. -/
def paren_expr_rtl : Nat → luna_parser_t → Res (Option luna_node_t)
  | 0, _ => .fuel
  | n + 1, self =>
    let r := accept .LPAREN self
    if r.1 then
      (expr_rtl n r.2).bind fun node self =>
        match node with
        | none => .ok none self
        | some node =>
          let r := accept .RPAREN self
          if r.1 then .ok (some node) r.2
          else .ok none (error "expression missing closing ')'" r.2)
    else .ok none r.2

/-- C `arg_list`: the result is the returned flag and the contents of
`arr->vals` on return. -/
def arg_list_rtl : Nat → List luna_node_t → luna_token → luna_parser_t →
    Res (Bool × List luna_node_t)
  | 0, _, _, _ => .fuel
  | n + 1, arr, delim, self =>
    let r := peek self
    if delim = r.1.type then .ok (true, arr) r.2
    else
      (expr_rtl n r.2).bind fun val self =>
        match val with
        | none => .ok (false, arr) self
        | some val =>
          let arr := arr ++ [val]
          let r := accept .COMMA self
          if r.1 then
            (arg_list_rtl n arr delim r.2).bind fun res self =>
              if res.1 then .ok (true, res.2) self else .ok (false, res.2) self
          else .ok (true, arr) r.2

/-- C `array_expr`: `'[' arg_list? ']'`. -/
def array_expr_rtl : Nat → luna_parser_t → Res (Option luna_node_t)
  | 0, _ => .fuel
  | n + 1, self =>
    let r := accept .LBRACK self
    if r.1 then
      (arg_list_rtl n [] .RBRACK (context "array" r.2)).bind fun res self =>
        if res.1 then
          let r := accept .RBRACK self
          if r.1 then .ok (some (.array res.2)) r.2
          else .ok none (error "array missing closing ']'" r.2)
        else .ok none self
    else .ok none r.2

/-- C `hash_pairs`: the result is the returned flag and the contents of
`hash->vals` on return. -/
def hash_pairs_rtl : Nat → List (String × luna_node_t) → luna_token → luna_parser_t →
    Res (Bool × List (String × luna_node_t))
  | 0, _, _, _ => .fuel
  | n + 1, hash, delim, self =>
    let r := peek self
    if delim = r.1.type then .ok (true, hash) r.2
    else
      let r := is .ID r.2
      if r.1 then
        let t := next r.2
        let id := t.1.as_string
        let r := accept .COLON t.2
        if r.1 then
          (expr_rtl n r.2).bind fun val self =>
            match val with
            | none => .ok (false, hash) self
            | some val =>
              let hash := luna_hash_set hash id val
              let r := accept .COMMA self
              if r.1 then
                (hash_pairs_rtl n hash delim r.2).bind fun res self =>
                  if res.1 then .ok (true, res.2) self else .ok (false, res.2) self
              else .ok (true, hash) r.2
        else .ok (false, hash) (error "hash pair ':' missing" r.2)
      else .ok (false, hash) (error "hash pair key expected" r.2)

/-- C `hash_expr`: `'\x7b' hash_pairs? '\x7d'`. -/
def hash_expr_rtl : Nat → luna_parser_t → Res (Option luna_node_t)
  | 0, _ => .fuel
  | n + 1, self =>
    let r := accept .LBRACE self
    if r.1 then
      (hash_pairs_rtl n [] .RBRACE (context "hash" r.2)).bind fun res self =>
        if res.1 then
          let r := accept .RBRACE self
          if r.1 then .ok (some (.hash res.2)) r.2
          else .ok none (error "hash missing closing '\x7d'" r.2)
        else .ok none self
    else .ok none r.2

/-- C `primary_expr`: a leaf, an array, a hash, or else `paren_expr`. -/
def primary_expr_rtl : Nat → luna_parser_t → Res (Option luna_node_t)
  | 0, _ => .fuel
  | n + 1, self =>
    let r := peek self
    match r.1.type with
    | .ID => let t := next r.2; .ok (some (.id t.1.as_string)) t.2
    | .INT => let t := next r.2; .ok (some (.int t.1.as_int)) t.2
    | .FLOAT => let t := next r.2; .ok (some (.float t.1.as_float)) t.2
    | .STRING => let t := next r.2; .ok (some (.string t.1.as_string)) t.2
    | .LBRACK => array_expr_rtl n r.2
    | .LBRACE => hash_expr_rtl n r.2
    | _ => paren_expr_rtl n r.2

/-- C `slot_access_expr`: the slot loop is commented out in the source, so this
is `primary_expr`. -/
def slot_access_expr_rtl : Nat → luna_parser_t → Res (Option luna_node_t)
  | 0, _ => .fuel
  | n + 1, self => primary_expr_rtl n self

/-- The `do .. while (accept(COMMA))` loop of C `call_args`.  The key of a named
argument is read through `luna_id_node_t`, which is undefined for a node that
is not an identifier.  Every first expression is pushed onto `vec`, named or
not. -/
def call_args_loop_rtl : Nat → luna_args_node_t luna_node_t → luna_parser_t →
    Res (Option (luna_args_node_t luna_node_t))
  | 0, _, _ => .fuel
  | n + 1, args, self =>
    (expr_rtl n self).bind fun node self =>
      match node with
      | none => .ok none self
      | some node =>
        let r := accept .COLON self
        let named : Res (luna_args_node_t luna_node_t) :=
          if r.1 then
            (expr_rtl n r.2).bind fun val self =>
              match node with
              | .id str => .ok { args with hash := luna_hash_set args.hash str val } self
              | _ => .undefined
          else .ok args r.2
        named.bind fun args self =>
          let args := { args with vec := args.vec ++ [node] }
          let r := accept .COMMA self
          if r.1 then call_args_loop_rtl n args r.2
          else .ok (some args) { r.2 with in_args := r.2.in_args - 1 }

/-- C `call_args`: `in_args` is incremented, and decremented only on the
successful exit. -/
def call_args_rtl : Nat → luna_parser_t → Res (Option (luna_args_node_t luna_node_t))
  | 0, _ => .fuel
  | n + 1, self =>
    call_args_loop_rtl n { vec := [], hash := [] } { self with in_args := self.in_args + 1 }

/-- C `call_expr`.  `luna_call_node_new` creates the call with an empty
argument container (`logical_or_expr` pushes into it right after creating one);
`call->args` is then overwritten with whatever `call_args` returns, unchecked.
After a `'.'` the nested result is dereferenced unchecked. -/
def call_expr_rtl : Nat → luna_parser_t → Res (Option luna_node_t)
  | 0, _ => .fuel
  | n + 1, self =>
    (slot_access_expr_rtl n self).bind fun node self =>
      match node with
      | none => .ok none self
      | some node =>
        let r := accept .LPAREN self
        let called : Res (Option luna_node_t) :=
          if r.1 then
            let r := accept .RPAREN (context "function call" r.2)
            if r.1 then .ok (some (.call node (some { vec := [], hash := [] }))) r.2
            else
              (call_args_rtl n r.2).bind fun args self =>
                let r := accept .RPAREN self
                if r.1 then .ok (some (.call node args)) r.2
                else .ok none (error "missing closing ')'" r.2)
          else .ok (some node) r.2
        called.bind fun node self =>
          match node with
          | none => .ok none self
          | some node =>
            let r := accept .OP_DOT self
            if r.1 then
              (call_expr_rtl n r.2).bind fun e self =>
                match e with
                | none => .undefined
                | some (.call callee (some args)) =>
                  .ok (some (.call callee (some { args with vec := args.vec ++ [node] }))) self
                | some (.call _ none) => .undefined
                | some e => .ok (some (.slot node e)) self
            else .ok (some node) r.2

/-- C `pow_expr`: one optional `'**'`, no loop. -/
def pow_expr_rtl : Nat → luna_parser_t → Res (Option luna_node_t)
  | 0, _ => .fuel
  | n + 1, self =>
    (call_expr_rtl n self).bind fun node self =>
      match node with
      | none => .ok none self
      | some node =>
        let r := accept .OP_POW self
        if r.1 then
          (call_expr_rtl n (context "** operation" r.2)).bind fun right self =>
            match right with
            | some right => .ok (some (.binary_op .OP_POW node right false)) self
            | none => .ok none (error "missing right-hand expression" self)
        else .ok (some node) r.2

/-- C `postfix_expr`: at most one `'++'` or `'--'`. -/
def postfix_expr_rtl : Nat → luna_parser_t → Res (Option luna_node_t)
  | 0, _ => .fuel
  | n + 1, self =>
    (pow_expr_rtl n self).bind fun node self =>
      match node with
      | none => .ok none self
      | some node =>
        let r := accept_any [.OP_INCR, .OP_DECR] self
        if r.1 then .ok (some (.unary_op (prev_type r.2) (some node) true)) r.2
        else .ok (some node) r.2

/-- C `unary_expr`, operand first.  The arguments of `luna_unary_op_node_new(prev->type,
unary_expr(self), 0)` are taken right to left: the operand is parsed, and `prev->type` is
read afterwards, from the token accepted last.  The operand pointer is stored unchecked. -/
def unary_expr_rtl : Nat → luna_parser_t → Res (Option luna_node_t)
  | 0, _ => .fuel
  | n + 1, self =>
    let r := accept_any [.OP_INCR, .OP_DECR, .OP_BIT_NOT, .OP_PLUS, .OP_MINUS, .OP_NOT] self
    if r.1 then
      (unary_expr_rtl n r.2).bind fun operand self =>
        .ok (some (.unary_op (prev_type self) operand false)) self
    else postfix_expr_rtl n r.2

/-- C `multiplicative_expr`. -/
def multiplicative_expr_rtl : Nat → luna_parser_t → Res (Option luna_node_t)
  | 0, _ => .fuel
  | n + 1, self =>
    (unary_expr_rtl n self).bind fun node self =>
      match node with
      | none => .ok none self
      | some node =>
        binary_loop [.OP_MUL, .OP_DIV, .OP_MOD] prev_type "multiplicative operation"
          (unary_expr_rtl n) n node self

/-- C `additive_expr`. -/
def additive_expr_rtl : Nat → luna_parser_t → Res (Option luna_node_t)
  | 0, _ => .fuel
  | n + 1, self =>
    (multiplicative_expr_rtl n self).bind fun node self =>
      match node with
      | none => .ok none self
      | some node =>
        binary_loop [.OP_PLUS, .OP_MINUS] prev_type "additive operation"
          (multiplicative_expr_rtl n) n node self

/-- C `shift_expr`. -/
def shift_expr_rtl : Nat → luna_parser_t → Res (Option luna_node_t)
  | 0, _ => .fuel
  | n + 1, self =>
    (additive_expr_rtl n self).bind fun node self =>
      match node with
      | none => .ok none self
      | some node =>
        binary_loop [.OP_BIT_SHL, .OP_BIT_SHR] prev_type "shift operation"
          (additive_expr_rtl n) n node self

/-- C `relational_expr`. -/
def relational_expr_rtl : Nat → luna_parser_t → Res (Option luna_node_t)
  | 0, _ => .fuel
  | n + 1, self =>
    (shift_expr_rtl n self).bind fun node self =>
      match node with
      | none => .ok none self
      | some node =>
        binary_loop [.OP_LT, .OP_LTE, .OP_GT, .OP_GTE] prev_type "relational operation"
          (shift_expr_rtl n) n node self

/-- C `equality_expr`. -/
def equality_expr_rtl : Nat → luna_parser_t → Res (Option luna_node_t)
  | 0, _ => .fuel
  | n + 1, self =>
    (relational_expr_rtl n self).bind fun node self =>
      match node with
      | none => .ok none self
      | some node =>
        binary_loop [.OP_EQ, .OP_NEQ] prev_type "equality operation"
          (relational_expr_rtl n) n node self

/-- C `bitwise_and_expr`. -/
def bitwise_and_expr_rtl : Nat → luna_parser_t → Res (Option luna_node_t)
  | 0, _ => .fuel
  | n + 1, self =>
    (equality_expr_rtl n self).bind fun node self =>
      match node with
      | none => .ok none self
      | some node =>
        binary_loop [.OP_BIT_AND] (fun _ => .OP_BIT_AND) "& operation"
          (equality_expr_rtl n) n node self

/-- C `bitwise_xor_expr`. -/
def bitwise_xor_expr_rtl : Nat → luna_parser_t → Res (Option luna_node_t)
  | 0, _ => .fuel
  | n + 1, self =>
    (bitwise_and_expr_rtl n self).bind fun node self =>
      match node with
      | none => .ok none self
      | some node =>
        binary_loop [.OP_BIT_XOR] (fun _ => .OP_BIT_XOR) "^ operation"
          (bitwise_and_expr_rtl n) n node self

/-- C `bitswise_or_expr` (spelled as in the source). -/
def bitswise_or_expr_rtl : Nat → luna_parser_t → Res (Option luna_node_t)
  | 0, _ => .fuel
  | n + 1, self =>
    (bitwise_xor_expr_rtl n self).bind fun node self =>
      match node with
      | none => .ok none self
      | some node =>
        binary_loop [.OP_BIT_OR] (fun _ => .OP_BIT_OR) "| operation"
          (bitwise_xor_expr_rtl n) n node self

/-- C `logical_and_expr`. -/
def logical_and_expr_rtl : Nat → luna_parser_t → Res (Option luna_node_t)
  | 0, _ => .fuel
  | n + 1, self =>
    (bitswise_or_expr_rtl n self).bind fun node self =>
      match node with
      | none => .ok none self
      | some node =>
        binary_loop [.OP_AND] (fun _ => .OP_AND) "&& operation"
          (bitswise_or_expr_rtl n) n node self

/-- C `logical_or_expr`: the `'||'` fold, then the optional fork `'&'`. -/
def logical_or_expr_rtl : Nat → luna_parser_t → Res (Option luna_node_t)
  | 0, _ => .fuel
  | n + 1, self =>
    (logical_and_expr_rtl n self).bind fun node self =>
      match node with
      | none => .ok none self
      | some node =>
        (binary_loop [.OP_OR] (fun _ => .OP_OR) "|| operation"
          (logical_and_expr_rtl n) n node self).bind fun node self =>
          match node with
          | none => .ok none self
          | some node =>
            let r := accept .OP_FORK self
            if r.1 then
              .ok (some (.call (.id "fork") (some { vec := [node], hash := [] }))) r.2
            else .ok (some node) r.2

/-- C `assignment_expr`. -/
def assignment_expr_rtl : Nat → luna_parser_t → Res (Option luna_node_t)
  | 0, _ => .fuel
  | n + 1, self =>
    let l := accept .LET self
    (logical_or_expr_rtl n l.2).bind fun node self =>
      match node with
      | none => .ok none self
      | some node =>
        let r := accept .OP_ASSIGN self
        if r.1 then
          let op := prev_type r.2
          (not_expr_rtl n (context "assignment" r.2)).bind fun right self =>
            match right with
            | none => .ok none self
            | some right => .ok (some (.binary_op op node right l.1)) self
        else
          let r := accept_any [.OP_PLUS_ASSIGN, .OP_MINUS_ASSIGN, .OP_DIV_ASSIGN,
            .OP_MUL_ASSIGN, .OP_OR_ASSIGN, .OP_AND_ASSIGN] r.2
          if r.1 then
            let op := prev_type r.2
            (not_expr_rtl n (context "compoound assignment" r.2)).bind fun right self =>
              match right with
              | none => .ok none self
              | some right => .ok (some (.binary_op op node right false)) self
          else .ok (some node) r.2

/-- C `not_expr`. -/
def not_expr_rtl : Nat → luna_parser_t → Res (Option luna_node_t)
  | 0, _ => .fuel
  | n + 1, self =>
    let r := accept .OP_LNOT self
    if r.1 then
      (not_expr_rtl n r.2).bind fun e self =>
        match e with
        | none => .ok none self
        | some e => .ok (some (.unary_op .OP_LNOT (some e) false)) self
    else assignment_expr_rtl n r.2

/-- C `expr`. -/
def expr_rtl : Nat → luna_parser_t → Res (Option luna_node_t)
  | 0, _ => .fuel
  | n + 1, self => not_expr_rtl n self

/-- C `expr_stmt`. -/
def expr_stmt_rtl : Nat → luna_parser_t → Res (Option luna_node_t)
  | 0, _ => .fuel
  | n + 1, self =>
    (expr_rtl n self).bind fun node self =>
      match node with
      | none => .ok none self
      | some node =>
        let r := is .RPAREN self
        if r.1 then .ok (some node) r.2
        else
          let r := is .EOS r.2
          if r.1 then .ok (some node) r.2
          else .ok none (error "missing newline" r.2)

/-- The `do .. while (!accept(END))` field loop of C `type_stmt`. -/
def type_stmt_loop_rtl : Nat → luna_node_t → luna_parser_t → Res (Option luna_node_t)
  | 0, _, _ => .fuel
  | n + 1, type, self =>
    let r := is .ID self
    if r.1 then
      let t := next r.2
      let r := accept .COLON t.2
      if r.1 then
        let r := is .ID r.2
        if r.1 then
          let t := next r.2
          let r := accept .END t.2
          if r.1 then .ok (some type) r.2 else type_stmt_loop_rtl n type r.2
        else .ok none (error "expecting field type" r.2)
      else .ok none (error "expecting ':'" r.2)
    else .ok none (error "expecting field" r.2)

/-- C `type_stmt`. -/
def type_stmt_rtl : Nat → luna_parser_t → Res (Option luna_node_t)
  | 0, _ => .fuel
  | n + 1, self =>
    let r := accept .TYPE (context "type statement" self)
    if r.1 then
      let r := is .ID r.2
      if r.1 then
        let t := next r.2
        type_stmt_loop_rtl n (.type t.1.as_string) t.2
      else .ok none (error "missing type name" r.2)
    else .ok none r.2

/-- The `do .. while (accept(COMMA))` loop of C `function_params`. -/
def function_params_loop_rtl : Nat → List luna_node_t → luna_parser_t →
    Res (Option (List luna_node_t))
  | 0, _, _ => .fuel
  | n + 1, params, self =>
    let r := is .ID self
    if r.1 then
      let t := next r.2
      let id := t.1.as_string
      let r := accept .COLON t.2
      if r.1 then
        let r := is .ID r.2
        if r.1 then
          let t := next r.2
          let type := t.1.as_string
          let r := accept .OP_ASSIGN t.2
          let param : Res (Option luna_node_t) :=
            if r.1 then
              (expr_rtl n r.2).bind fun val self =>
                match val with
                | none => .ok none self
                | some val => .ok (some (.decl id type (some val))) self
            else .ok (some (.decl id type none)) r.2
          param.bind fun param self =>
            match param with
            | none => .ok none self
            | some param =>
              let params := params ++ [param]
              let r := accept .COMMA self
              if r.1 then function_params_loop_rtl n params r.2 else .ok (some params) r.2
        else .ok none (error "missing parameter type name" r.2)
      else .ok none (error "missing parameter type" r.2)
    else .ok none (error "missing identifier" r.2)

/-- C `function_params`. -/
def function_params_rtl : Nat → luna_parser_t → Res (Option (List luna_node_t))
  | 0, _ => .fuel
  | n + 1, self =>
    let r := is .ID (context "function params" self)
    if r.1 then function_params_loop_rtl n [] r.2 else .ok (some []) r.2

/-- C `function_stmt`. -/
def function_stmt_rtl : Nat → luna_parser_t → Res (Option luna_node_t)
  | 0, _ => .fuel
  | n + 1, self =>
    let r := accept .DEF (context "function statement" self)
    if r.1 then
      let r := is .ID r.2
      if r.1 then
        let t := next r.2
        let name := t.1.as_string
        let r := accept .LPAREN t.2
        let ps : Res (Option (List luna_node_t)) :=
          if r.1 then
            (function_params_rtl n r.2).bind fun params self =>
              match params with
              | none => .ok none self
              | some params =>
                let r := accept .RPAREN (context "function" self)
                if r.1 then .ok (some params) r.2
                else .ok none (error "missing closing ')'" r.2)
          else .ok (some []) r.2
        ps.bind fun params self =>
          match params with
          | none => .ok none self
          | some params =>
            let r := accept .COLON (context "function" self)
            let ty : Res (Option (Option String)) :=
              if r.1 then
                let r := is .ID r.2
                if r.1 then
                  let t := next r.2
                  .ok (some (some t.1.as_string)) t.2
                else .ok none (error "missing type after ':'" r.2)
              else .ok (some none) r.2
            ty.bind fun type self =>
              match type with
              | none => .ok none self
              | some type =>
                (block_rtl n self).bind fun body self =>
                  match body with
                  | some body => .ok (some (.function name type body params)) self
                  | none => .ok none self
      else .ok none (error "missing function name" r.2)
    else .ok none r.2

/-- The `loop:` label of C `if_stmt` and what follows it; the node built so
far is carried as its fields. -/
def if_stmt_loop_rtl : Nat → Bool → luna_node_t → luna_block_node_t → List luna_node_t →
    luna_parser_t → Res (Option luna_node_t)
  | 0, _, _, _, _, _ => .fuel
  | n + 1, negate, cond, body, else_ifs, self =>
    let r := accept .ELSE self
    if r.1 then
      let r := accept .IF r.2
      if r.1 then
        (expr_rtl n (context "else if statement condition" r.2)).bind fun c self =>
          match c with
          | none => .ok none self
          | some c =>
            (block_rtl n (context "else if statement" self)).bind fun b self =>
              match b with
              | none => .ok none self
              | some b =>
                if_stmt_loop_rtl n negate cond body (else_ifs ++ [.if_stmt false c b [] none]) self
      else
        (block_rtl n (context "else statement" r.2)).bind fun b self =>
          match b with
          | none => .ok none self
          | some b => .ok (some (.if_stmt negate cond body else_ifs (some b))) self
    else .ok (some (.if_stmt negate cond body else_ifs none)) r.2

/-- C `if_stmt`. -/
def if_stmt_rtl : Nat → luna_parser_t → Res (Option luna_node_t)
  | 0, _ => .fuel
  | n + 1, self =>
    let r := accept_any [.IF, .UNLESS] self
    if r.1 then
      let negate := decide (luna_token.UNLESS = prev_type r.2)
      (expr_rtl n (context "if statement condition" r.2)).bind fun cond self =>
        match cond with
        | none => .ok none self
        | some cond =>
          (block_rtl n (context "if statement" self)).bind fun body self =>
            match body with
            | none => .ok none self
            | some body => if_stmt_loop_rtl n negate cond body [] self
    else .ok none r.2

/-- C `while_stmt`. -/
def while_stmt_rtl : Nat → luna_parser_t → Res (Option luna_node_t)
  | 0, _ => .fuel
  | n + 1, self =>
    let r := accept_any [.UNTIL, .WHILE] self
    if r.1 then
      let negate := decide (luna_token.UNTIL = prev_type r.2)
      (expr_rtl n (context "while statement condition" r.2)).bind fun cond self =>
        match cond with
        | none => .ok none self
        | some cond =>
          (block_rtl n (context "while statement" self)).bind fun body self =>
            match body with
            | none => .ok none self
            | some body => .ok (some (.while_stmt negate cond body)) self
    else .ok none r.2

/-- C `return_stmt`. -/
def return_stmt_rtl : Nat → luna_parser_t → Res (Option luna_node_t)
  | 0, _ => .fuel
  | n + 1, self =>
    let r := accept .RETURN (context "return statement" self)
    if r.1 then
      (expr_rtl n r.2).bind fun node self =>
        match node with
        | none => .ok none self
        | some node => .ok (some (.return_stmt node)) self
    else .ok none r.2

/-- C `stmt`: dispatch on the leading keyword. -/
def stmt_rtl : Nat → luna_parser_t → Res (Option luna_node_t)
  | 0, _ => .fuel
  | n + 1, self =>
    let self := context "statement" self
    let r := is .IF self
    if r.1 then if_stmt_rtl n r.2 else
    let r := is .UNLESS r.2
    if r.1 then if_stmt_rtl n r.2 else
    let r := is .WHILE r.2
    if r.1 then while_stmt_rtl n r.2 else
    let r := is .UNTIL r.2
    if r.1 then while_stmt_rtl n r.2 else
    let r := is .RETURN r.2
    if r.1 then return_stmt_rtl n r.2 else
    let r := is .DEF r.2
    if r.1 then function_stmt_rtl n r.2 else
    let r := is .TYPE r.2
    if r.1 then type_stmt_rtl n r.2 else
    expr_stmt_rtl n r.2

/-- The `do .. while (!accept(END))` loop of C `block`. -/
def block_loop_rtl : Nat → List luna_node_t → luna_parser_t → Res (Option luna_block_node_t)
  | 0, _, _ => .fuel
  | n + 1, stmts, self =>
    (stmt_rtl n self).bind fun node self =>
      match node with
      | none => .ok none self
      | some node =>
        let stmts := stmts ++ [node]
        let r := accept .END self
        if r.1 then .ok (some (.mk stmts)) r.2 else block_loop_rtl n stmts r.2

/-- C `block`. -/
def block_rtl : Nat → luna_parser_t → Res (Option luna_block_node_t)
  | 0, _ => .fuel
  | n + 1, self =>
    let r := accept .END self
    if r.1 then .ok (some (.mk [])) r.2 else block_loop_rtl n [] r.2

end

/-- The `while (!accept(EOS))` loop of C `program`. -/
def program_loop_rtl : Nat → List luna_node_t → luna_parser_t → Res (Option luna_block_node_t)
  | 0, _, _ => .fuel
  | n + 1, stmts, self =>
    let r := accept .EOS self
    if r.1 then .ok (some (.mk stmts)) r.2
    else
      (stmt_rtl n r.2).bind fun node self =>
        match node with
        | some node => program_loop_rtl n (stmts ++ [node]) self
        | none => .ok none self

/-- C `program`. -/
def program_rtl (fuel : Nat) (self : luna_parser_t) : Res (Option luna_block_node_t) :=
  program_loop_rtl fuel [] self

/-- C `luna_parse`. -/
def luna_parse_rtl (fuel : Nat) (self : luna_parser_t) : Res (Option luna_block_node_t) :=
  program_rtl fuel self
/-! ## Cursor and sequencing lemmas -/

@[simp] theorem Res.bind_ok {α β : Type} (v : α) (s : luna_parser_t)
    (f : α → luna_parser_t → Res β) : (Res.ok v s).bind f = f v s := rfl

@[simp] theorem Res.bind_undefined {α β : Type} (f : α → luna_parser_t → Res β) :
    (Res.undefined : Res α).bind f = .undefined := rfl

@[simp] theorem Res.bind_fuel {α β : Type} (f : α → luna_parser_t → Res β) :
    (Res.fuel : Res α).bind f = .fuel := rfl

theorem peek_some (lex : List luna_token_t) (t lb : luna_token_t) (c e : Option String)
    (i : Int) : peek ⟨lex, some t, lb, c, e, i⟩ = (t, ⟨lex, some t, lb, c, e, i⟩) := rfl

theorem peek_none (lex : List luna_token_t) (lb : luna_token_t) (c e : Option String)
    (i : Int) : peek ⟨lex, none, lb, c, e, i⟩ =
      ((luna_scan lex).1, ⟨(luna_scan lex).2, some (luna_scan lex).1, lb, c, e, i⟩) := rfl

theorem next_some (lex : List luna_token_t) (t lb : luna_token_t) (c e : Option String)
    (i : Int) : next ⟨lex, some t, lb, c, e, i⟩ = (t, ⟨lex, none, lb, c, e, i⟩) := rfl

theorem is_some (k : luna_token) (lex : List luna_token_t) (t lb : luna_token_t)
    (c e : Option String) (i : Int) :
    is k ⟨lex, some t, lb, c, e, i⟩ = (decide (t.type = k), ⟨lex, some t, lb, c, e, i⟩) := rfl

theorem accept_hit (k : luna_token) (lex : List luna_token_t) (t lb : luna_token_t)
    (c e : Option String) (i : Int) (h : t.type = k) :
    accept k ⟨lex, some t, lb, c, e, i⟩ = (true, ⟨lex, none, t, c, e, i⟩) := by
  simp [accept, peek, h]

theorem accept_miss (k : luna_token) (lex : List luna_token_t) (t lb : luna_token_t)
    (c e : Option String) (i : Int) (h : t.type ≠ k) :
    accept k ⟨lex, some t, lb, c, e, i⟩ = (false, ⟨lex, some t, lb, c, e, i⟩) := by
  simp [accept, peek, h]

theorem accept_any_hit (ops : List luna_token) (lex : List luna_token_t) (t lb : luna_token_t)
    (c e : Option String) (i : Int) (h : t.type ∈ ops) :
    accept_any ops ⟨lex, some t, lb, c, e, i⟩ = (true, ⟨lex, none, t, c, e, i⟩) := by
  induction ops with
  | nil => simp at h
  | cons k ks ih =>
    by_cases hk : t.type = k
    · simp [accept_any, accept_hit _ _ _ _ _ _ _ hk]
    · have h2 : t.type ∈ ks := by simpa [hk] using h
      simp [accept_any, accept_miss _ _ _ _ _ _ _ hk, ih h2]

theorem accept_any_miss (ops : List luna_token) (lex : List luna_token_t) (t lb : luna_token_t)
    (c e : Option String) (i : Int) (h : t.type ∉ ops) :
    accept_any ops ⟨lex, some t, lb, c, e, i⟩ = (false, ⟨lex, some t, lb, c, e, i⟩) := by
  induction ops with
  | nil => rfl
  | cons k ks ih =>
    have hk : t.type ≠ k := fun h2 => h (by simp [h2])
    have h2 : t.type ∉ ks := fun h2 => h (by simp [h2])
    simp [accept_any, accept_miss _ _ _ _ _ _ _ hk, ih h2]

/-- An `accept` starts with a `peek`, so it does not matter whether the token
was already buffered. -/
theorem accept_peek (k : luna_token) (s : luna_parser_t) : accept k (peek s).2 = accept k s := by
  obtain ⟨lex, la, lb, c, e, i⟩ := s
  cases la <;> rfl

theorem accept_any_peek (ops : List luna_token) (hne : ops ≠ []) (s : luna_parser_t) :
    accept_any ops (peek s).2 = accept_any ops s := by
  cases ops with
  | nil => exact absurd rfl hne
  | cons k ks => simp only [accept_any, accept_peek]


/-! ## The binary ladder -/

/-- The body shared by the binary levels: one operand, then the loop. -/
theorem level_expr_succ (i : Nat) (hi : i < 9) (n : Nat) (s : luna_parser_t) :
    level_expr i (n + 1) s =
      (operand_expr i n s).bind fun node s =>
        match node with
        | none => .ok none s
        | some node =>
          binary_loop (level_ops i) (level_op i) (level_ctx i) (operand_expr i n) n node s := by
  interval_cases i <;> rfl

theorem logical_or_expr_succ (n : Nat) (s : luna_parser_t) :
    level_expr 9 (n + 1) s =
      (operand_expr 9 n s).bind fun node s =>
        match node with
        | none => .ok none s
        | some node =>
          (binary_loop (level_ops 9) (level_op 9) (level_ctx 9) (operand_expr 9 n) n node s).bind
            fun node self =>
              match node with
              | none => .ok none self
              | some node =>
                let r := accept .OP_FORK self
                if r.1 then
                  .ok (some (.call (.id "fork") (some { vec := [node], hash := [] }))) r.2
                else .ok (some node) r.2 := rfl

theorem unary_expr_peek (n : Nat) (s : luna_parser_t) :
    unary_expr n (peek s).2 = unary_expr n s := by
  cases n with
  | zero => rfl
  | succ n => rw [unary_expr, unary_expr, accept_any_peek _ (by simp)]

theorem operand_expr_peek (i : Nat) (hi : i ≤ 10) (n : Nat) (s : luna_parser_t) :
    operand_expr i n (peek s).2 = operand_expr i n s := by
  induction i generalizing n with
  | zero => exact unary_expr_peek n s
  | succ i ih =>
    cases n with
    | zero =>
      have hi2 : i < 10 := by omega
      clear ih hi
      interval_cases i <;> rfl
    | succ n =>
      show level_expr i (n + 1) (peek s).2 = level_expr i (n + 1) s
      by_cases h9 : i < 9
      · rw [level_expr_succ i h9, level_expr_succ i h9, ih (by omega)]
      · have : i = 9 := by omega
        subst this
        rw [logical_or_expr_succ, logical_or_expr_succ, ih (by omega)]


theorem accept_none_miss (k : luna_token) (lex : List luna_token_t) (lb : luna_token_t)
    (c e : Option String) (i : Int) (h : (luna_scan lex).1.type ≠ k) :
    accept k ⟨lex, none, lb, c, e, i⟩ =
      (false, ⟨(luna_scan lex).2, some (luna_scan lex).1, lb, c, e, i⟩) := by
  simp [accept, peek, h]

theorem binary_loop_done (ops : List luna_token) (op : luna_parser_t → luna_token)
    (ctx : String) (operand : luna_parser_t → Res (Option luna_node_t)) (k : Nat)
    (node : luna_node_t) (lex : List luna_token_t) (t lb : luna_token_t)
    (c e : Option String) (i : Int) (h : t.type ∉ ops) :
    binary_loop ops op ctx operand (k + 1) node ⟨lex, some t, lb, c, e, i⟩ =
      .ok (some node) ⟨lex, some t, lb, c, e, i⟩ := by
  rw [binary_loop]
  simp [accept_any_miss _ _ _ _ _ _ _ h]

theorem binary_loop_step (ops : List luna_token) (op : luna_parser_t → luna_token)
    (ctx : String) (operand : luna_parser_t → Res (Option luna_node_t)) (k : Nat)
    (node : luna_node_t) (lex : List luna_token_t) (t lb : luna_token_t)
    (c e : Option String) (i : Int) (h : t.type ∈ ops) :
    binary_loop ops op ctx operand (k + 1) node ⟨lex, some t, lb, c, e, i⟩ =
      (operand ⟨lex, none, t, some ctx, e, i⟩).bind fun right self =>
        match right with
        | some right =>
          binary_loop ops op ctx operand k
            (.binary_op (op ⟨lex, none, t, c, e, i⟩) node right false) self
        | none => .ok none (error "missing right-hand expression" self) := by
  rw [binary_loop]
  simp [accept_any_hit _ _ _ _ _ _ _ h, context]

theorem level_op_eq (j : Nat) (hj : j < 10) (lex : List luna_token_t) (t : luna_token_t)
    (c e : Option String) (i : Int) (h : t.type ∈ level_ops j) :
    level_op j ⟨lex, none, t, c, e, i⟩ = t.type := by
  interval_cases j <;> simp [level_ops] at h <;> simp [level_op, prev_type, h]

theorem primary_leaf (n : Nat) (x : luna_token_t) (lex : List luna_token_t) (lb : luna_token_t)
    (c e : Option String) (i : Int) (hx : is_operand x.type = true) :
    primary_expr (n + 1) ⟨lex, some x, lb, c, e, i⟩ =
      .ok (some (leaf x)) ⟨lex, none, lb, c, e, i⟩ := by
  simp only [is_operand, Bool.or_eq_true, decide_eq_true_eq] at hx
  rw [primary_expr]
  rcases hx with ((hx | hx) | hx) | hx <;> simp [peek, next, hx, leaf]

theorem unary_leaf (k : Nat) (x : luna_token_t) (lex : List luna_token_t) (lb : luna_token_t)
    (c e : Option String) (i : Int) (hx : is_operand x.type = true)
    (ht : follows_call (luna_scan lex).1.type = false) :
    unary_expr (k + 6) ⟨lex, some x, lb, c, e, i⟩ =
      .ok (some (leaf x)) ⟨(luna_scan lex).2, some (luna_scan lex).1, lb, c, e, i⟩ := by
  have hx2 : x.type ∉ [luna_token.OP_INCR, .OP_DECR, .OP_BIT_NOT, .OP_PLUS, .OP_MINUS, .OP_NOT] := by
    simp only [is_operand, Bool.or_eq_true, decide_eq_true_eq] at hx
    rcases hx with ((hx | hx) | hx) | hx <;> simp [hx]
  simp only [follows_call, Bool.or_eq_false_iff, decide_eq_false_iff_not] at ht
  obtain ⟨⟨⟨⟨h1, h2⟩, h3⟩, h4⟩, h5⟩ := ht
  have h45 : (luna_scan lex).1.type ∉ [luna_token.OP_INCR, .OP_DECR] := by simp [h4, h5]
  rw [unary_expr, accept_any_miss _ _ _ _ _ _ _ hx2]
  simp only [Bool.false_eq_true, if_false]
  rw [postfix_expr, pow_expr, call_expr, slot_access_expr, primary_leaf _ _ _ _ _ _ _ hx]
  simp only [Res.bind_ok, accept_none_miss _ _ _ _ _ _ h1, Bool.false_eq_true, if_false,
    accept_miss _ _ _ _ _ _ _ h2, accept_miss _ _ _ _ _ _ _ h3, accept_any_miss _ _ _ _ _ _ _ h45]

theorem operand_leaf (j : Nat) (hj : j ≤ 9) (m : Nat) (hm : 6 + j ≤ m) (x : luna_token_t)
    (lex : List luna_token_t) (lb : luna_token_t) (c e : Option String) (i : Int)
    (hx : is_operand x.type = true)
    (ht : binds_tighter j (luna_scan lex).1.type = false) :
    operand_expr j m ⟨lex, some x, lb, c, e, i⟩ =
      .ok (some (leaf x)) ⟨(luna_scan lex).2, some (luna_scan lex).1, lb, c, e, i⟩ := by
  induction j generalizing m with
  | zero =>
    obtain ⟨k, rfl⟩ : ∃ k, m = k + 6 := ⟨m - 6, by omega⟩
    exact unary_leaf k x lex lb c e i hx ht
  | succ j ih =>
    obtain ⟨k, rfl⟩ : ∃ k, m = k + 1 + 1 := ⟨m - 2, by omega⟩
    simp only [binds_tighter, Bool.or_eq_false_iff, decide_eq_false_iff_not] at ht
    show level_expr j (k + 1 + 1) _ = _
    rw [level_expr_succ j (by omega), ih (by omega) (k + 1) (by omega) ht.1]
    simp only [Res.bind_ok]
    exact binary_loop_done _ _ _ _ _ _ _ _ _ _ _ _ ht.2

set_option maxRecDepth 100000 in
theorem ops_not_binds : ∀ j' ≤ 9, ∀ j ≤ j', ∀ t : luna_token,
    t ∈ level_ops j' → binds_tighter j t = false := by
  decide

set_option maxRecDepth 100000 in
theorem ops_disjoint_aux : ∀ j' ≤ 9, ∀ j ≤ 9, ∀ t : luna_token,
    (decide (t ∈ level_ops j') && decide (t ∈ level_ops j) && decide (j ≠ j')) = false := by
  decide

theorem ops_disjoint (j' j : Nat) (hj' : j' ≤ 9) (hj : j ≤ 9) (hne : j ≠ j') (t : luna_token)
    (h : t ∈ level_ops j') : t ∉ level_ops j := by
  intro h2
  have := ops_disjoint_aux j' hj' j hj t
  simp [h, h2, hne] at this


theorem scan_cons (t : luna_token_t) (ts : List luna_token_t) : luna_scan (t :: ts) = (t, ts) := rfl

/-- The first token of `op1 x1 ... T rest` is not consumed by an operand of level `j`. -/
theorem head_not_binds (j : Nat) (hj : j ≤ 9) (items : List (luna_token_t × luna_token_t))
    (T : luna_token_t) (rest : List luna_token_t)
    (hT : binds_tighter j T.type = false)
    (hitems : ∀ it ∈ items, it.1.type ∈ level_ops j ∧ is_operand it.2.type = true) :
    binds_tighter j (luna_scan (op_stream items ++ T :: rest)).1.type = false := by
  cases items with
  | nil => simpa [op_stream, scan_cons] using hT
  | cons it its =>
    obtain ⟨o, x⟩ := it
    simp only [op_stream, List.cons_append, scan_cons]
    exact ops_not_binds j hj j (le_refl j) o.type (hitems (o, x) (by simp)).1

/-- The loop of level `j` over `op1 x1 ... opn xn` with one-token operands, ended by a
token `T` that the level does not take, folds the pairs into the left-deep tree. -/
theorem binary_loop_items (j : Nat) (hj : j ≤ 9) (m : Nat) (hm : 6 + j ≤ m)
    (T : luna_token_t) (rest : List luna_token_t) (e : Option String) (i : Int)
    (hT1 : T.type ∉ level_ops j) (hT2 : binds_tighter j T.type = false)
    (items : List (luna_token_t × luna_token_t)) :
    ∀ (k : Nat) (node : luna_node_t) (lb : luna_token_t) (c : Option String),
      items.length < k →
      (∀ it ∈ items, it.1.type ∈ level_ops j ∧ is_operand it.2.type = true) →
      ∃ lb' c',
        binary_loop (level_ops j) (level_op j) (level_ctx j) (operand_expr j m) k node
          ⟨(luna_scan (op_stream items ++ T :: rest)).2,
            some (luna_scan (op_stream items ++ T :: rest)).1, lb, c, e, i⟩ =
        .ok (some (left_deep node items)) ⟨rest, some T, lb', c', e, i⟩ := by
  induction items with
  | nil =>
    intro k node lb c hk _
    obtain ⟨k, rfl⟩ : ∃ k', k = k' + 1 := ⟨k - 1, by simp at hk; omega⟩
    exact ⟨lb, c, by
      simp only [op_stream, List.nil_append, scan_cons, left_deep]
      exact binary_loop_done _ _ _ _ _ _ _ _ _ _ _ _ hT1⟩
  | cons it its ih =>
    intro k node lb c hk hitems
    obtain ⟨o, x⟩ := it
    obtain ⟨k, rfl⟩ : ∃ k', k = k' + 1 := ⟨k - 1, by simp at hk; omega⟩
    have ho := (hitems (o, x) (by simp)).1
    have hx := (hitems (o, x) (by simp)).2
    have hits : ∀ it ∈ its, it.1.type ∈ level_ops j ∧ is_operand it.2.type = true :=
      fun it hit => hitems it (by simp [hit])
    have hhead := head_not_binds j hj its T rest hT2 hits
    obtain ⟨lb', c', h⟩ := ih k (.binary_op o.type node (leaf x) false) o
      (some (level_ctx j)) (by simp at hk; omega) hits
    refine ⟨lb', c', ?_⟩
    simp only [op_stream, List.cons_append, scan_cons, left_deep]
    rw [binary_loop_step _ _ _ _ _ _ _ _ _ _ _ _ ho, ← operand_expr_peek j (by omega)]
    simp only [peek_none, scan_cons]
    rw [operand_leaf j hj m hm x _ _ _ _ _ hx hhead]
    simp only [Res.bind_ok, level_op_eq j (by omega) _ _ _ _ _ ho]
    exact h


/-- A level hands on the result of its operand when the next token is not one of its
operators. -/
theorem level_pass (j : Nat) (hj : j ≤ 8) (n : Nat) (s : luna_parser_t) (node : luna_node_t)
    (lex : List luna_token_t) (T lb : luna_token_t) (c e : Option String) (i : Int)
    (h : operand_expr j n s = .ok (some node) ⟨lex, some T, lb, c, e, i⟩)
    (hT : T.type ∉ level_ops j) :
    operand_expr (j + 1) (n + 1) s = .ok (some node) ⟨lex, some T, lb, c, e, i⟩ := by
  show level_expr j (n + 1) s = _
  cases n with
  | zero =>
    have : operand_expr j 0 s = .fuel := by
      have hj2 : j < 10 := by omega
      clear h hj
      interval_cases j <;> rfl
    rw [this] at h
    exact absurd h (by simp)
  | succ n =>
    rw [level_expr_succ j (by omega), h]
    simp only [Res.bind_ok]
    exact binary_loop_done _ _ _ _ _ _ _ _ _ _ _ _ hT

theorem level_pass_many (d : Nat) : ∀ (j n : Nat) (s : luna_parser_t) (node : luna_node_t)
    (lex : List luna_token_t) (T lb : luna_token_t) (c e : Option String) (i : Int),
    j + d ≤ 9 →
    operand_expr j n s = .ok (some node) ⟨lex, some T, lb, c, e, i⟩ →
    (∀ j', j ≤ j' → j' < j + d → T.type ∉ level_ops j') →
    operand_expr (j + d) (n + d) s = .ok (some node) ⟨lex, some T, lb, c, e, i⟩ := by
  induction d with
  | zero => intro j n s node lex T lb c e i _ h _; exact h
  | succ d ih =>
    intro j n s node lex T lb c e i hj h hT
    have := ih j n s node lex T lb c e i (by omega) h (fun j' h1 h2 => hT j' h1 (by omega))
    exact level_pass (j + d) (by omega) (n + d) s node lex T lb c e i this
      (hT (j + d) (by omega) (by omega))

/-- `logical_or_expr` hands on the result of its operand when the next token is neither
`'||'` nor the fork token. -/
theorem logical_or_pass (n : Nat) (s : luna_parser_t) (node : luna_node_t)
    (lex : List luna_token_t) (T lb : luna_token_t) (c e : Option String) (i : Int)
    (h : operand_expr 9 (n + 1) s = .ok (some node) ⟨lex, some T, lb, c, e, i⟩)
    (hT : T.type ∉ level_ops 9) (hF : T.type ≠ .OP_FORK) :
    logical_or_expr (n + 2) s = .ok (some node) ⟨lex, some T, lb, c, e, i⟩ := by
  show level_expr 9 (n + 1 + 1) s = _
  rw [logical_or_expr_succ, h]
  simp only [Res.bind_ok]
  rw [binary_loop_done _ _ _ _ _ _ _ _ _ _ _ _ hT]
  simp only [Res.bind_ok, accept_miss _ _ _ _ _ _ _ hF, Bool.false_eq_true, if_false]

set_option maxRecDepth 100000 in
theorem ends_expr_not_binds : ∀ j ≤ 10, ∀ t : luna_token, ends_expr t = true →
    binds_tighter j t = false := by
  decide

set_option maxRecDepth 100000 in
theorem ends_expr_not_assign : ∀ t : luna_token, ends_expr t = true →
    t ≠ .OP_FORK ∧ t ≠ .OP_ASSIGN ∧ t ∉ [luna_token.OP_PLUS_ASSIGN, .OP_MINUS_ASSIGN,
      .OP_DIV_ASSIGN, .OP_MUL_ASSIGN, .OP_OR_ASSIGN, .OP_AND_ASSIGN] := by
  decide

/-- From `logical_or_expr` up to `expr`: the result is handed on when the expression
does not begin with `let` or `not` and the next token ends an expression. -/
theorem expr_pass (n : Nat) (node : luna_node_t) (lex lex' : List luna_token_t)
    (x0 T lb lb' : luna_token_t) (c c' e e' : Option String) (i i' : Int)
    (h : logical_or_expr n ⟨lex, some x0, lb, c, e, i⟩ =
      .ok (some node) ⟨lex', some T, lb', c', e', i'⟩)
    (hx : starts_special x0.type = false) (hT : ends_expr T.type = true) :
    expr (n + 3) ⟨lex, some x0, lb, c, e, i⟩ =
      .ok (some node) ⟨lex', some T, lb', c', e', i'⟩ := by
  simp only [starts_special, Bool.or_eq_false_iff, decide_eq_false_iff_not] at hx
  obtain ⟨h1, h2, h3⟩ := ends_expr_not_assign T.type hT
  rw [expr, not_expr, accept_miss _ _ _ _ _ _ _ hx.2]
  simp only [Bool.false_eq_true, if_false]
  rw [assignment_expr, accept_miss _ _ _ _ _ _ _ hx.1.2, h]
  simp only [Res.bind_ok, accept_miss _ _ _ _ _ _ _ h2, Bool.false_eq_true, if_false,
    accept_any_miss _ _ _ _ _ _ _ h3]


/-- Level `j` (below `logical_or_expr`) on `x0 op1 x1 ... opn xn T`. -/
theorem level_items (j : Nat) (hj : j ≤ 8) (m : Nat) (hm : 6 + j ≤ m)
    (x0 T : luna_token_t) (rest : List luna_token_t) (lb : luna_token_t)
    (c e : Option String) (i : Int) (items : List (luna_token_t × luna_token_t))
    (hlen : items.length < m) (hx0 : is_operand x0.type = true)
    (hT1 : T.type ∉ level_ops j) (hT2 : binds_tighter j T.type = false)
    (hitems : ∀ it ∈ items, it.1.type ∈ level_ops j ∧ is_operand it.2.type = true) :
    ∃ lb' c', operand_expr (j + 1) (m + 1) ⟨op_stream items ++ T :: rest, some x0, lb, c, e, i⟩ =
      .ok (some (left_deep (leaf x0) items)) ⟨rest, some T, lb', c', e, i⟩ := by
  show ∃ lb' c', level_expr j (m + 1) _ = _
  obtain ⟨lb', c', h⟩ := binary_loop_items j (by omega) m hm T rest e i hT1 hT2 items m
    (leaf x0) lb c hlen hitems
  refine ⟨lb', c', ?_⟩
  rw [level_expr_succ j (by omega),
    operand_leaf j (by omega) m hm x0 _ _ _ _ _ hx0
      (head_not_binds j (by omega) items T rest hT2 hitems)]
  simp only [Res.bind_ok]
  exact h

/-- `logical_or_expr` on `x0 || x1 ... || xn T`. -/
theorem logical_or_items (m : Nat) (hm : 15 ≤ m)
    (x0 T : luna_token_t) (rest : List luna_token_t) (lb : luna_token_t)
    (c e : Option String) (i : Int) (items : List (luna_token_t × luna_token_t))
    (hlen : items.length < m) (hx0 : is_operand x0.type = true)
    (hT1 : T.type ∉ level_ops 9) (hT2 : binds_tighter 9 T.type = false)
    (hF : T.type ≠ .OP_FORK)
    (hitems : ∀ it ∈ items, it.1.type ∈ level_ops 9 ∧ is_operand it.2.type = true) :
    ∃ lb' c', logical_or_expr (m + 1) ⟨op_stream items ++ T :: rest, some x0, lb, c, e, i⟩ =
      .ok (some (left_deep (leaf x0) items)) ⟨rest, some T, lb', c', e, i⟩ := by
  show ∃ lb' c', level_expr 9 (m + 1) _ = _
  obtain ⟨lb', c', h⟩ := binary_loop_items 9 (by omega) m hm T rest e i hT1 hT2 items m
    (leaf x0) lb c hlen hitems
  refine ⟨lb', c', ?_⟩
  rw [logical_or_expr_succ,
    operand_leaf 9 (by omega) m hm x0 _ _ _ _ _ hx0
      (head_not_binds 9 (by omega) items T rest hT2 hitems)]
  simp only [Res.bind_ok]
  rw [h]
  simp only [Res.bind_ok, accept_miss _ _ _ _ _ _ _ hF, Bool.false_eq_true, if_false]

/-- A program that is one expression statement ended by end-of-stream. -/
theorem parse_single (n : Nat) (node : luna_node_t) (lex lex' : List luna_token_t)
    (x0 T lb lb' : luna_token_t) (c c' e e' : Option String) (i i' : Int)
    (h : expr n ⟨lex, some x0, lb, some "statement", e, i⟩ =
      .ok (some node) ⟨lex', some T, lb', c', e', i'⟩)
    (hx : starts_special x0.type = false) (hT : T.type = .EOS) :
    luna_parse (n + 3) ⟨x0 :: lex, none, lb, c, e, i⟩ =
      .ok (some (.mk [node])) ⟨lex', none, T, c', e', i'⟩ := by
  simp only [starts_special, Bool.or_eq_false_iff, decide_eq_false_iff_not] at hx
  obtain ⟨⟨⟨⟨⟨⟨⟨⟨⟨h1, h2⟩, h3⟩, h4⟩, h5⟩, h6⟩, h7⟩, h8⟩, _⟩, _⟩ := hx
  have hs : (luna_scan (x0 :: lex)).1.type ≠ .EOS := h8
  rw [luna_parse, program, program_loop, accept_none_miss _ _ _ _ _ _ hs]
  simp only [Bool.false_eq_true, if_false, scan_cons]
  rw [stmt]
  simp only [context, is_some, h1, h2, h3, h4, h5, h6, h7, decide_False, Bool.false_eq_true,
    if_false]
  rw [expr_stmt, h]
  simp only [Res.bind_ok, is_some, hT, decide_True, if_true, ite_self, List.nil_append]
  rw [program_loop, accept_hit _ _ _ _ _ _ _ hT]
  simp

theorem ends_expr_not_ops (j : Nat) (hj : j ≤ 9) (t : luna_token) (h : ends_expr t = true) :
    t ∉ level_ops j := by
  have := ends_expr_not_binds (j + 1) (by omega) t h
  simp only [binds_tighter, Bool.or_eq_false_iff, decide_eq_false_iff_not] at this
  exact this.2

theorem operand_not_special (t : luna_token) (h : is_operand t = true) :
    starts_special t = false := by
  revert t
  decide

/-- Level `j` is its loop run on the result of its operand; for `logical_or_expr` the
fork check follows, which a token that ends an expression passes. -/
theorem level_of_loop (j : Nat) (hj : j ≤ 9) (m : Nat) (s s1 : luna_parser_t)
    (node0 node : luna_node_t) (lex : List luna_token_t) (T lb : luna_token_t)
    (c e : Option String) (i : Int)
    (h0 : operand_expr j m s = .ok (some node0) s1)
    (h1 : binary_loop (level_ops j) (level_op j) (level_ctx j) (operand_expr j m) m node0 s1 =
      .ok (some node) ⟨lex, some T, lb, c, e, i⟩)
    (hT : ends_expr T.type = true) :
    level_expr j (m + 1) s = .ok (some node) ⟨lex, some T, lb, c, e, i⟩ := by
  by_cases h9 : j = 9
  · subst h9
    rw [logical_or_expr_succ, h0]
    simp only [Res.bind_ok]
    rw [h1]
    simp only [Res.bind_ok, accept_miss _ _ _ _ _ _ _ (ends_expr_not_assign _ hT).1,
      Bool.false_eq_true, if_false]
  · rw [level_expr_succ j (by omega), h0]
    simp only [Res.bind_ok]
    exact h1

/-- From a level up to `logical_or_expr`, when the next token ends an expression. -/
theorem logical_or_of_level (j : Nat) (hj : j ≤ 9) (n : Nat) (s : luna_parser_t)
    (node : luna_node_t) (lex : List luna_token_t) (T lb : luna_token_t)
    (c e : Option String) (i : Int)
    (h : level_expr j (n + 1) s = .ok (some node) ⟨lex, some T, lb, c, e, i⟩)
    (hT : ends_expr T.type = true) :
    logical_or_expr (n + 1 + (9 - j)) s = .ok (some node) ⟨lex, some T, lb, c, e, i⟩ := by
  by_cases h9 : j = 9
  · subst h9
    exact h
  · have h2 := level_pass_many (8 - j) (j + 1) (n + 1) _ _ _ _ _ _ _ _ (by omega) h
      (fun j' _ _ => ends_expr_not_ops j' (by omega) _ hT)
    have e9 : j + 1 + (8 - j) = 9 := by omega
    have e10 : n + 1 + (8 - j) = n + (8 - j) + 1 := by omega
    have e11 : n + 1 + (9 - j) = n + (8 - j) + 2 := by omega
    rw [e9, e10] at h2
    rw [e11]
    exact logical_or_pass (n + (8 - j)) _ _ _ _ _ _ _ _ h2
      (ends_expr_not_ops 9 (by omega) _ hT) (ends_expr_not_assign _ hT).1

/-- A program that is one expression statement whose expression is a level-`j`
expression ended by end-of-stream. -/
theorem parse_of_level (j : Nat) (hj : j ≤ 9) (n : Nat) (node : luna_node_t)
    (lex lex' : List luna_token_t) (x0 T lb lb' : luna_token_t) (c c' e e' : Option String)
    (i i' : Int)
    (h : level_expr j (n + 1) ⟨lex, some x0, lb, some "statement", e, i⟩ =
      .ok (some node) ⟨lex', some T, lb', c', e', i'⟩)
    (hx : starts_special x0.type = false) (hT : T.type = .EOS) :
    luna_parse (n + 1 + (9 - j) + 6) ⟨x0 :: lex, none, lb, c, e, i⟩ =
      .ok (some (.mk [node])) ⟨lex', none, T, c', e', i'⟩ := by
  have hE : ends_expr T.type = true := by rw [hT]; rfl
  have h2 := logical_or_of_level j hj n _ _ _ _ _ _ _ _ h hE
  have h3 := expr_pass _ _ _ _ _ _ _ _ _ _ _ _ _ _ h2 hx hE
  exact parse_single _ _ _ _ _ _ _ _ c _ _ _ _ _ h3 hx hT

/-- A whole program `x0 op1 x1 ... opn xn` with the operators on one level. -/
theorem parse_level_items (j : Nat) (hj : j ≤ 9) (self0 : luna_parser_t) (x0 : luna_token_t)
    (items : List (luna_token_t × luna_token_t)) (fuel : Nat)
    (hx0 : is_operand x0.type = true)
    (hitems : ∀ it ∈ items, it.1.type ∈ level_ops j ∧ is_operand it.2.type = true)
    (hfuel : items.length + 32 ≤ fuel) :
    (luna_parse fuel (luna_parser_init self0 (x0 :: (op_stream items ++ [eos])))).value =
      some (some (.mk [left_deep (leaf x0) items])) := by
  have hE : ends_expr eos.type = true := rfl
  have hsp := operand_not_special _ hx0
  obtain ⟨lex0, la0, lb0, c0, e0, i0⟩ := self0
  obtain ⟨m, hm⟩ : ∃ m, fuel = m + 1 + (9 - j) + 6 := ⟨fuel - 16 + j, by omega⟩
  have hb := ends_expr_not_binds j (by omega) _ hE
  have ho := ends_expr_not_ops j hj _ hE
  obtain ⟨lb', c', h1⟩ := binary_loop_items j hj m (by omega) eos [] none 0 ho hb items m
    (leaf x0) lb0 (some "statement") (by omega) hitems
  have h0 := operand_leaf j hj m (by omega) x0 (op_stream items ++ [eos]) lb0
    (some "statement") none 0 hx0 (head_not_binds j hj items eos [] hb hitems)
  have h2 := level_of_loop j hj m _ _ _ _ _ _ _ _ _ _ h0 h1 hE
  have h3 := parse_of_level j hj m _ _ _ _ _ _ _ none _ _ _ _ _ h2 hsp rfl
  simp only [luna_parser_init]
  rw [hm, h3]
  rfl

/-- Two operators of different levels: the tighter one binds first on either side. -/
theorem parse_two_levels (hi lo : Nat) (hlt : hi < lo) (hlo : lo ≤ 9) (self0 : luna_parser_t)
    (x y z op_hi op_lo : luna_token_t) (fuel : Nat)
    (hx : is_operand x.type = true) (hy : is_operand y.type = true)
    (hz : is_operand z.type = true)
    (hhi : op_hi.type ∈ level_ops hi) (hlo2 : op_lo.type ∈ level_ops lo)
    (hfuel : 40 ≤ fuel) :
    (luna_parse fuel (luna_parser_init self0 [x, op_lo, y, op_hi, z, eos])).value =
        some (some (.mk [.binary_op op_lo.type (leaf x)
          (.binary_op op_hi.type (leaf y) (leaf z) false) false])) ∧
    (luna_parse fuel (luna_parser_init self0 [x, op_hi, y, op_lo, z, eos])).value =
        some (some (.mk [.binary_op op_lo.type
          (.binary_op op_hi.type (leaf x) (leaf y) false) (leaf z) false])) := by
  have hE : ends_expr eos.type = true := rfl
  have hsp := operand_not_special _ hx
  obtain ⟨lex0, la0, lb0, c0, e0, i0⟩ := self0
  obtain ⟨m1, hm⟩ : ∃ m1, fuel = m1 + 1 + (lo - hi - 1) + 1 + (9 - lo) + 6 :=
    ⟨fuel - 16 + hi, by omega⟩
  have hlo_hi : op_lo.type ∉ level_ops hi := ops_disjoint lo hi hlo (by omega) (by omega) _ hlo2
  have hb_lo_hi : binds_tighter hi op_lo.type = false :=
    ops_not_binds lo hlo hi (by omega) _ hlo2
  have hb_lo : binds_tighter lo op_lo.type = false := ops_not_binds lo hlo lo (le_refl _) _ hlo2
  have hpass : ∀ j', hi + 1 ≤ j' → j' < hi + 1 + (lo - hi - 1) → op_lo.type ∉ level_ops j' :=
    fun j' h1 h2 => ops_disjoint lo j' hlo (by omega) (by omega) _ hlo2
  have elo : hi + 1 + (lo - hi - 1) = lo := by omega
  have hitem1 : ∀ (o w : luna_token_t) (j : Nat), o.type ∈ level_ops j →
      is_operand w.type = true →
      ∀ it ∈ [(o, w)], it.1.type ∈ level_ops j ∧ is_operand it.2.type = true := by
    intro o w j h1 h2 it hit
    simp only [List.mem_singleton] at hit
    subst hit
    exact ⟨h1, h2⟩
  simp only [luna_parser_init]
  constructor
  · -- `x op_lo y op_hi z`
    have h0 := operand_leaf lo hlo (m1 + 1 + (lo - hi - 1)) (by omega) x
      [op_lo, y, op_hi, z, eos] lb0 (some "statement") none 0 hx (by simpa [scan_cons] using hb_lo)
    obtain ⟨lb', c', hy1⟩ := level_items hi (by omega) m1 (by omega) y eos [] op_lo
      (some (level_ctx lo)) none 0 [(op_hi, z)] (by simp; omega) hy
      (ends_expr_not_ops hi (by omega) _ hE) (ends_expr_not_binds hi (by omega) _ hE)
      (hitem1 _ _ _ hhi hz)
    have hy2 := level_pass_many (lo - hi - 1) (hi + 1) (m1 + 1) _ _ _ _ _ _ _ _ (by omega) hy1
      (fun j' _ _ => ends_expr_not_ops j' (by omega) _ hE)
    rw [elo] at hy2
    have h1 : binary_loop (level_ops lo) (level_op lo) (level_ctx lo)
        (operand_expr lo (m1 + 1 + (lo - hi - 1))) (m1 + 1 + (lo - hi - 1)) (leaf x)
        ⟨[y, op_hi, z, eos], some op_lo, lb0, some "statement", none, 0⟩ =
        .ok (some (.binary_op op_lo.type (leaf x)
          (.binary_op op_hi.type (leaf y) (leaf z) false) false))
          ⟨[], some eos, lb', c', none, 0⟩ := by
      obtain ⟨k, hk⟩ : ∃ k, m1 + 1 + (lo - hi - 1) = k + 1 + 1 := ⟨m1 + (lo - hi - 1) - 1, by omega⟩
      rw [hk] at hy2 ⊢
      rw [binary_loop_step _ _ _ _ _ _ _ _ _ _ _ _ hlo2, ← operand_expr_peek lo (by omega)]
      simp only [peek_none, scan_cons]
      simp only [op_stream, List.cons_append, List.nil_append, left_deep] at hy2
      rw [hy2]
      simp only [Res.bind_ok, level_op_eq lo (by omega) _ _ _ _ _ hlo2]
      exact binary_loop_done _ _ _ _ _ _ _ _ _ _ _ _ (ends_expr_not_ops lo hlo _ hE)
    have h2 := level_of_loop lo hlo _ _ _ _ _ _ _ _ _ _ _ h0 h1 hE
    have h3 := parse_of_level lo hlo _ _ _ _ _ _ _ _ none _ _ _ _ _ h2 hsp rfl
    rw [hm, h3]
    rfl
  · -- `x op_hi y op_lo z`
    obtain ⟨lb', c', hx1⟩ := level_items hi (by omega) m1 (by omega) x op_lo [z, eos] lb0
      (some "statement") none 0 [(op_hi, y)] (by simp; omega) hx hlo_hi hb_lo_hi
      (hitem1 _ _ _ hhi hy)
    have h0 := level_pass_many (lo - hi - 1) (hi + 1) (m1 + 1) _ _ _ _ _ _ _ _ (by omega) hx1
      hpass
    rw [elo] at h0
    obtain ⟨lb2, c2, h1⟩ := binary_loop_items lo hlo (m1 + 1 + (lo - hi - 1)) (by omega) eos []
      none 0 (ends_expr_not_ops lo hlo _ hE) (ends_expr_not_binds lo (by omega) _ hE)
      [(op_lo, z)] (m1 + 1 + (lo - hi - 1))
      (.binary_op op_hi.type (leaf x) (leaf y) false) lb' c' (by simp; omega)
      (hitem1 _ _ _ hlo2 hz)
    simp only [op_stream, List.cons_append, List.nil_append, left_deep, scan_cons] at h0 h1
    have h2 := level_of_loop lo hlo _ _ _ _ _ _ _ _ _ _ _ h0 h1 hE
    have h3 := parse_of_level lo hlo _ _ _ _ _ _ _ _ none _ _ _ _ _ h2 hsp rfl
    rw [hm, h3]
    rfl

theorem call_expr_split (n : Nat) (s : luna_parser_t) :
    call_expr (n + 1) s =
      (call_expr_head n s).bind fun node self =>
        match node with
        | none => .ok none self
        | some node =>
          let r := accept .OP_DOT self
          if r.1 then
            (call_expr n r.2).bind fun e self =>
              match e with
              | none => .undefined
              | some (.call callee (some args)) =>
                .ok (some (.call callee (some { args with vec := args.vec ++ [node] }))) self
              | some (.call _ none) => .undefined
              | some e => .ok (some (.slot node e)) self
          else .ok (some node) r.2 := by
  rw [call_expr, call_expr_head]
  cases slot_access_expr n s with
  | ok v s1 => cases v <;> rfl
  | undefined => rfl
  | fuel => rfl

/-- The UFCS branch of `call_expr`, given the receiver and the nested result. -/
theorem call_expr_dot (n : Nat) (s s1 s2 s3 : luna_parser_t) (r e : luna_node_t)
    (h1 : call_expr_head n s = .ok (some r) s1)
    (h2 : accept .OP_DOT s1 = (true, s2))
    (h3 : call_expr n s2 = .ok (some e) s3) :
    (∀ m args, e = .call m (some args) →
      call_expr (n + 1) s =
        .ok (some (.call m (some { args with vec := args.vec ++ [r] }))) s3) ∧
    ((∀ m a, e ≠ .call m a) → call_expr (n + 1) s = .ok (some (.slot r e)) s3) := by
  rw [call_expr_split, h1]
  simp only [Res.bind_ok, h2, if_true, h3]
  constructor
  · intro m args he
    subst he
    rfl
  · intro hne
    cases e with
    | call m a => exact absurd rfl (hne m a)
    | _ => rfl

/-- A chain of prefix operators in front of an operand. -/
theorem unary_expr_chain (n : Nat) (lex : List luna_token_t) (c e : Option String) (i : Int)
    (x : luna_node_t) (s' : luna_parser_t) (ps : List luna_token_t) :
    ∀ (hne : ps ≠ []) (lb : luna_token_t),
      (∀ p ∈ ps, p.type ∈ unary_ops) →
      unary_expr n ⟨lex, none, ps.getLast hne, c, e, i⟩ = .ok (some x) s' →
      unary_expr (n + ps.length) ⟨ps ++ lex, none, lb, c, e, i⟩ =
        .ok (some (unary_chain ps x)) s' := by
  induction ps with
  | nil => intro hne; exact absurd rfl hne
  | cons p ps ih =>
    intro hne lb hps h
    have hp : p.type ∈ [luna_token.OP_INCR, .OP_DECR, .OP_BIT_NOT, .OP_PLUS, .OP_MINUS,
        .OP_NOT] := hps p (by simp)
    have e1 : n + (p :: ps).length = (n + ps.length) + 1 := by simp; omega
    rw [e1, unary_expr, ← accept_any_peek _ (by simp)]
    simp only [peek_none, List.cons_append, scan_cons]
    rw [accept_any_hit _ _ _ _ _ _ _ hp]
    simp only [if_true, prev_type]
    cases ps with
    | nil =>
      simp only [List.getLast_singleton] at h
      simp only [List.length_nil, Nat.add_zero, List.nil_append, h, Res.bind_ok, unary_chain]
    | cons q qs =>
      have h2 : unary_expr n ⟨lex, none, (q :: qs).getLast (by simp), c, e, i⟩ = .ok (some x) s' := by
        simpa [List.getLast_cons] using h
      rw [ih (by simp) p (fun p' hp' => hps p' (by simp [hp'])) h2]
      simp only [Res.bind_ok, unary_chain]

/-- A chain of prefix operators in front of an operand, with the operand parsed first:
every node of the chain records the kind of the token accepted last inside the operand. -/
theorem unary_expr_rtl_chain (n : Nat) (lex : List luna_token_t) (c e : Option String) (i : Int)
    (x : luna_node_t) (s' : luna_parser_t) (ps : List luna_token_t) :
    ∀ (hne : ps ≠ []) (lb : luna_token_t),
      (∀ p ∈ ps, p.type ∈ unary_ops) →
      unary_expr_rtl n ⟨lex, none, ps.getLast hne, c, e, i⟩ = .ok (some x) s' →
      unary_expr_rtl (n + ps.length) ⟨ps ++ lex, none, lb, c, e, i⟩ =
        .ok (some (unary_chain (ps.map fun _ => s'.lb) x)) s' := by
  induction ps with
  | nil => intro hne; exact absurd rfl hne
  | cons p ps ih =>
    intro hne lb hps h
    have hp : p.type ∈ [luna_token.OP_INCR, .OP_DECR, .OP_BIT_NOT, .OP_PLUS, .OP_MINUS,
        .OP_NOT] := hps p (by simp)
    have e1 : n + (p :: ps).length = (n + ps.length) + 1 := by simp; omega
    rw [e1, unary_expr_rtl, ← accept_any_peek _ (by simp)]
    simp only [peek_none, List.cons_append, scan_cons]
    rw [accept_any_hit _ _ _ _ _ _ _ hp]
    simp only [if_true, prev_type]
    cases ps with
    | nil =>
      simp only [List.getLast_singleton] at h
      simp only [List.length_nil, Nat.add_zero, List.nil_append, h, Res.bind_ok, unary_chain,
        List.map_cons, List.map_nil]
    | cons q qs =>
      have h2 : unary_expr_rtl n ⟨lex, none, (q :: qs).getLast (by simp), c, e, i⟩ =
          .ok (some x) s' := by
        simpa [List.getLast_cons] using h
      rw [ih (by simp) p (fun p' hp' => hps p' (by simp [hp'])) h2]
      simp only [Res.bind_ok, unary_chain, List.map_cons]

theorem not_expr_peek (n : Nat) (s : luna_parser_t) : not_expr n (peek s).2 = not_expr n s := by
  cases n with
  | zero => rfl
  | succ n => rw [not_expr, not_expr, accept_peek]

theorem expr_peek (n : Nat) (s : luna_parser_t) : expr n (peek s).2 = expr n s := by
  cases n with
  | zero => rfl
  | succ n => rw [expr, expr, not_expr_peek]

/-- `expr` on a one-token operand followed by a token that ends an expression. -/
theorem expr_leaf (n : Nat) (hn : 19 ≤ n) (x : luna_token_t) (lex : List luna_token_t)
    (lb : luna_token_t) (c e : Option String) (i : Int) (hx : is_operand x.type = true)
    (hT : ends_expr (luna_scan lex).1.type = true) :
    expr n ⟨lex, some x, lb, c, e, i⟩ =
      .ok (some (leaf x)) ⟨(luna_scan lex).2, some (luna_scan lex).1, lb, c, e, i⟩ := by
  obtain ⟨m, rfl⟩ : ∃ m, n = m + 2 + 3 := ⟨n - 5, by omega⟩
  have h9 := operand_leaf 9 (by omega) (m + 1) (by omega) x lex lb c e i hx
    (ends_expr_not_binds 9 (by omega) _ hT)
  have h10 := logical_or_pass m _ _ _ _ _ _ _ _ h9 (ends_expr_not_ops 9 (by omega) _ hT)
    (ends_expr_not_assign _ hT).1
  exact expr_pass _ _ _ _ _ _ _ _ _ _ _ _ _ _ h10 (operand_not_special _ hx) hT

theorem parsesTo_leaf (x : luna_token_t) (hx : is_operand x.type = true) :
    ParsesTo [x] (leaf x) := by
  refine ⟨by simp, 19, ?_⟩
  intro fuel hf k rest lb c err ia hk
  refine ⟨lb, c, err, ia, ?_⟩
  rw [← expr_peek]
  exact expr_leaf fuel hf x (k :: rest) lb c err ia hx hk

/-- A failing operand makes the enclosing function fail the same way. -/
theorem NoNode_bind (r : Res (Option luna_node_t))
    (k : luna_node_t → luna_parser_t → Res (Option luna_node_t)) (h : NoNode r) :
    NoNode (r.bind fun node self =>
      match node with
      | none => .ok none self
      | some node => k node self) := by
  cases r with
  | ok v s =>
    cases v with
    | none => trivial
    | some v => exact absurd h (by simp [NoNode])
  | undefined => trivial
  | fuel => trivial

theorem NoNode_fuel_or (f : Nat → luna_parser_t → Res (Option luna_node_t))
    (hf : ∀ s, f 0 s = .fuel) (n : Nat) (s : luna_parser_t)
    (h : ∀ m, n = m + 1 → NoNode (f (m + 1) s)) : NoNode (f n s) := by
  cases n with
  | zero => rw [hf]; trivial
  | succ m => exact h m rfl

theorem primary_expr_noNode (n : Nat) (lex : List luna_token_t) (t lb : luna_token_t)
    (c e : Option String) (i : Int) (ht : starts_expr t.type = false) :
    NoNode (primary_expr n ⟨lex, some t, lb, c, e, i⟩) := by
  simp only [starts_expr, is_operand, Bool.or_eq_false_iff, decide_eq_false_iff_not] at ht
  obtain ⟨⟨⟨⟨⟨⟨⟨⟨⟨h1, h2⟩, h3⟩, h4⟩, h5⟩, h6⟩, h7⟩, _⟩, _⟩, _⟩ := ht
  refine NoNode_fuel_or primary_expr (fun _ => rfl) n _ (fun m _ => ?_)
  rw [primary_expr]
  simp only [peek_some]
  refine NoNode_fuel_or paren_expr (fun _ => rfl) m _ (fun m' _ => ?_)
  rw [paren_expr, accept_miss _ _ _ _ _ _ _ h7]
  trivial

theorem unary_expr_noNode (n : Nat) (lex : List luna_token_t) (t lb : luna_token_t)
    (c e : Option String) (i : Int) (ht : starts_expr t.type = false) :
    NoNode (unary_expr n ⟨lex, some t, lb, c, e, i⟩) := by
  have hu : t.type ∉ [luna_token.OP_INCR, .OP_DECR, .OP_BIT_NOT, .OP_PLUS, .OP_MINUS,
      .OP_NOT] := by
    simp only [starts_expr, Bool.or_eq_false_iff, decide_eq_false_iff_not] at ht
    exact ht.1.1.2
  refine NoNode_fuel_or unary_expr (fun _ => rfl) n _ (fun m _ => ?_)
  rw [unary_expr, accept_any_miss _ _ _ _ _ _ _ hu]
  simp only [Bool.false_eq_true, if_false]
  refine NoNode_fuel_or postfix_expr (fun _ => rfl) m _ (fun m _ => ?_)
  rw [postfix_expr]
  refine NoNode_bind _ _ (NoNode_fuel_or pow_expr (fun _ => rfl) m _ (fun m _ => ?_))
  rw [pow_expr]
  refine NoNode_bind _ _ (NoNode_fuel_or call_expr (fun _ => rfl) m _ (fun m _ => ?_))
  rw [call_expr]
  refine NoNode_bind _ _ (NoNode_fuel_or slot_access_expr (fun _ => rfl) m _ (fun m _ => ?_))
  rw [slot_access_expr]
  exact primary_expr_noNode m lex t lb c e i ht

theorem operand_expr_noNode (j : Nat) (hj : j ≤ 10) (n : Nat) (lex : List luna_token_t)
    (t lb : luna_token_t) (c e : Option String) (i : Int) (ht : starts_expr t.type = false) :
    NoNode (operand_expr j n ⟨lex, some t, lb, c, e, i⟩) := by
  induction j generalizing n with
  | zero => exact unary_expr_noNode n lex t lb c e i ht
  | succ j ih =>
    have h0 : ∀ s, operand_expr (j + 1) 0 s = .fuel := by
      intro s
      have hj2 : j < 10 := by omega
      clear ih hj
      interval_cases j <;> rfl
    refine NoNode_fuel_or (operand_expr (j + 1)) h0 n _ (fun m _ => ?_)
    show NoNode (level_expr j (m + 1) _)
    by_cases h9 : j = 9
    · subst h9
      rw [logical_or_expr_succ]
      exact NoNode_bind _ _ (ih (by omega) m)
    · rw [level_expr_succ j (by omega)]
      exact NoNode_bind _ _ (ih (by omega) m)

theorem expr_noNode (n : Nat) (lex : List luna_token_t) (t lb : luna_token_t)
    (c e : Option String) (i : Int) (ht : starts_expr t.type = false) :
    NoNode (expr n ⟨lex, some t, lb, c, e, i⟩) := by
  have hs := ht
  simp only [starts_expr, Bool.or_eq_false_iff, decide_eq_false_iff_not] at hs
  refine NoNode_fuel_or expr (fun _ => rfl) n _ (fun m _ => ?_)
  rw [expr]
  refine NoNode_fuel_or not_expr (fun _ => rfl) m _ (fun m _ => ?_)
  rw [not_expr, accept_miss _ _ _ _ _ _ _ hs.2]
  simp only [Bool.false_eq_true, if_false]
  refine NoNode_fuel_or assignment_expr (fun _ => rfl) m _ (fun m _ => ?_)
  rw [assignment_expr, accept_miss _ _ _ _ _ _ _ hs.1.2]
  exact NoNode_bind _ _ (operand_expr_noNode 10 (by omega) m lex t lb c e i ht)

/-- A complete expression begins with a token that can begin one. -/
theorem parsesTo_head (ts : List luna_token_t) (e : luna_node_t) (h : ParsesTo ts e) :
    ∃ t0 ts', ts = t0 :: ts' ∧ starts_expr t0.type = true := by
  obtain ⟨hne, f0, hr⟩ := h
  cases ts with
  | nil => exact absurd rfl hne
  | cons t0 ts' =>
    refine ⟨t0, ts', rfl, ?_⟩
    by_contra hc
    have hc2 : starts_expr t0.type = false := by simpa using hc
    obtain ⟨lb', c', err', ia', h⟩ := hr f0 (le_refl _) eos [] (tok .ILLEGAL) none none 0 rfl
    have h2 := expr_noNode f0 (ts' ++ [eos]) t0 (tok .ILLEGAL) none none 0 hc2
    rw [← expr_peek] at h
    simp only [peek_none, List.cons_append, scan_cons] at h
    rw [h] at h2
    exact h2

theorem exprRuns_mono (f0 f1 : Nat) (h : f0 ≤ f1) (ts : List luna_token_t) (e : luna_node_t)
    (hr : ExprRuns f0 ts e) : ExprRuns f1 ts e :=
  fun fuel hf => hr fuel (le_trans h hf)

/-- One fuel bound serves all the elements of a list of complete expressions, and each of
them begins with a token that can begin an expression. -/
theorem parsesTo_common (elems : List (List luna_token_t × luna_node_t))
    (h : ∀ el ∈ elems, ParsesTo el.1 el.2) :
    ∃ F, ∀ el ∈ elems, ExprRuns F el.1 el.2 ∧
      ∃ t0 ts', el.1 = t0 :: ts' ∧ starts_expr t0.type = true := by
  induction elems with
  | nil => exact ⟨0, fun el hel => absurd hel (by simp)⟩
  | cons el more ih =>
    obtain ⟨F, hF⟩ := ih (fun el' hel' => h el' (by simp [hel']))
    have hel := h el (by simp)
    obtain ⟨_, f0, hr⟩ := hel
    refine ⟨max F f0, ?_⟩
    intro el' hel'
    rcases List.mem_cons.1 hel' with rfl | hmem
    · exact ⟨exprRuns_mono f0 _ (le_max_right _ _) _ _ hr, parsesTo_head _ _ (h _ (by simp))⟩
    · exact ⟨exprRuns_mono F _ (le_max_left _ _) _ _ (hF el' hmem).1, (hF el' hmem).2⟩

theorem starts_expr_ne_closer (t : luna_token) (h : starts_expr t = true) :
    t ≠ .RBRACK ∧ t ≠ .RBRACE ∧ t ≠ .RPAREN := by
  revert t
  decide

/-- `arg_list` over `e1 , e2 , ... , en` with or without a trailing comma, up to the `]`. -/
theorem arg_list_elems (F : Nat) (tr : Bool) (rb : luna_token_t) (hrb : rb.type = .RBRACK)
    (rest : List luna_token_t) (elems : List (List luna_token_t × luna_node_t)) :
    elems ≠ [] →
    (∀ el ∈ elems, ExprRuns F el.1 el.2 ∧
      ∃ t0 ts', el.1 = t0 :: ts' ∧ starts_expr t0.type = true) →
    ∀ (fuel : Nat), F + elems.length + 2 ≤ fuel →
    ∀ (arr : List luna_node_t) (lb : luna_token_t) (c err : Option String) (ia : Int),
    ∃ lb' c' err' ia',
      arg_list fuel arr .RBRACK
        ⟨comma_sep (elems.map (·.1)) ++ ((if tr then [tok .COMMA] else []) ++ rb :: rest),
          none, lb, c, err, ia⟩ =
      .ok (true, arr ++ elems.map (·.2)) ⟨rest, some rb, lb', c', err', ia'⟩ := by
  induction elems with
  | nil => intro h; exact absurd rfl h
  | cons el more ih =>
    intro _ hall fuel hfuel arr lb c err ia
    obtain ⟨hrun, t0, ts', hts, hstart⟩ := hall el (by simp)
    obtain ⟨ts, e⟩ := el
    simp only at hts hrun
    subst hts
    obtain ⟨n, rfl⟩ : ∃ n, fuel = n + 1 + 1 := ⟨fuel - 2, by omega⟩
    have hne_rb : ¬ (luna_token.RBRACK = t0.type) := fun h =>
      (starts_expr_ne_closer _ hstart).1 h.symm
    cases more with
    | nil =>
      cases tr with
      | true =>
        obtain ⟨lb1, c1, err1, ia1, h1⟩ := hrun (n + 1) (by simp at hfuel; omega) (tok .COMMA)
          (rb :: rest) lb c err ia rfl
        refine ⟨tok .COMMA, c1, err1, ia1, ?_⟩
        rw [arg_list]
        simp only [List.map_cons, List.map_nil, comma_sep, if_true, List.cons_append,
          List.nil_append, peek_none, scan_cons, hne_rb, if_false]
        rw [show expr (n + 1) ⟨ts' ++ tok .COMMA :: rb :: rest, some t0, lb, c, err, ia⟩ =
            expr (n + 1) ⟨t0 :: ts' ++ tok .COMMA :: rb :: rest, none, lb, c, err, ia⟩ from
          expr_peek (n + 1) ⟨t0 :: ts' ++ tok .COMMA :: rb :: rest, none, lb, c, err, ia⟩, h1]
        simp only [Res.bind_ok]
        rw [accept_hit .COMMA _ (tok .COMMA) _ _ _ _ rfl, arg_list]
        simp [peek_none, scan_cons, hrb]
      | false =>
        obtain ⟨lb1, c1, err1, ia1, h1⟩ := hrun (n + 1) (by simp at hfuel; omega) rb rest lb c
          err ia (by rw [hrb]; rfl)
        refine ⟨lb1, c1, err1, ia1, ?_⟩
        rw [arg_list]
        simp only [List.map_cons, List.map_nil, comma_sep, Bool.false_eq_true, if_false,
          List.cons_append, List.nil_append, peek_none, scan_cons, hne_rb]
        rw [show expr (n + 1) ⟨ts' ++ rb :: rest, some t0, lb, c, err, ia⟩ =
            expr (n + 1) ⟨t0 :: ts' ++ rb :: rest, none, lb, c, err, ia⟩ from
          expr_peek (n + 1) ⟨t0 :: ts' ++ rb :: rest, none, lb, c, err, ia⟩, h1]
        simp only [Res.bind_ok]
        rw [accept_miss _ _ _ _ _ _ _ (by rw [hrb]; decide)]
        simp
    | cons el2 more2 =>
      obtain ⟨lb1, c1, err1, ia1, h1⟩ := hrun (n + 1) (by simp at hfuel; omega) (tok .COMMA)
        (comma_sep ((el2 :: more2).map (·.1)) ++ ((if tr then [tok .COMMA] else []) ++ rb :: rest))
        lb c err ia rfl
      obtain ⟨lb2, c2, err2, ia2, h2⟩ := ih (by simp)
        (fun el' hel' => hall el' (by simp [hel'])) (n + 1) (by simp at hfuel ⊢; omega)
        (arr ++ [e]) (tok .COMMA) c1 err1 ia1
      refine ⟨lb2, c2, err2, ia2, ?_⟩
      rw [arg_list]
      simp only [List.map_cons, comma_sep, List.cons_append, List.append_assoc, peek_none,
        scan_cons, hne_rb, if_false]
      simp only [List.map_cons, List.append_assoc, List.cons_append] at h1 h2
      rw [show expr (n + 1) ⟨ts' ++ tok .COMMA :: (comma_sep (el2.1 :: more2.map (·.1)) ++
              ((if tr then [tok .COMMA] else []) ++ rb :: rest)), some t0, lb, c, err, ia⟩ =
            expr (n + 1) ⟨t0 :: (ts' ++ tok .COMMA :: (comma_sep (el2.1 :: more2.map (·.1)) ++
              ((if tr then [tok .COMMA] else []) ++ rb :: rest))), none, lb, c, err, ia⟩ from
          expr_peek (n + 1) ⟨t0 :: (ts' ++ tok .COMMA :: (comma_sep (el2.1 :: more2.map (·.1)) ++
              ((if tr then [tok .COMMA] else []) ++ rb :: rest))), none, lb, c, err, ia⟩, h1]
      simp only [Res.bind_ok]
      rw [accept_hit .COMMA _ (tok .COMMA) _ _ _ _ rfl]
      simp only [if_true]
      rw [h2]
      simp

/-- An array literal with or without a trailing comma. -/
theorem array_expr_elems (elems : List (List luna_token_t × luna_node_t)) (hne : elems ≠ [])
    (h : ∀ el ∈ elems, ParsesTo el.1 el.2) :
    ∃ f0, ∀ fuel, f0 ≤ fuel → ∀ (lbk rb : luna_token_t) (rest : List luna_token_t)
      (lb : luna_token_t) (c err : Option String) (ia : Int),
      lbk.type = .LBRACK → rb.type = .RBRACK →
      (array_expr fuel ⟨comma_sep (elems.map (·.1)) ++ rb :: rest, some lbk, lb, c, err, ia⟩).value =
        some (some (.array (elems.map (·.2)))) ∧
      (array_expr fuel ⟨comma_sep (elems.map (·.1)) ++ tok .COMMA :: rb :: rest,
          some lbk, lb, c, err, ia⟩).value =
        some (some (.array (elems.map (·.2)))) := by
  obtain ⟨F, hF⟩ := parsesTo_common elems h
  refine ⟨F + elems.length + 3, ?_⟩
  intro fuel hfuel lbk rb rest lb c err ia hlbk hrb
  obtain ⟨n, rfl⟩ : ∃ n, fuel = n + 1 := ⟨fuel - 1, by omega⟩
  constructor
  · obtain ⟨lb', c', err', ia', h1⟩ := arg_list_elems F false rb hrb rest elems hne hF n
      (by omega) [] lbk (some "array") err ia
    simp only [Bool.false_eq_true, if_false, List.nil_append] at h1
    rw [array_expr, accept_hit _ _ _ _ _ _ _ hlbk]
    simp only [if_true, context, h1, Res.bind_ok, accept_hit _ _ _ _ _ _ _ hrb]
    rfl
  · obtain ⟨lb', c', err', ia', h1⟩ := arg_list_elems F true rb hrb rest elems hne hF n
      (by omega) [] lbk (some "array") err ia
    simp only [if_true, List.nil_append, List.cons_append] at h1
    rw [array_expr, accept_hit _ _ _ _ _ _ _ hlbk]
    simp only [if_true, context, h1, Res.bind_ok, accept_hit _ _ _ _ _ _ _ hrb]
    rfl

/-! ### The name to value table -/

theorem hash_get_set_same {α : Type} (h : List (String × α)) (k : String) (v : α) :
    luna_hash_get (luna_hash_set h k v) k = some v := by
  induction h with
  | nil => simp [luna_hash_set, luna_hash_get]
  | cons p h ih =>
    obtain ⟨k', v'⟩ := p
    by_cases hk : k' = k
    · simp [luna_hash_set, luna_hash_get, hk]
    · simp [luna_hash_set, luna_hash_get, hk, ih]

theorem hash_get_set_other {α : Type} (h : List (String × α)) (k key : String) (v : α)
    (hne : k ≠ key) : luna_hash_get (luna_hash_set h k v) key = luna_hash_get h key := by
  induction h with
  | nil => simp [luna_hash_set, luna_hash_get, hne]
  | cons p h ih =>
    obtain ⟨k', v'⟩ := p
    by_cases hk : k' = k
    · subst hk
      simp [luna_hash_set, luna_hash_get, hne]
    · by_cases hk2 : k' = key
      · subst hk2
        simp [luna_hash_set, luna_hash_get, hk]
      · simp [luna_hash_set, luna_hash_get, hk, hk2, ih]

theorem hash_set_keys {α : Type} (h : List (String × α)) (k : String) (v : α) :
    (luna_hash_set h k v).map Prod.fst =
      if k ∈ h.map Prod.fst then h.map Prod.fst else h.map Prod.fst ++ [k] := by
  induction h with
  | nil => simp [luna_hash_set]
  | cons p h ih =>
    obtain ⟨k', v'⟩ := p
    by_cases hk : k' = k
    · subst hk
      simp [luna_hash_set]
    · have hk2 : ¬ k = k' := fun e => hk e.symm
      by_cases hm : k ∈ h.map Prod.fst
      · simp only [luna_hash_set, hk, if_false, List.map_cons, ih, hm, if_true,
          List.mem_cons, hk2, false_or]
      · simp only [luna_hash_set, hk, if_false, List.map_cons, ih, hm, List.mem_cons, hk2,
          false_or, List.cons_append]

theorem hash_fold_get (ps : List (String × luna_node_t)) :
    ∀ (h : List (String × luna_node_t)) (key : String),
      luna_hash_get (ps.foldl (fun h p => luna_hash_set h p.1 p.2) h) key =
        (last_value ps key <|> luna_hash_get h key) := by
  induction ps with
  | nil => intro h key; simp [last_value]
  | cons p ps ih =>
    intro h key
    have hl : last_value (p :: ps) key =
        (last_value ps key <|> if p.1 = key then some p.2 else none) := by
      simp only [last_value, List.reverse_cons, List.find?_append, List.find?_cons,
        List.find?_nil]
      cases (List.find? (fun p => decide (p.1 = key)) ps.reverse) with
      | some v => simp
      | none =>
        by_cases hk : p.1 = key <;> simp [hk]
    rw [List.foldl_cons, ih, hl]
    by_cases hk : p.1 = key
    · subst hk
      simp only [hash_get_set_same, if_true]
      cases last_value ps p.1 <;> rfl
    · simp only [hk, if_false, hash_get_set_other _ _ _ _ hk]
      cases last_value ps key <;> cases luna_hash_get h key <;> rfl

theorem hash_fold_keys (ps : List (String × luna_node_t)) :
    ∀ (h : List (String × luna_node_t)), (h.map Prod.fst).Nodup →
      ((ps.foldl (fun h p => luna_hash_set h p.1 p.2) h).map Prod.fst).Nodup ∧
      ∀ key, key ∈ (ps.foldl (fun h p => luna_hash_set h p.1 p.2) h).map Prod.fst ↔
        key ∈ h.map Prod.fst ∨ key ∈ ps.map Prod.fst := by
  induction ps with
  | nil => intro h hn; simp [hn]
  | cons p ps ih =>
    intro h hn
    have hn2 : ((luna_hash_set h p.1 p.2).map Prod.fst).Nodup := by
      rw [hash_set_keys]
      by_cases hm : p.1 ∈ h.map Prod.fst
      · simpa [hm] using hn
      · simp only [hm, if_false]
        exact List.Nodup.append hn (by simp) (by simpa using hm)
    obtain ⟨h1, h2⟩ := ih (luna_hash_set h p.1 p.2) hn2
    refine ⟨h1, fun key => ?_⟩
    rw [List.foldl_cons, h2, hash_set_keys]
    by_cases hm : p.1 ∈ h.map Prod.fst
    · simp only [hm, if_true, List.map_cons, List.mem_cons]
      constructor
      · rintro (a | a)
        · exact Or.inl a
        · exact Or.inr (Or.inr a)
      · rintro (a | a | a)
        · exact Or.inl a
        · exact Or.inl (a ▸ hm)
        · exact Or.inr a
    · simp only [hm, if_false, List.mem_append, List.mem_singleton, List.map_cons,
        List.mem_cons]
      tauto

theorem accept_cons_hit (k : luna_token) (t : luna_token_t) (lex : List luna_token_t)
    (lb : luna_token_t) (c e : Option String) (i : Int) (h : t.type = k) :
    accept k ⟨t :: lex, none, lb, c, e, i⟩ = (true, ⟨lex, none, t, c, e, i⟩) := by
  simp [accept, peek, luna_scan, h]

/-- `hash_pairs` over `k1 : e1 , ... , kn : en`, up to the closing brace. -/
theorem hash_pairs_elems (F : Nat) (rb : luna_token_t) (hrb : rb.type = .RBRACE)
    (rest : List luna_token_t) (pairs : List (String × List luna_token_t × luna_node_t)) :
    pairs ≠ [] →
    (∀ p ∈ pairs, ExprRuns F p.2.1 p.2.2) →
    ∀ (fuel : Nat), F + pairs.length + 2 ≤ fuel →
    ∀ (hash : List (String × luna_node_t)) (lb : luna_token_t) (c err : Option String)
      (ia : Int),
    ∃ lb' c' err' ia',
      hash_pairs fuel hash .RBRACE
        ⟨hash_stream (pairs.map fun p => (p.1, p.2.1)) ++ rb :: rest, none, lb, c, err, ia⟩ =
      .ok (true, (pairs.map fun p => (p.1, p.2.2)).foldl
          (fun h p => luna_hash_set h p.1 p.2) hash)
        ⟨rest, some rb, lb', c', err', ia'⟩ := by
  induction pairs with
  | nil => intro h; exact absurd rfl h
  | cons p more ih =>
    intro _ hall fuel hfuel hash lb c err ia
    have hrun := hall p (by simp)
    obtain ⟨key, ts, e⟩ := p
    simp only at hrun
    obtain ⟨n, rfl⟩ : ∃ n, fuel = n + 1 + 1 := ⟨fuel - 2, by omega⟩
    have hid : (ident key).type = .ID := rfl
    have hne : ¬ (luna_token.RBRACE = (ident key).type) := by rw [hid]; decide
    cases more with
    | nil =>
      obtain ⟨lb1, c1, err1, ia1, h1⟩ := hrun (n + 1) (by simp at hfuel; omega) rb rest
        (tok .COLON) c err ia (by rw [hrb]; rfl)
      refine ⟨lb1, c1, err1, ia1, ?_⟩
      rw [hash_pairs]
      simp only [List.map_cons, List.map_nil, hash_stream, List.cons_append, peek_none,
        scan_cons, hne, if_false, is_some, hid, decide_True, if_true, next_some,
        accept_cons_hit .COLON (tok .COLON) _ _ _ _ _ rfl, h1, Res.bind_ok]
      rw [accept_miss _ _ _ _ _ _ _ (by rw [hrb]; decide)]
      simp [ident]
    | cons p2 more2 =>
      obtain ⟨lb1, c1, err1, ia1, h1⟩ := hrun (n + 1) (by simp at hfuel; omega) (tok .COMMA)
        (hash_stream ((p2 :: more2).map fun p => (p.1, p.2.1)) ++ rb :: rest)
        (tok .COLON) c err ia rfl
      obtain ⟨lb2, c2, err2, ia2, h2⟩ := ih (by simp)
        (fun p' hp' => hall p' (by simp [hp'])) (n + 1) (by simp at hfuel ⊢; omega)
        (luna_hash_set hash key e) (tok .COMMA) c1 err1 ia1
      refine ⟨lb2, c2, err2, ia2, ?_⟩
      rw [hash_pairs]
      simp only [List.map_cons, List.append_assoc, List.cons_append] at h1 h2
      simp only [List.map_cons, hash_stream, List.cons_append, List.append_assoc, peek_none,
        scan_cons, hne, if_false, is_some, hid, decide_True, if_true, next_some,
        accept_cons_hit .COLON (tok .COLON) _ _ _ _ _ rfl, h1, Res.bind_ok,
        accept_hit .COMMA _ (tok .COMMA) _ _ _ _ rfl]
      simp only [ident, List.map_cons] at h2 ⊢
      rw [h2]
      simp

/-- A hash literal `k1 : e1 , ... , kn : en` between braces. -/
theorem hash_expr_pairs (pairs : List (String × List luna_token_t × luna_node_t))
    (h : ∀ p ∈ pairs, ParsesTo p.2.1 p.2.2) :
    ∃ f0, ∀ fuel, f0 ≤ fuel → ∀ (lbr rb : luna_token_t) (rest : List luna_token_t)
      (lb : luna_token_t) (c err : Option String) (ia : Int),
      lbr.type = .LBRACE → rb.type = .RBRACE →
      (hash_expr fuel ⟨hash_stream (pairs.map fun p => (p.1, p.2.1)) ++ rb :: rest,
          some lbr, lb, c, err, ia⟩).value =
        some (some (.hash (hash_of (pairs.map fun p => (p.1, p.2.2))))) := by
  obtain ⟨F, hF⟩ := parsesTo_common (pairs.map fun p => p.2) (by
    intro el hel
    obtain ⟨p, hp, rfl⟩ := List.mem_map.1 hel
    exact h p hp)
  refine ⟨F + pairs.length + 3, ?_⟩
  intro fuel hfuel lbr rb rest lb c err ia hlbr hrb
  obtain ⟨n, rfl⟩ : ∃ n, fuel = n + 1 + 1 := ⟨fuel - 2, by omega⟩
  rw [hash_expr, accept_hit _ _ _ _ _ _ _ hlbr]
  simp only [if_true, context]
  by_cases hne : pairs = []
  · subst hne
    rw [hash_pairs]
    simp only [List.map_nil, hash_stream, List.nil_append, peek_none, scan_cons, hrb, if_true,
      Res.bind_ok, accept_hit _ _ _ _ _ _ _ hrb]
    rfl
  · obtain ⟨lb', c', err', ia', h1⟩ := hash_pairs_elems F rb hrb rest pairs hne
      (fun p hp => (hF p.2 (List.mem_map.2 ⟨p, hp, rfl⟩)).1) (n + 1) (by omega) [] lbr
      (some "hash") err ia
    rw [h1]
    simp only [Res.bind_ok, if_true, accept_hit _ _ _ _ _ _ _ hrb]
    rfl

/-! ## A frame principle for the whole grammar -/

set_option linter.unusedTactic false
set_option linter.unreachableTactic false

section
variable {R : luna_parser_t → luna_parser_t → Prop}

theorem Frame.to_peek (hR : Frame R) {s a : luna_parser_t} (h : R s a) : R s (Luna.peek a).2 :=
  hR.trans h (hR.peek a)

theorem Frame.to_next (hR : Frame R) {s a : luna_parser_t} (h : R s a) : R s (Luna.next a).2 :=
  hR.trans h (hR.next a)

theorem Frame.to_accept (hR : Frame R) {s a : luna_parser_t} (t : luna_token) (h : R s a) :
    R s (Luna.accept t a).2 :=
  hR.trans h (hR.accept t a)

theorem Frame.to_is (hR : Frame R) {s a : luna_parser_t} (t : luna_token) (h : R s a) :
    R s (Luna.is t a).2 :=
  hR.trans h (hR.peek a)

theorem Frame.to_context (hR : Frame R) {s a : luna_parser_t} (c : String) (h : R s a) :
    R s (Luna.context c a) :=
  hR.trans h (hR.context c a)

theorem Frame.to_error (hR : Frame R) {s a : luna_parser_t} (m : String) (h : R s a) :
    R s (Luna.error m a) :=
  hR.trans h (hR.error m a)

theorem Frame.to_in_args (hR : Frame R) {s a : luna_parser_t} (k : Int) (h : R s a) :
    R s { a with in_args := k } :=
  hR.trans h (hR.in_args a k)

theorem Frame.to_accept_any (hR : Frame R) {s a : luna_parser_t} (ops : List luna_token)
    (h : R s a) : R s (Luna.accept_any ops a).2 := by
  induction ops generalizing a with
  | nil => exact h
  | cons t ts ih =>
    rw [accept_any]
    split
    · exact hR.to_accept t h
    · exact ih (hR.to_accept t h)

theorem Sat_ok_frame {α : Type} {s s' : luna_parser_t} {v : α} (h : R s s') :
    (Res.ok v s').Sat fun _ s'' => R s s'' := h

theorem Sat_bind_frame {α β : Type} (hR : Frame R) {s s0 : luna_parser_t} {r : Res α}
    {k : α → luna_parser_t → Res β}
    (h0 : R s s0) (hr : r.Sat fun _ s1 => R s0 s1)
    (hk : ∀ v s1, R s s1 → (k v s1).Sat fun _ s' => R s s') :
    (r.bind k).Sat fun _ s' => R s s' := by
  cases r with
  | ok v s1 => exact hk v s1 (hR.trans h0 hr)
  | undefined => trivial
  | fuel => trivial

theorem Sat_bind_frame2 {α β : Type} {s : luna_parser_t} {r : Res α}
    {k : α → luna_parser_t → Res β}
    (hr : r.Sat fun _ s1 => R s s1)
    (hk : ∀ v s1, R s s1 → (k v s1).Sat fun _ s' => R s s') :
    (r.bind k).Sat fun _ s' => R s s' := by
  cases r with
  | ok v s1 => exact hk v s1 hr
  | undefined => trivial
  | fuel => trivial

theorem Sat_frame_call {α : Type} (hR : Frame R) {s s0 : luna_parser_t} {r : Res α}
    (h0 : R s s0) (hr : r.Sat fun _ s1 => R s0 s1) : r.Sat fun _ s' => R s s' := by
  cases r with
  | ok v s1 => exact hR.trans h0 hr
  | undefined => trivial
  | fuel => trivial

theorem binary_loop_frame (hR : Frame R) (ops : List luna_token)
    (op : luna_parser_t → luna_token) (ctx : String)
    (operand : luna_parser_t → Res (Option luna_node_t))
    (hop : ∀ s, (operand s).Sat fun _ s' => R s s') (k : Nat) :
    ∀ (node : luna_node_t) (s : luna_parser_t),
      (binary_loop ops op ctx operand k node s).Sat fun _ s' => R s s' := by
  induction k with
  | zero => intro node s; trivial
  | succ k ih =>
    intro node s
    rw [binary_loop]
    dsimp only
    split
    · refine Sat_bind_frame hR (hR.to_context _ (hR.to_accept_any _ (hR.refl s))) (hop _) ?_
      intro v s1 h1
      split
      · exact Sat_frame_call hR h1 (ih _ _)
      · exact Sat_ok_frame (hR.to_error _ h1)
    · exact Sat_ok_frame (hR.to_accept_any _ (hR.refl s))

theorem paren_expr_framed (hR : Frame R) (n : Nat) (ih : Framed R n) (s : luna_parser_t) :
    (paren_expr (n + 1) s).Sat fun _ s' => R s s' := by
  rw [paren_expr]
  try dsimp only
  repeat' first
    | assumption
    | exact hR.refl _
    | exact True.intro
    | with_reducible apply hR.to_accept
    | with_reducible apply hR.to_peek
    | with_reducible apply hR.to_next
    | with_reducible apply hR.to_is
    | with_reducible apply hR.to_accept_any
    | with_reducible apply hR.to_context
    | with_reducible apply hR.to_error
    | with_reducible apply hR.to_in_args
    | with_reducible refine Sat_bind_frame2 ?_ (fun v s1 h1 => ?_)
    | with_reducible refine Sat_frame_call hR ?_ (ih.expr _)
    | with_reducible apply Sat_ok_frame
    | split

theorem arg_list_framed (hR : Frame R) (n : Nat) (ih : Framed R n) (arr : List luna_node_t) (d : luna_token) (s : luna_parser_t) :
    (arg_list (n + 1) arr d s).Sat fun _ s' => R s s' := by
  rw [arg_list]
  try dsimp only
  repeat' first
    | assumption
    | exact hR.refl _
    | exact True.intro
    | with_reducible apply hR.to_accept
    | with_reducible apply hR.to_peek
    | with_reducible apply hR.to_next
    | with_reducible apply hR.to_is
    | with_reducible apply hR.to_accept_any
    | with_reducible apply hR.to_context
    | with_reducible apply hR.to_error
    | with_reducible apply hR.to_in_args
    | with_reducible refine Sat_bind_frame2 ?_ (fun v s1 h1 => ?_)
    | with_reducible refine Sat_frame_call hR ?_ (ih.expr _)
    | with_reducible refine Sat_frame_call hR ?_ (ih.arg_list _ _ _)
    | with_reducible apply Sat_ok_frame
    | split

theorem array_expr_framed (hR : Frame R) (n : Nat) (ih : Framed R n) (s : luna_parser_t) :
    (array_expr (n + 1) s).Sat fun _ s' => R s s' := by
  rw [array_expr]
  try dsimp only
  repeat' first
    | assumption
    | exact hR.refl _
    | exact True.intro
    | with_reducible apply hR.to_accept
    | with_reducible apply hR.to_peek
    | with_reducible apply hR.to_next
    | with_reducible apply hR.to_is
    | with_reducible apply hR.to_accept_any
    | with_reducible apply hR.to_context
    | with_reducible apply hR.to_error
    | with_reducible apply hR.to_in_args
    | with_reducible refine Sat_bind_frame2 ?_ (fun v s1 h1 => ?_)
    | with_reducible refine Sat_frame_call hR ?_ (ih.arg_list _ _ _)
    | with_reducible apply Sat_ok_frame
    | split

theorem hash_pairs_framed (hR : Frame R) (n : Nat) (ih : Framed R n) (h : List (String × luna_node_t)) (d : luna_token) (s : luna_parser_t) :
    (hash_pairs (n + 1) h d s).Sat fun _ s' => R s s' := by
  rw [hash_pairs]
  try dsimp only
  repeat' first
    | assumption
    | exact hR.refl _
    | exact True.intro
    | with_reducible apply hR.to_accept
    | with_reducible apply hR.to_peek
    | with_reducible apply hR.to_next
    | with_reducible apply hR.to_is
    | with_reducible apply hR.to_accept_any
    | with_reducible apply hR.to_context
    | with_reducible apply hR.to_error
    | with_reducible apply hR.to_in_args
    | with_reducible refine Sat_bind_frame2 ?_ (fun v s1 h1 => ?_)
    | with_reducible refine Sat_frame_call hR ?_ (ih.expr _)
    | with_reducible refine Sat_frame_call hR ?_ (ih.hash_pairs _ _ _)
    | with_reducible apply Sat_ok_frame
    | split

theorem hash_expr_framed (hR : Frame R) (n : Nat) (ih : Framed R n) (s : luna_parser_t) :
    (hash_expr (n + 1) s).Sat fun _ s' => R s s' := by
  rw [hash_expr]
  try dsimp only
  repeat' first
    | assumption
    | exact hR.refl _
    | exact True.intro
    | with_reducible apply hR.to_accept
    | with_reducible apply hR.to_peek
    | with_reducible apply hR.to_next
    | with_reducible apply hR.to_is
    | with_reducible apply hR.to_accept_any
    | with_reducible apply hR.to_context
    | with_reducible apply hR.to_error
    | with_reducible apply hR.to_in_args
    | with_reducible refine Sat_bind_frame2 ?_ (fun v s1 h1 => ?_)
    | with_reducible refine Sat_frame_call hR ?_ (ih.hash_pairs _ _ _)
    | with_reducible apply Sat_ok_frame
    | split

theorem primary_expr_framed (hR : Frame R) (n : Nat) (ih : Framed R n) (s : luna_parser_t) :
    (primary_expr (n + 1) s).Sat fun _ s' => R s s' := by
  rw [primary_expr]
  try dsimp only
  repeat' first
    | assumption
    | exact hR.refl _
    | exact True.intro
    | with_reducible apply hR.to_accept
    | with_reducible apply hR.to_peek
    | with_reducible apply hR.to_next
    | with_reducible apply hR.to_is
    | with_reducible apply hR.to_accept_any
    | with_reducible apply hR.to_context
    | with_reducible apply hR.to_error
    | with_reducible apply hR.to_in_args
    | with_reducible refine Sat_bind_frame2 ?_ (fun v s1 h1 => ?_)
    | with_reducible refine Sat_frame_call hR ?_ (ih.array_expr _)
    | with_reducible refine Sat_frame_call hR ?_ (ih.hash_expr _)
    | with_reducible refine Sat_frame_call hR ?_ (ih.paren_expr _)
    | with_reducible apply Sat_ok_frame
    | split

theorem slot_access_expr_framed (hR : Frame R) (n : Nat) (ih : Framed R n) (s : luna_parser_t) :
    (slot_access_expr (n + 1) s).Sat fun _ s' => R s s' := by
  rw [slot_access_expr]
  try dsimp only
  repeat' first
    | assumption
    | exact hR.refl _
    | exact True.intro
    | with_reducible apply hR.to_accept
    | with_reducible apply hR.to_peek
    | with_reducible apply hR.to_next
    | with_reducible apply hR.to_is
    | with_reducible apply hR.to_accept_any
    | with_reducible apply hR.to_context
    | with_reducible apply hR.to_error
    | with_reducible apply hR.to_in_args
    | with_reducible refine Sat_bind_frame2 ?_ (fun v s1 h1 => ?_)
    | with_reducible refine Sat_frame_call hR ?_ (ih.primary_expr _)
    | with_reducible apply Sat_ok_frame
    | split

theorem call_args_loop_framed (hR : Frame R) (n : Nat) (ih : Framed R n) (a : luna_args_node_t luna_node_t) (s : luna_parser_t) :
    (call_args_loop (n + 1) a s).Sat fun _ s' => R s s' := by
  rw [call_args_loop]
  try dsimp only
  repeat' first
    | assumption
    | exact hR.refl _
    | exact True.intro
    | with_reducible apply hR.to_accept
    | with_reducible apply hR.to_peek
    | with_reducible apply hR.to_next
    | with_reducible apply hR.to_is
    | with_reducible apply hR.to_accept_any
    | with_reducible apply hR.to_context
    | with_reducible apply hR.to_error
    | with_reducible apply hR.to_in_args
    | with_reducible refine Sat_bind_frame2 ?_ (fun v s1 h1 => ?_)
    | with_reducible refine Sat_frame_call hR ?_ (ih.expr _)
    | with_reducible refine Sat_frame_call hR ?_ (ih.call_args_loop _ _)
    | with_reducible apply Sat_ok_frame
    | split

theorem call_args_framed (hR : Frame R) (n : Nat) (ih : Framed R n) (s : luna_parser_t) :
    (call_args (n + 1) s).Sat fun _ s' => R s s' := by
  rw [call_args]
  try dsimp only
  repeat' first
    | assumption
    | exact hR.refl _
    | exact True.intro
    | with_reducible apply hR.to_accept
    | with_reducible apply hR.to_peek
    | with_reducible apply hR.to_next
    | with_reducible apply hR.to_is
    | with_reducible apply hR.to_accept_any
    | with_reducible apply hR.to_context
    | with_reducible apply hR.to_error
    | with_reducible apply hR.to_in_args
    | with_reducible refine Sat_bind_frame2 ?_ (fun v s1 h1 => ?_)
    | with_reducible refine Sat_frame_call hR ?_ (ih.call_args_loop _ _)
    | with_reducible apply Sat_ok_frame
    | split

theorem call_expr_framed (hR : Frame R) (n : Nat) (ih : Framed R n) (s : luna_parser_t) :
    (call_expr (n + 1) s).Sat fun _ s' => R s s' := by
  rw [call_expr]
  try dsimp only
  repeat' first
    | assumption
    | exact hR.refl _
    | exact True.intro
    | with_reducible apply hR.to_accept
    | with_reducible apply hR.to_peek
    | with_reducible apply hR.to_next
    | with_reducible apply hR.to_is
    | with_reducible apply hR.to_accept_any
    | with_reducible apply hR.to_context
    | with_reducible apply hR.to_error
    | with_reducible apply hR.to_in_args
    | with_reducible refine Sat_bind_frame2 ?_ (fun v s1 h1 => ?_)
    | with_reducible refine Sat_frame_call hR ?_ (ih.slot_access_expr _)
    | with_reducible refine Sat_frame_call hR ?_ (ih.call_args _)
    | with_reducible refine Sat_frame_call hR ?_ (ih.call_expr _)
    | with_reducible apply Sat_ok_frame
    | split

theorem pow_expr_framed (hR : Frame R) (n : Nat) (ih : Framed R n) (s : luna_parser_t) :
    (pow_expr (n + 1) s).Sat fun _ s' => R s s' := by
  rw [pow_expr]
  try dsimp only
  repeat' first
    | assumption
    | exact hR.refl _
    | exact True.intro
    | with_reducible apply hR.to_accept
    | with_reducible apply hR.to_peek
    | with_reducible apply hR.to_next
    | with_reducible apply hR.to_is
    | with_reducible apply hR.to_accept_any
    | with_reducible apply hR.to_context
    | with_reducible apply hR.to_error
    | with_reducible apply hR.to_in_args
    | with_reducible refine Sat_bind_frame2 ?_ (fun v s1 h1 => ?_)
    | with_reducible refine Sat_frame_call hR ?_ (ih.call_expr _)
    | with_reducible apply Sat_ok_frame
    | split

theorem postfix_expr_framed (hR : Frame R) (n : Nat) (ih : Framed R n) (s : luna_parser_t) :
    (postfix_expr (n + 1) s).Sat fun _ s' => R s s' := by
  rw [postfix_expr]
  try dsimp only
  repeat' first
    | assumption
    | exact hR.refl _
    | exact True.intro
    | with_reducible apply hR.to_accept
    | with_reducible apply hR.to_peek
    | with_reducible apply hR.to_next
    | with_reducible apply hR.to_is
    | with_reducible apply hR.to_accept_any
    | with_reducible apply hR.to_context
    | with_reducible apply hR.to_error
    | with_reducible apply hR.to_in_args
    | with_reducible refine Sat_bind_frame2 ?_ (fun v s1 h1 => ?_)
    | with_reducible refine Sat_frame_call hR ?_ (ih.pow_expr _)
    | with_reducible apply Sat_ok_frame
    | split

theorem unary_expr_framed (hR : Frame R) (n : Nat) (ih : Framed R n) (s : luna_parser_t) :
    (unary_expr (n + 1) s).Sat fun _ s' => R s s' := by
  rw [unary_expr]
  try dsimp only
  repeat' first
    | assumption
    | exact hR.refl _
    | exact True.intro
    | with_reducible apply hR.to_accept
    | with_reducible apply hR.to_peek
    | with_reducible apply hR.to_next
    | with_reducible apply hR.to_is
    | with_reducible apply hR.to_accept_any
    | with_reducible apply hR.to_context
    | with_reducible apply hR.to_error
    | with_reducible apply hR.to_in_args
    | with_reducible refine Sat_bind_frame2 ?_ (fun v s1 h1 => ?_)
    | with_reducible refine Sat_frame_call hR ?_ (ih.unary_expr _)
    | with_reducible refine Sat_frame_call hR ?_ (ih.postfix_expr _)
    | with_reducible apply Sat_ok_frame
    | split

theorem assignment_expr_framed (hR : Frame R) (n : Nat) (ih : Framed R n) (s : luna_parser_t) :
    (assignment_expr (n + 1) s).Sat fun _ s' => R s s' := by
  have hlo : ∀ s, (logical_or_expr n s).Sat fun _ s' => R s s' := ih.level_expr 9
  rw [assignment_expr]
  try dsimp only
  repeat' first
    | assumption
    | exact hR.refl _
    | exact True.intro
    | with_reducible apply hR.to_accept
    | with_reducible apply hR.to_peek
    | with_reducible apply hR.to_next
    | with_reducible apply hR.to_is
    | with_reducible apply hR.to_accept_any
    | with_reducible apply hR.to_context
    | with_reducible apply hR.to_error
    | with_reducible apply hR.to_in_args
    | with_reducible refine Sat_bind_frame2 ?_ (fun v s1 h1 => ?_)
    | with_reducible refine Sat_frame_call hR ?_ (hlo _)
    | with_reducible refine Sat_frame_call hR ?_ (ih.not_expr _)
    | with_reducible apply Sat_ok_frame
    | split

theorem not_expr_framed (hR : Frame R) (n : Nat) (ih : Framed R n) (s : luna_parser_t) :
    (not_expr (n + 1) s).Sat fun _ s' => R s s' := by
  rw [not_expr]
  try dsimp only
  repeat' first
    | assumption
    | exact hR.refl _
    | exact True.intro
    | with_reducible apply hR.to_accept
    | with_reducible apply hR.to_peek
    | with_reducible apply hR.to_next
    | with_reducible apply hR.to_is
    | with_reducible apply hR.to_accept_any
    | with_reducible apply hR.to_context
    | with_reducible apply hR.to_error
    | with_reducible apply hR.to_in_args
    | with_reducible refine Sat_bind_frame2 ?_ (fun v s1 h1 => ?_)
    | with_reducible refine Sat_frame_call hR ?_ (ih.not_expr _)
    | with_reducible refine Sat_frame_call hR ?_ (ih.assignment_expr _)
    | with_reducible apply Sat_ok_frame
    | split

theorem expr_framed (hR : Frame R) (n : Nat) (ih : Framed R n) (s : luna_parser_t) :
    (expr (n + 1) s).Sat fun _ s' => R s s' := by
  rw [expr]
  try dsimp only
  repeat' first
    | assumption
    | exact hR.refl _
    | exact True.intro
    | with_reducible apply hR.to_accept
    | with_reducible apply hR.to_peek
    | with_reducible apply hR.to_next
    | with_reducible apply hR.to_is
    | with_reducible apply hR.to_accept_any
    | with_reducible apply hR.to_context
    | with_reducible apply hR.to_error
    | with_reducible apply hR.to_in_args
    | with_reducible refine Sat_bind_frame2 ?_ (fun v s1 h1 => ?_)
    | with_reducible refine Sat_frame_call hR ?_ (ih.not_expr _)
    | with_reducible apply Sat_ok_frame
    | split

theorem expr_stmt_framed (hR : Frame R) (n : Nat) (ih : Framed R n) (s : luna_parser_t) :
    (expr_stmt (n + 1) s).Sat fun _ s' => R s s' := by
  rw [expr_stmt]
  try dsimp only
  repeat' first
    | assumption
    | exact hR.refl _
    | exact True.intro
    | with_reducible apply hR.to_accept
    | with_reducible apply hR.to_peek
    | with_reducible apply hR.to_next
    | with_reducible apply hR.to_is
    | with_reducible apply hR.to_accept_any
    | with_reducible apply hR.to_context
    | with_reducible apply hR.to_error
    | with_reducible apply hR.to_in_args
    | with_reducible refine Sat_bind_frame2 ?_ (fun v s1 h1 => ?_)
    | with_reducible refine Sat_frame_call hR ?_ (ih.expr _)
    | with_reducible apply Sat_ok_frame
    | split

theorem type_stmt_loop_framed (hR : Frame R) (n : Nat) (ih : Framed R n) (t : luna_node_t) (s : luna_parser_t) :
    (type_stmt_loop (n + 1) t s).Sat fun _ s' => R s s' := by
  rw [type_stmt_loop]
  try dsimp only
  repeat' first
    | assumption
    | exact hR.refl _
    | exact True.intro
    | with_reducible apply hR.to_accept
    | with_reducible apply hR.to_peek
    | with_reducible apply hR.to_next
    | with_reducible apply hR.to_is
    | with_reducible apply hR.to_accept_any
    | with_reducible apply hR.to_context
    | with_reducible apply hR.to_error
    | with_reducible apply hR.to_in_args
    | with_reducible refine Sat_bind_frame2 ?_ (fun v s1 h1 => ?_)
    | with_reducible refine Sat_frame_call hR ?_ (ih.type_stmt_loop _ _)
    | with_reducible apply Sat_ok_frame
    | split

theorem type_stmt_framed (hR : Frame R) (n : Nat) (ih : Framed R n) (s : luna_parser_t) :
    (type_stmt (n + 1) s).Sat fun _ s' => R s s' := by
  rw [type_stmt]
  try dsimp only
  repeat' first
    | assumption
    | exact hR.refl _
    | exact True.intro
    | with_reducible apply hR.to_accept
    | with_reducible apply hR.to_peek
    | with_reducible apply hR.to_next
    | with_reducible apply hR.to_is
    | with_reducible apply hR.to_accept_any
    | with_reducible apply hR.to_context
    | with_reducible apply hR.to_error
    | with_reducible apply hR.to_in_args
    | with_reducible refine Sat_bind_frame2 ?_ (fun v s1 h1 => ?_)
    | with_reducible refine Sat_frame_call hR ?_ (ih.type_stmt_loop _ _)
    | with_reducible apply Sat_ok_frame
    | split

theorem function_params_loop_framed (hR : Frame R) (n : Nat) (ih : Framed R n) (p : List luna_node_t) (s : luna_parser_t) :
    (function_params_loop (n + 1) p s).Sat fun _ s' => R s s' := by
  rw [function_params_loop]
  try dsimp only
  repeat' first
    | assumption
    | exact hR.refl _
    | exact True.intro
    | with_reducible apply hR.to_accept
    | with_reducible apply hR.to_peek
    | with_reducible apply hR.to_next
    | with_reducible apply hR.to_is
    | with_reducible apply hR.to_accept_any
    | with_reducible apply hR.to_context
    | with_reducible apply hR.to_error
    | with_reducible apply hR.to_in_args
    | with_reducible refine Sat_bind_frame2 ?_ (fun v s1 h1 => ?_)
    | with_reducible refine Sat_frame_call hR ?_ (ih.expr _)
    | with_reducible refine Sat_frame_call hR ?_ (ih.function_params_loop _ _)
    | with_reducible apply Sat_ok_frame
    | split

theorem function_params_framed (hR : Frame R) (n : Nat) (ih : Framed R n) (s : luna_parser_t) :
    (function_params (n + 1) s).Sat fun _ s' => R s s' := by
  rw [function_params]
  try dsimp only
  repeat' first
    | assumption
    | exact hR.refl _
    | exact True.intro
    | with_reducible apply hR.to_accept
    | with_reducible apply hR.to_peek
    | with_reducible apply hR.to_next
    | with_reducible apply hR.to_is
    | with_reducible apply hR.to_accept_any
    | with_reducible apply hR.to_context
    | with_reducible apply hR.to_error
    | with_reducible apply hR.to_in_args
    | with_reducible refine Sat_bind_frame2 ?_ (fun v s1 h1 => ?_)
    | with_reducible refine Sat_frame_call hR ?_ (ih.function_params_loop _ _)
    | with_reducible apply Sat_ok_frame
    | split

theorem function_stmt_framed (hR : Frame R) (n : Nat) (ih : Framed R n) (s : luna_parser_t) :
    (function_stmt (n + 1) s).Sat fun _ s' => R s s' := by
  rw [function_stmt]
  try dsimp only
  repeat' first
    | assumption
    | exact hR.refl _
    | exact True.intro
    | with_reducible apply hR.to_accept
    | with_reducible apply hR.to_peek
    | with_reducible apply hR.to_next
    | with_reducible apply hR.to_is
    | with_reducible apply hR.to_accept_any
    | with_reducible apply hR.to_context
    | with_reducible apply hR.to_error
    | with_reducible apply hR.to_in_args
    | with_reducible refine Sat_bind_frame2 ?_ (fun v s1 h1 => ?_)
    | with_reducible refine Sat_frame_call hR ?_ (ih.function_params _)
    | with_reducible refine Sat_frame_call hR ?_ (ih.block _)
    | with_reducible apply Sat_ok_frame
    | split

theorem if_stmt_loop_framed (hR : Frame R) (n : Nat) (ih : Framed R n) (ng : Bool) (c : luna_node_t) (b : luna_block_node_t) (e : List luna_node_t) (s : luna_parser_t) :
    (if_stmt_loop (n + 1) ng c b e s).Sat fun _ s' => R s s' := by
  rw [if_stmt_loop]
  try dsimp only
  repeat' first
    | assumption
    | exact hR.refl _
    | exact True.intro
    | with_reducible apply hR.to_accept
    | with_reducible apply hR.to_peek
    | with_reducible apply hR.to_next
    | with_reducible apply hR.to_is
    | with_reducible apply hR.to_accept_any
    | with_reducible apply hR.to_context
    | with_reducible apply hR.to_error
    | with_reducible apply hR.to_in_args
    | with_reducible refine Sat_bind_frame2 ?_ (fun v s1 h1 => ?_)
    | with_reducible refine Sat_frame_call hR ?_ (ih.expr _)
    | with_reducible refine Sat_frame_call hR ?_ (ih.block _)
    | with_reducible refine Sat_frame_call hR ?_ (ih.if_stmt_loop _ _ _ _ _)
    | with_reducible apply Sat_ok_frame
    | split

theorem if_stmt_framed (hR : Frame R) (n : Nat) (ih : Framed R n) (s : luna_parser_t) :
    (if_stmt (n + 1) s).Sat fun _ s' => R s s' := by
  rw [if_stmt]
  try dsimp only
  repeat' first
    | assumption
    | exact hR.refl _
    | exact True.intro
    | with_reducible apply hR.to_accept
    | with_reducible apply hR.to_peek
    | with_reducible apply hR.to_next
    | with_reducible apply hR.to_is
    | with_reducible apply hR.to_accept_any
    | with_reducible apply hR.to_context
    | with_reducible apply hR.to_error
    | with_reducible apply hR.to_in_args
    | with_reducible refine Sat_bind_frame2 ?_ (fun v s1 h1 => ?_)
    | with_reducible refine Sat_frame_call hR ?_ (ih.expr _)
    | with_reducible refine Sat_frame_call hR ?_ (ih.block _)
    | with_reducible refine Sat_frame_call hR ?_ (ih.if_stmt_loop _ _ _ _ _)
    | with_reducible apply Sat_ok_frame
    | split

theorem while_stmt_framed (hR : Frame R) (n : Nat) (ih : Framed R n) (s : luna_parser_t) :
    (while_stmt (n + 1) s).Sat fun _ s' => R s s' := by
  rw [while_stmt]
  try dsimp only
  repeat' first
    | assumption
    | exact hR.refl _
    | exact True.intro
    | with_reducible apply hR.to_accept
    | with_reducible apply hR.to_peek
    | with_reducible apply hR.to_next
    | with_reducible apply hR.to_is
    | with_reducible apply hR.to_accept_any
    | with_reducible apply hR.to_context
    | with_reducible apply hR.to_error
    | with_reducible apply hR.to_in_args
    | with_reducible refine Sat_bind_frame2 ?_ (fun v s1 h1 => ?_)
    | with_reducible refine Sat_frame_call hR ?_ (ih.expr _)
    | with_reducible refine Sat_frame_call hR ?_ (ih.block _)
    | with_reducible apply Sat_ok_frame
    | split

theorem return_stmt_framed (hR : Frame R) (n : Nat) (ih : Framed R n) (s : luna_parser_t) :
    (return_stmt (n + 1) s).Sat fun _ s' => R s s' := by
  rw [return_stmt]
  try dsimp only
  repeat' first
    | assumption
    | exact hR.refl _
    | exact True.intro
    | with_reducible apply hR.to_accept
    | with_reducible apply hR.to_peek
    | with_reducible apply hR.to_next
    | with_reducible apply hR.to_is
    | with_reducible apply hR.to_accept_any
    | with_reducible apply hR.to_context
    | with_reducible apply hR.to_error
    | with_reducible apply hR.to_in_args
    | with_reducible refine Sat_bind_frame2 ?_ (fun v s1 h1 => ?_)
    | with_reducible refine Sat_frame_call hR ?_ (ih.expr _)
    | with_reducible apply Sat_ok_frame
    | split

theorem stmt_framed (hR : Frame R) (n : Nat) (ih : Framed R n) (s : luna_parser_t) :
    (stmt (n + 1) s).Sat fun _ s' => R s s' := by
  rw [stmt]
  try dsimp only
  repeat' first
    | assumption
    | exact hR.refl _
    | exact True.intro
    | with_reducible apply hR.to_accept
    | with_reducible apply hR.to_peek
    | with_reducible apply hR.to_next
    | with_reducible apply hR.to_is
    | with_reducible apply hR.to_accept_any
    | with_reducible apply hR.to_context
    | with_reducible apply hR.to_error
    | with_reducible apply hR.to_in_args
    | with_reducible refine Sat_bind_frame2 ?_ (fun v s1 h1 => ?_)
    | with_reducible refine Sat_frame_call hR ?_ (ih.if_stmt _)
    | with_reducible refine Sat_frame_call hR ?_ (ih.while_stmt _)
    | with_reducible refine Sat_frame_call hR ?_ (ih.return_stmt _)
    | with_reducible refine Sat_frame_call hR ?_ (ih.function_stmt _)
    | with_reducible refine Sat_frame_call hR ?_ (ih.type_stmt _)
    | with_reducible refine Sat_frame_call hR ?_ (ih.expr_stmt _)
    | with_reducible apply Sat_ok_frame
    | split

theorem block_loop_framed (hR : Frame R) (n : Nat) (ih : Framed R n) (st : List luna_node_t) (s : luna_parser_t) :
    (block_loop (n + 1) st s).Sat fun _ s' => R s s' := by
  rw [block_loop]
  try dsimp only
  repeat' first
    | assumption
    | exact hR.refl _
    | exact True.intro
    | with_reducible apply hR.to_accept
    | with_reducible apply hR.to_peek
    | with_reducible apply hR.to_next
    | with_reducible apply hR.to_is
    | with_reducible apply hR.to_accept_any
    | with_reducible apply hR.to_context
    | with_reducible apply hR.to_error
    | with_reducible apply hR.to_in_args
    | with_reducible refine Sat_bind_frame2 ?_ (fun v s1 h1 => ?_)
    | with_reducible refine Sat_frame_call hR ?_ (ih.stmt _)
    | with_reducible refine Sat_frame_call hR ?_ (ih.block_loop _ _)
    | with_reducible apply Sat_ok_frame
    | split

theorem block_framed (hR : Frame R) (n : Nat) (ih : Framed R n) (s : luna_parser_t) :
    (block (n + 1) s).Sat fun _ s' => R s s' := by
  rw [block]
  try dsimp only
  repeat' first
    | assumption
    | exact hR.refl _
    | exact True.intro
    | with_reducible apply hR.to_accept
    | with_reducible apply hR.to_peek
    | with_reducible apply hR.to_next
    | with_reducible apply hR.to_is
    | with_reducible apply hR.to_accept_any
    | with_reducible apply hR.to_context
    | with_reducible apply hR.to_error
    | with_reducible apply hR.to_in_args
    | with_reducible refine Sat_bind_frame2 ?_ (fun v s1 h1 => ?_)
    | with_reducible refine Sat_frame_call hR ?_ (ih.block_loop _ _)
    | with_reducible apply Sat_ok_frame
    | split

theorem level_expr_ge (k : Nat) : level_expr (k + 9) = logical_or_expr := rfl

theorem level_expr_zero (j : Nat) (s : luna_parser_t) : level_expr j 0 s = .fuel := by
  by_cases h : j < 9
  · interval_cases j <;> rfl
  · obtain ⟨k, rfl⟩ : ∃ k, j = k + 9 := ⟨j - 9, by omega⟩
    rw [level_expr_ge]
    rfl

theorem level_expr_framed (hR : Frame R) (n : Nat) (ih : Framed R n) (j : Nat)
    (s : luna_parser_t) : (level_expr j (n + 1) s).Sat fun _ s' => R s s' := by
  by_cases h9 : j < 9
  · have hop : ∀ s, (operand_expr j n s).Sat fun _ s' => R s s' := by
      cases j with
      | zero => exact ih.unary_expr
      | succ j => exact ih.level_expr j
    rw [level_expr_succ j h9]
    refine Sat_bind_frame2 (hop s) (fun v s1 h1 => ?_)
    split
    · exact Sat_ok_frame h1
    · exact Sat_frame_call hR h1 (binary_loop_frame hR _ _ _ _ hop _ _ _)
  · obtain ⟨k, rfl⟩ : ∃ k, j = k + 9 := ⟨j - 9, by omega⟩
    have hop : ∀ s, (operand_expr 9 n s).Sat fun _ s' => R s s' := ih.level_expr 8
    rw [level_expr_ge, show logical_or_expr = level_expr 9 from rfl, logical_or_expr_succ]
    refine Sat_bind_frame2 (hop s) (fun v s1 h1 => ?_)
    split
    · exact Sat_ok_frame h1
    · refine Sat_bind_frame2 (Sat_frame_call hR h1 (binary_loop_frame hR _ _ _ _ hop _ _ _))
        (fun v s2 h2 => ?_)
      split
      · exact Sat_ok_frame h2
      · dsimp only
        split
        · exact Sat_ok_frame (hR.to_accept _ h2)
        · exact Sat_ok_frame (hR.to_accept _ h2)

/-- Every grammar function relates its entry state to its exit state, at every fuel. -/
theorem framed_all (hR : Frame R) (n : Nat) : Framed R n := by
  induction n with
  | zero =>
    constructor
    case level_expr => intro j s; rw [level_expr_zero]; exact True.intro
    all_goals intros; exact True.intro
  | succ n ih =>
    exact {
      paren_expr := paren_expr_framed hR n ih
      arg_list := arg_list_framed hR n ih
      array_expr := array_expr_framed hR n ih
      hash_pairs := hash_pairs_framed hR n ih
      hash_expr := hash_expr_framed hR n ih
      primary_expr := primary_expr_framed hR n ih
      slot_access_expr := slot_access_expr_framed hR n ih
      call_args_loop := call_args_loop_framed hR n ih
      call_args := call_args_framed hR n ih
      call_expr := call_expr_framed hR n ih
      pow_expr := pow_expr_framed hR n ih
      postfix_expr := postfix_expr_framed hR n ih
      unary_expr := unary_expr_framed hR n ih
      level_expr := level_expr_framed hR n ih
      assignment_expr := assignment_expr_framed hR n ih
      not_expr := not_expr_framed hR n ih
      expr := expr_framed hR n ih
      expr_stmt := expr_stmt_framed hR n ih
      type_stmt_loop := type_stmt_loop_framed hR n ih
      type_stmt := type_stmt_framed hR n ih
      function_params_loop := function_params_loop_framed hR n ih
      function_params := function_params_framed hR n ih
      function_stmt := function_stmt_framed hR n ih
      if_stmt_loop := if_stmt_loop_framed hR n ih
      if_stmt := if_stmt_framed hR n ih
      while_stmt := while_stmt_framed hR n ih
      return_stmt := return_stmt_framed hR n ih
      stmt := stmt_framed hR n ih
      block_loop := block_loop_framed hR n ih
      block := block_framed hR n ih }

theorem program_loop_frame (hR : Frame R) (n : Nat) :
    ∀ (stmts : List luna_node_t) (s : luna_parser_t),
      (program_loop n stmts s).Sat fun _ s' => R s s' := by
  induction n with
  | zero => intro stmts s; exact True.intro
  | succ n ih =>
    intro stmts s
    rw [program_loop]
    split
    · exact Sat_ok_frame (hR.accept _ _)
    · refine Sat_bind_frame2 (Sat_frame_call hR (hR.accept _ _) ((framed_all hR n).stmt _))
        (fun v s1 h1 => ?_)
      split
      · exact Sat_frame_call hR h1 (ih _ _)
      · exact Sat_ok_frame h1

theorem luna_parse_frame (hR : Frame R) (n : Nat) (s : luna_parser_t) :
    (luna_parse n s).Sat fun _ s' => R s s' :=
  program_loop_frame hR n [] s

end

/-! ## The sticky error -/

theorem peek_err (s : luna_parser_t) : (peek s).2.err = s.err := by
  obtain ⟨lex, la, lb, c, e, i⟩ := s
  cases la <;> rfl

theorem next_err (s : luna_parser_t) : (next s).2.err = s.err := by
  obtain ⟨lex, la, lb, c, e, i⟩ := s
  cases la <;> rfl

theorem accept_err (t : luna_token) (s : luna_parser_t) : (accept t s).2.err = s.err := by
  rw [accept]
  dsimp only
  split <;> simp [peek_err]

/-- The sticky-error relation is respected by every cursor and diagnostic step. -/
theorem sticky_frame : Frame Sticky where
  refl := fun _ _ h => h
  trans := fun h1 h2 e h => h2 e (h1 e h)
  peek := fun s e h => by rw [peek_err]; exact h
  next := fun s e h => by rw [next_err]; exact h
  accept := fun t s e h => by rw [accept_err]; exact h
  context := fun _ _ _ h => h
  error := fun m s e h => by simp [error, h]
  in_args := fun _ _ _ h => h

/-! ## Failures and their diagnostics -/

theorem np_some {α : Type} (x : α) (s : luna_parser_t) : NonePost (some x) s :=
  fun h => nomatch h

theorem np_none {α β : Type} {s : luna_parser_t} (h : NonePost (none : Option α) s) :
    NonePost (none : Option β) s :=
  fun _ => h rfl

theorem error_err (m : String) (s : luna_parser_t) : (error m s).err ≠ none := by
  obtain ⟨lex, la, lb, c, e, i⟩ := s
  cases e <;> simp [error]

theorem np_error {α : Type} (v : Option α) (m : String) (s : luna_parser_t) :
    NonePost v (error m s) :=
  fun _ => Or.inl (error_err m s)

theorem fp_error {α : Type} (res : Bool × α) (m : String) (s : luna_parser_t) :
    FlagPost res (error m s) :=
  fun _ => Or.inl (error_err m s)

theorem fp_true {α : Type} (a : α) (s : luna_parser_t) : FlagPost (true, a) s :=
  fun h => nomatch h

theorem Sat_ok {α : Type} {P : α → luna_parser_t → Prop} {v : α} {s : luna_parser_t}
    (h : P v s) : (Res.ok v s).Sat P := h

theorem Sat_true {α : Type} (r : Res α) : r.Sat fun _ _ => True := by
  cases r <;> exact True.intro

theorem Sat_bind {α β : Type} {Q : α → luna_parser_t → Prop} {P : β → luna_parser_t → Prop}
    {r : Res α} {k : α → luna_parser_t → Res β}
    (hr : r.Sat Q) (hk : ∀ v s1, Q v s1 → (k v s1).Sat P) : (r.bind k).Sat P := by
  cases r with
  | ok v s1 => exact hk v s1 hr
  | undefined => exact True.intro
  | fuel => exact True.intro

theorem Sat_bind_np {α β : Type} {P : β → luna_parser_t → Prop}
    {r : Res (Option α)} {k : Option α → luna_parser_t → Res β}
    (hr : r.Sat NonePost) (hk : ∀ v s1, NonePost v s1 → (k v s1).Sat P) : (r.bind k).Sat P :=
  Sat_bind hr hk

theorem Sat_mono {α : Type} {Q P : α → luna_parser_t → Prop} {r : Res α}
    (hr : r.Sat Q) (h : ∀ v s, Q v s → P v s) : r.Sat P := by
  cases r with
  | ok v s1 => exact h v s1 hr
  | undefined => exact True.intro
  | fuel => exact True.intro

theorem binary_loop_np (ops : List luna_token) (op : luna_parser_t → luna_token) (ctx : String)
    (operand : luna_parser_t → Res (Option luna_node_t))
    (hop : ∀ s, (operand s).Sat NonePost) (k : Nat) :
    ∀ (node : luna_node_t) (s : luna_parser_t),
      (binary_loop ops op ctx operand k node s).Sat NonePost := by
  induction k with
  | zero => intro node s; exact True.intro
  | succ k ih =>
    intro node s
    rw [binary_loop]
    dsimp only
    split
    · refine Sat_bind (hop _) (fun v s1 h1 => ?_)
      split
      · exact ih _ _
      · exact Sat_ok (np_error _ _ _)
    · exact Sat_ok (np_some _ _)

theorem slot_access_expr_explains (n : Nat) (ih : Explains n) (s : luna_parser_t) :
    (slot_access_expr (n + 1) s).Sat NonePost := by
  rw [slot_access_expr]
  try dsimp only
  repeat' first
    | assumption
    | exact True.intro
    | exact np_some _ _
    | exact np_error _ _ _
    | exact np_none h1
    | with_reducible refine Sat_bind (ih.primary_expr _) (fun v s1 h1 => ?_)
    | with_reducible exact (ih.primary_expr _)
    | with_reducible refine Sat_bind_np ?_ (fun v s1 h1 => ?_)
    | with_reducible apply Sat_ok
    | split

theorem call_expr_explains (n : Nat) (ih : Explains n) (s : luna_parser_t) :
    (call_expr (n + 1) s).Sat NonePost := by
  rw [call_expr]
  try dsimp only
  repeat' first
    | assumption
    | exact True.intro
    | exact np_some _ _
    | exact np_error _ _ _
    | exact np_none h1
    | with_reducible refine Sat_bind (ih.slot_access_expr _) (fun v s1 h1 => ?_)
    | with_reducible refine Sat_bind (Sat_true (call_args n _)) (fun v s1 h1 => ?_)
    | with_reducible refine Sat_bind (ih.call_expr _) (fun v s1 h1 => ?_)
    | with_reducible exact (ih.slot_access_expr _)
    | with_reducible exact (ih.call_expr _)
    | with_reducible refine Sat_bind_np ?_ (fun v s1 h1 => ?_)
    | with_reducible apply Sat_ok
    | split

theorem pow_expr_explains (n : Nat) (ih : Explains n) (s : luna_parser_t) :
    (pow_expr (n + 1) s).Sat NonePost := by
  rw [pow_expr]
  try dsimp only
  repeat' first
    | assumption
    | exact True.intro
    | exact np_some _ _
    | exact np_error _ _ _
    | exact np_none h1
    | with_reducible refine Sat_bind (ih.call_expr _) (fun v s1 h1 => ?_)
    | with_reducible exact (ih.call_expr _)
    | with_reducible refine Sat_bind_np ?_ (fun v s1 h1 => ?_)
    | with_reducible apply Sat_ok
    | split

theorem postfix_expr_explains (n : Nat) (ih : Explains n) (s : luna_parser_t) :
    (postfix_expr (n + 1) s).Sat NonePost := by
  rw [postfix_expr]
  try dsimp only
  repeat' first
    | assumption
    | exact True.intro
    | exact np_some _ _
    | exact np_error _ _ _
    | exact np_none h1
    | with_reducible refine Sat_bind (ih.pow_expr _) (fun v s1 h1 => ?_)
    | with_reducible exact (ih.pow_expr _)
    | with_reducible refine Sat_bind_np ?_ (fun v s1 h1 => ?_)
    | with_reducible apply Sat_ok
    | split

theorem unary_expr_explains (n : Nat) (ih : Explains n) (s : luna_parser_t) :
    (unary_expr (n + 1) s).Sat NonePost := by
  rw [unary_expr]
  try dsimp only
  repeat' first
    | assumption
    | exact True.intro
    | exact np_some _ _
    | exact np_error _ _ _
    | exact np_none h1
    | with_reducible refine Sat_bind (ih.unary_expr _) (fun v s1 h1 => ?_)
    | with_reducible refine Sat_bind (ih.postfix_expr _) (fun v s1 h1 => ?_)
    | with_reducible exact (ih.unary_expr _)
    | with_reducible exact (ih.postfix_expr _)
    | with_reducible refine Sat_bind_np ?_ (fun v s1 h1 => ?_)
    | with_reducible apply Sat_ok
    | split

theorem assignment_expr_explains (n : Nat) (ih : Explains n) (s : luna_parser_t) :
    (assignment_expr (n + 1) s).Sat NonePost := by
  have hlo : ∀ s, (logical_or_expr n s).Sat NonePost := ih.level_expr 9
  rw [assignment_expr]
  try dsimp only
  repeat' first
    | assumption
    | exact True.intro
    | exact np_some _ _
    | exact np_error _ _ _
    | exact np_none h1
    | with_reducible refine Sat_bind (hlo _) (fun v s1 h1 => ?_)
    | with_reducible refine Sat_bind (ih.not_expr _) (fun v s1 h1 => ?_)
    | with_reducible exact (hlo _)
    | with_reducible exact (ih.not_expr _)
    | with_reducible refine Sat_bind_np ?_ (fun v s1 h1 => ?_)
    | with_reducible apply Sat_ok
    | split

theorem not_expr_explains (n : Nat) (ih : Explains n) (s : luna_parser_t) :
    (not_expr (n + 1) s).Sat NonePost := by
  rw [not_expr]
  try dsimp only
  repeat' first
    | assumption
    | exact True.intro
    | exact np_some _ _
    | exact np_error _ _ _
    | exact np_none h1
    | with_reducible refine Sat_bind (ih.not_expr _) (fun v s1 h1 => ?_)
    | with_reducible refine Sat_bind (ih.assignment_expr _) (fun v s1 h1 => ?_)
    | with_reducible exact (ih.not_expr _)
    | with_reducible exact (ih.assignment_expr _)
    | with_reducible refine Sat_bind_np ?_ (fun v s1 h1 => ?_)
    | with_reducible apply Sat_ok
    | split

theorem expr_explains (n : Nat) (ih : Explains n) (s : luna_parser_t) :
    (expr (n + 1) s).Sat NonePost := by
  rw [expr]
  try dsimp only
  repeat' first
    | assumption
    | exact True.intro
    | exact np_some _ _
    | exact np_error _ _ _
    | exact np_none h1
    | with_reducible refine Sat_bind (ih.not_expr _) (fun v s1 h1 => ?_)
    | with_reducible exact (ih.not_expr _)
    | with_reducible refine Sat_bind_np ?_ (fun v s1 h1 => ?_)
    | with_reducible apply Sat_ok
    | split

theorem expr_stmt_explains (n : Nat) (ih : Explains n) (s : luna_parser_t) :
    (expr_stmt (n + 1) s).Sat NonePost := by
  rw [expr_stmt]
  try dsimp only
  repeat' first
    | assumption
    | exact True.intro
    | exact np_some _ _
    | exact np_error _ _ _
    | exact np_none h1
    | with_reducible refine Sat_bind (ih.expr _) (fun v s1 h1 => ?_)
    | with_reducible exact (ih.expr _)
    | with_reducible refine Sat_bind_np ?_ (fun v s1 h1 => ?_)
    | with_reducible apply Sat_ok
    | split

theorem type_stmt_loop_explains (n : Nat) (ih : Explains n) (t : luna_node_t) (s : luna_parser_t) :
    (type_stmt_loop (n + 1) t s).Sat NonePost := by
  rw [type_stmt_loop]
  try dsimp only
  repeat' first
    | assumption
    | exact True.intro
    | exact np_some _ _
    | exact np_error _ _ _
    | exact np_none h1
    | with_reducible refine Sat_bind (ih.type_stmt_loop _ _) (fun v s1 h1 => ?_)
    | with_reducible exact (ih.type_stmt_loop _ _)
    | with_reducible refine Sat_bind_np ?_ (fun v s1 h1 => ?_)
    | with_reducible apply Sat_ok
    | split

theorem function_params_loop_explains (n : Nat) (ih : Explains n) (p : List luna_node_t) (s : luna_parser_t) :
    (function_params_loop (n + 1) p s).Sat NonePost := by
  rw [function_params_loop]
  try dsimp only
  repeat' first
    | assumption
    | exact True.intro
    | exact np_some _ _
    | exact np_error _ _ _
    | exact np_none h1
    | with_reducible refine Sat_bind (ih.expr _) (fun v s1 h1 => ?_)
    | with_reducible refine Sat_bind (ih.function_params_loop _ _) (fun v s1 h1 => ?_)
    | with_reducible exact (ih.expr _)
    | with_reducible exact (ih.function_params_loop _ _)
    | with_reducible refine Sat_bind_np ?_ (fun v s1 h1 => ?_)
    | with_reducible apply Sat_ok
    | split

theorem function_params_explains (n : Nat) (ih : Explains n) (s : luna_parser_t) :
    (function_params (n + 1) s).Sat NonePost := by
  rw [function_params]
  try dsimp only
  repeat' first
    | assumption
    | exact True.intro
    | exact np_some _ _
    | exact np_error _ _ _
    | exact np_none h1
    | with_reducible refine Sat_bind (ih.function_params_loop _ _) (fun v s1 h1 => ?_)
    | with_reducible exact (ih.function_params_loop _ _)
    | with_reducible refine Sat_bind_np ?_ (fun v s1 h1 => ?_)
    | with_reducible apply Sat_ok
    | split

theorem if_stmt_loop_explains (n : Nat) (ih : Explains n) (ng : Bool) (c : luna_node_t) (b : luna_block_node_t) (e : List luna_node_t) (s : luna_parser_t) :
    (if_stmt_loop (n + 1) ng c b e s).Sat NonePost := by
  rw [if_stmt_loop]
  try dsimp only
  repeat' first
    | assumption
    | exact True.intro
    | exact np_some _ _
    | exact np_error _ _ _
    | exact np_none h1
    | with_reducible refine Sat_bind (ih.expr _) (fun v s1 h1 => ?_)
    | with_reducible refine Sat_bind (ih.block _) (fun v s1 h1 => ?_)
    | with_reducible refine Sat_bind (ih.if_stmt_loop _ _ _ _ _) (fun v s1 h1 => ?_)
    | with_reducible exact (ih.expr _)
    | with_reducible exact (ih.block _)
    | with_reducible exact (ih.if_stmt_loop _ _ _ _ _)
    | with_reducible refine Sat_bind_np ?_ (fun v s1 h1 => ?_)
    | with_reducible apply Sat_ok
    | split

theorem block_loop_explains (n : Nat) (ih : Explains n) (st : List luna_node_t) (s : luna_parser_t) :
    (block_loop (n + 1) st s).Sat NonePost := by
  rw [block_loop]
  try dsimp only
  repeat' first
    | assumption
    | exact True.intro
    | exact np_some _ _
    | exact np_error _ _ _
    | exact np_none h1
    | with_reducible refine Sat_bind (ih.stmt _) (fun v s1 h1 => ?_)
    | with_reducible refine Sat_bind (ih.block_loop _ _) (fun v s1 h1 => ?_)
    | with_reducible exact (ih.stmt _)
    | with_reducible exact (ih.block_loop _ _)
    | with_reducible refine Sat_bind_np ?_ (fun v s1 h1 => ?_)
    | with_reducible apply Sat_ok
    | split

theorem block_explains (n : Nat) (ih : Explains n) (s : luna_parser_t) :
    (block (n + 1) s).Sat NonePost := by
  rw [block]
  try dsimp only
  repeat' first
    | assumption
    | exact True.intro
    | exact np_some _ _
    | exact np_error _ _ _
    | exact np_none h1
    | with_reducible refine Sat_bind (ih.block_loop _ _) (fun v s1 h1 => ?_)
    | with_reducible exact (ih.block_loop _ _)
    | with_reducible refine Sat_bind_np ?_ (fun v s1 h1 => ?_)
    | with_reducible apply Sat_ok
    | split

theorem peek_peek (s : luna_parser_t) : peek (peek s).2 = peek s := by
  obtain ⟨lex, la, lb, c, e, i⟩ := s
  cases la <;> rfl

theorem peek_la (s : luna_parser_t) : (peek s).2.la = some (peek s).1 := by
  obtain ⟨lex, la, lb, c, e, i⟩ := s
  cases la <;> rfl

theorem peek_context (c : String) (s : luna_parser_t) :
    (peek (context c s)).1 = (peek s).1 := by
  obtain ⟨lex, la, lb, c0, e, i⟩ := s
  cases la <;> rfl

theorem is_fst (t : luna_token) (s : luna_parser_t) :
    (is t s).1 = decide ((peek s).1.type = t) := rfl

theorem is_snd (t : luna_token) (s : luna_parser_t) : (is t s).2 = (peek s).2 := rfl

theorem accept_fst (t : luna_token) (s : luna_parser_t) :
    (accept t s).1 = decide ((peek s).1.type = t) := by
  rw [accept]
  dsimp only
  split <;> simp [*]

theorem accept_snd_miss (t : luna_token) (s : luna_parser_t) (h : ¬ (accept t s).1 = true) :
    (accept t s).2 = (peek s).2 := by
  rw [accept] at h ⊢
  dsimp only at h ⊢
  split
  · rename_i h2
    simp [h2] at h
  · rfl

theorem accept_guard (t : luna_token) (s : luna_parser_t) (h : ¬ (accept t s).1 = true) :
    (peek s).1.type ≠ t := by
  rw [accept_fst] at h
  simpa using h

theorem accept_context_guard (t : luna_token) (c : String) (s : luna_parser_t)
    (h : ¬ (accept t (context c s)).1 = true) : (peek s).1.type ≠ t := by
  have := accept_guard t _ h
  rwa [peek_context] at this

theorem accept_any_guard (ops : List luna_token) (s : luna_parser_t)
    (h : ¬ (accept_any ops s).1 = true) : (peek s).1.type ∉ ops := by
  induction ops generalizing s with
  | nil => simp
  | cons t ts ih =>
    rw [accept_any] at h
    split at h
    · rename_i h2
      exact absurd h2 h
    · rename_i h2
      have h3 := accept_guard t s h2
      have h4 := ih (accept t s).2 h
      rw [accept_snd_miss t s h2, peek_peek] at h4
      simp [h3, h4]

theorem np_of_fp {α β : Type} {res : Bool × α} {s : luna_parser_t} (h : FlagPost res s)
    (hf : ¬ res.1 = true) : NonePost (none : Option β) s :=
  fun _ => h (by simpa using hf)

theorem fp_of_np {α β : Type} {s : luna_parser_t} (a : β) (h : NonePost (none : Option α) s) :
    FlagPost (false, a) s :=
  fun _ => h rfl

theorem fp_of_fp {α β : Type} {res : Bool × α} {s : luna_parser_t} (a : β)
    (h : FlagPost res s) (hf : ¬ res.1 = true) : FlagPost (false, a) s :=
  fun _ => h (by simpa using hf)

theorem arg_list_explains (n : Nat) (ih : Explains n) (arr : List luna_node_t)
    (d : luna_token) (s : luna_parser_t) : (arg_list (n + 1) arr d s).Sat FlagPost := by
  rw [arg_list]
  try dsimp only
  repeat' first
    | exact True.intro
    | exact fp_true _ _
    | exact fp_error _ _ _
    | exact fp_of_np _ h1
    | exact fp_of_fp _ h1 ‹_›
    | with_reducible refine Sat_bind (ih.expr _) (fun v s1 h1 => ?_)
    | with_reducible refine Sat_bind (ih.arg_list _ _ _) (fun v s1 h1 => ?_)
    | with_reducible apply Sat_ok
    | split

theorem hash_pairs_explains (n : Nat) (ih : Explains n) (h : List (String × luna_node_t))
    (d : luna_token) (s : luna_parser_t) : (hash_pairs (n + 1) h d s).Sat FlagPost := by
  rw [hash_pairs]
  try dsimp only
  repeat' first
    | exact True.intro
    | exact fp_true _ _
    | exact fp_error _ _ _
    | exact fp_of_np _ h1
    | exact fp_of_fp _ h1 ‹_›
    | with_reducible refine Sat_bind (ih.expr _) (fun v s1 h1 => ?_)
    | with_reducible refine Sat_bind (ih.hash_pairs _ _ _) (fun v s1 h1 => ?_)
    | with_reducible apply Sat_ok
    | split

theorem paren_expr_explains (n : Nat) (ih : Explains n) (s : luna_parser_t) :
    (paren_expr (n + 1) s).Sat fun v s' =>
      v = none → Explained s' ∨ (s' = (peek s).2 ∧ (peek s).1.type ≠ .LPAREN) := by
  rw [paren_expr]
  try dsimp only
  split
  · refine Sat_mono (Q := NonePost) ?_ (fun v s' h hv => Or.inl (h hv))
    repeat' first
      | assumption
      | exact True.intro
      | exact np_some _ _
      | exact np_error _ _ _
      | exact np_none h1
      | with_reducible refine Sat_bind (ih.expr _) (fun v s1 h1 => ?_)
      | with_reducible apply Sat_ok
      | split
  · exact Sat_ok (fun _ => Or.inr ⟨accept_snd_miss _ _ ‹_›, accept_guard _ _ ‹_›⟩)

theorem array_expr_explains (n : Nat) (ih : Explains n) (s : luna_parser_t) :
    (array_expr (n + 1) s).Sat fun v s' =>
      v = none → Explained s' ∨ (peek s).1.type ≠ .LBRACK := by
  rw [array_expr]
  try dsimp only
  split
  · refine Sat_mono (Q := NonePost) ?_ (fun v s' h hv => Or.inl (h hv))
    repeat' first
      | assumption
      | exact True.intro
      | exact np_some _ _
      | exact np_error _ _ _
      | exact np_of_fp h1 ‹_›
      | with_reducible refine Sat_bind (ih.arg_list _ _ _) (fun v s1 h1 => ?_)
      | with_reducible apply Sat_ok
      | split
  · exact Sat_ok (fun _ => Or.inr (accept_guard _ _ ‹_›))

theorem hash_expr_explains (n : Nat) (ih : Explains n) (s : luna_parser_t) :
    (hash_expr (n + 1) s).Sat fun v s' =>
      v = none → Explained s' ∨ (peek s).1.type ≠ .LBRACE := by
  rw [hash_expr]
  try dsimp only
  split
  · refine Sat_mono (Q := NonePost) ?_ (fun v s' h hv => Or.inl (h hv))
    repeat' first
      | assumption
      | exact True.intro
      | exact np_some _ _
      | exact np_error _ _ _
      | exact np_of_fp h1 ‹_›
      | with_reducible refine Sat_bind (ih.hash_pairs _ _ _) (fun v s1 h1 => ?_)
      | with_reducible apply Sat_ok
      | split
  · exact Sat_ok (fun _ => Or.inr (accept_guard _ _ ‹_›))

theorem primary_expr_explains (n : Nat) (ih : Explains n) (s : luna_parser_t) :
    (primary_expr (n + 1) s).Sat NonePost := by
  rw [primary_expr]
  dsimp only
  split
  · exact Sat_ok (np_some _ _)
  · exact Sat_ok (np_some _ _)
  · exact Sat_ok (np_some _ _)
  · exact Sat_ok (np_some _ _)
  · rename_i heq
    refine Sat_mono (ih.array_expr _) (fun v s' h hv => ?_)
    rcases h hv with h | h
    · exact h
    · rw [peek_peek] at h
      exact absurd heq h
  · rename_i heq
    refine Sat_mono (ih.hash_expr _) (fun v s' h hv => ?_)
    rcases h hv with h | h
    · exact h
    · rw [peek_peek] at h
      exact absurd heq h
  · rename_i h1 h2 h3 h4 h5 h6
    refine Sat_mono (ih.paren_expr _) (fun v s' h hv => ?_)
    rcases h hv with h | ⟨h, h7⟩
    · exact h
    · rw [peek_peek] at h h7
      refine Or.inr ⟨(peek s).1, by rw [h, peek_la], ?_⟩
      simp only [starts_primary, is_operand, Bool.or_eq_false_iff, decide_eq_false_iff_not]
      exact ⟨⟨⟨⟨⟨⟨fun e => h1 e, fun e => h2 e⟩, fun e => h3 e⟩, fun e => h4 e⟩,
        fun e => h5 e⟩, fun e => h6 e⟩, h7⟩

theorem type_stmt_explains (n : Nat) (ih : Explains n) (s : luna_parser_t) :
    (type_stmt (n + 1) s).Sat fun v s' =>
      v = none → Explained s' ∨ (peek s).1.type ≠ .TYPE := by
  rw [type_stmt]
  try dsimp only
  split
  · refine Sat_mono (Q := NonePost) ?_ (fun v s' h hv => Or.inl (h hv))
    repeat' first
      | assumption
      | exact True.intro
      | exact np_some _ _
      | exact np_error _ _ _
      | exact np_none h1
      | with_reducible exact (ih.type_stmt_loop _ _)
      | with_reducible apply Sat_ok
      | split
  · exact Sat_ok (fun _ => Or.inr (accept_context_guard _ _ _ ‹_›))

theorem function_stmt_explains (n : Nat) (ih : Explains n) (s : luna_parser_t) :
    (function_stmt (n + 1) s).Sat fun v s' =>
      v = none → Explained s' ∨ (peek s).1.type ≠ .DEF := by
  rw [function_stmt]
  try dsimp only
  split
  · refine Sat_mono (Q := NonePost) ?_ (fun v s' h hv => Or.inl (h hv))
    repeat' first
      | assumption
      | exact True.intro
      | exact np_some _ _
      | exact np_error _ _ _
      | exact np_none h1
      | with_reducible refine Sat_bind (ih.function_params _) (fun v s1 h1 => ?_)
      | with_reducible refine Sat_bind (ih.block _) (fun v s1 h1 => ?_)
      | with_reducible refine Sat_bind_np ?_ (fun v s1 h1 => ?_)
      | with_reducible apply Sat_ok
      | split
  · exact Sat_ok (fun _ => Or.inr (accept_context_guard _ _ _ ‹_›))

theorem if_stmt_explains (n : Nat) (ih : Explains n) (s : luna_parser_t) :
    (if_stmt (n + 1) s).Sat fun v s' =>
      v = none → Explained s' ∨ (peek s).1.type ∉ [luna_token.IF, .UNLESS] := by
  rw [if_stmt]
  try dsimp only
  split
  · refine Sat_mono (Q := NonePost) ?_ (fun v s' h hv => Or.inl (h hv))
    repeat' first
      | assumption
      | exact True.intro
      | exact np_some _ _
      | exact np_error _ _ _
      | exact np_none h1
      | with_reducible refine Sat_bind (ih.expr _) (fun v s1 h1 => ?_)
      | with_reducible refine Sat_bind (ih.block _) (fun v s1 h1 => ?_)
      | with_reducible exact (ih.if_stmt_loop _ _ _ _ _)
      | with_reducible apply Sat_ok
      | split
  · exact Sat_ok (fun _ => Or.inr (accept_any_guard _ _ ‹_›))

theorem while_stmt_explains (n : Nat) (ih : Explains n) (s : luna_parser_t) :
    (while_stmt (n + 1) s).Sat fun v s' =>
      v = none → Explained s' ∨ (peek s).1.type ∉ [luna_token.UNTIL, .WHILE] := by
  rw [while_stmt]
  try dsimp only
  split
  · refine Sat_mono (Q := NonePost) ?_ (fun v s' h hv => Or.inl (h hv))
    repeat' first
      | assumption
      | exact True.intro
      | exact np_some _ _
      | exact np_error _ _ _
      | exact np_none h1
      | with_reducible refine Sat_bind (ih.expr _) (fun v s1 h1 => ?_)
      | with_reducible refine Sat_bind (ih.block _) (fun v s1 h1 => ?_)
      | with_reducible apply Sat_ok
      | split
  · exact Sat_ok (fun _ => Or.inr (accept_any_guard _ _ ‹_›))

theorem return_stmt_explains (n : Nat) (ih : Explains n) (s : luna_parser_t) :
    (return_stmt (n + 1) s).Sat fun v s' =>
      v = none → Explained s' ∨ (peek s).1.type ≠ .RETURN := by
  rw [return_stmt]
  try dsimp only
  split
  · refine Sat_mono (Q := NonePost) ?_ (fun v s' h hv => Or.inl (h hv))
    repeat' first
      | assumption
      | exact True.intro
      | exact np_some _ _
      | exact np_error _ _ _
      | exact np_none h1
      | with_reducible refine Sat_bind (ih.expr _) (fun v s1 h1 => ?_)
      | with_reducible apply Sat_ok
      | split
  · exact Sat_ok (fun _ => Or.inr (accept_context_guard _ _ _ ‹_›))

theorem stmt_explains (n : Nat) (ih : Explains n) (s : luna_parser_t) :
    (stmt (n + 1) s).Sat NonePost := by
  rw [stmt]
  dsimp only
  simp only [is_fst, is_snd, peek_peek, decide_eq_true_eq]
  split
  · rename_i hk
    refine Sat_mono (ih.if_stmt _) (fun v s' h hv => ?_)
    rcases h hv with h | h
    · exact h
    · rw [peek_peek] at h
      exact absurd (by simp [hk]) h
  split
  · rename_i hk
    refine Sat_mono (ih.if_stmt _) (fun v s' h hv => ?_)
    rcases h hv with h | h
    · exact h
    · rw [peek_peek] at h
      exact absurd (by simp [hk]) h
  split
  · rename_i hk
    refine Sat_mono (ih.while_stmt _) (fun v s' h hv => ?_)
    rcases h hv with h | h
    · exact h
    · rw [peek_peek] at h
      exact absurd (by simp [hk]) h
  split
  · rename_i hk
    refine Sat_mono (ih.while_stmt _) (fun v s' h hv => ?_)
    rcases h hv with h | h
    · exact h
    · rw [peek_peek] at h
      exact absurd (by simp [hk]) h
  split
  · rename_i hk
    refine Sat_mono (ih.return_stmt _) (fun v s' h hv => ?_)
    rcases h hv with h | h
    · exact h
    · rw [peek_peek] at h
      exact absurd hk h
  split
  · rename_i hk
    refine Sat_mono (ih.function_stmt _) (fun v s' h hv => ?_)
    rcases h hv with h | h
    · exact h
    · rw [peek_peek] at h
      exact absurd hk h
  split
  · rename_i hk
    refine Sat_mono (ih.type_stmt _) (fun v s' h hv => ?_)
    rcases h hv with h | h
    · exact h
    · rw [peek_peek] at h
      exact absurd hk h
  · exact ih.expr_stmt _

theorem level_expr_explains (n : Nat) (ih : Explains n) (j : Nat) (s : luna_parser_t) :
    (level_expr j (n + 1) s).Sat NonePost := by
  by_cases h9 : j < 9
  · have hop : ∀ s, (operand_expr j n s).Sat NonePost := by
      cases j with
      | zero => exact ih.unary_expr
      | succ j => exact ih.level_expr j
    rw [level_expr_succ j h9]
    refine Sat_bind (hop s) (fun v s1 h1 => ?_)
    split
    · exact Sat_ok h1
    · exact binary_loop_np _ _ _ _ hop _ _ _
  · obtain ⟨k, rfl⟩ : ∃ k, j = k + 9 := ⟨j - 9, by omega⟩
    have hop : ∀ s, (operand_expr 9 n s).Sat NonePost := ih.level_expr 8
    rw [level_expr_ge, show logical_or_expr = level_expr 9 from rfl, logical_or_expr_succ]
    refine Sat_bind (hop s) (fun v s1 h1 => ?_)
    split
    · exact Sat_ok h1
    · refine Sat_bind (binary_loop_np _ _ _ _ hop _ _ _) (fun v s2 h2 => ?_)
      split
      · exact Sat_ok h2
      · dsimp only
        split
        · exact Sat_ok (np_some _ _)
        · exact Sat_ok (np_some _ _)

/-- Every grammar function returns the failure sentinel only in a state that accounts
for it, at every fuel. -/
theorem explains_all (n : Nat) : Explains n := by
  induction n with
  | zero =>
    constructor
    case level_expr => intro j s; rw [level_expr_zero]; exact True.intro
    all_goals intros; exact True.intro
  | succ n ih =>
    exact {
      paren_expr := paren_expr_explains n ih
      arg_list := arg_list_explains n ih
      array_expr := array_expr_explains n ih
      hash_pairs := hash_pairs_explains n ih
      hash_expr := hash_expr_explains n ih
      primary_expr := primary_expr_explains n ih
      slot_access_expr := slot_access_expr_explains n ih
      call_expr := call_expr_explains n ih
      pow_expr := pow_expr_explains n ih
      postfix_expr := postfix_expr_explains n ih
      unary_expr := unary_expr_explains n ih
      level_expr := level_expr_explains n ih
      assignment_expr := assignment_expr_explains n ih
      not_expr := not_expr_explains n ih
      expr := expr_explains n ih
      expr_stmt := expr_stmt_explains n ih
      type_stmt_loop := type_stmt_loop_explains n ih
      type_stmt := type_stmt_explains n ih
      function_params_loop := function_params_loop_explains n ih
      function_params := function_params_explains n ih
      function_stmt := function_stmt_explains n ih
      if_stmt_loop := if_stmt_loop_explains n ih
      if_stmt := if_stmt_explains n ih
      while_stmt := while_stmt_explains n ih
      return_stmt := return_stmt_explains n ih
      stmt := stmt_explains n ih
      block_loop := block_loop_explains n ih
      block := block_explains n ih }

theorem program_loop_explains (n : Nat) :
    ∀ (stmts : List luna_node_t) (s : luna_parser_t),
      (program_loop n stmts s).Sat NonePost := by
  induction n with
  | zero => intro stmts s; exact True.intro
  | succ n ih =>
    intro stmts s
    rw [program_loop]
    split
    · exact Sat_ok (np_some _ _)
    · refine Sat_bind ((explains_all n).stmt _) (fun v s1 h1 => ?_)
      split
      · exact ih _ _
      · exact Sat_ok (np_none h1)

theorem luna_parse_explains (n : Nat) (s : luna_parser_t) : (luna_parse n s).Sat NonePost :=
  program_loop_explains n [] s

theorem peek_ctx (s : luna_parser_t) : (peek s).2.ctx = s.ctx := by
  obtain ⟨lex, la, lb, c, e, i⟩ := s
  cases la <;> rfl

theorem next_ctx (s : luna_parser_t) : (next s).2.ctx = s.ctx := by
  obtain ⟨lex, la, lb, c, e, i⟩ := s
  cases la <;> rfl

theorem accept_ctx (t : luna_token) (s : luna_parser_t) : (accept t s).2.ctx = s.ctx := by
  rw [accept]
  dsimp only
  split <;> simp [peek_ctx]

/-- A context label that is set stays set through every cursor and diagnostic step. -/
theorem ctxKept_frame : Frame CtxKept where
  refl := fun _ h => h
  trans := fun h1 h2 h => h2 (h1 h)
  peek := fun s h => by rw [peek_ctx]; exact h
  next := fun s h => by rw [next_ctx]; exact h
  accept := fun t s h => by rw [accept_ctx]; exact h
  context := fun _ _ _ => by simp [context]
  error := fun _ _ h => h
  in_args := fun _ _ h => h

/-- `stmt` returns with the context label set. -/
theorem stmt_ctx (n : Nat) (s : luna_parser_t) : (stmt n s).Sat fun _ s' => s'.ctx ≠ none := by
  cases n with
  | zero => exact True.intro
  | succ n =>
    have hc : ∀ (s1 : luna_parser_t), CtxKept (context "statement" s) s1 → s1.ctx ≠ none :=
      fun s1 h => h (by simp [context])
    have hf := framed_all ctxKept_frame n
    have key : (stmt (n + 1) s).Sat fun _ s' => CtxKept (context "statement" s) s' := by
      rw [stmt]
      dsimp only
      repeat' first
        | exact ctxKept_frame.refl _
        | with_reducible apply ctxKept_frame.to_is
        | with_reducible refine Sat_frame_call ctxKept_frame ?_ (hf.if_stmt _)
        | with_reducible refine Sat_frame_call ctxKept_frame ?_ (hf.while_stmt _)
        | with_reducible refine Sat_frame_call ctxKept_frame ?_ (hf.return_stmt _)
        | with_reducible refine Sat_frame_call ctxKept_frame ?_ (hf.function_stmt _)
        | with_reducible refine Sat_frame_call ctxKept_frame ?_ (hf.type_stmt _)
        | with_reducible refine Sat_frame_call ctxKept_frame ?_ (hf.expr_stmt _)
        | split
    exact Sat_mono key (fun _ s1 h => hc s1 h)

theorem program_loop_ctx (n : Nat) :
    ∀ (stmts : List luna_node_t) (s : luna_parser_t),
      (program_loop n stmts s).Sat fun v s' => v = none → s'.ctx ≠ none := by
  induction n with
  | zero => intro stmts s; exact True.intro
  | succ n ih =>
    intro stmts s
    rw [program_loop]
    split
    · exact Sat_ok (fun h => nomatch h)
    · refine Sat_bind (stmt_ctx n _) (fun v s1 h1 => ?_)
      split
      · exact ih _ _
      · exact Sat_ok (fun _ => h1)

/-- A failed parse leaves the context label set, and the sticky error set or a token in
the lookahead that cannot begin a primary expression. -/
theorem luna_parse_failure (fuel : Nat) (s s' : luna_parser_t)
    (h : luna_parse fuel s = .ok none s') :
    s'.ctx ≠ none ∧ (s'.err ≠ none ∨ ∃ t, s'.la = some t ∧ starts_primary t.type = false) := by
  have h1 := program_loop_ctx fuel [] s
  have h2 := luna_parse_explains fuel s
  rw [luna_parse, program] at h
  rw [h] at h1
  rw [luna_parse, program, h] at h2
  exact ⟨h1 rfl, h2 rfl⟩


/-! ## The cursor on an arbitrary state -/

/-- After `peek` the lookahead is buffered and nothing else has changed but the lexer. -/
theorem peek_form (s : luna_parser_t) :
    ∃ lex, (peek s).2 = ⟨lex, some (peek s).1, s.lb, s.ctx, s.err, s.in_args⟩ := by
  obtain ⟨lex, la, lb, c, e, i⟩ := s
  cases la with
  | none => exact ⟨(luna_scan lex).2, rfl⟩
  | some t => exact ⟨lex, rfl⟩

theorem peek_idem (s : luna_parser_t) : peek (peek s).2 = peek s := by
  obtain ⟨lex, la, lb, c, e, i⟩ := s
  cases la <;> rfl

theorem next_peek (s : luna_parser_t) : next (peek s).2 = next s := by
  obtain ⟨lex, la, lb, c, e, i⟩ := s
  cases la <;> rfl

theorem is_peek (k : luna_token) (s : luna_parser_t) : is k (peek s).2 = is k s := by
  rw [is, is, peek_idem]

theorem accept_miss_peek (k : luna_token) (s : luna_parser_t) (h : (peek s).1.type ≠ k) :
    accept k s = (false, (peek s).2) := by
  simp [accept, h]

theorem accept_hit_peek (k : luna_token) (s : luna_parser_t) (h : (peek s).1.type = k) :
    accept k s = (true, { (peek s).2 with lb := (peek s).1, la := none }) := by
  simp [accept, h]

theorem accept_any_miss_peek (ops : List luna_token) (hne : ops ≠ []) (s : luna_parser_t)
    (h : (peek s).1.type ∉ ops) : accept_any ops s = (false, (peek s).2) := by
  obtain ⟨lex, hl⟩ := peek_form s
  rw [← accept_any_peek ops hne, hl]
  exact accept_any_miss _ _ _ _ _ _ _ h

theorem accept_any_hit_peek (ops : List luna_token) (s : luna_parser_t)
    (h : (peek s).1.type ∈ ops) :
    accept_any ops s = (true, { (peek s).2 with lb := (peek s).1, la := none }) := by
  have hne : ops ≠ [] := by
    intro h0
    rw [h0] at h
    exact absurd h (List.not_mem_nil _)
  obtain ⟨lex, hl⟩ := peek_form s
  rw [← accept_any_peek ops hne, hl]
  exact accept_any_hit _ _ _ _ _ _ _ h

theorem upcoming_peek (s : luna_parser_t) (i : Nat) : upcoming (peek s).2 i = upcoming s i := by
  obtain ⟨lex, la, lb, c, e, i0⟩ := s
  cases la with
  | some t => rfl
  | none =>
    cases lex with
    | nil => cases i <;> simp [upcoming, peek, luna_scan, eos]
    | cons t ts => rfl

theorem upcoming_zero (s : luna_parser_t) : upcoming s 0 = (peek s).1 := by
  obtain ⟨lex, la, lb, c, e, i0⟩ := s
  cases la with
  | some t => rfl
  | none => cases lex <;> rfl

theorem upcoming_next (s : luna_parser_t) (i : Nat) :
    upcoming (next s).2 i = upcoming s (i + 1) := by
  obtain ⟨lex, la, lb, c, e, i0⟩ := s
  cases la with
  | some t => rfl
  | none =>
    cases lex with
    | nil => simp [upcoming, next, luna_scan]
    | cons t ts => rfl

/-! ## The expression ladder on an arbitrary state -/

theorem context_peek (c : String) (s : luna_parser_t) :
    peek (context c s) = ((peek s).1, context c (peek s).2) := by
  obtain ⟨lex, la, lb, c0, e, i⟩ := s
  cases la <;> rfl

theorem binary_loop_done_peek (ops : List luna_token) (hne : ops ≠ [])
    (op : luna_parser_t → luna_token) (ctx : String)
    (operand : luna_parser_t → Res (Option luna_node_t)) (k : Nat) (node : luna_node_t)
    (s : luna_parser_t) (h : (peek s).1.type ∉ ops) :
    binary_loop ops op ctx operand (k + 1) node s = .ok (some node) (peek s).2 := by
  rw [binary_loop, accept_any_miss_peek ops hne s h]
  simp

theorem operand_expr_zero (j : Nat) (hj : j ≤ 10) (s : luna_parser_t) :
    operand_expr j 0 s = .fuel := by
  have hj2 : j < 11 := by omega
  clear hj
  interval_cases j <;> rfl

theorem level_ops_ne_nil (j : Nat) (hj : j ≤ 9) : level_ops j ≠ [] := by
  have hj2 : j < 10 := by omega
  clear hj
  interval_cases j <;> simp [level_ops]

/-- A level hands on the result of its operand, on any state, when the next token is
not one of its operators. -/
theorem level_pass_peek (j : Nat) (hj : j ≤ 8) (n : Nat) (s s1 : luna_parser_t)
    (node : luna_node_t) (h : operand_expr j n s = .ok (some node) s1)
    (hT : (peek s1).1.type ∉ level_ops j) :
    operand_expr (j + 1) (n + 1) s = .ok (some node) (peek s1).2 := by
  show level_expr j (n + 1) s = _
  cases n with
  | zero =>
    rw [operand_expr_zero j (by omega)] at h
    exact absurd h (by simp)
  | succ n =>
    rw [level_expr_succ j (by omega), h]
    simp only [Res.bind_ok]
    exact binary_loop_done_peek _ (level_ops_ne_nil j (by omega)) _ _ _ _ _ _ hT

/-- From an operand of level `j` up to `logical_or_expr`: the result is handed on when
the next token is no operator of the levels in between and not the fork token. -/
theorem ladder_pass (j : Nat) (hj : j ≤ 9) (n : Nat) (s s1 : luna_parser_t)
    (node : luna_node_t) (h : operand_expr j n s = .ok (some node) s1)
    (hT : ∀ j', j ≤ j' → j' ≤ 9 → (peek s1).1.type ∉ level_ops j')
    (hF : (peek s1).1.type ≠ .OP_FORK) :
    logical_or_expr (n + (10 - j)) s = .ok (some node) (peek s1).2 := by
  obtain ⟨lex, hl⟩ := peek_form s1
  by_cases h9 : j = 9
  · subst h9
    cases n with
    | zero =>
      rw [operand_expr_zero 9 (by omega)] at h
      exact absurd h (by simp)
    | succ n =>
      show level_expr 9 (n + 1 + 1) s = _
      rw [logical_or_expr_succ, h]
      simp only [Res.bind_ok]
      rw [binary_loop_done_peek _ (level_ops_ne_nil 9 (by omega)) _ _ _ _ _ _
        (hT 9 (by omega) (by omega))]
      simp only [Res.bind_ok]
      rw [accept_peek, accept_miss_peek _ _ hF]
      simp only [Bool.false_eq_true, if_false]
  · have h1 := level_pass_peek j (by omega) n s s1 node h (hT j (by omega) (by omega))
    rw [hl] at h1
    have h2 := level_pass_many (8 - j) (j + 1) (n + 1) s node lex (peek s1).1 s1.lb s1.ctx
      s1.err s1.in_args (by omega) h1
      (fun j' hj1 hj2 => hT j' (by omega) (by omega))
    have e1 : j + 1 + (8 - j) = 9 := by omega
    have e2 : n + 1 + (8 - j) = n + (10 - j) - 1 := by omega
    rw [e1, e2] at h2
    have e3 : n + (10 - j) = (n + (10 - j) - 2) + 2 := by omega
    rw [e3, hl]
    have e4 : n + (10 - j) - 1 = (n + (10 - j) - 2) + 1 := by omega
    rw [e4] at h2
    exact logical_or_pass _ s node lex _ _ _ _ _ h2 (hT 9 (by omega) (by omega)) hF

/-- From `logical_or_expr` up to `expr`, on any state: the result is handed on when the
expression does not begin with `let` or `not` and the next token is no assignment
operator. -/
theorem expr_of_logical_or (n : Nat) (s s1 : luna_parser_t) (node : luna_node_t)
    (h : logical_or_expr n s = .ok (some node) s1)
    (h1 : (peek s).1.type ≠ .LET) (h2 : (peek s).1.type ≠ .OP_LNOT)
    (h3 : (peek s1).1.type ≠ .OP_ASSIGN) (h4 : (peek s1).1.type ∉ compound_ops) :
    expr (n + 3) s = .ok (some node) (peek s1).2 := by
  have hp : (peek (peek s).2).1.type ≠ .LET := by rw [peek_idem]; exact h1
  have hlo : logical_or_expr n (peek s).2 = logical_or_expr n s := operand_expr_peek 10 (by omega) n s
  rw [expr, not_expr, accept_miss_peek _ _ h2]
  simp only [Bool.false_eq_true, if_false]
  rw [assignment_expr, accept_miss_peek _ _ hp, peek_idem, hlo, h]
  simp only [Res.bind_ok]
  rw [accept_miss_peek _ _ h3]
  simp only [Bool.false_eq_true, if_false]
  have h4b : (peek s1).1.type ∉ [luna_token.OP_PLUS_ASSIGN, .OP_MINUS_ASSIGN, .OP_DIV_ASSIGN,
      .OP_MUL_ASSIGN, .OP_OR_ASSIGN, .OP_AND_ASSIGN] := h4
  rw [accept_any_peek _ (by simp), accept_any_miss_peek _ (by simp) _ h4b]
  simp only [Bool.false_eq_true, if_false]

theorem binds_above_spec (t : luna_token) (h : binds_above t = false) :
    (∀ j, j ≤ 9 → t ∉ level_ops j) ∧ t ≠ .OP_FORK ∧ t ≠ .OP_ASSIGN ∧ t ∉ compound_ops := by
  have key : ∀ t : luna_token, binds_above t = false →
      (∀ j < 10, t ∉ level_ops j) ∧ t ≠ .OP_FORK ∧ t ≠ .OP_ASSIGN ∧ t ∉ compound_ops := by
    decide
  obtain ⟨a, b⟩ := key t h
  exact ⟨fun j hj => a j (by omega), b⟩

/-- From `unary_expr` up to `expr`, on any state: the result is handed on when the
expression does not begin with `let` or `not` and nothing above `unary_expr` consumes
the next token. -/
theorem expr_of_unary (n : Nat) (s s1 : luna_parser_t) (node : luna_node_t)
    (h : unary_expr n s = .ok (some node) s1)
    (h1 : (peek s).1.type ≠ .LET) (h2 : (peek s).1.type ≠ .OP_LNOT)
    (hT : binds_above (peek s1).1.type = false) :
    expr (n + 13) s = .ok (some node) (peek s1).2 := by
  obtain ⟨a, b, c, d⟩ := binds_above_spec _ hT
  have hl := ladder_pass 0 (by omega) n s s1 node h (fun j _ hj => a j hj) b
  have := expr_of_logical_or (n + 10) s (peek s1).2 node hl h1 h2
    (by rw [peek_idem]; exact c) (by rw [peek_idem]; exact d)
  rw [peek_idem] at this
  exact this

/-! ## Statements on an arbitrary state -/

theorem is_eq (k : luna_token) (s : luna_parser_t) :
    is k s = (decide ((peek s).1.type = k), (peek s).2) := rfl

theorem context_peek_snd (c : String) (s : luna_parser_t) :
    (peek (context c s)).2 = context c (peek s).2 := by rw [context_peek]

theorem context_peek_fst (c : String) (s : luna_parser_t) :
    (peek (context c s)).1 = (peek s).1 := by rw [context_peek]

/-- `stmt` dispatches on the kind of the next token. -/
theorem stmt_dispatch (n : Nat) (s : luna_parser_t) :
    stmt (n + 1) s =
      (match (peek s).1.type with
        | .IF => if_stmt
        | .UNLESS => if_stmt
        | .WHILE => while_stmt
        | .UNTIL => while_stmt
        | .RETURN => return_stmt
        | .DEF => function_stmt
        | .TYPE => type_stmt
        | _ => expr_stmt) n (context "statement" (peek s).2) := by
  rw [stmt]
  simp only [is_eq, context_peek_snd, context_peek_fst, peek_idem]
  cases (peek s).1.type <;> simp

theorem stmt_peek (n : Nat) (s : luna_parser_t) : stmt n (peek s).2 = stmt n s := by
  cases n with
  | zero => rfl
  | succ n => rw [stmt_dispatch, stmt_dispatch, peek_idem]

theorem stmt_expr_stmt (n : Nat) (s : luna_parser_t) (h : starts_stmt (peek s).1.type = false) :
    stmt (n + 1) s = expr_stmt n (context "statement" (peek s).2) := by
  rw [stmt_dispatch]
  revert h
  cases (peek s).1.type <;> simp [starts_stmt]

/-- `expr_stmt` fails with "missing newline" unless `')'` or end-of-stream follows. -/
theorem expr_stmt_newline (n : Nat) (s s1 : luna_parser_t) (node : luna_node_t)
    (h : expr n s = .ok (some node) s1)
    (h1 : (peek s1).1.type ≠ .RPAREN) (h2 : (peek s1).1.type ≠ .EOS) :
    expr_stmt (n + 1) s = .ok none (error "missing newline" (peek s1).2) := by
  rw [expr_stmt, h]
  simp only [Res.bind_ok, is_eq, peek_idem, h1, h2, decide_False, Bool.false_eq_true, if_false]

theorem expr_stmt_ok (n : Nat) (s s1 : luna_parser_t) (node : luna_node_t)
    (h : expr n s = .ok (some node) s1)
    (h1 : (peek s1).1.type = .RPAREN ∨ (peek s1).1.type = .EOS) :
    expr_stmt (n + 1) s = .ok (some node) (peek s1).2 := by
  rw [expr_stmt, h]
  simp only [Res.bind_ok, is_eq, peek_idem]
  rcases h1 with h1 | h1 <;> simp [h1]

theorem program_loop_eos (n : Nat) (stmts : List luna_node_t) (s : luna_parser_t)
    (h : (peek s).1.type = .EOS) :
    program_loop (n + 1) stmts s =
      .ok (some (.mk stmts)) { (peek s).2 with lb := (peek s).1, la := none } := by
  rw [program_loop, accept_hit_peek _ _ h]
  simp

theorem program_loop_stmt (n : Nat) (stmts : List luna_node_t) (s : luna_parser_t)
    (h : (peek s).1.type ≠ .EOS) :
    program_loop (n + 1) stmts s =
      (stmt n s).bind fun node self =>
        match node with
        | some node => program_loop n (stmts ++ [node]) self
        | none => .ok none self := by
  rw [program_loop, accept_miss_peek _ _ h]
  simp only [Bool.false_eq_true, if_false, stmt_peek]
  first
    | done
    | rfl

/-- A program whose next statement is an expression statement not followed by `')'` or
end-of-stream fails with "missing newline". -/
theorem program_loop_newline (n : Nat) (stmts : List luna_node_t) (s s1 : luna_parser_t)
    (node : luna_node_t) (hk : starts_stmt (peek s).1.type = false)
    (hE : (peek s).1.type ≠ .EOS)
    (h : expr n (context "statement" (peek s).2) = .ok (some node) s1)
    (h1 : (peek s1).1.type ≠ .RPAREN) (h2 : (peek s1).1.type ≠ .EOS) :
    program_loop (n + 3) stmts s = .ok none (error "missing newline" (peek s1).2) := by
  rw [program_loop_stmt _ _ _ hE, stmt_expr_stmt _ _ hk, expr_stmt_newline _ _ _ _ h h1 h2]
  rfl

/-- A program whose last statement is an expression statement followed by end-of-stream. -/
theorem program_loop_last (n : Nat) (stmts : List luna_node_t) (s s1 : luna_parser_t)
    (node : luna_node_t) (hk : starts_stmt (peek s).1.type = false)
    (hE : (peek s).1.type ≠ .EOS)
    (h : expr n (context "statement" (peek s).2) = .ok (some node) s1)
    (h1 : (peek s1).1.type = .EOS) :
    program_loop (n + 3) stmts s =
      .ok (some (.mk (stmts ++ [node]))) { (peek s1).2 with lb := (peek s1).1, la := none } := by
  rw [program_loop_stmt _ _ _ hE, stmt_expr_stmt _ _ hk, expr_stmt_ok _ _ _ _ h (Or.inr h1)]
  simp only [Res.bind_ok]
  rw [program_loop_eos _ _ _ (by rw [peek_idem]; exact h1), peek_idem]

/-! ## Postfix and power -/

theorem operand_not_unary (t : luna_token) (h : is_operand t = true) :
    t ∉ [luna_token.OP_INCR, .OP_DECR, .OP_BIT_NOT, .OP_PLUS, .OP_MINUS, .OP_NOT] := by
  revert t
  decide

/-- `call_expr` on a one-token operand not followed by `'('` or `'.'`. -/
theorem call_leaf (k : Nat) (x : luna_token_t) (lex : List luna_token_t) (lb : luna_token_t)
    (c e : Option String) (i : Int) (hx : is_operand x.type = true)
    (h1 : (luna_scan lex).1.type ≠ .LPAREN) (h2 : (luna_scan lex).1.type ≠ .OP_DOT) :
    call_expr (k + 3) ⟨lex, some x, lb, c, e, i⟩ =
      .ok (some (leaf x)) ⟨(luna_scan lex).2, some (luna_scan lex).1, lb, c, e, i⟩ := by
  rw [call_expr, slot_access_expr, primary_leaf _ _ _ _ _ _ _ hx]
  simp only [Res.bind_ok, accept_none_miss _ _ _ _ _ _ h1, Bool.false_eq_true, if_false,
    accept_miss _ _ _ _ _ _ _ h2]

theorem call_expr_peek (n : Nat) (s : luna_parser_t) : call_expr n (peek s).2 = call_expr n s := by
  cases n with
  | zero => rfl
  | succ n =>
    rw [call_expr, call_expr]
    cases n with
    | zero => rfl
    | succ n =>
      rw [slot_access_expr, slot_access_expr]
      cases n with
      | zero => rfl
      | succ n => rw [primary_expr, primary_expr, peek_idem]

theorem pow_expr_peek (n : Nat) (s : luna_parser_t) : pow_expr n (peek s).2 = pow_expr n s := by
  cases n with
  | zero => rfl
  | succ n => rw [pow_expr, pow_expr, call_expr_peek]

theorem postfix_expr_peek (n : Nat) (s : luna_parser_t) :
    postfix_expr n (peek s).2 = postfix_expr n s := by
  cases n with
  | zero => rfl
  | succ n => rw [postfix_expr, postfix_expr, pow_expr_peek]

/-- `postfix_expr` consumes one postfix operator after its operand and builds the
postfix node; it looks no further. -/
theorem postfix_hit (n : Nat) (s s1 : luna_parser_t) (x : luna_node_t)
    (h : pow_expr n s = .ok (some x) s1) (hq : (peek s1).1.type ∈ postfix_ops) :
    postfix_expr (n + 1) s =
      .ok (some (.unary_op (peek s1).1.type (some x) true))
        { (peek s1).2 with lb := (peek s1).1, la := none } := by
  rw [postfix_expr, h]
  simp only [Res.bind_ok]
  rw [accept_any_hit_peek [.OP_INCR, .OP_DECR] s1 hq]
  rfl

theorem postfix_miss (n : Nat) (s s1 : luna_parser_t) (x : luna_node_t)
    (h : pow_expr n s = .ok (some x) s1) (hq : (peek s1).1.type ∉ postfix_ops) :
    postfix_expr (n + 1) s = .ok (some x) (peek s1).2 := by
  rw [postfix_expr, h]
  simp only [Res.bind_ok]
  rw [accept_any_miss_peek [.OP_INCR, .OP_DECR] (by simp) s1 hq]
  rfl

/-- `unary_expr` is `postfix_expr` when no prefix operator comes first. -/
theorem unary_without_op (n : Nat) (s : luna_parser_t) (h : (peek s).1.type ∉ unary_ops) :
    unary_expr (n + 1) s = postfix_expr n s := by
  rw [unary_expr, accept_any_miss_peek
    [.OP_INCR, .OP_DECR, .OP_BIT_NOT, .OP_PLUS, .OP_MINUS, .OP_NOT] (by simp) s h]
  simp only [Bool.false_eq_true, if_false, postfix_expr_peek]

/-- `pow_expr` applies one `'**'` to two operands parsed by `call_expr`; it looks no
further. -/
theorem pow_hit (n : Nat) (s s1 s2 : luna_parser_t) (a b : luna_node_t)
    (h : call_expr n s = .ok (some a) s1) (hq : (peek s1).1.type = .OP_POW)
    (h2 : call_expr n (context "** operation"
      { (peek s1).2 with lb := (peek s1).1, la := none }) = .ok (some b) s2) :
    pow_expr (n + 1) s = .ok (some (.binary_op .OP_POW a b false)) s2 := by
  rw [pow_expr, h]
  simp only [Res.bind_ok]
  rw [accept_hit_peek _ _ hq]
  simp only [if_true, h2, Res.bind_ok]

theorem pow_miss (n : Nat) (s s1 : luna_parser_t) (a : luna_node_t)
    (h : call_expr n s = .ok (some a) s1) (hq : (peek s1).1.type ≠ .OP_POW) :
    pow_expr (n + 1) s = .ok (some a) (peek s1).2 := by
  rw [pow_expr, h]
  simp only [Res.bind_ok]
  rw [accept_miss_peek _ _ hq]
  rfl

/-- `unary_expr` on a one-token operand followed by one postfix operator. -/
theorem unary_leaf_incr (k : Nat) (x q : luna_token_t) (lex : List luna_token_t)
    (lb : luna_token_t) (c e : Option String) (i : Int) (hx : is_operand x.type = true)
    (hq : q.type ∈ postfix_ops) :
    unary_expr (k + 6) ⟨q :: lex, some x, lb, c, e, i⟩ =
      .ok (some (.unary_op q.type (some (leaf x)) true)) ⟨lex, none, q, c, e, i⟩ := by
  have hq1 : q.type ≠ .LPAREN ∧ q.type ≠ .OP_DOT ∧ q.type ≠ .OP_POW := by
    simp only [postfix_ops, List.mem_cons, List.mem_singleton, List.not_mem_nil, or_false] at hq
    rcases hq with hq | hq <;> simp [hq]
  have hc := call_leaf k x (q :: lex) lb c e i hx hq1.1 hq1.2.1
  have hp := pow_miss _ _ _ _ hc hq1.2.2
  have hf := postfix_hit _ _ _ _ hp hq
  rw [unary_without_op _ ⟨q :: lex, some x, lb, c, e, i⟩ (operand_not_unary _ hx), hf]
  rfl

/-- `pow_expr` on `a ** b` with one-token operands. -/
theorem pow_leaf (k : Nat) (a q b : luna_token_t) (lex : List luna_token_t)
    (lb : luna_token_t) (c e : Option String) (i : Int) (ha : is_operand a.type = true)
    (hq : q.type = .OP_POW) (hb : is_operand b.type = true)
    (h1 : (luna_scan lex).1.type ≠ .LPAREN) (h2 : (luna_scan lex).1.type ≠ .OP_DOT) :
    pow_expr (k + 4) ⟨q :: b :: lex, some a, lb, c, e, i⟩ =
      .ok (some (.binary_op .OP_POW (leaf a) (leaf b) false))
        ⟨(luna_scan lex).2, some (luna_scan lex).1, q, some "** operation", e, i⟩ := by
  have hc := call_leaf k a (q :: b :: lex) lb c e i ha (by simp [scan_cons, hq])
    (by simp [scan_cons, hq])
  refine pow_hit _ _ _ _ _ _ hc hq ?_
  have := call_leaf k b lex q (some "** operation") e i hb h1 h2
  rw [← call_expr_peek]
  exact this

theorem operand_not_stmt (t : luna_token) (h : is_operand t = true) :
    starts_stmt t = false ∧ t ≠ .EOS ∧ t ≠ .LET ∧ t ≠ .OP_LNOT := by
  revert t
  decide

theorem postfix_not_above (t : luna_token) (h : t ∈ postfix_ops) :
    binds_above t = false ∧ t ≠ .RPAREN ∧ t ≠ .EOS := by
  revert t
  decide

/-- A second postfix operator is left for `expr_stmt`, which rejects it. -/
theorem parse_postfix_twice (self0 : luna_parser_t) (x q1 q2 : luna_token_t)
    (rest : List luna_token_t) (fuel : Nat) (hx : is_operand x.type = true)
    (hq1 : q1.type ∈ postfix_ops) (hq2 : q2.type ∈ postfix_ops) (hf : 22 ≤ fuel) :
    luna_parse fuel (luna_parser_init self0 (x :: q1 :: q2 :: rest)) =
      .ok none ⟨rest, some q2, q1, some "statement", some "missing newline", 0⟩ := by
  obtain ⟨k, rfl⟩ : ∃ k, fuel = k + 6 + 13 + 3 := ⟨fuel - 22, by omega⟩
  obtain ⟨h1, h2, h3, h4⟩ := operand_not_stmt _ hx
  obtain ⟨h5, h6, h7⟩ := postfix_not_above _ hq2
  have hu := unary_leaf_incr k x q1 (q2 :: rest) self0.lb (some "statement") none 0 hx hq1
  have he := expr_of_unary _ _ _ _ hu h3 h4 h5
  exact program_loop_newline (k + 6 + 13) [] (luna_parser_init self0 (x :: q1 :: q2 :: rest)) _ _
    h1 h2 he h6 h7

/-- One postfix operator after a one-token operand, as a whole program. -/
theorem parse_postfix_once (self0 : luna_parser_t) (x q1 : luna_token_t)
    (fuel : Nat) (hx : is_operand x.type = true)
    (hq1 : q1.type ∈ postfix_ops) (hf : 22 ≤ fuel) :
    luna_parse fuel (luna_parser_init self0 [x, q1, eos]) =
      .ok (some (.mk [.unary_op q1.type (some (leaf x)) true]))
        ⟨[], none, eos, some "statement", none, 0⟩ := by
  obtain ⟨k, rfl⟩ : ∃ k, fuel = k + 6 + 13 + 3 := ⟨fuel - 22, by omega⟩
  obtain ⟨h1, h2, h3, h4⟩ := operand_not_stmt _ hx
  have hu := unary_leaf_incr k x q1 [eos] self0.lb (some "statement") none 0 hx hq1
  have he := expr_of_unary _ _ _ _ hu h3 h4 rfl
  exact program_loop_last (k + 6 + 13) [] (luna_parser_init self0 [x, q1, eos]) _ _
    h1 h2 he rfl

theorem pow_not_above (t : luna_token) (h : t = .OP_POW) :
    binds_above t = false ∧ t ≠ .RPAREN ∧ t ≠ .EOS ∧ t ≠ .LPAREN ∧ t ≠ .OP_DOT ∧
      t ∉ postfix_ops := by
  subst h
  decide

/-- `unary_expr` on `a ** b` with one-token operands, followed by a token that neither
`call_expr` nor `postfix_expr` consumes. -/
theorem unary_leaf_pow (k : Nat) (a q b : luna_token_t) (lex : List luna_token_t)
    (lb : luna_token_t) (c e : Option String) (i : Int) (ha : is_operand a.type = true)
    (hq : q.type = .OP_POW) (hb : is_operand b.type = true)
    (h1 : (luna_scan lex).1.type ≠ .LPAREN) (h2 : (luna_scan lex).1.type ≠ .OP_DOT)
    (h3 : (luna_scan lex).1.type ∉ postfix_ops) :
    unary_expr (k + 6) ⟨q :: b :: lex, some a, lb, c, e, i⟩ =
      .ok (some (.binary_op .OP_POW (leaf a) (leaf b) false))
        ⟨(luna_scan lex).2, some (luna_scan lex).1, q, some "** operation", e, i⟩ := by
  have hp := pow_leaf k a q b lex lb c e i ha hq hb h1 h2
  have hf := postfix_miss _ _ _ _ hp h3
  rw [unary_without_op _ ⟨q :: b :: lex, some a, lb, c, e, i⟩ (operand_not_unary _ ha), hf]
  rfl

/-- A second `'**'` is left for `expr_stmt`, which rejects it. -/
theorem parse_pow_twice (self0 : luna_parser_t) (a p1 b p2 : luna_token_t)
    (rest : List luna_token_t) (fuel : Nat) (ha : is_operand a.type = true)
    (hp1 : p1.type = .OP_POW) (hb : is_operand b.type = true) (hp2 : p2.type = .OP_POW)
    (hf : 22 ≤ fuel) :
    luna_parse fuel (luna_parser_init self0 (a :: p1 :: b :: p2 :: rest)) =
      .ok none ⟨rest, some p2, p1, some "** operation", some "missing newline", 0⟩ := by
  obtain ⟨k, rfl⟩ : ∃ k, fuel = k + 6 + 13 + 3 := ⟨fuel - 22, by omega⟩
  obtain ⟨h1, h2, h3, h4⟩ := operand_not_stmt _ ha
  obtain ⟨h5, h6, h7, h8, h9, h10⟩ := pow_not_above _ hp2
  have hu := unary_leaf_pow k a p1 b (p2 :: rest) self0.lb (some "statement") none 0 ha hp1 hb
    h8 h9 h10
  have he := expr_of_unary _ _ _ _ hu h3 h4 h5
  exact program_loop_newline (k + 6 + 13) [] (luna_parser_init self0 (a :: p1 :: b :: p2 :: rest))
    _ _ h1 h2 he h6 h7

/-- `a ** b` as a whole program. -/
theorem parse_pow_once (self0 : luna_parser_t) (a p1 b : luna_token_t)
    (fuel : Nat) (ha : is_operand a.type = true)
    (hp1 : p1.type = .OP_POW) (hb : is_operand b.type = true) (hf : 22 ≤ fuel) :
    luna_parse fuel (luna_parser_init self0 [a, p1, b, eos]) =
      .ok (some (.mk [.binary_op .OP_POW (leaf a) (leaf b) false]))
        ⟨[], none, eos, some "** operation", none, 0⟩ := by
  obtain ⟨k, rfl⟩ : ∃ k, fuel = k + 6 + 13 + 3 := ⟨fuel - 22, by omega⟩
  obtain ⟨h1, h2, h3, h4⟩ := operand_not_stmt _ ha
  have hu := unary_leaf_pow k a p1 b [eos] self0.lb (some "statement") none 0 ha hp1 hb
    (by decide) (by decide) (by decide)
  have he := expr_of_unary _ _ _ _ hu h3 h4 rfl
  exact program_loop_last (k + 6 + 13) [] (luna_parser_init self0 [a, p1, b, eos]) _ _
    h1 h2 he rfl

/-! ## Fork -/

theorem logical_or_expr_split (n : Nat) (s : luna_parser_t) :
    logical_or_expr (n + 1) s =
      (logical_or_fold n s).bind fun node self =>
        match node with
        | none => .ok none self
        | some node =>
          let r := accept .OP_FORK self
          if r.1 then .ok (some (.call (.id "fork") (some { vec := [node], hash := [] }))) r.2
          else .ok (some node) r.2 := by
  rw [logical_or_expr, logical_or_fold]
  cases logical_and_expr n s with
  | ok v s1 => cases v <;> rfl
  | undefined => rfl
  | fuel => rfl

/-- The fork token after the `'||'` fold wraps the whole fold in a call of `fork`. -/
theorem logical_or_fork (n : Nat) (s s1 : luna_parser_t) (e : luna_node_t)
    (h : logical_or_fold n s = .ok (some e) s1) (hF : (peek s1).1.type = .OP_FORK) :
    logical_or_expr (n + 1) s =
      .ok (some (.call (.id "fork") (some { vec := [e], hash := [] })))
        { (peek s1).2 with lb := (peek s1).1, la := none } := by
  rw [logical_or_expr_split, h]
  simp only [Res.bind_ok]
  rw [accept_hit_peek _ _ hF]
  rfl

theorem logical_or_no_fork (n : Nat) (s s1 : luna_parser_t) (e : luna_node_t)
    (h : logical_or_fold n s = .ok (some e) s1) (hF : (peek s1).1.type ≠ .OP_FORK) :
    logical_or_expr (n + 1) s = .ok (some e) (peek s1).2 := by
  rw [logical_or_expr_split, h]
  simp only [Res.bind_ok]
  rw [accept_miss_peek _ _ hF]
  rfl

/-- The `'||'` fold on `x0 || x1 ... || xn T`. -/
theorem logical_or_fold_items (m : Nat) (hm : 15 ≤ m)
    (x0 T : luna_token_t) (rest : List luna_token_t) (lb : luna_token_t)
    (c e : Option String) (i : Int) (items : List (luna_token_t × luna_token_t))
    (hlen : items.length < m) (hx0 : is_operand x0.type = true)
    (hT1 : T.type ∉ level_ops 9) (hT2 : binds_tighter 9 T.type = false)
    (hitems : ∀ it ∈ items, it.1.type ∈ level_ops 9 ∧ is_operand it.2.type = true) :
    ∃ lb' c', logical_or_fold m ⟨op_stream items ++ T :: rest, some x0, lb, c, e, i⟩ =
      .ok (some (left_deep (leaf x0) items)) ⟨rest, some T, lb', c', e, i⟩ := by
  obtain ⟨lb', c', h⟩ := binary_loop_items 9 (by omega) m hm T rest e i hT1 hT2 items m
    (leaf x0) lb c hlen hitems
  refine ⟨lb', c', ?_⟩
  have ho := operand_leaf 9 (by omega) m hm x0 _ lb c e i hx0
    (head_not_binds 9 (by omega) items T rest hT2 hitems)
  rw [logical_or_fold]
  change operand_expr 9 m _ = _ at ho
  rw [show logical_and_expr m = operand_expr 9 m from rfl, ho]
  simp only [Res.bind_ok]
  exact h

theorem fork_facts (t : luna_token) (h : t = .OP_FORK) :
    t ∉ level_ops 9 ∧ binds_tighter 9 t = false := by
  subst h
  decide

/-- The program `x0 || x1 ... || xn &`. -/
theorem parse_fork (self0 : luna_parser_t) (x0 f : luna_token_t)
    (items : List (luna_token_t × luna_token_t)) (fuel : Nat)
    (hx0 : is_operand x0.type = true) (hf : f.type = .OP_FORK)
    (hitems : ∀ it ∈ items, it.1.type ∈ level_ops 9 ∧ is_operand it.2.type = true)
    (hfuel : items.length + 32 ≤ fuel) :
    ∃ c', luna_parse fuel (luna_parser_init self0 (x0 :: (op_stream items ++ [f, eos]))) =
      .ok (some (.mk [.call (.id "fork")
          (some { vec := [left_deep (leaf x0) items], hash := [] })]))
        ⟨[], none, eos, c', none, 0⟩ := by
  obtain ⟨k, rfl⟩ : ∃ k, fuel = k + 1 + 3 + 3 := ⟨fuel - 7, by omega⟩
  obtain ⟨h1, h2, h3, h4⟩ := operand_not_stmt _ hx0
  obtain ⟨h5, h6⟩ := fork_facts _ hf
  obtain ⟨lb', c', hfold⟩ := logical_or_fold_items k (by omega) x0 f [eos] self0.lb
    (some "statement") none 0 items (by omega) hx0 h5 h6 hitems
  have hlo := logical_or_fork _ _ _ _ hfold hf
  have e1 : eos.type ≠ .OP_ASSIGN := by decide
  have e2 : eos.type ∉ compound_ops := by decide
  have he := expr_of_logical_or _ _ _ _ hlo h3 h4 e1 e2
  exact ⟨c', program_loop_last (k + 1 + 3) []
    (luna_parser_init self0 (x0 :: (op_stream items ++ [f, eos]))) _ _ h1 h2 he rfl⟩

/-! ## The let flag -/

theorem accept_fst_eq (k : luna_token) (s : luna_parser_t) :
    (accept k s).1 = decide ((peek s).1.type = k) := by
  by_cases h : (peek s).1.type = k
  · rw [accept_hit_peek _ _ h]; simp [h]
  · rw [accept_miss_peek _ _ h]; simp [h]

/-- A plain `'='` after the left-hand side: the node records whether `let` came first. -/
theorem assignment_plain (n : Nat) (s s1 s3 : luna_parser_t) (node right : luna_node_t)
    (h1 : logical_or_expr n (accept .LET s).2 = .ok (some node) s1)
    (h2 : (peek s1).1.type = .OP_ASSIGN)
    (h3 : not_expr n (context "assignment" { (peek s1).2 with lb := (peek s1).1, la := none }) =
      .ok (some right) s3) :
    assignment_expr (n + 1) s =
      .ok (some (.binary_op .OP_ASSIGN node right (decide ((peek s).1.type = .LET)))) s3 := by
  rw [assignment_expr]
  simp only [h1, Res.bind_ok]
  rw [accept_hit_peek _ _ h2]
  simp only [if_true, h3, Res.bind_ok, prev_type, h2, accept_fst_eq]

/-- A compound assignment operator after the left-hand side: the flag is false. -/
theorem assignment_compound (n : Nat) (s s1 s3 : luna_parser_t) (node right : luna_node_t)
    (h1 : logical_or_expr n (accept .LET s).2 = .ok (some node) s1)
    (h2 : (peek s1).1.type ∈ compound_ops)
    (h3 : not_expr n (context "compoound assignment"
      { (peek s1).2 with lb := (peek s1).1, la := none }) = .ok (some right) s3) :
    assignment_expr (n + 1) s =
      .ok (some (.binary_op (peek s1).1.type node right false)) s3 := by
  have hne : (peek s1).1.type ≠ .OP_ASSIGN := by
    intro h
    rw [h] at h2
    exact absurd h2 (by decide)
  rw [assignment_expr]
  simp only [h1, Res.bind_ok]
  rw [accept_miss_peek _ _ hne]
  simp only [Bool.false_eq_true, if_false]
  rw [accept_any_peek _ (by simp), accept_any_hit_peek [.OP_PLUS_ASSIGN, .OP_MINUS_ASSIGN,
    .OP_DIV_ASSIGN, .OP_MUL_ASSIGN, .OP_OR_ASSIGN, .OP_AND_ASSIGN] s1 h2]
  simp only [if_true, h3, Res.bind_ok, prev_type]

/-- No assignment operator after the left-hand side: the left-hand side is the result. -/
theorem assignment_none (n : Nat) (s s1 : luna_parser_t) (node : luna_node_t)
    (h1 : logical_or_expr n (accept .LET s).2 = .ok (some node) s1)
    (h2 : (peek s1).1.type ≠ .OP_ASSIGN) (h3 : (peek s1).1.type ∉ compound_ops) :
    assignment_expr (n + 1) s = .ok (some node) (peek s1).2 := by
  rw [assignment_expr]
  simp only [h1, Res.bind_ok]
  rw [accept_miss_peek _ _ h2]
  simp only [Bool.false_eq_true, if_false]
  rw [accept_any_peek _ (by simp), accept_any_miss_peek [.OP_PLUS_ASSIGN, .OP_MINUS_ASSIGN,
    .OP_DIV_ASSIGN, .OP_MUL_ASSIGN, .OP_OR_ASSIGN, .OP_AND_ASSIGN] (by simp) s1 h3]
  simp only [Bool.false_eq_true, if_false]

/-- Every node `assignment_expr` returns is its left-hand side handed on, a plain
assignment flagged exactly when `let` came first, or a compound assignment not flagged. -/
theorem assignment_shape (n : Nat) (s s' : luna_parser_t) (v : luna_node_t)
    (h : assignment_expr (n + 1) s = .ok (some v) s') :
    (∃ s1, logical_or_expr n (accept .LET s).2 = .ok (some v) s1) ∨
    (∃ l r, v = .binary_op .OP_ASSIGN l r (decide ((peek s).1.type = .LET))) ∨
    (∃ o l r, o ∈ compound_ops ∧ v = .binary_op o l r false) := by
  cases hlo : logical_or_expr n (accept .LET s).2 with
  | undefined => rw [assignment_expr] at h; simp [hlo] at h
  | fuel => rw [assignment_expr] at h; simp [hlo] at h
  | ok node s1 =>
    cases node with
    | none => rw [assignment_expr] at h; simp [hlo] at h
    | some node =>
      by_cases h2 : (peek s1).1.type = .OP_ASSIGN
      · cases hr : not_expr n (context "assignment"
            { (peek s1).2 with lb := (peek s1).1, la := none }) with
        | undefined =>
          rw [assignment_expr] at h
          simp only [hlo, Res.bind_ok] at h
          rw [accept_hit_peek _ _ h2] at h
          simp [hr] at h
        | fuel =>
          rw [assignment_expr] at h
          simp only [hlo, Res.bind_ok] at h
          rw [accept_hit_peek _ _ h2] at h
          simp [hr] at h
        | ok right s3 =>
          cases right with
          | none =>
            rw [assignment_expr] at h
            simp only [hlo, Res.bind_ok] at h
            rw [accept_hit_peek _ _ h2] at h
            simp [hr] at h
          | some right =>
            rw [assignment_plain n s s1 s3 node right hlo h2 hr] at h
            injection h with hv _
            injection hv with hv
            exact Or.inr (Or.inl ⟨node, right, hv.symm⟩)
      · by_cases h3 : (peek s1).1.type ∈ compound_ops
        · have hacc := accept_any_hit_peek [.OP_PLUS_ASSIGN, .OP_MINUS_ASSIGN,
            .OP_DIV_ASSIGN, .OP_MUL_ASSIGN, .OP_OR_ASSIGN, .OP_AND_ASSIGN] s1 h3
          cases hr : not_expr n (context "compoound assignment"
              { (peek s1).2 with lb := (peek s1).1, la := none }) with
          | undefined =>
            rw [assignment_expr] at h
            simp only [hlo, Res.bind_ok] at h
            rw [accept_miss_peek _ _ h2] at h
            simp only [Bool.false_eq_true, if_false] at h
            rw [accept_any_peek _ (by simp), hacc] at h
            simp [hr] at h
          | fuel =>
            rw [assignment_expr] at h
            simp only [hlo, Res.bind_ok] at h
            rw [accept_miss_peek _ _ h2] at h
            simp only [Bool.false_eq_true, if_false] at h
            rw [accept_any_peek _ (by simp), hacc] at h
            simp [hr] at h
          | ok right s3 =>
            cases right with
            | none =>
              rw [assignment_expr] at h
              simp only [hlo, Res.bind_ok] at h
              rw [accept_miss_peek _ _ h2] at h
              simp only [Bool.false_eq_true, if_false] at h
              rw [accept_any_peek _ (by simp), hacc] at h
              simp [hr] at h
            | some right =>
              rw [assignment_compound n s s1 s3 node right hlo h3 hr] at h
              injection h with hv _
              injection hv with hv
              exact Or.inr (Or.inr ⟨_, node, right, h3, hv.symm⟩)
        · rw [assignment_none n s s1 node hlo h2 h3] at h
          injection h with hv _
          injection hv with hv
          subst hv
          exact Or.inl ⟨s1, rfl⟩

/-- Every node the loop of a binary level returns is the node it started from or a
binary node whose flag is false. -/
theorem binary_loop_flag (ops : List luna_token) (op : luna_parser_t → luna_token)
    (ctx : String) (operand : luna_parser_t → Res (Option luna_node_t)) (k : Nat) :
    ∀ (node : luna_node_t) (s s' : luna_parser_t) (v : luna_node_t),
      binary_loop ops op ctx operand k node s = .ok (some v) s' →
      v = node ∨ ∃ o l r, v = .binary_op o l r false := by
  induction k with
  | zero => intro node s s' v h; rw [binary_loop] at h; exact absurd h (by simp)
  | succ k ih =>
    intro node s s' v h
    rw [binary_loop] at h
    by_cases ha : (accept_any ops s).1 = true
    · simp only [ha, if_true] at h
      cases hr : operand (context ctx (accept_any ops s).2) with
      | undefined => simp [hr] at h
      | fuel => simp [hr] at h
      | ok right s2 =>
        cases right with
        | none => simp [hr] at h
        | some right =>
          simp only [hr, Res.bind_ok] at h
          rcases ih _ _ _ _ h with h1 | h1
          · exact Or.inr ⟨_, _, _, h1⟩
          · exact Or.inr h1
    · simp only [ha, Bool.false_eq_true, if_false] at h
      injection h with hv _
      injection hv with hv
      exact Or.inl hv.symm

/-- Every node a binary level returns is its first operand handed on, a binary node whose
flag is false, or (for `logical_or_expr`) the fork call. -/
theorem level_flag (j : Nat) (hj : j ≤ 9) (n : Nat) (s s' : luna_parser_t) (v : luna_node_t)
    (h : level_expr j (n + 1) s = .ok (some v) s') :
    (∃ s1, operand_expr j n s = .ok (some v) s1) ∨
    (∃ o l r, v = .binary_op o l r false) ∨
    (j = 9 ∧ ∃ e, v = .call (.id "fork") (some { vec := [e], hash := [] })) := by
  by_cases h9 : j < 9
  · rw [level_expr_succ j h9] at h
    cases ho : operand_expr j n s with
    | undefined => simp [ho] at h
    | fuel => simp [ho] at h
    | ok node s1 =>
      cases node with
      | none => simp [ho] at h
      | some node =>
        simp only [ho, Res.bind_ok] at h
        rcases binary_loop_flag _ _ _ _ _ _ _ _ _ h with h1 | h1
        · subst h1; exact Or.inl ⟨s1, rfl⟩
        · exact Or.inr (Or.inl h1)
  · have : j = 9 := by omega
    subst this
    rw [logical_or_expr_succ] at h
    cases ho : operand_expr 9 n s with
    | undefined => simp [ho] at h
    | fuel => simp [ho] at h
    | ok node s1 =>
      cases node with
      | none => simp [ho] at h
      | some node =>
        simp only [ho, Res.bind_ok] at h
        cases hb : binary_loop (level_ops 9) (level_op 9) (level_ctx 9) (operand_expr 9 n) n
            node s1 with
        | undefined => simp [hb] at h
        | fuel => simp [hb] at h
        | ok w s2 =>
          cases w with
          | none => simp [hb] at h
          | some w =>
            simp only [hb, Res.bind_ok] at h
            by_cases hf : (accept .OP_FORK s2).1 = true
            · simp only [hf, if_true] at h
              injection h with hv _
              injection hv with hv
              exact Or.inr (Or.inr ⟨rfl, w, hv.symm⟩)
            · simp only [hf, Bool.false_eq_true, if_false] at h
              injection h with hv _
              injection hv with hv
              subst hv
              rcases binary_loop_flag _ _ _ _ _ _ _ _ _ hb with h1 | h1
              · subst h1; exact Or.inl ⟨s1, rfl⟩
              · exact Or.inr (Or.inl h1)

/-- Every node `pow_expr` returns is its operand handed on or a `'**'` node whose flag is
false. -/
theorem pow_flag (n : Nat) (s s' : luna_parser_t) (v : luna_node_t)
    (h : pow_expr (n + 1) s = .ok (some v) s') :
    (∃ s1, call_expr n s = .ok (some v) s1) ∨ ∃ l r, v = .binary_op .OP_POW l r false := by
  rw [pow_expr] at h
  cases hc : call_expr n s with
  | undefined => simp [hc] at h
  | fuel => simp [hc] at h
  | ok node s1 =>
    cases node with
    | none => simp [hc] at h
    | some node =>
      simp only [hc, Res.bind_ok] at h
      by_cases ha : (accept .OP_POW s1).1 = true
      · simp only [ha, if_true] at h
        cases hr : call_expr n (context "** operation" (accept .OP_POW s1).2) with
        | undefined => simp [hr] at h
        | fuel => simp [hr] at h
        | ok right s2 =>
          cases right with
          | none => simp [hr] at h
          | some right =>
            simp only [hr, Res.bind_ok] at h
            injection h with hv _
            injection hv with hv
            exact Or.inr ⟨node, right, hv.symm⟩
      · simp only [ha, Bool.false_eq_true, if_false] at h
        injection h with hv _
        injection hv with hv
        subst hv
        exact Or.inl ⟨s1, rfl⟩

/-! ## An expression that cannot begin -/

theorem starts_expr_false (t : luna_token) (h : starts_expr t = false) :
    (t ≠ .ID ∧ t ≠ .INT ∧ t ≠ .FLOAT ∧ t ≠ .STRING ∧ t ≠ .LBRACK ∧ t ≠ .LBRACE ∧ t ≠ .LPAREN) ∧
      t ∉ [luna_token.OP_INCR, .OP_DECR, .OP_BIT_NOT, .OP_PLUS, .OP_MINUS, .OP_NOT] ∧
      t ≠ .LET ∧ t ≠ .OP_LNOT := by
  revert t
  decide

/-- `primary_expr` on a token that begins none of its alternatives fails without
consuming it and without an error message. -/
theorem primary_fail (k : Nat) (lex : List luna_token_t) (t lb : luna_token_t)
    (c e : Option String) (i : Int) (ht : starts_expr t.type = false) :
    primary_expr (k + 2) ⟨lex, some t, lb, c, e, i⟩ = .ok none ⟨lex, some t, lb, c, e, i⟩ := by
  obtain ⟨⟨h1, h2, h3, h4, h5, h6, h7⟩, _, _, _⟩ := starts_expr_false _ ht
  have hp : paren_expr (k + 1) ⟨lex, some t, lb, c, e, i⟩ = .ok none ⟨lex, some t, lb, c, e, i⟩ := by
    rw [paren_expr, accept_miss _ _ _ _ _ _ _ h7]
    rfl
  rw [primary_expr]
  simp only [peek_some]
  exact hp

theorem unary_fail (k : Nat) (lex : List luna_token_t) (t lb : luna_token_t)
    (c e : Option String) (i : Int) (ht : starts_expr t.type = false) :
    unary_expr (k + 7) ⟨lex, some t, lb, c, e, i⟩ = .ok none ⟨lex, some t, lb, c, e, i⟩ := by
  obtain ⟨_, h8, _, _⟩ := starts_expr_false _ ht
  rw [unary_expr, accept_any_miss _ _ _ _ _ _ _ h8]
  simp only [Bool.false_eq_true, if_false]
  rw [postfix_expr, pow_expr, call_expr, slot_access_expr, primary_fail k _ _ _ _ _ _ ht]
  rfl

theorem operand_fail (j : Nat) (hj : j ≤ 10) (k : Nat) (lex : List luna_token_t)
    (t lb : luna_token_t) (c e : Option String) (i : Int) (ht : starts_expr t.type = false) :
    operand_expr j (k + 7 + j) ⟨lex, some t, lb, c, e, i⟩ =
      .ok none ⟨lex, some t, lb, c, e, i⟩ := by
  induction j with
  | zero => exact unary_fail k lex t lb c e i ht
  | succ j ih =>
    show level_expr j (k + 7 + j + 1) _ = _
    by_cases h9 : j < 9
    · rw [level_expr_succ j h9, ih (by omega)]
      rfl
    · have : j = 9 := by omega
      subst this
      rw [logical_or_expr_succ, ih (by omega)]
      rfl

/-- `expr` on a token that cannot begin an expression fails without consuming it and
without an error message. -/
theorem expr_fail (n : Nat) (hn : 20 ≤ n) (lex : List luna_token_t) (t lb : luna_token_t)
    (c e : Option String) (i : Int) (ht : starts_expr t.type = false) :
    expr n ⟨lex, some t, lb, c, e, i⟩ = .ok none ⟨lex, some t, lb, c, e, i⟩ := by
  obtain ⟨k, rfl⟩ : ∃ k, n = k + 7 + 10 + 3 := ⟨n - 20, by omega⟩
  obtain ⟨_, _, h9, h10⟩ := starts_expr_false _ ht
  have h := operand_fail 10 (by omega) k lex t lb c e i ht
  change logical_or_expr (k + 7 + 10) _ = _ at h
  rw [expr, not_expr, accept_miss _ _ _ _ _ _ _ h10]
  simp only [Bool.false_eq_true, if_false]
  rw [assignment_expr, accept_miss _ _ _ _ _ _ _ h9, h]
  rfl

/-! ## Return -/

theorem return_stmt_peek (n : Nat) (s : luna_parser_t) :
    return_stmt n (peek s).2 = return_stmt n s := by
  cases n with
  | zero => rfl
  | succ n =>
    rw [return_stmt, return_stmt, ← accept_peek _ (context _ (peek s).2), context_peek_snd,
      peek_idem, ← context_peek_snd, accept_peek]

/-- `return_stmt` wraps the expression that follows `return`. -/
theorem return_ok (n : Nat) (s s1 : luna_parser_t) (e : luna_node_t)
    (hr : (peek s).1.type = .RETURN)
    (h : expr n (context "return statement" { (peek s).2 with lb := (peek s).1, la := none }) =
      .ok (some e) s1) :
    return_stmt (n + 1) s = .ok (some (.return_stmt e)) s1 := by
  have hr2 : (peek (context "return statement" s)).1.type = .RETURN := by
    rw [context_peek_fst]; exact hr
  rw [return_stmt, accept_hit_peek _ _ hr2]
  simp only [if_true]
  rw [context_peek_fst, context_peek_snd]
  change (expr n (context "return statement" { (peek s).2 with lb := (peek s).1, la := none })).bind
    _ = _
  rw [h]
  rfl

/-- `return_stmt` fails when the token after `return` cannot begin an expression. -/
theorem return_fail (n : Nat) (hn : 21 ≤ n) (r : luna_token_t) (lex : List luna_token_t)
    (lb : luna_token_t) (c e : Option String) (i : Int) (hr : r.type = .RETURN)
    (ht : starts_expr (luna_scan lex).1.type = false) :
    return_stmt n ⟨lex, some r, lb, c, e, i⟩ =
      .ok none ⟨(luna_scan lex).2, some (luna_scan lex).1, r, some "return statement", e, i⟩ := by
  obtain ⟨k, rfl⟩ : ∃ k, n = k + 1 := ⟨n - 1, by omega⟩
  rw [return_stmt]
  simp only [context, accept_hit _ _ _ _ _ _ _ hr, if_true]
  rw [← expr_peek]
  simp only [peek_none]
  rw [expr_fail k (by omega) _ _ _ _ _ _ ht]
  rfl

/-- A program that begins with `return` and a token that cannot begin an expression
fails. -/
theorem parse_return_fail (self0 : luna_parser_t) (r : luna_token_t)
    (lex : List luna_token_t) (fuel : Nat) (hr : r.type = .RETURN)
    (ht : starts_expr (luna_scan lex).1.type = false) (hf : 23 ≤ fuel) :
    luna_parse fuel (luna_parser_init self0 (r :: lex)) =
      .ok none ⟨(luna_scan lex).2, some (luna_scan lex).1, r, some "return statement",
        none, 0⟩ := by
  obtain ⟨k, rfl⟩ : ∃ k, fuel = k + 1 + 1 := ⟨fuel - 2, by omega⟩
  have hE : (peek (luna_parser_init self0 (r :: lex))).1.type ≠ .EOS := by
    show r.type ≠ .EOS
    rw [hr]; decide
  have hd : (peek (luna_parser_init self0 (r :: lex))).1.type = .RETURN := hr
  rw [luna_parse, program, program_loop_stmt _ _ _ hE, stmt_dispatch, hd]
  simp only
  have := return_fail k (by omega) r lex self0.lb (some "statement") none 0 hr ht
  change (return_stmt k ⟨lex, some r, self0.lb, some "statement", none, 0⟩).bind _ = _
  rw [this]
  rfl

/-! ## Type declarations -/

theorem type_stmt_loop_peek (n : Nat) (ty : luna_node_t) (s : luna_parser_t) :
    type_stmt_loop n ty (peek s).2 = type_stmt_loop n ty s := by
  cases n with
  | zero => rfl
  | succ n => rw [type_stmt_loop, type_stmt_loop, is_peek]

theorem type_stmt_peek (n : Nat) (s : luna_parser_t) : type_stmt n (peek s).2 = type_stmt n s := by
  cases n with
  | zero => rfl
  | succ n =>
    rw [type_stmt, type_stmt, ← accept_peek _ (context _ (peek s).2), context_peek_snd,
      peek_idem, ← context_peek_snd, accept_peek]

/-- One field entry of the field loop. -/
theorem type_stmt_loop_field (n : Nat) (ty : luna_node_t) (f t : luna_token_t)
    (lex : List luna_token_t) (lb : luna_token_t) (c e : Option String) (i : Int)
    (hf : f.type = .ID) (ht : t.type = .ID) :
    type_stmt_loop (n + 1) ty ⟨f :: tok .COLON :: t :: lex, none, lb, c, e, i⟩ =
      if (luna_scan lex).1.type = .END then
        .ok (some ty) ⟨(luna_scan lex).2, none, (luna_scan lex).1, c, e, i⟩
      else type_stmt_loop n ty ⟨lex, none, tok .COLON, c, e, i⟩ := by
  rw [type_stmt_loop]
  simp only [is_eq, peek_none, scan_cons, hf, decide_True, if_true, next_some]
  rw [accept_cons_hit .COLON (tok .COLON) _ _ _ _ _ rfl]
  simp only [if_true, peek_none, scan_cons, ht, decide_True, next_some]
  by_cases hE : (luna_scan lex).1.type = .END
  · simp only [hE, if_true]
    simp [accept, peek, hE]
  · simp only [hE, if_false]
    rw [accept_none_miss _ _ _ _ _ _ hE]
    simp only [Bool.false_eq_true, if_false]
    exact type_stmt_loop_peek n ty ⟨lex, none, tok .COLON, c, e, i⟩

/-- The field loop on `f1 : t1 ... fn : tn end`, at least one field. -/
theorem type_stmt_loop_fields (ty : luna_node_t) (en : luna_token_t) (hen : en.type = .END)
    (rest : List luna_token_t) (c e : Option String) (i : Int)
    (fields : List (luna_token_t × luna_token_t)) :
    fields ≠ [] → (∀ fd ∈ fields, fd.1.type = .ID ∧ fd.2.type = .ID) →
    ∀ (n : Nat), fields.length ≤ n → ∀ (lb : luna_token_t),
      type_stmt_loop n ty ⟨field_stream fields ++ en :: rest, none, lb, c, e, i⟩ =
        .ok (some ty) ⟨rest, none, en, c, e, i⟩ := by
  induction fields with
  | nil => intro h; exact absurd rfl h
  | cons fd more ih =>
    intro _ hall n hn lb
    obtain ⟨f, t⟩ := fd
    obtain ⟨m, rfl⟩ : ∃ m, n = m + 1 := ⟨n - 1, by simp at hn; omega⟩
    have hfd := hall (f, t) (by simp)
    simp only [field_stream, List.cons_append]
    rw [type_stmt_loop_field m ty f t _ lb c e i hfd.1 hfd.2]
    cases more with
    | nil =>
      simp only [field_stream, List.nil_append, scan_cons, hen, if_true]
    | cons fd2 more2 =>
      have hfd2 := hall fd2 (by simp)
      obtain ⟨f2, t2⟩ := fd2
      have hne : f2.type ≠ .END := by rw [hfd2.1]; decide
      simp only [field_stream, List.cons_append, scan_cons, hne, if_false]
      exact ih (by simp) (fun x hx => hall x (by simp [hx])) m (by simp at hn ⊢; omega) _

/-- `type_stmt` on `type name f1 : t1 ... fn : tn end`, at least one field. -/
theorem type_stmt_fields (ty name en : luna_token_t) (hty : ty.type = .TYPE)
    (hname : name.type = .ID) (hen : en.type = .END) (rest : List luna_token_t)
    (fields : List (luna_token_t × luna_token_t)) (hne : fields ≠ [])
    (hall : ∀ fd ∈ fields, fd.1.type = .ID ∧ fd.2.type = .ID)
    (n : Nat) (hn : fields.length + 1 ≤ n) (lb : luna_token_t) (c e : Option String) (i : Int) :
    type_stmt n ⟨ty :: name :: (field_stream fields ++ en :: rest), none, lb, c, e, i⟩ =
      .ok (some (.type name.as_string)) ⟨rest, none, en, some "type statement", e, i⟩ := by
  obtain ⟨m, rfl⟩ : ∃ m, n = m + 1 := ⟨n - 1, by omega⟩
  rw [type_stmt]
  simp only [context]
  rw [accept_cons_hit .TYPE ty _ _ _ _ _ hty]
  simp only [if_true, is_eq, peek_none, scan_cons, hname, decide_True, next_some]
  exact type_stmt_loop_fields _ en hen rest _ e i fields hne hall m (by omega) _

/-- `type_stmt` on `type name end`: the field loop runs once before it looks for `end`. -/
theorem type_stmt_no_field (ty name en : luna_token_t) (hty : ty.type = .TYPE)
    (hname : name.type = .ID) (hen : en.type = .END) (rest : List luna_token_t)
    (n : Nat) (hn : 2 ≤ n) (lb : luna_token_t) (c e : Option String) (i : Int) :
    type_stmt n ⟨ty :: name :: en :: rest, none, lb, c, e, i⟩ =
      .ok none (error "expecting field" ⟨rest, some en, ty, some "type statement", e, i⟩) := by
  obtain ⟨m, rfl⟩ : ∃ m, n = m + 1 + 1 := ⟨n - 2, by omega⟩
  have hne : en.type ≠ .ID := by rw [hen]; decide
  rw [type_stmt]
  simp only [context]
  rw [accept_cons_hit .TYPE ty _ _ _ _ _ hty]
  simp only [if_true, is_eq, peek_none, scan_cons, hname, decide_True, next_some]
  rw [type_stmt_loop]
  simp only [is_eq, peek_none, scan_cons, hne, decide_False, Bool.false_eq_true, if_false]

/-! ## Blocks and statements: cursor normal form and fuel -/

theorem clauseRuns_mono (f0 f1 : Nat) (h : f0 ≤ f1) (ts : List luna_token_t) (e : luna_node_t)
    (hr : ClauseRuns f0 ts e) : ClauseRuns f1 ts e :=
  fun fuel hf => hr fuel (le_trans h hf)

theorem blockRuns_mono (f0 f1 : Nat) (h : f0 ≤ f1) (ts : List luna_token_t)
    (b : luna_block_node_t) (hr : BlockRuns f0 ts b) : BlockRuns f1 ts b :=
  fun fuel hf => hr fuel (le_trans h hf)

theorem stmtRuns_mono (f0 f1 : Nat) (h : f0 ≤ f1) (ts : List luna_token_t) (e : luna_node_t)
    (hr : StmtRuns f0 ts e) : StmtRuns f1 ts e :=
  fun fuel hf => hr fuel (le_trans h hf)

/-- A fuel bound that serves every element of a list at once. -/
theorem common_fuel {α : Type} (P : Nat → α → Prop)
    (mono : ∀ f0 f1 x, f0 ≤ f1 → P f0 x → P f1 x) (l : List α)
    (h : ∀ x ∈ l, ∃ f, P f x) : ∃ F, ∀ x ∈ l, P F x := by
  induction l with
  | nil => exact ⟨0, fun x hx => absurd hx (List.not_mem_nil _)⟩
  | cons a l ih =>
    obtain ⟨F, hF⟩ := ih (fun x hx => h x (List.mem_cons_of_mem _ hx))
    obtain ⟨f, hf⟩ := h a (List.mem_cons_self _ _)
    refine ⟨max F f, fun x hx => ?_⟩
    rcases List.mem_cons.mp hx with rfl | hx
    · exact mono _ _ _ (le_max_right _ _) hf
    · exact mono _ _ _ (le_max_left _ _) (hF x hx)

theorem block_loop_peek (n : Nat) (st : List luna_node_t) (s : luna_parser_t) :
    block_loop n st (peek s).2 = block_loop n st s := by
  cases n with
  | zero => rfl
  | succ n => rw [block_loop, block_loop, stmt_peek]

theorem block_peek (n : Nat) (s : luna_parser_t) : block n (peek s).2 = block n s := by
  cases n with
  | zero => rfl
  | succ n => rw [block, block, accept_peek]

theorem accept_any_context_peek (ops : List luna_token) (hne : ops ≠ []) (c : String)
    (s : luna_parser_t) :
    accept_any ops (context c (peek s).2) = accept_any ops (context c s) := by
  rw [← context_peek_snd, accept_any_peek ops hne]

theorem if_stmt_peek (n : Nat) (s : luna_parser_t) : if_stmt n (peek s).2 = if_stmt n s := by
  cases n with
  | zero => rfl
  | succ n => rw [if_stmt, if_stmt, accept_any_peek _ (by simp)]

theorem while_stmt_peek (n : Nat) (s : luna_parser_t) :
    while_stmt n (peek s).2 = while_stmt n s := by
  cases n with
  | zero => rfl
  | succ n => rw [while_stmt, while_stmt, accept_any_peek _ (by simp)]

theorem function_stmt_peek (n : Nat) (s : luna_parser_t) :
    function_stmt n (peek s).2 = function_stmt n s := by
  cases n with
  | zero => rfl
  | succ n =>
    rw [function_stmt, function_stmt, ← accept_peek _ (context _ (peek s).2), context_peek_snd,
      peek_idem, ← context_peek_snd, accept_peek]

theorem if_stmt_loop_peek (n : Nat) (ng : Bool) (cond : luna_node_t) (body : luna_block_node_t)
    (acc : List luna_node_t) (s : luna_parser_t) :
    if_stmt_loop n ng cond body acc (peek s).2 = if_stmt_loop n ng cond body acc s := by
  cases n with
  | zero => rfl
  | succ n => rw [if_stmt_loop, if_stmt_loop, accept_peek]

/-- A block run from a state that has its first token buffered. -/
theorem blockRuns_buffered (f0 : Nat) (t : luna_token_t) (ts : List luna_token_t)
    (b : luna_block_node_t) (h : BlockRuns f0 (t :: ts) b) (fuel : Nat) (hf : f0 ≤ fuel)
    (rest : List luna_token_t) (lb : luna_token_t) (c err : Option String) (ia : Int) :
    ∃ lb' c' err' ia', block fuel ⟨ts ++ rest, some t, lb, c, err, ia⟩ =
      .ok (some b) ⟨rest, none, lb', c', err', ia'⟩ := by
  obtain ⟨lb', c', err', ia', hb⟩ := h fuel hf rest lb c err ia
  refine ⟨lb', c', err', ia', ?_⟩
  rw [← hb, ← block_peek fuel ⟨(t :: ts) ++ rest, none, lb, c, err, ia⟩]
  rfl

theorem starts_block_clause (t : luna_token) (h : starts_block t = true) :
    ends_clause t = true := by
  revert t
  decide

theorem follows_stmt_clause (t : luna_token) (h : follows_stmt t = true) :
    ends_clause t = true ∧ t ≠ .ELSE := by
  revert t
  decide

/-! ## Conditionals -/

theorem accept_any_cons_hit (ops : List luna_token) (t : luna_token_t) (lex : List luna_token_t)
    (lb : luna_token_t) (c e : Option String) (i : Int) (h : t.type ∈ ops) :
    accept_any ops ⟨t :: lex, none, lb, c, e, i⟩ = (true, ⟨lex, none, t, c, e, i⟩) :=
  accept_any_hit_peek ops ⟨t :: lex, none, lb, c, e, i⟩ h

/-- The end of the `else` loop when no `else` follows. -/
theorem if_loop_end (n : Nat) (ng : Bool) (cond : luna_node_t) (body : luna_block_node_t)
    (acc : List luna_node_t) (k : luna_token_t) (rest : List luna_token_t) (lb : luna_token_t)
    (c err : Option String) (ia : Int) (hk : k.type ≠ .ELSE) :
    if_stmt_loop (n + 1) ng cond body acc ⟨k :: rest, none, lb, c, err, ia⟩ =
      .ok (some (.if_stmt ng cond body acc none)) ⟨rest, some k, lb, c, err, ia⟩ := by
  have hk2 : (luna_scan (k :: rest)).1.type ≠ .ELSE := hk
  rw [if_stmt_loop, accept_none_miss _ _ _ _ _ _ hk2]
  rfl

/-- The end of the `else` loop on a final `else` and its block. -/
theorem if_loop_else (F : Nat) (t : luna_token_t) (ets : List luna_token_t)
    (eb : luna_block_node_t) (hB : BlockRuns F (t :: ets) eb) (ht : t.type ≠ .IF)
    (n : Nat) (hn : F ≤ n) (ng : Bool) (cond : luna_node_t) (body : luna_block_node_t)
    (acc : List luna_node_t) (rest : List luna_token_t) (lb : luna_token_t)
    (c err : Option String) (ia : Int) :
    ∃ lb' c' err' ia',
      if_stmt_loop (n + 1) ng cond body acc
        ⟨tok .ELSE :: ((t :: ets) ++ rest), none, lb, c, err, ia⟩ =
      .ok (some (.if_stmt ng cond body acc (some eb))) ⟨rest, none, lb', c', err', ia'⟩ := by
  have ht2 : (luna_scan ((t :: ets) ++ rest)).1.type ≠ .IF := ht
  obtain ⟨lb', c', err', ia', hb⟩ := blockRuns_buffered F t ets eb hB n hn rest (tok .ELSE)
    (some "else statement") err ia
  refine ⟨lb', c', err', ia', ?_⟩
  rw [if_stmt_loop, accept_cons_hit .ELSE (tok .ELSE) _ _ _ _ _ rfl]
  simp only [if_true]
  rw [accept_none_miss _ _ _ _ _ _ ht2]
  simp only [Bool.false_eq_true, if_false, context, List.cons_append, scan_cons, hb, Res.bind_ok]

/-- The `else` loop on a run of `else if` clauses, followed by tokens on which the loop
ends. -/
theorem if_loop_clauses (F : Nat) (ng : Bool) (cond : luna_node_t) (body : luna_block_node_t)
    (tail : List luna_token_t) (elsb : Option luna_block_node_t) (post : luna_parser_t → Prop)
    (htail : ∀ n, F ≤ n → ∀ (acc : List luna_node_t) (lb : luna_token_t) (c err : Option String)
      (ia : Int), ∃ s', if_stmt_loop (n + 1) ng cond body acc ⟨tail, none, lb, c, err, ia⟩ =
        .ok (some (.if_stmt ng cond body acc elsb)) s' ∧ post s')
    (clauses : List ((List luna_token_t × luna_node_t) × (List luna_token_t × luna_block_node_t))) :
    (∀ cl ∈ clauses, ClauseRuns F cl.1.1 cl.1.2 ∧ BlockRuns F cl.2.1 cl.2.2 ∧
      ∃ t ts', cl.2.1 = t :: ts' ∧ starts_block t.type = true) →
    ∀ n, F + clauses.length ≤ n → ∀ (acc : List luna_node_t) (lb : luna_token_t)
      (c err : Option String) (ia : Int),
      ∃ s', if_stmt_loop (n + 1) ng cond body acc
          ⟨else_if_stream (clauses.map fun cl => (cl.1.1, cl.2.1)) ++ tail, none, lb, c, err, ia⟩ =
        .ok (some (.if_stmt ng cond body
          (acc ++ clauses.map fun cl => .if_stmt false cl.1.2 cl.2.2 [] none) elsb)) s' ∧
        post s' := by
  induction clauses with
  | nil =>
    intro _ n hn acc lb c err ia
    simp only [List.map_nil, else_if_stream, List.nil_append, List.append_nil]
    exact htail n (by omega) acc lb c err ia
  | cons cl more ih =>
    intro hall n hn acc lb c err ia
    obtain ⟨m, rfl⟩ : ∃ m, n = m + 1 := ⟨n - 1, by simp at hn; omega⟩
    obtain ⟨hC, hB, t, ts', hbt, hst⟩ := hall cl (List.mem_cons_self _ _)
    obtain ⟨⟨cts, cnode⟩, ⟨bts, bnode⟩⟩ := cl
    simp only at hC hB hbt
    subst hbt
    have hm : F ≤ m := by simp at hn; omega
    obtain ⟨lb1, c1, err1, ia1, he⟩ := hC (m + 1) (by omega) t
      (ts' ++ (else_if_stream (more.map fun cl => (cl.1.1, cl.2.1)) ++ tail)) (tok .IF)
      (some "else if statement condition") err ia (starts_block_clause _ hst)
    obtain ⟨lb2, c2, err2, ia2, hb⟩ := blockRuns_buffered F t ts' bnode hB (m + 1) (by omega)
      (else_if_stream (more.map fun cl => (cl.1.1, cl.2.1)) ++ tail) lb1
      (some "else if statement") err1 ia1
    obtain ⟨s', hs', hpost⟩ := ih (fun x hx => hall x (List.mem_cons_of_mem _ hx)) m
      (by simp at hn; omega) (acc ++ [.if_stmt false cnode bnode [] none]) lb2 c2 err2 ia2
    refine ⟨s', ?_, hpost⟩
    have e1 : else_if_stream ((((cts, cnode), (t :: ts', bnode)) :: more).map
          fun cl => (cl.1.1, cl.2.1)) ++ tail =
        tok .ELSE :: tok .IF :: (cts ++ t ::
          (ts' ++ (else_if_stream (more.map fun cl => (cl.1.1, cl.2.1)) ++ tail))) := by
      simp [else_if_stream]
    rw [e1, if_stmt_loop, accept_cons_hit .ELSE (tok .ELSE) _ _ _ _ _ rfl]
    simp only [if_true]
    rw [accept_cons_hit .IF (tok .IF) _ _ _ _ _ rfl]
    simp only [if_true, context, he, Res.bind_ok, hb, hs', List.map_cons, List.append_assoc,
      List.singleton_append]

/-- `if_stmt` on the keyword, a condition, a body and tokens on which the `else` loop
returns. -/
theorem if_stmt_run (F : Nat) (kw : luna_token_t) (hkw : kw.type ∈ [luna_token.IF, .UNLESS])
    (cts : List luna_token_t) (c0 : luna_node_t) (hC : ClauseRuns F cts c0)
    (t : luna_token_t) (bts : List luna_token_t) (b0 : luna_block_node_t)
    (hB : BlockRuns F (t :: bts) b0) (ht : starts_block t.type = true)
    (tail : List luna_token_t) (r : luna_node_t) (post : luna_parser_t → Prop)
    (n : Nat) (hn : F ≤ n)
    (hloop : ∀ (lb : luna_token_t) (c err : Option String) (ia : Int),
      ∃ s', if_stmt_loop n (decide (kw.type = .UNLESS)) c0 b0 [] ⟨tail, none, lb, c, err, ia⟩ =
        .ok (some r) s' ∧ post s')
    (lb : luna_token_t) (c err : Option String) (ia : Int) :
    ∃ s', if_stmt (n + 1) ⟨kw :: (cts ++ ((t :: bts) ++ tail)), none, lb, c, err, ia⟩ =
      .ok (some r) s' ∧ post s' := by
  obtain ⟨lb1, c1, err1, ia1, he⟩ := hC n hn t (bts ++ tail) kw
    (some "if statement condition") err ia (starts_block_clause _ ht)
  obtain ⟨lb2, c2, err2, ia2, hb⟩ := blockRuns_buffered F t bts b0 hB n hn tail lb1
    (some "if statement") err1 ia1
  obtain ⟨s', hs', hpost⟩ := hloop lb2 c2 err2 ia2
  refine ⟨s', ?_, hpost⟩
  have hng : decide (luna_token.UNLESS = kw.type) = decide (kw.type = .UNLESS) := by
    simp [eq_comm]
  rw [if_stmt, accept_any_cons_hit _ _ _ _ _ _ _ hkw]
  simp only [if_true, context, prev_type, List.cons_append, he, Res.bind_ok, hb, hng, hs']

theorem stmt_of_if (n : Nat) (s : luna_parser_t)
    (h : (peek s).1.type ∈ [luna_token.IF, .UNLESS]) :
    stmt (n + 1) s = if_stmt n (context "statement" s) := by
  rw [stmt_dispatch, ← context_peek_snd, ← if_stmt_peek n (context "statement" s)]
  simp only [List.mem_cons, List.mem_singleton, List.not_mem_nil, or_false] at h
  rcases h with h | h <;> rw [h]

theorem stmt_of_while (n : Nat) (s : luna_parser_t)
    (h : (peek s).1.type ∈ [luna_token.UNTIL, .WHILE]) :
    stmt (n + 1) s = while_stmt n (context "statement" s) := by
  rw [stmt_dispatch, ← context_peek_snd, ← while_stmt_peek n (context "statement" s)]
  simp only [List.mem_cons, List.mem_singleton, List.not_mem_nil, or_false] at h
  rcases h with h | h <;> rw [h]

theorem stmt_of_return (n : Nat) (s : luna_parser_t) (h : (peek s).1.type = .RETURN) :
    stmt (n + 1) s = return_stmt n (context "statement" s) := by
  rw [stmt_dispatch, ← context_peek_snd, ← return_stmt_peek n (context "statement" s), h]

theorem stmt_of_def (n : Nat) (s : luna_parser_t) (h : (peek s).1.type = .DEF) :
    stmt (n + 1) s = function_stmt n (context "statement" s) := by
  rw [stmt_dispatch, ← context_peek_snd, ← function_stmt_peek n (context "statement" s), h]

theorem stmt_of_type (n : Nat) (s : luna_parser_t) (h : (peek s).1.type = .TYPE) :
    stmt (n + 1) s = type_stmt n (context "statement" s) := by
  rw [stmt_dispatch, ← context_peek_snd, ← type_stmt_peek n (context "statement" s), h]

/-- `if_stmt` on a whole conditional: the keyword, the condition, the body, any number
of `else if` clauses and an optional `else`, followed by a token that may follow a
statement. -/
theorem if_stmt_chain (kw : luna_token_t) (hkw : kw.type ∈ [luna_token.IF, .UNLESS])
    (cond : List luna_token_t × luna_node_t) (body : List luna_token_t × luna_block_node_t)
    (clauses : List ((List luna_token_t × luna_node_t) × (List luna_token_t × luna_block_node_t)))
    (els : Option (List luna_token_t × luna_block_node_t))
    (hc : ClauseParses cond.1 cond.2) (hb : BlockParses body.1 body.2)
    (hcl : ∀ cl ∈ clauses, ClauseParses cl.1.1 cl.1.2 ∧ BlockParses cl.2.1 cl.2.2)
    (hels : ∀ e ∈ els, BlockParses e.1 e.2 ∧ ∀ t ∈ e.1.head?, t.type ≠ .IF) :
    ∃ f0, ∀ fuel, f0 ≤ fuel → ∀ (k : luna_token_t) (rest : List luna_token_t)
      (lb : luna_token_t) (c err : Option String) (ia : Int), follows_stmt k.type = true →
      ∃ s' lb' c' err' ia',
        if_stmt fuel ⟨if_stream kw cond.1 body.1 (clauses.map fun cl => (cl.1.1, cl.2.1))
            (els.map (·.1)) ++ k :: rest, none, lb, c, err, ia⟩ =
          .ok (some (.if_stmt (decide (kw.type = .UNLESS)) cond.2 body.2
            (clauses.map fun cl => .if_stmt false cl.1.2 cl.2.2 [] none) (els.map (·.2)))) s' ∧
        (peek s').2 = ⟨rest, some k, lb', c', err', ia'⟩ := by
  obtain ⟨f1, hC⟩ := hc
  obtain ⟨⟨t, bts, hbt, hst⟩, f2, hB⟩ := hb
  obtain ⟨cts, c0⟩ := cond
  obtain ⟨body1, b0⟩ := body
  simp only at hC hB hbt
  subst hbt
  obtain ⟨f3, hCL⟩ := common_fuel
    (fun F (cl : (List luna_token_t × luna_node_t) × (List luna_token_t × luna_block_node_t)) =>
      ClauseRuns F cl.1.1 cl.1.2 ∧ BlockRuns F cl.2.1 cl.2.2)
    (fun a b x hab h => ⟨clauseRuns_mono a b hab _ _ h.1, blockRuns_mono a b hab _ _ h.2⟩)
    clauses
    (fun cl hcl2 => by
      obtain ⟨⟨fa, ha⟩, _, fb, hb2⟩ := hcl cl hcl2
      exact ⟨max fa fb, clauseRuns_mono _ _ (le_max_left _ _) _ _ ha,
        blockRuns_mono _ _ (le_max_right _ _) _ _ hb2⟩)
  have hCL2 : ∀ F, f3 ≤ F → ∀ cl ∈ clauses, ClauseRuns F cl.1.1 cl.1.2 ∧
      BlockRuns F cl.2.1 cl.2.2 ∧ ∃ t ts', cl.2.1 = t :: ts' ∧ starts_block t.type = true :=
    fun F hF cl hcl2 => ⟨clauseRuns_mono _ _ hF _ _ (hCL cl hcl2).1,
      blockRuns_mono _ _ hF _ _ (hCL cl hcl2).2, (hcl cl hcl2).2.1⟩
  cases els with
  | none =>
    refine ⟨max f1 (max f2 f3) + clauses.length + 2, ?_⟩
    intro fuel hf k rest lb c err ia hk
    obtain ⟨n, rfl⟩ : ∃ n, fuel = n + 1 + 1 := ⟨fuel - 2, by omega⟩
    have hF1 : f1 ≤ max f1 (max f2 f3) := le_max_left _ _
    have hF2 : f2 ≤ max f1 (max f2 f3) := le_trans (le_max_left _ _) (le_max_right _ _)
    have hF3 : f3 ≤ max f1 (max f2 f3) := le_trans (le_max_right _ _) (le_max_right _ _)
    have hloop := if_loop_clauses (max f1 (max f2 f3)) (decide (kw.type = .UNLESS)) c0 b0
      (k :: rest) none
      (fun s' => ∃ lb' c' err' ia', (peek s').2 = ⟨rest, some k, lb', c', err', ia'⟩)
      (fun m _ acc lb c err ia => ⟨_, if_loop_end m _ _ _ acc k rest lb c err ia
        (follows_stmt_clause _ hk).2, lb, c, err, ia, rfl⟩)
      clauses (hCL2 _ hF3) n (by omega) []
    obtain ⟨s', hs', lb', c', err', ia', hp⟩ := if_stmt_run (max f1 (max f2 f3)) kw hkw cts c0
      (clauseRuns_mono _ _ hF1 _ _ hC) t bts b0 (blockRuns_mono _ _ hF2 _ _ hB) hst
      (else_if_stream (clauses.map fun cl => (cl.1.1, cl.2.1)) ++ k :: rest) _
      (fun s' => ∃ lb' c' err' ia', (peek s').2 = ⟨rest, some k, lb', c', err', ia'⟩)
      (n + 1) (by omega) (fun lb c err ia => by simpa using hloop lb c err ia) lb c err ia
    refine ⟨s', lb', c', err', ia', ?_, hp⟩
    have e : if_stream kw cts (t :: bts) (clauses.map fun cl => (cl.1.1, cl.2.1)) none ++
        k :: rest = kw :: (cts ++ ((t :: bts) ++
          (else_if_stream (clauses.map fun cl => (cl.1.1, cl.2.1)) ++ k :: rest))) := by
      simp [if_stream, else_stream]
    simp only [Option.map_none']
    rw [e]
    exact hs'
  | some e =>
    obtain ⟨⟨⟨t2, ets, het, _⟩, f4, hE⟩, hnif⟩ := hels e rfl
    obtain ⟨ets0, eb⟩ := e
    simp only at het hE hnif
    subst het
    have ht2 : t2.type ≠ .IF := hnif t2 (by simp)
    refine ⟨max (max f1 f4) (max f2 f3) + clauses.length + 2, ?_⟩
    intro fuel hf k rest lb c err ia hk
    obtain ⟨n, rfl⟩ : ∃ n, fuel = n + 1 + 1 := ⟨fuel - 2, by omega⟩
    have hF1 : f1 ≤ max (max f1 f4) (max f2 f3) :=
      le_trans (le_max_left _ _) (le_max_left _ _)
    have hF4 : f4 ≤ max (max f1 f4) (max f2 f3) :=
      le_trans (le_max_right _ _) (le_max_left _ _)
    have hF2 : f2 ≤ max (max f1 f4) (max f2 f3) :=
      le_trans (le_max_left _ _) (le_max_right _ _)
    have hF3 : f3 ≤ max (max f1 f4) (max f2 f3) :=
      le_trans (le_max_right _ _) (le_max_right _ _)
    have hloop := if_loop_clauses (max (max f1 f4) (max f2 f3)) (decide (kw.type = .UNLESS)) c0 b0
      (tok .ELSE :: ((t2 :: ets) ++ k :: rest)) (some eb)
      (fun s' => ∃ lb' c' err' ia', (peek s').2 = ⟨rest, some k, lb', c', err', ia'⟩)
      (fun m hm acc lb c err ia => by
        obtain ⟨lb', c', err', ia', h⟩ := if_loop_else _ t2 ets eb
          (blockRuns_mono _ _ hF4 _ _ hE) ht2 m hm (decide (kw.type = .UNLESS)) c0 b0 acc
          (k :: rest) lb c err ia
        exact ⟨_, h, lb', c', err', ia', rfl⟩)
      clauses (hCL2 _ hF3) n (by omega) []
    obtain ⟨s', hs', lb', c', err', ia', hp⟩ := if_stmt_run (max (max f1 f4) (max f2 f3)) kw hkw
      cts c0 (clauseRuns_mono _ _ hF1 _ _ hC) t bts b0 (blockRuns_mono _ _ hF2 _ _ hB) hst
      (else_if_stream (clauses.map fun cl => (cl.1.1, cl.2.1)) ++
        tok .ELSE :: ((t2 :: ets) ++ k :: rest)) _
      (fun s' => ∃ lb' c' err' ia', (peek s').2 = ⟨rest, some k, lb', c', err', ia'⟩)
      (n + 1) (by omega) (fun lb c err ia => by simpa using hloop lb c err ia) lb c err ia
    refine ⟨s', lb', c', err', ia', ?_, hp⟩
    have e : if_stream kw cts (t :: bts) (clauses.map fun cl => (cl.1.1, cl.2.1))
        (some (t2 :: ets)) ++ k :: rest = kw :: (cts ++ ((t :: bts) ++
          (else_if_stream (clauses.map fun cl => (cl.1.1, cl.2.1)) ++
            tok .ELSE :: ((t2 :: ets) ++ k :: rest)))) := by
      simp [if_stream, else_stream]
    simp only [Option.map_some']
    rw [e]
    exact hs'

theorem starts_stmt_if (t : luna_token) (h : t ∈ [luna_token.IF, .UNLESS]) :
    starts_stmt t = true := by
  revert t
  decide

/-- A whole conditional is a statement. -/
theorem stmtParses_if (kw : luna_token_t) (hkw : kw.type ∈ [luna_token.IF, .UNLESS])
    (cond : List luna_token_t × luna_node_t) (body : List luna_token_t × luna_block_node_t)
    (clauses : List ((List luna_token_t × luna_node_t) × (List luna_token_t × luna_block_node_t)))
    (els : Option (List luna_token_t × luna_block_node_t))
    (hc : ClauseParses cond.1 cond.2) (hb : BlockParses body.1 body.2)
    (hcl : ∀ cl ∈ clauses, ClauseParses cl.1.1 cl.1.2 ∧ BlockParses cl.2.1 cl.2.2)
    (hels : ∀ e ∈ els, BlockParses e.1 e.2 ∧ ∀ t ∈ e.1.head?, t.type ≠ .IF) :
    StmtParses (if_stream kw cond.1 body.1 (clauses.map fun cl => (cl.1.1, cl.2.1))
        (els.map (·.1)))
      (.if_stmt (decide (kw.type = .UNLESS)) cond.2 body.2
        (clauses.map fun cl => .if_stmt false cl.1.2 cl.2.2 [] none) (els.map (·.2))) := by
  obtain ⟨f0, h⟩ := if_stmt_chain kw hkw cond body clauses els hc hb hcl hels
  refine ⟨⟨kw, _, rfl, starts_stmt_if _ hkw⟩, f0 + 1, ?_⟩
  intro fuel hf k rest lb c err ia hk
  obtain ⟨n, rfl⟩ : ∃ n, fuel = n + 1 := ⟨fuel - 1, by omega⟩
  obtain ⟨s', lb', c', err', ia', hs, hp⟩ := h n (by omega) k rest lb (some "statement") err ia hk
  refine ⟨s', lb', c', err', ia', ?_, hp⟩
  rw [stmt_of_if n ⟨if_stream kw cond.1 body.1 (clauses.map fun cl => (cl.1.1, cl.2.1))
    (els.map (·.1)) ++ k :: rest, none, lb, c, err, ia⟩ hkw]
  exact hs

/-! ## Blocks -/

theorem starts_stmt_follows (t : luna_token) (h : starts_stmt t = true) :
    follows_stmt t = true ∧ t ≠ .END ∧ starts_block t = true := by
  revert t
  decide

/-- The statement loop of `block` on a run of statements followed by `end`. -/
theorem block_loop_stmts (F : Nat) (en : luna_token_t) (hen : en.type = .END)
    (rest : List luna_token_t) (stmts : List (List luna_token_t × luna_node_t)) :
    stmts ≠ [] →
    (∀ st ∈ stmts, StmtRuns F st.1 st.2 ∧ ∃ t ts', st.1 = t :: ts' ∧ starts_stmt t.type = true) →
    ∀ n, F + stmts.length ≤ n → ∀ (acc : List luna_node_t) (lb : luna_token_t)
      (c err : Option String) (ia : Int),
      ∃ c' err' ia',
        block_loop n acc ⟨stmt_stream (stmts.map (·.1)) ++ en :: rest, none, lb, c, err, ia⟩ =
          .ok (some (.mk (acc ++ stmts.map (·.2)))) ⟨rest, none, en, c', err', ia'⟩ := by
  induction stmts with
  | nil => intro h; exact absurd rfl h
  | cons st more ih =>
    intro _ hall n hn acc lb c err ia
    obtain ⟨m, rfl⟩ : ∃ m, n = m + 1 := ⟨n - 1, by simp at hn; omega⟩
    obtain ⟨hS, _⟩ := hall st (List.mem_cons_self _ _)
    obtain ⟨sts, snode⟩ := st
    simp only at hS
    have hm : F ≤ m := by simp at hn; omega
    cases more with
    | nil =>
      obtain ⟨s', lb1, c1, err1, ia1, hs, hp⟩ := hS m hm en rest lb c err ia
        (by simp [follows_stmt, hen])
      refine ⟨c1, err1, ia1, ?_⟩
      simp only [List.map_cons, List.map_nil, stmt_stream, List.append_nil]
      rw [block_loop, hs]
      simp only [Res.bind_ok]
      rw [← accept_peek, hp, accept_hit _ _ _ _ _ _ _ hen]
      rfl
    | cons st2 more2 =>
      obtain ⟨_, t2, ts2, hst2, hk2⟩ := hall st2 (by simp)
      obtain ⟨hf2, hne2, _⟩ := starts_stmt_follows _ hk2
      obtain ⟨sts2, snode2⟩ := st2
      simp only at hst2
      subst hst2
      have e1 : stmt_stream (((sts, snode) :: (t2 :: ts2, snode2) :: more2).map (·.1)) ++
          en :: rest = sts ++ t2 :: (ts2 ++ (stmt_stream (more2.map (·.1)) ++ en :: rest)) := by
        simp [stmt_stream]
      have e2 : stmt_stream (((t2 :: ts2, snode2) :: more2).map (·.1)) ++ en :: rest =
          t2 :: (ts2 ++ (stmt_stream (more2.map (·.1)) ++ en :: rest)) := by
        simp [stmt_stream]
      obtain ⟨s', lb1, c1, err1, ia1, hs, hp⟩ := hS m hm t2
        (ts2 ++ (stmt_stream (more2.map (·.1)) ++ en :: rest)) lb c err ia hf2
      obtain ⟨c', err', ia', hl⟩ := ih (by simp) (fun x hx => hall x (List.mem_cons_of_mem _ hx))
        m (by simp at hn ⊢; omega) (acc ++ [snode]) lb1 c1 err1 ia1
      refine ⟨c', err', ia', ?_⟩
      rw [e2, ← block_loop_peek] at hl
      rw [e1, block_loop, hs]
      simp only [Res.bind_ok]
      rw [← accept_peek, hp, accept_miss _ _ _ _ _ _ _ hne2]
      simp only [Bool.false_eq_true, if_false]
      rw [show (peek ⟨t2 :: (ts2 ++ (stmt_stream (more2.map (·.1)) ++ en :: rest)), none, lb1, c1,
        err1, ia1⟩).2 = ⟨ts2 ++ (stmt_stream (more2.map (·.1)) ++ en :: rest), some t2, lb1, c1,
        err1, ia1⟩ from rfl] at hl
      rw [hl]
      simp

/-- `block` on any number of statements followed by `end`. -/
theorem block_stmts (stmts : List (List luna_token_t × luna_node_t))
    (h : ∀ st ∈ stmts, StmtParses st.1 st.2) :
    ∃ f0, ∀ fuel, f0 ≤ fuel → ∀ (en : luna_token_t) (rest : List luna_token_t)
      (lb : luna_token_t) (c err : Option String) (ia : Int), en.type = .END →
      ∃ c' err' ia',
        block fuel ⟨stmt_stream (stmts.map (·.1)) ++ en :: rest, none, lb, c, err, ia⟩ =
          .ok (some (.mk (stmts.map (·.2)))) ⟨rest, none, en, c', err', ia'⟩ := by
  obtain ⟨F, hF⟩ := common_fuel (fun F (st : List luna_token_t × luna_node_t) => StmtRuns F st.1 st.2)
    (fun a b x hab hx => stmtRuns_mono a b hab _ _ hx) stmts (fun st hst => (h st hst).2)
  refine ⟨F + stmts.length + 1, ?_⟩
  intro fuel hf en rest lb c err ia hen
  obtain ⟨n, rfl⟩ : ∃ n, fuel = n + 1 := ⟨fuel - 1, by omega⟩
  cases stmts with
  | nil =>
    refine ⟨c, err, ia, ?_⟩
    simp only [List.map_nil, stmt_stream, List.nil_append]
    rw [block, accept_cons_hit .END en _ _ _ _ _ hen]
    rfl
  | cons st more =>
    obtain ⟨c', err', ia', hl⟩ := block_loop_stmts F en hen rest (st :: more) (by simp)
      (fun x hx => ⟨hF x hx, (h x hx).1⟩) n (by simp at hf ⊢; omega) [] lb c err ia
    refine ⟨c', err', ia', ?_⟩
    obtain ⟨⟨t, ts', hts, hk⟩, _⟩ := h st (List.mem_cons_self _ _)
    obtain ⟨_, hne, _⟩ := starts_stmt_follows _ hk
    have hh : (peek ⟨stmt_stream ((st :: more).map (·.1)) ++ en :: rest, none, lb, c, err,
        ia⟩).1.type ≠ .END := by
      simp only [List.map_cons, stmt_stream, hts, List.cons_append]
      exact hne
    rw [block, accept_miss_peek _ _ hh]
    simp only [Bool.false_eq_true, if_false]
    rw [block_loop_peek, hl]
    simp

/-- Any number of statements followed by `end` are a block. -/
theorem blockParses_stmts (stmts : List (List luna_token_t × luna_node_t))
    (h : ∀ st ∈ stmts, StmtParses st.1 st.2) (en : luna_token_t) (hen : en.type = .END) :
    BlockParses (stmt_stream (stmts.map (·.1)) ++ [en]) (.mk (stmts.map (·.2))) := by
  obtain ⟨f0, hb⟩ := block_stmts stmts h
  refine ⟨?_, f0, ?_⟩
  · cases stmts with
    | nil => exact ⟨en, [], rfl, by simp [starts_block, hen]⟩
    | cons st more =>
      obtain ⟨⟨t, ts', hts, hk⟩, _⟩ := h st (List.mem_cons_self _ _)
      refine ⟨t, ts' ++ (stmt_stream (more.map (·.1)) ++ [en]), ?_, (starts_stmt_follows _ hk).2.2⟩
      simp [stmt_stream, hts]
  · intro fuel hf rest lb c err ia
    obtain ⟨c', err', ia', hr⟩ := hb fuel hf en rest lb c err ia hen
    refine ⟨en, c', err', ia', ?_⟩
    rw [← hr]
    simp

/-! ## Function declarations -/

theorem function_params_loop_peek (n : Nat) (acc : List luna_node_t) (s : luna_parser_t) :
    function_params_loop n acc (peek s).2 = function_params_loop n acc s := by
  cases n with
  | zero => rfl
  | succ n => rw [function_params_loop, function_params_loop, is_peek]

/-- One parameter of the parameter loop, followed by `','` or `')'`. -/
theorem function_params_loop_param (F : Nat) (name type : String)
    (dflt : Option (List luna_token_t × luna_node_t))
    (hd : ∀ d ∈ dflt, ExprRuns F d.1 d.2) (K : luna_token_t)
    (hK : K.type = .COMMA ∨ K.type = .RPAREN) (rest : List luna_token_t) (n : Nat) (hn : F ≤ n)
    (lb : luna_token_t) (c err : Option String) (ia : Int) :
    ∃ lb' c' err' ia', ∀ acc : List luna_node_t,
      function_params_loop (n + 1) acc
          ⟨param_tokens name type (dflt.map (·.1)) ++ K :: rest, none, lb, c, err, ia⟩ =
        if K.type = .COMMA then
          function_params_loop n (acc ++ [.decl name type (dflt.map (·.2))])
            ⟨rest, none, K, c', err', ia'⟩
        else .ok (some (acc ++ [.decl name type (dflt.map (·.2))]))
          ⟨rest, some K, lb', c', err', ia'⟩ := by
  have hKa : K.type ≠ .OP_ASSIGN := by rcases hK with h | h <;> rw [h] <;> decide
  cases dflt with
  | none =>
    refine ⟨tok .COLON, c, err, ia, fun acc => ?_⟩
    rw [function_params_loop]
    simp only [Option.map_none', param_tokens, List.cons_append, List.nil_append, is_eq,
      peek_none, scan_cons, ident, decide_True, if_true, next_some]
    rw [accept_cons_hit .COLON (tok .COLON) _ _ _ _ _ rfl]
    simp only [if_true, peek_none, scan_cons, decide_True, next_some]
    have hKa2 : (luna_scan (K :: rest)).1.type ≠ .OP_ASSIGN := hKa
    rw [accept_none_miss _ _ _ _ _ _ hKa2]
    simp only [Bool.false_eq_true, if_false, Res.bind_ok, scan_cons]
    by_cases hc : K.type = .COMMA
    · simp only [hc, if_true]
      rw [accept_hit _ _ _ _ _ _ _ hc]
      rfl
    · simp only [hc, if_false]
      rw [accept_miss _ _ _ _ _ _ _ hc]
      rfl
  | some d =>
    obtain ⟨ts, e⟩ := d
    have hKe : ends_expr K.type = true := by rcases hK with h | h <;> rw [h] <;> rfl
    obtain ⟨lb1, c1, err1, ia1, he⟩ := hd (ts, e) rfl n hn K rest (tok .OP_ASSIGN) c err ia hKe
    refine ⟨lb1, c1, err1, ia1, fun acc => ?_⟩
    rw [function_params_loop]
    simp only [Option.map_some', param_tokens, List.cons_append, is_eq,
      peek_none, scan_cons, ident, decide_True, if_true, next_some]
    rw [accept_cons_hit .COLON (tok .COLON) _ _ _ _ _ rfl]
    simp only [if_true, peek_none, scan_cons, decide_True, next_some]
    rw [accept_cons_hit .OP_ASSIGN (tok .OP_ASSIGN) _ _ _ _ _ rfl]
    simp only [if_true, he, Res.bind_ok]
    by_cases hc : K.type = .COMMA
    · simp only [hc, if_true]
      rw [accept_hit _ _ _ _ _ _ _ hc]
      rfl
    · simp only [hc, if_false]
      rw [accept_miss _ _ _ _ _ _ _ hc]
      rfl

/-- The parameter loop on `p1 , p2 , ... , pn )`, at least one parameter. -/
theorem function_params_loop_params (F : Nat) (rp : luna_token_t) (hrp : rp.type = .RPAREN)
    (rest : List luna_token_t)
    (params : List (String × String × Option (List luna_token_t × luna_node_t))) :
    params ≠ [] →
    (∀ p ∈ params, ∀ d ∈ p.2.2, ExprRuns F d.1 d.2) →
    ∀ n, F + params.length ≤ n → ∀ (acc : List luna_node_t) (lb : luna_token_t)
      (c err : Option String) (ia : Int),
      ∃ lb' c' err' ia',
        function_params_loop n acc
          ⟨comma_sep (params.map fun p => param_tokens p.1 p.2.1 (p.2.2.map (·.1))) ++ rp :: rest,
            none, lb, c, err, ia⟩ =
        .ok (some (acc ++ params.map fun p => .decl p.1 p.2.1 (p.2.2.map (·.2))))
          ⟨rest, some rp, lb', c', err', ia'⟩ := by
  induction params with
  | nil => intro h; exact absurd rfl h
  | cons p more ih =>
    intro _ hall n hn acc lb c err ia
    obtain ⟨m, rfl⟩ : ∃ m, n = m + 1 := ⟨n - 1, by simp at hn; omega⟩
    obtain ⟨name, type, dflt⟩ := p
    have hd := hall (name, type, dflt) (List.mem_cons_self _ _)
    simp only at hd
    have hm : F ≤ m := by simp at hn; omega
    cases more with
    | nil =>
      obtain ⟨lb', c', err', ia', h⟩ := function_params_loop_param F name type dflt hd rp
        (Or.inr hrp) rest m hm lb c err ia
      refine ⟨lb', c', err', ia', ?_⟩
      have hc : rp.type ≠ .COMMA := by rw [hrp]; decide
      simp only [List.map_cons, List.map_nil, comma_sep]
      rw [h acc]
      simp only [hc, if_false]
    | cons p2 more2 =>
      obtain ⟨lb1, c1, err1, ia1, h⟩ := function_params_loop_param F name type dflt hd
        (tok .COMMA) (Or.inl rfl)
        (comma_sep ((p2 :: more2).map fun p => param_tokens p.1 p.2.1 (p.2.2.map (·.1))) ++
          rp :: rest) m hm lb c err ia
      obtain ⟨lb', c', err', ia', h2⟩ := ih (by simp)
        (fun x hx => hall x (List.mem_cons_of_mem _ hx)) m (by simp at hn ⊢; omega)
        (acc ++ [.decl name type (dflt.map (·.2))]) (tok .COMMA) c1 err1 ia1
      refine ⟨lb', c', err', ia', ?_⟩
      have e1 : comma_sep (((name, type, dflt) :: p2 :: more2).map
            fun p => param_tokens p.1 p.2.1 (p.2.2.map (·.1))) ++ rp :: rest =
          param_tokens name type (dflt.map (·.1)) ++ tok .COMMA ::
            (comma_sep ((p2 :: more2).map fun p => param_tokens p.1 p.2.1 (p.2.2.map (·.1))) ++
              rp :: rest) := by
        simp [comma_sep]
      rw [e1, h acc]
      simp only [tok, if_true]
      simp only [tok] at h2
      rw [h2]
      simp

/-- `function_params` on a non-empty parameter list up to the `')'`. -/
theorem function_params_params (F : Nat) (rp : luna_token_t) (hrp : rp.type = .RPAREN)
    (rest : List luna_token_t)
    (params : List (String × String × Option (List luna_token_t × luna_node_t)))
    (hne : params ≠ []) (hall : ∀ p ∈ params, ∀ d ∈ p.2.2, ExprRuns F d.1 d.2)
    (n : Nat) (hn : F + params.length + 1 ≤ n) (lb : luna_token_t) (c err : Option String)
    (ia : Int) :
    ∃ lb' c' err' ia',
      function_params n
        ⟨comma_sep (params.map fun p => param_tokens p.1 p.2.1 (p.2.2.map (·.1))) ++ rp :: rest,
          none, lb, c, err, ia⟩ =
      .ok (some (params.map fun p => .decl p.1 p.2.1 (p.2.2.map (·.2))))
        ⟨rest, some rp, lb', c', err', ia'⟩ := by
  obtain ⟨m, rfl⟩ : ∃ m, n = m + 1 := ⟨n - 1, by omega⟩
  obtain ⟨lb', c', err', ia', h⟩ := function_params_loop_params F rp hrp rest params hne hall m
    (by omega) [] lb (some "function params") err ia
  refine ⟨lb', c', err', ia', ?_⟩
  have hid : (peek (context "function params"
      ⟨comma_sep (params.map fun p => param_tokens p.1 p.2.1 (p.2.2.map (·.1))) ++ rp :: rest,
        none, lb, c, err, ia⟩)).1.type = .ID := by
    cases params with
    | nil => exact absurd rfl hne
    | cons p more =>
      cases more with
      | nil => rfl
      | cons p2 more2 => rfl
  rw [function_params]
  simp only [is_eq, hid, decide_True, if_true]
  rw [function_params_loop_peek]
  simpa using h

/-- `function_params` on an empty parameter list `()`. -/
theorem function_params_empty (rp : luna_token_t) (hrp : rp.type = .RPAREN)
    (rest : List luna_token_t) (n : Nat) (lb : luna_token_t) (c err : Option String) (ia : Int) :
    function_params (n + 1) ⟨rp :: rest, none, lb, c, err, ia⟩ =
      .ok (some []) ⟨rest, some rp, lb, some "function params", err, ia⟩ := by
  have hid : rp.type ≠ .ID := by rw [hrp]; decide
  rw [function_params]
  simp only [is_eq, context, peek_none, scan_cons, hid, decide_False, Bool.false_eq_true, if_false]

theorem function_tail_peek (n : Nat) (name : String) (params : List luna_node_t)
    (s : luna_parser_t) :
    function_tail n name params (peek s).2 = function_tail n name params s := by
  rw [function_tail, function_tail, ← accept_peek _ (context _ (peek s).2), context_peek_snd,
    peek_idem, ← context_peek_snd, accept_peek]

/-- The optional return annotation and the body. -/
theorem function_tail_run (F : Nat) (t : luna_token_t) (bts : List luna_token_t)
    (b : luna_block_node_t) (hB : BlockRuns F (t :: bts) b) (ht : starts_block t.type = true)
    (n : Nat) (hn : F ≤ n) (name : String) (params : List luna_node_t) (ret : Option String)
    (rest : List luna_token_t) (lb : luna_token_t) (c err : Option String) (ia : Int) :
    ∃ lb' c' err' ia',
      function_tail n name params
        ⟨return_stream ret ++ ((t :: bts) ++ rest), none, lb, c, err, ia⟩ =
      .ok (some (.function name ret b params)) ⟨rest, none, lb', c', err', ia'⟩ := by
  cases ret with
  | none =>
    have htc : (luna_scan ((t :: bts) ++ rest)).1.type ≠ .COLON := by
      show t.type ≠ .COLON
      revert ht
      cases t.type <;> simp [starts_block, starts_stmt]
    obtain ⟨lb', c', err', ia', hb⟩ := blockRuns_buffered F t bts b hB n hn rest lb
      (some "function") err ia
    refine ⟨lb', c', err', ia', ?_⟩
    rw [function_tail]
    simp only [return_stream, List.nil_append, context]
    rw [accept_none_miss _ _ _ _ _ _ htc]
    simp only [Bool.false_eq_true, if_false, Res.bind_ok, List.cons_append, scan_cons, hb]
  | some T =>
    obtain ⟨lb', c', err', ia', hb⟩ := hB n hn rest (tok .COLON) (some "function") err ia
    refine ⟨lb', c', err', ia', ?_⟩
    rw [function_tail]
    simp only [return_stream, List.cons_append, List.nil_append, context]
    rw [accept_cons_hit .COLON (tok .COLON) _ _ _ _ _ rfl]
    simp only [if_true, is_eq, peek_none, scan_cons, ident, decide_True, next_some, Res.bind_ok]
    simp only [List.cons_append] at hb
    rw [hb]
    rfl

theorem function_stmt_split (n : Nat) (s : luna_parser_t) :
    function_stmt (n + 1) s =
      (let r := accept .DEF (context "function statement" s)
       if r.1 then
         let r := is .ID r.2
         if r.1 then
           let t := next r.2
           let name := t.1.as_string
           let r := accept .LPAREN t.2
           let ps : Res (Option (List luna_node_t)) :=
             if r.1 then
               (function_params n r.2).bind fun params self =>
                 match params with
                 | none => .ok none self
                 | some params =>
                   let r := accept .RPAREN (context "function" self)
                   if r.1 then .ok (some params) r.2
                   else .ok none (error "missing closing ')'" r.2)
             else .ok (some []) r.2
           ps.bind fun params self =>
             match params with
             | none => .ok none self
             | some params => function_tail n name params self
         else .ok none (error "missing function name" r.2)
       else .ok none r.2) := by
  rw [function_stmt]
  rfl

theorem return_stream_head (ret : Option String) (t : luna_token_t) (bts rest : List luna_token_t)
    (ht : starts_block t.type = true) :
    (luna_scan (return_stream ret ++ ((t :: bts) ++ rest))).1.type ≠ .LPAREN := by
  cases ret with
  | none =>
    show t.type ≠ .LPAREN
    revert ht
    cases t.type <;> simp [starts_block, starts_stmt]
  | some T => simp [return_stream, scan_cons, tok]

/-- `function_stmt` on a whole declaration: `def`, the name, the optional parameter
list, the optional return annotation and the body. -/
theorem function_stmt_decl (name : String)
    (params : Option (List (String × String × Option (List luna_token_t × luna_node_t))))
    (ret : Option String) (body : List luna_token_t × luna_block_node_t)
    (hp : ∀ ps ∈ params, ∀ p ∈ ps, ∀ d ∈ p.2.2, ParsesTo d.1 d.2)
    (hb : BlockParses body.1 body.2) :
    ∃ f0, ∀ fuel, f0 ≤ fuel → ∀ (rest : List luna_token_t) (lb : luna_token_t)
      (c err : Option String) (ia : Int),
      ∃ lb' c' err' ia',
        function_stmt fuel
          ⟨function_stream name
              (params.map fun ps => ps.map fun p => param_tokens p.1 p.2.1 (p.2.2.map (·.1)))
              ret body.1 ++ rest, none, lb, c, err, ia⟩ =
        .ok (some (.function name ret body.2
            ((params.getD []).map fun p => .decl p.1 p.2.1 (p.2.2.map (·.2)))))
          ⟨rest, none, lb', c', err', ia'⟩ := by
  obtain ⟨⟨t, bts, hbt, hst⟩, f2, hB⟩ := hb
  obtain ⟨body1, b0⟩ := body
  simp only at hB hbt
  subst hbt
  cases params with
  | none =>
    refine ⟨f2 + 1, ?_⟩
    intro fuel hf rest lb c err ia
    obtain ⟨n, rfl⟩ : ∃ n, fuel = n + 1 := ⟨fuel - 1, by omega⟩
    obtain ⟨lb', c', err', ia', ht⟩ := function_tail_run f2 t bts b0 hB hst n (by omega) name []
      ret rest (tok .DEF) (some "function statement") err ia
    refine ⟨lb', c', err', ia', ?_⟩
    rw [function_stmt_split]
    simp only [function_stream, Option.map_none', params_stream, List.nil_append,
      List.cons_append, context]
    rw [accept_cons_hit .DEF (tok .DEF) _ _ _ _ _ rfl]
    simp only [if_true, is_eq, peek_none, scan_cons, ident, decide_True, next_some]
    rw [List.append_assoc,
      accept_none_miss _ _ _ _ _ _ (return_stream_head ret t bts rest hst)]
    simp only [Bool.false_eq_true, if_false, Res.bind_ok, Option.getD_none, List.map_nil]
    rw [← ht, ← function_tail_peek n name []
      ⟨return_stream ret ++ ((t :: bts) ++ rest), none, tok .DEF, some "function statement",
        err, ia⟩]
    rfl
  | some ps =>
    obtain ⟨F, hF⟩ := common_fuel
      (fun F (p : String × String × Option (List luna_token_t × luna_node_t)) =>
        ∀ d ∈ p.2.2, ExprRuns F d.1 d.2)
      (fun a b x hab h d hd => exprRuns_mono a b hab _ _ (h d hd)) ps
      (fun p hp2 => by
        cases hd : p.2.2 with
        | none =>
          exact ⟨0, fun d hd2 => by
            have h1 : p.2.2 = some d := hd2
            rw [hd] at h1
            exact absurd h1 (by simp)⟩
        | some d =>
          obtain ⟨_, f, hf⟩ := hp ps rfl p hp2 d hd
          exact ⟨f, fun d' hd' => by
            have h1 : p.2.2 = some d' := hd'
            rw [hd] at h1
            injection h1 with h1
            rw [← h1]
            exact hf⟩)
    refine ⟨max F f2 + ps.length + 2, ?_⟩
    intro fuel hf rest lb c err ia
    obtain ⟨n, rfl⟩ : ∃ n, fuel = n + 1 := ⟨fuel - 1, by omega⟩
    have hFa : F ≤ max F f2 := le_max_left _ _
    have hFb : f2 ≤ max F f2 := le_max_right _ _
    have hps : ∃ lb1 c1 err1 ia1,
        function_params n
          ⟨comma_sep (ps.map fun p => param_tokens p.1 p.2.1 (p.2.2.map (·.1))) ++
            tok .RPAREN :: (return_stream ret ++ ((t :: bts) ++ rest)), none, tok .LPAREN,
            some "function statement", err, ia⟩ =
        .ok (some (ps.map fun p => .decl p.1 p.2.1 (p.2.2.map (·.2))))
          ⟨return_stream ret ++ ((t :: bts) ++ rest), some (tok .RPAREN), lb1, c1, err1, ia1⟩ := by
      cases ps with
      | nil =>
        obtain ⟨m, rfl⟩ : ∃ m, n = m + 1 := ⟨n - 1, by omega⟩
        exact ⟨_, _, _, _, function_params_empty (tok .RPAREN) rfl _ m _ _ _ _⟩
      | cons p more =>
        exact function_params_params F (tok .RPAREN) rfl _ (p :: more) (by simp) hF n
          (by simp at hf ⊢; omega) _ _ _ _
    obtain ⟨lb1, c1, err1, ia1, hps⟩ := hps
    obtain ⟨lb', c', err', ia', ht⟩ := function_tail_run f2 t bts b0 hB hst n (by omega) name
      (ps.map fun p => .decl p.1 p.2.1 (p.2.2.map (·.2)))
      ret rest (tok .RPAREN) (some "function") err1 ia1
    refine ⟨lb', c', err', ia', ?_⟩
    have e1 : function_stream name
          (some (ps.map fun p => param_tokens p.1 p.2.1 (p.2.2.map (·.1)))) ret (t :: bts) ++ rest =
        tok .DEF :: ident name :: tok .LPAREN ::
          (comma_sep (ps.map fun p => param_tokens p.1 p.2.1 (p.2.2.map (·.1))) ++
            tok .RPAREN :: (return_stream ret ++ ((t :: bts) ++ rest))) := by
      simp [function_stream, params_stream]
    rw [function_stmt_split]
    simp only [Option.map_some', Option.getD_some]
    rw [e1]
    simp only [context]
    rw [accept_cons_hit .DEF (tok .DEF) _ _ _ _ _ rfl]
    simp only [if_true, is_eq, peek_none, scan_cons, ident, decide_True, next_some]
    rw [accept_cons_hit .LPAREN (tok .LPAREN) _ _ _ _ _ rfl]
    simp only [if_true, ident] at hps ⊢
    rw [hps]
    simp only [Res.bind_ok, context]
    rw [accept_hit .RPAREN _ (tok .RPAREN) _ _ _ _ rfl]
    simp only [if_true, Res.bind_ok]
    exact ht

/-! ## Statements of each kind -/

theorem ends_clause_stops (t : luna_token) (h : ends_clause t = true) :
    follows_call t = false ∧ binds_above t = false := by
  revert t
  decide

/-- A one-token operand is an expression in statement position. -/
theorem clauseParses_leaf (x : luna_token_t) (hx : is_operand x.type = true) :
    ClauseParses [x] (leaf x) := by
  refine ⟨19, ?_⟩
  intro fuel hf k rest lb c err ia hk
  obtain ⟨m, rfl⟩ : ∃ m, fuel = m + 6 + 13 := ⟨fuel - 19, by omega⟩
  obtain ⟨h1, h2⟩ := ends_clause_stops _ hk
  obtain ⟨_, _, h3, h4⟩ := operand_not_stmt _ hx
  have hu := unary_leaf m x (k :: rest) lb c err ia hx h1
  have he := expr_of_unary _ _ _ _ hu h3 h4 h2
  refine ⟨lb, c, err, ia, ?_⟩
  rw [← expr_peek]
  exact he

/-- `return` and an expression are a statement. -/
theorem stmtParses_return (r : luna_token_t) (hr : r.type = .RETURN) (ts : List luna_token_t)
    (e : luna_node_t) (h : ClauseParses ts e) :
    StmtParses (r :: ts) (.return_stmt e) := by
  obtain ⟨f0, hC⟩ := h
  refine ⟨⟨r, ts, rfl, by simp [starts_stmt, hr]⟩, f0 + 2, ?_⟩
  intro fuel hf k rest lb c err ia hk
  obtain ⟨n, rfl⟩ : ∃ n, fuel = n + 1 + 1 := ⟨fuel - 2, by omega⟩
  obtain ⟨lb', c', err', ia', he⟩ := hC n (by omega) k rest r (some "return statement") err ia
    (follows_stmt_clause _ hk).1
  refine ⟨⟨rest, some k, lb', c', err', ia'⟩, lb', c', err', ia', ?_, rfl⟩
  rw [stmt_of_return (n + 1) ⟨(r :: ts) ++ k :: rest, none, lb, c, err, ia⟩ hr]
  exact return_ok n _ _ e hr he

/-- A type declaration with at least one field is a statement. -/
theorem stmtParses_type (ty name en : luna_token_t) (hty : ty.type = .TYPE)
    (hname : name.type = .ID) (hen : en.type = .END)
    (fields : List (luna_token_t × luna_token_t)) (hne : fields ≠ [])
    (hall : ∀ fd ∈ fields, fd.1.type = .ID ∧ fd.2.type = .ID) :
    StmtParses (ty :: name :: (field_stream fields ++ [en])) (.type name.as_string) := by
  refine ⟨⟨ty, _, rfl, by simp [starts_stmt, hty]⟩, fields.length + 2, ?_⟩
  intro fuel hf k rest lb c err ia hk
  obtain ⟨n, rfl⟩ : ∃ n, fuel = n + 1 := ⟨fuel - 1, by omega⟩
  have h := type_stmt_fields ty name en hty hname hen (k :: rest) fields hne hall n (by omega)
    lb (some "statement") err ia
  refine ⟨⟨k :: rest, none, en, some "type statement", err, ia⟩, en, some "type statement",
    err, ia, ?_, rfl⟩
  rw [stmt_of_type n ⟨(ty :: name :: (field_stream fields ++ [en])) ++ k :: rest, none, lb, c,
    err, ia⟩ hty, ← h]
  simp [context]

/-- A function declaration is a statement. -/
theorem stmtParses_def (name : String)
    (params : Option (List (String × String × Option (List luna_token_t × luna_node_t))))
    (ret : Option String) (body : List luna_token_t × luna_block_node_t)
    (hp : ∀ ps ∈ params, ∀ p ∈ ps, ∀ d ∈ p.2.2, ParsesTo d.1 d.2)
    (hb : BlockParses body.1 body.2) :
    StmtParses
      (function_stream name
        (params.map fun ps => ps.map fun p => param_tokens p.1 p.2.1 (p.2.2.map (·.1)))
        ret body.1)
      (.function name ret body.2
        ((params.getD []).map fun p => .decl p.1 p.2.1 (p.2.2.map (·.2)))) := by
  obtain ⟨f0, h⟩ := function_stmt_decl name params ret body hp hb
  refine ⟨⟨tok .DEF, _, rfl, rfl⟩, f0 + 1, ?_⟩
  intro fuel hf k rest lb c err ia hk
  obtain ⟨n, rfl⟩ : ∃ n, fuel = n + 1 := ⟨fuel - 1, by omega⟩
  obtain ⟨lb', c', err', ia', hs⟩ := h n (by omega) (k :: rest) lb (some "statement") err ia
  refine ⟨⟨k :: rest, none, lb', c', err', ia'⟩, lb', c', err', ia', ?_, rfl⟩
  rw [stmt_of_def n ⟨function_stream name
    (params.map fun ps => ps.map fun p => param_tokens p.1 p.2.1 (p.2.2.map (·.1)))
    ret body.1 ++ k :: rest, none, lb, c, err, ia⟩ rfl]
  exact hs

/-- `while_stmt` on the keyword, a condition and a body. -/
theorem while_stmt_run (kw : luna_token_t) (hkw : kw.type ∈ [luna_token.UNTIL, .WHILE])
    (cond : List luna_token_t × luna_node_t) (body : List luna_token_t × luna_block_node_t)
    (hc : ClauseParses cond.1 cond.2) (hb : BlockParses body.1 body.2) :
    ∃ f0, ∀ fuel, f0 ≤ fuel → ∀ (rest : List luna_token_t) (lb : luna_token_t)
      (c err : Option String) (ia : Int),
      ∃ lb' c' err' ia',
        while_stmt fuel ⟨kw :: (cond.1 ++ body.1) ++ rest, none, lb, c, err, ia⟩ =
          .ok (some (.while_stmt (decide (kw.type = .UNTIL)) cond.2 body.2))
            ⟨rest, none, lb', c', err', ia'⟩ := by
  obtain ⟨f1, hC⟩ := hc
  obtain ⟨⟨t, bts, hbt, hst⟩, f2, hB⟩ := hb
  obtain ⟨cts, c0⟩ := cond
  obtain ⟨body1, b0⟩ := body
  simp only at hC hB hbt
  subst hbt
  refine ⟨max f1 f2 + 1, ?_⟩
  intro fuel hf rest lb c err ia
  obtain ⟨n, rfl⟩ : ∃ n, fuel = n + 1 := ⟨fuel - 1, by omega⟩
  have hF1 : f1 ≤ n := le_trans (le_max_left f1 f2) (by omega)
  have hF2 : f2 ≤ n := le_trans (le_max_right f1 f2) (by omega)
  obtain ⟨lb1, c1, err1, ia1, he⟩ := hC n hF1 t (bts ++ rest) kw
    (some "while statement condition") err ia (starts_block_clause _ hst)
  obtain ⟨lb2, c2, err2, ia2, hb⟩ := blockRuns_buffered f2 t bts b0 hB n hF2 rest lb1
    (some "while statement") err1 ia1
  refine ⟨lb2, c2, err2, ia2, ?_⟩
  have hng : decide (luna_token.UNTIL = kw.type) = decide (kw.type = .UNTIL) := by
    simp [eq_comm]
  have e1 : kw :: (cts ++ t :: bts) ++ rest = kw :: (cts ++ t :: (bts ++ rest)) := by simp
  rw [e1, while_stmt, accept_any_cons_hit _ _ _ _ _ _ _ hkw]
  simp only [if_true, context, prev_type, he, Res.bind_ok, hb, hng]

/-- A loop is a statement. -/
theorem stmtParses_while (kw : luna_token_t) (hkw : kw.type ∈ [luna_token.UNTIL, .WHILE])
    (cond : List luna_token_t × luna_node_t) (body : List luna_token_t × luna_block_node_t)
    (hc : ClauseParses cond.1 cond.2) (hb : BlockParses body.1 body.2) :
    StmtParses (kw :: (cond.1 ++ body.1))
      (.while_stmt (decide (kw.type = .UNTIL)) cond.2 body.2) := by
  obtain ⟨f0, h⟩ := while_stmt_run kw hkw cond body hc hb
  have hk0 : starts_stmt kw.type = true := by
    revert hkw
    cases kw.type <;> simp [starts_stmt]
  refine ⟨⟨kw, _, rfl, hk0⟩, f0 + 1, ?_⟩
  intro fuel hf k rest lb c err ia hk
  obtain ⟨n, rfl⟩ : ∃ n, fuel = n + 1 := ⟨fuel - 1, by omega⟩
  obtain ⟨lb', c', err', ia', hs⟩ := h n (by omega) (k :: rest) lb (some "statement") err ia
  refine ⟨⟨k :: rest, none, lb', c', err', ia'⟩, lb', c', err', ia', ?_, rfl⟩
  rw [stmt_of_while n ⟨(kw :: (cond.1 ++ body.1)) ++ k :: rest, none, lb, c, err, ia⟩ hkw]
  exact hs

/-- The block `return x end` over a one-token operand. -/
theorem blockParses_return (r x en : luna_token_t) (hr : r.type = .RETURN)
    (hx : is_operand x.type = true) (hen : en.type = .END) :
    BlockParses [r, x, en] (.mk [.return_stmt (leaf x)]) :=
  blockParses_stmts [([r, x], .return_stmt (leaf x))]
    (fun st hst => by
      simp only [List.mem_singleton] at hst
      subst hst
      exact stmtParses_return r hr [x] (leaf x) (clauseParses_leaf x hx)) en hen

/-- The empty block `end`. -/
theorem blockParses_empty (en : luna_token_t) (hen : en.type = .END) :
    BlockParses [en] (.mk []) :=
  blockParses_stmts [] (fun _ hst => absurd hst (List.not_mem_nil _)) en hen

/-! ## A frame principle for the expression tier

The expression functions consume no end-of-stream token and no statement keyword other
than `type` and `end`; a relation respected by the remaining cursor steps holds across
each of them. -/

set_option linter.unusedTactic false
set_option linter.unreachableTactic false

section
variable {R : luna_parser_t → luna_parser_t → Prop}

theorem ExprFrame.on_peek (hR : ExprFrame R) {s a : luna_parser_t} (h : R s a) :
    R s (Luna.peek a).2 :=
  hR.trans h (hR.peek a)

theorem ExprFrame.on_next (hR : ExprFrame R) {s a : luna_parser_t}
    (hn : (Luna.peek a).1.type ∈ expr_consumes) (h : R s a) : R s (Luna.next a).2 :=
  hR.trans h (hR.next a hn)

theorem ExprFrame.on_accept (hR : ExprFrame R) {s a : luna_parser_t} (t : luna_token)
    (ht : t ∈ expr_consumes) (h : R s a) : R s (Luna.accept t a).2 :=
  hR.trans h (hR.accept t a ht)

theorem ExprFrame.on_is (hR : ExprFrame R) {s a : luna_parser_t} (t : luna_token) (h : R s a) :
    R s (Luna.is t a).2 :=
  hR.trans h (hR.peek a)

theorem ExprFrame.on_context (hR : ExprFrame R) {s a : luna_parser_t} (c : String) (h : R s a) :
    R s (Luna.context c a) :=
  hR.trans h (hR.context c a)

theorem ExprFrame.on_error (hR : ExprFrame R) {s a : luna_parser_t} (m : String) (h : R s a) :
    R s (Luna.error m a) :=
  hR.trans h (hR.error m a)

theorem ExprFrame.on_in_args (hR : ExprFrame R) {s a : luna_parser_t} (k : Int) (h : R s a) :
    R s { a with in_args := k } :=
  hR.trans h (hR.in_args a k)

theorem ExprFrame.on_accept_any (hR : ExprFrame R) {s a : luna_parser_t} (ops : List luna_token)
    (hops : ∀ t ∈ ops, t ∈ expr_consumes) (h : R s a) : R s (Luna.accept_any ops a).2 := by
  induction ops generalizing a with
  | nil => exact h
  | cons t ts ih =>
    rw [accept_any]
    split
    · exact hR.on_accept t (hops t (List.mem_cons_self _ _)) h
    · exact ih (fun t' ht' => hops t' (List.mem_cons_of_mem _ ht'))
        (hR.on_accept t (hops t (List.mem_cons_self _ _)) h)

theorem Sat_call_xf {α : Type} (hR : ExprFrame R) {s s0 : luna_parser_t} {r : Res α}
    (h0 : R s s0) (hr : r.Sat fun _ s1 => R s0 s1) : r.Sat fun _ s' => R s s' := by
  cases r with
  | ok v s1 => exact hR.trans h0 hr
  | undefined => trivial
  | fuel => trivial

theorem next_after_is (s : luna_parser_t) (h : (is .ID s).1 = true) :
    (peek (is .ID s).2).1.type ∈ expr_consumes := by
  rw [is_eq] at h ⊢
  simp only [decide_eq_true_eq] at h
  rw [peek_idem, h]
  decide

theorem level_ops_consumes (j : Nat) : ∀ t ∈ level_ops j, t ∈ expr_consumes := by
  by_cases h : j < 10
  · interval_cases j <;> decide
  · obtain ⟨k, rfl⟩ : ∃ k, j = k + 10 := ⟨j - 10, by omega⟩
    intro t ht
    exact absurd ht (List.not_mem_nil _)

theorem binary_loop_xf (hR : ExprFrame R) (ops : List luna_token)
    (hops : ∀ t ∈ ops, t ∈ expr_consumes)
    (op : luna_parser_t → luna_token) (ctx : String)
    (operand : luna_parser_t → Res (Option luna_node_t))
    (hop : ∀ s, (operand s).Sat fun _ s' => R s s') (k : Nat) :
    ∀ (node : luna_node_t) (s : luna_parser_t),
      (binary_loop ops op ctx operand k node s).Sat fun _ s' => R s s' := by
  induction k with
  | zero => intro node s; trivial
  | succ k ih =>
    intro node s
    rw [binary_loop]
    dsimp only
    split
    · refine Sat_bind_frame2
        (Sat_call_xf hR (hR.on_context _ (hR.on_accept_any _ hops (hR.refl s))) (hop _)) ?_
      intro v s1 h1
      split
      · exact Sat_call_xf hR h1 (ih _ _)
      · exact Sat_ok_frame (hR.on_error _ h1)
    · exact Sat_ok_frame (hR.on_accept_any _ hops (hR.refl s))

theorem primary_expr_xf (hR : ExprFrame R) (n : Nat) (ih : ExprFramed R n) (s : luna_parser_t) :
    (primary_expr (n + 1) s).Sat fun _ s' => R s s' := by
  have hn : ∀ k : luna_token, k ∈ expr_consumes → (peek s).1.type = k →
      R s (next (peek s).2).2 := fun k hk h =>
    hR.on_next (by rw [peek_idem, h]; exact hk) (hR.peek s)
  rw [primary_expr]
  dsimp only
  split
  · exact Sat_ok_frame (hn .ID (by decide) (by assumption))
  · exact Sat_ok_frame (hn .INT (by decide) (by assumption))
  · exact Sat_ok_frame (hn .FLOAT (by decide) (by assumption))
  · exact Sat_ok_frame (hn .STRING (by decide) (by assumption))
  · exact Sat_call_xf hR (hR.peek s) (ih.array_expr _)
  · exact Sat_call_xf hR (hR.peek s) (ih.hash_expr _)
  · exact Sat_call_xf hR (hR.peek s) (ih.paren_expr _)

theorem paren_expr_xf (hR : ExprFrame R) (n : Nat) (ih : ExprFramed R n) (s : luna_parser_t) :
    (paren_expr (n + 1) s).Sat fun _ s' => R s s' := by
  rw [paren_expr]
  try dsimp only
  repeat' first
    | assumption
    | exact hR.refl _
    | exact True.intro
    | exact next_after_is _ (by assumption)
    | with_reducible refine hR.on_accept _ (by decide) ?_
    | with_reducible apply hR.on_peek
    | with_reducible refine hR.on_next ?_ ?_
    | with_reducible apply hR.on_is
    | with_reducible refine hR.on_accept_any _ (by decide) ?_
    | with_reducible apply hR.on_context
    | with_reducible apply hR.on_error
    | with_reducible apply hR.on_in_args
    | with_reducible refine Sat_bind_frame2 ?_ (fun v s1 h1 => ?_)
    | with_reducible refine Sat_call_xf hR ?_ (ih.expr _)
    | with_reducible apply Sat_ok_frame
    | split

theorem arg_list_xf (hR : ExprFrame R) (n : Nat) (ih : ExprFramed R n) (arr : List luna_node_t) (d : luna_token) (s : luna_parser_t) :
    (arg_list (n + 1) arr d s).Sat fun _ s' => R s s' := by
  rw [arg_list]
  try dsimp only
  repeat' first
    | assumption
    | exact hR.refl _
    | exact True.intro
    | exact next_after_is _ (by assumption)
    | with_reducible refine hR.on_accept _ (by decide) ?_
    | with_reducible apply hR.on_peek
    | with_reducible refine hR.on_next ?_ ?_
    | with_reducible apply hR.on_is
    | with_reducible refine hR.on_accept_any _ (by decide) ?_
    | with_reducible apply hR.on_context
    | with_reducible apply hR.on_error
    | with_reducible apply hR.on_in_args
    | with_reducible refine Sat_bind_frame2 ?_ (fun v s1 h1 => ?_)
    | with_reducible refine Sat_call_xf hR ?_ (ih.expr _)
    | with_reducible refine Sat_call_xf hR ?_ (ih.arg_list _ _ _)
    | with_reducible apply Sat_ok_frame
    | split

theorem array_expr_xf (hR : ExprFrame R) (n : Nat) (ih : ExprFramed R n) (s : luna_parser_t) :
    (array_expr (n + 1) s).Sat fun _ s' => R s s' := by
  rw [array_expr]
  try dsimp only
  repeat' first
    | assumption
    | exact hR.refl _
    | exact True.intro
    | exact next_after_is _ (by assumption)
    | with_reducible refine hR.on_accept _ (by decide) ?_
    | with_reducible apply hR.on_peek
    | with_reducible refine hR.on_next ?_ ?_
    | with_reducible apply hR.on_is
    | with_reducible refine hR.on_accept_any _ (by decide) ?_
    | with_reducible apply hR.on_context
    | with_reducible apply hR.on_error
    | with_reducible apply hR.on_in_args
    | with_reducible refine Sat_bind_frame2 ?_ (fun v s1 h1 => ?_)
    | with_reducible refine Sat_call_xf hR ?_ (ih.arg_list _ _ _)
    | with_reducible apply Sat_ok_frame
    | split

theorem hash_pairs_xf (hR : ExprFrame R) (n : Nat) (ih : ExprFramed R n) (h : List (String × luna_node_t)) (d : luna_token) (s : luna_parser_t) :
    (hash_pairs (n + 1) h d s).Sat fun _ s' => R s s' := by
  rw [hash_pairs]
  try dsimp only
  repeat' first
    | assumption
    | exact hR.refl _
    | exact True.intro
    | exact next_after_is _ (by assumption)
    | with_reducible refine hR.on_accept _ (by decide) ?_
    | with_reducible apply hR.on_peek
    | with_reducible refine hR.on_next ?_ ?_
    | with_reducible apply hR.on_is
    | with_reducible refine hR.on_accept_any _ (by decide) ?_
    | with_reducible apply hR.on_context
    | with_reducible apply hR.on_error
    | with_reducible apply hR.on_in_args
    | with_reducible refine Sat_bind_frame2 ?_ (fun v s1 h1 => ?_)
    | with_reducible refine Sat_call_xf hR ?_ (ih.expr _)
    | with_reducible refine Sat_call_xf hR ?_ (ih.hash_pairs _ _ _)
    | with_reducible apply Sat_ok_frame
    | split

theorem hash_expr_xf (hR : ExprFrame R) (n : Nat) (ih : ExprFramed R n) (s : luna_parser_t) :
    (hash_expr (n + 1) s).Sat fun _ s' => R s s' := by
  rw [hash_expr]
  try dsimp only
  repeat' first
    | assumption
    | exact hR.refl _
    | exact True.intro
    | exact next_after_is _ (by assumption)
    | with_reducible refine hR.on_accept _ (by decide) ?_
    | with_reducible apply hR.on_peek
    | with_reducible refine hR.on_next ?_ ?_
    | with_reducible apply hR.on_is
    | with_reducible refine hR.on_accept_any _ (by decide) ?_
    | with_reducible apply hR.on_context
    | with_reducible apply hR.on_error
    | with_reducible apply hR.on_in_args
    | with_reducible refine Sat_bind_frame2 ?_ (fun v s1 h1 => ?_)
    | with_reducible refine Sat_call_xf hR ?_ (ih.hash_pairs _ _ _)
    | with_reducible apply Sat_ok_frame
    | split

theorem slot_access_expr_xf (hR : ExprFrame R) (n : Nat) (ih : ExprFramed R n) (s : luna_parser_t) :
    (slot_access_expr (n + 1) s).Sat fun _ s' => R s s' := by
  rw [slot_access_expr]
  try dsimp only
  repeat' first
    | assumption
    | exact hR.refl _
    | exact True.intro
    | exact next_after_is _ (by assumption)
    | with_reducible refine hR.on_accept _ (by decide) ?_
    | with_reducible apply hR.on_peek
    | with_reducible refine hR.on_next ?_ ?_
    | with_reducible apply hR.on_is
    | with_reducible refine hR.on_accept_any _ (by decide) ?_
    | with_reducible apply hR.on_context
    | with_reducible apply hR.on_error
    | with_reducible apply hR.on_in_args
    | with_reducible refine Sat_bind_frame2 ?_ (fun v s1 h1 => ?_)
    | with_reducible refine Sat_call_xf hR ?_ (ih.primary_expr _)
    | with_reducible apply Sat_ok_frame
    | split

theorem call_args_loop_xf (hR : ExprFrame R) (n : Nat) (ih : ExprFramed R n) (a : luna_args_node_t luna_node_t) (s : luna_parser_t) :
    (call_args_loop (n + 1) a s).Sat fun _ s' => R s s' := by
  rw [call_args_loop]
  try dsimp only
  repeat' first
    | assumption
    | exact hR.refl _
    | exact True.intro
    | exact next_after_is _ (by assumption)
    | with_reducible refine hR.on_accept _ (by decide) ?_
    | with_reducible apply hR.on_peek
    | with_reducible refine hR.on_next ?_ ?_
    | with_reducible apply hR.on_is
    | with_reducible refine hR.on_accept_any _ (by decide) ?_
    | with_reducible apply hR.on_context
    | with_reducible apply hR.on_error
    | with_reducible apply hR.on_in_args
    | with_reducible refine Sat_bind_frame2 ?_ (fun v s1 h1 => ?_)
    | with_reducible refine Sat_call_xf hR ?_ (ih.expr _)
    | with_reducible refine Sat_call_xf hR ?_ (ih.call_args_loop _ _)
    | with_reducible apply Sat_ok_frame
    | split

theorem call_args_xf (hR : ExprFrame R) (n : Nat) (ih : ExprFramed R n) (s : luna_parser_t) :
    (call_args (n + 1) s).Sat fun _ s' => R s s' := by
  rw [call_args]
  try dsimp only
  repeat' first
    | assumption
    | exact hR.refl _
    | exact True.intro
    | exact next_after_is _ (by assumption)
    | with_reducible refine hR.on_accept _ (by decide) ?_
    | with_reducible apply hR.on_peek
    | with_reducible refine hR.on_next ?_ ?_
    | with_reducible apply hR.on_is
    | with_reducible refine hR.on_accept_any _ (by decide) ?_
    | with_reducible apply hR.on_context
    | with_reducible apply hR.on_error
    | with_reducible apply hR.on_in_args
    | with_reducible refine Sat_bind_frame2 ?_ (fun v s1 h1 => ?_)
    | with_reducible refine Sat_call_xf hR ?_ (ih.call_args_loop _ _)
    | with_reducible apply Sat_ok_frame
    | split

theorem call_expr_xf (hR : ExprFrame R) (n : Nat) (ih : ExprFramed R n) (s : luna_parser_t) :
    (call_expr (n + 1) s).Sat fun _ s' => R s s' := by
  rw [call_expr]
  try dsimp only
  repeat' first
    | assumption
    | exact hR.refl _
    | exact True.intro
    | exact next_after_is _ (by assumption)
    | with_reducible refine hR.on_accept _ (by decide) ?_
    | with_reducible apply hR.on_peek
    | with_reducible refine hR.on_next ?_ ?_
    | with_reducible apply hR.on_is
    | with_reducible refine hR.on_accept_any _ (by decide) ?_
    | with_reducible apply hR.on_context
    | with_reducible apply hR.on_error
    | with_reducible apply hR.on_in_args
    | with_reducible refine Sat_bind_frame2 ?_ (fun v s1 h1 => ?_)
    | with_reducible refine Sat_call_xf hR ?_ (ih.slot_access_expr _)
    | with_reducible refine Sat_call_xf hR ?_ (ih.call_args _)
    | with_reducible refine Sat_call_xf hR ?_ (ih.call_expr _)
    | with_reducible apply Sat_ok_frame
    | split

theorem pow_expr_xf (hR : ExprFrame R) (n : Nat) (ih : ExprFramed R n) (s : luna_parser_t) :
    (pow_expr (n + 1) s).Sat fun _ s' => R s s' := by
  rw [pow_expr]
  try dsimp only
  repeat' first
    | assumption
    | exact hR.refl _
    | exact True.intro
    | exact next_after_is _ (by assumption)
    | with_reducible refine hR.on_accept _ (by decide) ?_
    | with_reducible apply hR.on_peek
    | with_reducible refine hR.on_next ?_ ?_
    | with_reducible apply hR.on_is
    | with_reducible refine hR.on_accept_any _ (by decide) ?_
    | with_reducible apply hR.on_context
    | with_reducible apply hR.on_error
    | with_reducible apply hR.on_in_args
    | with_reducible refine Sat_bind_frame2 ?_ (fun v s1 h1 => ?_)
    | with_reducible refine Sat_call_xf hR ?_ (ih.call_expr _)
    | with_reducible apply Sat_ok_frame
    | split

theorem postfix_expr_xf (hR : ExprFrame R) (n : Nat) (ih : ExprFramed R n) (s : luna_parser_t) :
    (postfix_expr (n + 1) s).Sat fun _ s' => R s s' := by
  rw [postfix_expr]
  try dsimp only
  repeat' first
    | assumption
    | exact hR.refl _
    | exact True.intro
    | exact next_after_is _ (by assumption)
    | with_reducible refine hR.on_accept _ (by decide) ?_
    | with_reducible apply hR.on_peek
    | with_reducible refine hR.on_next ?_ ?_
    | with_reducible apply hR.on_is
    | with_reducible refine hR.on_accept_any _ (by decide) ?_
    | with_reducible apply hR.on_context
    | with_reducible apply hR.on_error
    | with_reducible apply hR.on_in_args
    | with_reducible refine Sat_bind_frame2 ?_ (fun v s1 h1 => ?_)
    | with_reducible refine Sat_call_xf hR ?_ (ih.pow_expr _)
    | with_reducible apply Sat_ok_frame
    | split

theorem unary_expr_xf (hR : ExprFrame R) (n : Nat) (ih : ExprFramed R n) (s : luna_parser_t) :
    (unary_expr (n + 1) s).Sat fun _ s' => R s s' := by
  rw [unary_expr]
  try dsimp only
  repeat' first
    | assumption
    | exact hR.refl _
    | exact True.intro
    | exact next_after_is _ (by assumption)
    | with_reducible refine hR.on_accept _ (by decide) ?_
    | with_reducible apply hR.on_peek
    | with_reducible refine hR.on_next ?_ ?_
    | with_reducible apply hR.on_is
    | with_reducible refine hR.on_accept_any _ (by decide) ?_
    | with_reducible apply hR.on_context
    | with_reducible apply hR.on_error
    | with_reducible apply hR.on_in_args
    | with_reducible refine Sat_bind_frame2 ?_ (fun v s1 h1 => ?_)
    | with_reducible refine Sat_call_xf hR ?_ (ih.unary_expr _)
    | with_reducible refine Sat_call_xf hR ?_ (ih.postfix_expr _)
    | with_reducible apply Sat_ok_frame
    | split

theorem assignment_expr_xf (hR : ExprFrame R) (n : Nat) (ih : ExprFramed R n) (s : luna_parser_t) :
    (assignment_expr (n + 1) s).Sat fun _ s' => R s s' := by
  have hlo : ∀ s, (logical_or_expr n s).Sat fun _ s' => R s s' := ih.level_expr 9
  rw [assignment_expr]
  try dsimp only
  repeat' first
    | assumption
    | exact hR.refl _
    | exact True.intro
    | exact next_after_is _ (by assumption)
    | with_reducible refine hR.on_accept _ (by decide) ?_
    | with_reducible apply hR.on_peek
    | with_reducible refine hR.on_next ?_ ?_
    | with_reducible apply hR.on_is
    | with_reducible refine hR.on_accept_any _ (by decide) ?_
    | with_reducible apply hR.on_context
    | with_reducible apply hR.on_error
    | with_reducible apply hR.on_in_args
    | with_reducible refine Sat_bind_frame2 ?_ (fun v s1 h1 => ?_)
    | with_reducible refine Sat_call_xf hR ?_ (hlo _)
    | with_reducible refine Sat_call_xf hR ?_ (ih.not_expr _)
    | with_reducible apply Sat_ok_frame
    | split

theorem not_expr_xf (hR : ExprFrame R) (n : Nat) (ih : ExprFramed R n) (s : luna_parser_t) :
    (not_expr (n + 1) s).Sat fun _ s' => R s s' := by
  rw [not_expr]
  try dsimp only
  repeat' first
    | assumption
    | exact hR.refl _
    | exact True.intro
    | exact next_after_is _ (by assumption)
    | with_reducible refine hR.on_accept _ (by decide) ?_
    | with_reducible apply hR.on_peek
    | with_reducible refine hR.on_next ?_ ?_
    | with_reducible apply hR.on_is
    | with_reducible refine hR.on_accept_any _ (by decide) ?_
    | with_reducible apply hR.on_context
    | with_reducible apply hR.on_error
    | with_reducible apply hR.on_in_args
    | with_reducible refine Sat_bind_frame2 ?_ (fun v s1 h1 => ?_)
    | with_reducible refine Sat_call_xf hR ?_ (ih.not_expr _)
    | with_reducible refine Sat_call_xf hR ?_ (ih.assignment_expr _)
    | with_reducible apply Sat_ok_frame
    | split

theorem expr_xf (hR : ExprFrame R) (n : Nat) (ih : ExprFramed R n) (s : luna_parser_t) :
    (expr (n + 1) s).Sat fun _ s' => R s s' := by
  rw [expr]
  try dsimp only
  repeat' first
    | assumption
    | exact hR.refl _
    | exact True.intro
    | exact next_after_is _ (by assumption)
    | with_reducible refine hR.on_accept _ (by decide) ?_
    | with_reducible apply hR.on_peek
    | with_reducible refine hR.on_next ?_ ?_
    | with_reducible apply hR.on_is
    | with_reducible refine hR.on_accept_any _ (by decide) ?_
    | with_reducible apply hR.on_context
    | with_reducible apply hR.on_error
    | with_reducible apply hR.on_in_args
    | with_reducible refine Sat_bind_frame2 ?_ (fun v s1 h1 => ?_)
    | with_reducible refine Sat_call_xf hR ?_ (ih.not_expr _)
    | with_reducible apply Sat_ok_frame
    | split

theorem expr_stmt_xf (hR : ExprFrame R) (n : Nat) (ih : ExprFramed R n) (s : luna_parser_t) :
    (expr_stmt (n + 1) s).Sat fun _ s' => R s s' := by
  rw [expr_stmt]
  try dsimp only
  repeat' first
    | assumption
    | exact hR.refl _
    | exact True.intro
    | exact next_after_is _ (by assumption)
    | with_reducible refine hR.on_accept _ (by decide) ?_
    | with_reducible apply hR.on_peek
    | with_reducible refine hR.on_next ?_ ?_
    | with_reducible apply hR.on_is
    | with_reducible refine hR.on_accept_any _ (by decide) ?_
    | with_reducible apply hR.on_context
    | with_reducible apply hR.on_error
    | with_reducible apply hR.on_in_args
    | with_reducible refine Sat_bind_frame2 ?_ (fun v s1 h1 => ?_)
    | with_reducible refine Sat_call_xf hR ?_ (ih.expr _)
    | with_reducible apply Sat_ok_frame
    | split

theorem type_stmt_loop_xf (hR : ExprFrame R) (n : Nat) (ih : ExprFramed R n) (t : luna_node_t) (s : luna_parser_t) :
    (type_stmt_loop (n + 1) t s).Sat fun _ s' => R s s' := by
  rw [type_stmt_loop]
  try dsimp only
  repeat' first
    | assumption
    | exact hR.refl _
    | exact True.intro
    | exact next_after_is _ (by assumption)
    | with_reducible refine hR.on_accept _ (by decide) ?_
    | with_reducible apply hR.on_peek
    | with_reducible refine hR.on_next ?_ ?_
    | with_reducible apply hR.on_is
    | with_reducible refine hR.on_accept_any _ (by decide) ?_
    | with_reducible apply hR.on_context
    | with_reducible apply hR.on_error
    | with_reducible apply hR.on_in_args
    | with_reducible refine Sat_bind_frame2 ?_ (fun v s1 h1 => ?_)
    | with_reducible refine Sat_call_xf hR ?_ (ih.type_stmt_loop _ _)
    | with_reducible apply Sat_ok_frame
    | split

theorem type_stmt_xf (hR : ExprFrame R) (n : Nat) (ih : ExprFramed R n) (s : luna_parser_t) :
    (type_stmt (n + 1) s).Sat fun _ s' => R s s' := by
  rw [type_stmt]
  try dsimp only
  repeat' first
    | assumption
    | exact hR.refl _
    | exact True.intro
    | exact next_after_is _ (by assumption)
    | with_reducible refine hR.on_accept _ (by decide) ?_
    | with_reducible apply hR.on_peek
    | with_reducible refine hR.on_next ?_ ?_
    | with_reducible apply hR.on_is
    | with_reducible refine hR.on_accept_any _ (by decide) ?_
    | with_reducible apply hR.on_context
    | with_reducible apply hR.on_error
    | with_reducible apply hR.on_in_args
    | with_reducible refine Sat_bind_frame2 ?_ (fun v s1 h1 => ?_)
    | with_reducible refine Sat_call_xf hR ?_ (ih.type_stmt_loop _ _)
    | with_reducible apply Sat_ok_frame
    | split

theorem function_params_loop_xf (hR : ExprFrame R) (n : Nat) (ih : ExprFramed R n) (p : List luna_node_t) (s : luna_parser_t) :
    (function_params_loop (n + 1) p s).Sat fun _ s' => R s s' := by
  rw [function_params_loop]
  try dsimp only
  repeat' first
    | assumption
    | exact hR.refl _
    | exact True.intro
    | exact next_after_is _ (by assumption)
    | with_reducible refine hR.on_accept _ (by decide) ?_
    | with_reducible apply hR.on_peek
    | with_reducible refine hR.on_next ?_ ?_
    | with_reducible apply hR.on_is
    | with_reducible refine hR.on_accept_any _ (by decide) ?_
    | with_reducible apply hR.on_context
    | with_reducible apply hR.on_error
    | with_reducible apply hR.on_in_args
    | with_reducible refine Sat_bind_frame2 ?_ (fun v s1 h1 => ?_)
    | with_reducible refine Sat_call_xf hR ?_ (ih.expr _)
    | with_reducible refine Sat_call_xf hR ?_ (ih.function_params_loop _ _)
    | with_reducible apply Sat_ok_frame
    | split

theorem function_params_xf (hR : ExprFrame R) (n : Nat) (ih : ExprFramed R n) (s : luna_parser_t) :
    (function_params (n + 1) s).Sat fun _ s' => R s s' := by
  rw [function_params]
  try dsimp only
  repeat' first
    | assumption
    | exact hR.refl _
    | exact True.intro
    | exact next_after_is _ (by assumption)
    | with_reducible refine hR.on_accept _ (by decide) ?_
    | with_reducible apply hR.on_peek
    | with_reducible refine hR.on_next ?_ ?_
    | with_reducible apply hR.on_is
    | with_reducible refine hR.on_accept_any _ (by decide) ?_
    | with_reducible apply hR.on_context
    | with_reducible apply hR.on_error
    | with_reducible apply hR.on_in_args
    | with_reducible refine Sat_bind_frame2 ?_ (fun v s1 h1 => ?_)
    | with_reducible refine Sat_call_xf hR ?_ (ih.function_params_loop _ _)
    | with_reducible apply Sat_ok_frame
    | split


theorem level_expr_xf (hR : ExprFrame R) (n : Nat) (ih : ExprFramed R n) (j : Nat)
    (s : luna_parser_t) : (level_expr j (n + 1) s).Sat fun _ s' => R s s' := by
  by_cases h9 : j < 9
  · have hop : ∀ s, (operand_expr j n s).Sat fun _ s' => R s s' := by
      cases j with
      | zero => exact ih.unary_expr
      | succ j => exact ih.level_expr j
    rw [level_expr_succ j h9]
    refine Sat_bind_frame2 (hop s) (fun v s1 h1 => ?_)
    split
    · exact Sat_ok_frame h1
    · exact Sat_call_xf hR h1 (binary_loop_xf hR _ (level_ops_consumes j) _ _ _ hop _ _ _)
  · obtain ⟨k, rfl⟩ : ∃ k, j = k + 9 := ⟨j - 9, by omega⟩
    have hop : ∀ s, (operand_expr 9 n s).Sat fun _ s' => R s s' := ih.level_expr 8
    rw [level_expr_ge, show logical_or_expr = level_expr 9 from rfl, logical_or_expr_succ]
    refine Sat_bind_frame2 (hop s) (fun v s1 h1 => ?_)
    split
    · exact Sat_ok_frame h1
    · refine Sat_bind_frame2
        (Sat_call_xf hR h1 (binary_loop_xf hR _ (level_ops_consumes 9) _ _ _ hop _ _ _))
        (fun v s2 h2 => ?_)
      split
      · exact Sat_ok_frame h2
      · dsimp only
        split
        · exact Sat_ok_frame (hR.on_accept _ (by decide) h2)
        · exact Sat_ok_frame (hR.on_accept _ (by decide) h2)

/-- Every function of the expression tier relates its entry state to its exit state, at
every fuel. -/
theorem expr_framed_all (hR : ExprFrame R) (n : Nat) : ExprFramed R n := by
  induction n with
  | zero =>
    constructor
    case level_expr => intro j s; rw [level_expr_zero]; exact True.intro
    all_goals intros; exact True.intro
  | succ n ih =>
    exact {
      paren_expr := paren_expr_xf hR n ih
      arg_list := arg_list_xf hR n ih
      array_expr := array_expr_xf hR n ih
      hash_pairs := hash_pairs_xf hR n ih
      hash_expr := hash_expr_xf hR n ih
      primary_expr := primary_expr_xf hR n ih
      slot_access_expr := slot_access_expr_xf hR n ih
      call_args_loop := call_args_loop_xf hR n ih
      call_args := call_args_xf hR n ih
      call_expr := call_expr_xf hR n ih
      pow_expr := pow_expr_xf hR n ih
      postfix_expr := postfix_expr_xf hR n ih
      unary_expr := unary_expr_xf hR n ih
      level_expr := level_expr_xf hR n ih
      assignment_expr := assignment_expr_xf hR n ih
      not_expr := not_expr_xf hR n ih
      expr := expr_xf hR n ih
      expr_stmt := expr_stmt_xf hR n ih
      type_stmt_loop := type_stmt_loop_xf hR n ih
      type_stmt := type_stmt_xf hR n ih
      function_params_loop := function_params_loop_xf hR n ih
      function_params := function_params_xf hR n ih }

end

/-! ## A `return` without its expression makes the parse fail -/

set_option linter.unusedTactic false
set_option linter.unreachableTactic false

theorem rwe_tail (r : luna_token_t) (rest : List luna_token_t) (hr : r.type ≠ .RETURN)
    (h : return_without_expr (r :: rest) = true) : return_without_expr rest = true := by
  rw [return_without_expr] at h
  simp only [Bool.and_eq_true, Bool.or_eq_true, beq_iff_eq] at h
  rcases h.2 with h2 | h2
  · exact absurd h2.1 hr
  · exact h2

theorem rwe_head (r : luna_token_t) (rest : List luna_token_t)
    (h : return_without_expr (r :: rest) = true) : r.type ≠ .EOS := by
  rw [return_without_expr] at h
  simp only [Bool.and_eq_true, bne_iff_ne, ne_eq] at h
  exact h.1

theorem pending_peek (s : luna_parser_t) :
    pending (peek s).2 = (peek s).1 :: (next s).2.lex := by
  obtain ⟨lex, la, lb, c, e, i⟩ := s
  cases la <;> rfl

theorem pending_next (s : luna_parser_t) : pending (next s).2 = (next s).2.lex := by
  obtain ⟨lex, la, lb, c, e, i⟩ := s
  cases la <;> rfl

theorem ra_peek {s : luna_parser_t} (h : ReturnAhead s) : ReturnAhead (peek s).2 := by
  obtain ⟨lex, la, lb, c, e, i⟩ := s
  cases la with
  | some t => exact h
  | none =>
    cases lex with
    | nil => exact absurd h (by simp [ReturnAhead, pending, return_without_expr])
    | cons t ts => exact h

theorem ra_next {s : luna_parser_t} (hn : (peek s).1.type ≠ .RETURN) (h : ReturnAhead s) :
    ReturnAhead (next s).2 := by
  have h2 := ra_peek h
  rw [ReturnAhead, pending_peek] at h2
  rw [ReturnAhead, pending_next]
  exact rwe_tail _ _ hn h2

theorem ra_accept {s : luna_parser_t} (t : luna_token) (ht : t ≠ .RETURN) (h : ReturnAhead s) :
    ReturnAhead (accept t s).2 := by
  by_cases hk : (peek s).1.type = t
  · rw [accept_hit_peek _ _ hk]
    have hn : (peek s).1.type ≠ .RETURN := by rw [hk]; exact ht
    have := ra_next hn h
    rw [ReturnAhead, pending_next] at this
    obtain ⟨lex, hl⟩ := peek_form s
    have hlex : (peek s).2.lex = (next s).2.lex := by
      obtain ⟨lex0, la, lb, c, e, i⟩ := s
      cases la <;> rfl
    rw [ReturnAhead]
    show return_without_expr (peek s).2.lex = true
    rw [hlex]
    exact this
  · rw [accept_miss_peek _ _ hk]
    exact ra_peek h

theorem ra_accept_any {s : luna_parser_t} (ops : List luna_token) (hops : ∀ t ∈ ops, t ≠ .RETURN)
    (h : ReturnAhead s) : ReturnAhead (accept_any ops s).2 := by
  induction ops generalizing s with
  | nil => exact h
  | cons t ts ih =>
    rw [accept_any]
    split
    · exact ra_accept t (hops t (List.mem_cons_self _ _)) h
    · exact ih (fun t' ht' => hops t' (List.mem_cons_of_mem _ ht'))
        (ra_accept t (hops t (List.mem_cons_self _ _)) h)

theorem ra_is {s : luna_parser_t} (t : luna_token) (h : ReturnAhead s) :
    ReturnAhead (is t s).2 := ra_peek h

theorem ra_context {s : luna_parser_t} (c : String) (h : ReturnAhead s) :
    ReturnAhead (context c s) := h

theorem ra_error {s : luna_parser_t} (m : String) (h : ReturnAhead s) :
    ReturnAhead (error m s) := h

theorem expr_consumes_ne (t : luna_token) (h : t ∈ expr_consumes) : t ≠ .RETURN := by
  revert t
  decide

/-- The relation that keeps the `return` ahead is respected by the expression tier. -/
theorem keepsReturn_frame : ExprFrame KeepsReturn where
  refl := fun _ h => h
  trans := fun h1 h2 h => h2 (h1 h)
  peek := fun _ h => ra_peek h
  next := fun _ hn h => ra_next (expr_consumes_ne _ hn) h
  accept := fun t _ ht h => ra_accept t (expr_consumes_ne _ ht) h
  context := fun _ _ h => h
  error := fun _ _ h => h
  in_args := fun _ _ h => h

theorem Sat_stop_none {α : Type} {s : luna_parser_t} :
    (Res.ok (none : Option α) s).Sat StopsOrKeeps := Or.inl rfl

theorem Sat_stop_some {α : Type} {s : luna_parser_t} {v : Option α} (h : ReturnAhead s) :
    (Res.ok v s).Sat StopsOrKeeps := Or.inr h

theorem ra_of_some {α : Type} {s : luna_parser_t} {a : α}
    (h : StopsOrKeeps (some a) s) : ReturnAhead s := by
  rcases h with h | h
  · exact absurd h (by simp)
  · exact h

theorem bind_stop {α β : Type} {r : Res (Option α)}
    {k : Option α → luna_parser_t → Res (Option β)}
    (hr : r.Sat StopsOrKeeps)
    (hk : ∀ v s1, StopsOrKeeps v s1 → (k v s1).Sat StopsOrKeeps) :
    (r.bind k).Sat StopsOrKeeps := by
  cases r with
  | ok v s1 => exact hk v s1 hr
  | undefined => trivial
  | fuel => trivial

/-- A call into the expression tier keeps the `return` ahead. -/
theorem Sat_of_keeps {α : Type} {s : luna_parser_t} {r : Res (Option α)} (h : ReturnAhead s)
    (hr : r.Sat fun _ s' => KeepsReturn s s') : r.Sat StopsOrKeeps := by
  cases r with
  | ok v s1 => exact Or.inr (hr h)
  | undefined => trivial
  | fuel => trivial

theorem next_is_ne (s : luna_parser_t) (h : (is .ID s).1 = true) :
    (peek (is .ID s).2).1.type ≠ .RETURN :=
  expr_consumes_ne _ (next_after_is s h)

/-- A failing operand makes the enclosing statement fail. -/
theorem Sat_stop_noNode (r : Res (Option luna_node_t))
    (k : luna_node_t → luna_parser_t → Res (Option luna_node_t)) (h : NoNode r) :
    (r.bind fun node self =>
      match node with
      | none => .ok none self
      | some node => k node self).Sat StopsOrKeeps := by
  cases r with
  | ok v s =>
    cases v with
    | none => exact Or.inl rfl
    | some v => exact absurd h (by simp [NoNode])
  | undefined => trivial
  | fuel => trivial
theorem function_stmt_keeps (n : Nat) (ih : StmtKeeps n) (s : luna_parser_t) (h : ReturnAhead s) :
    (function_stmt (n + 1) s).Sat StopsOrKeeps := by
  have xf := expr_framed_all keepsReturn_frame n
  rw [function_stmt]
  try dsimp only
  repeat' first
    | assumption
    | exact True.intro
    | exact Sat_stop_none
    | exact ra_of_some (by assumption)
    | exact next_is_ne _ (by assumption)
    | with_reducible refine ra_accept _ (by decide) ?_
    | with_reducible refine ra_accept_any _ (by decide) ?_
    | with_reducible apply ra_peek
    | with_reducible apply ra_is
    | with_reducible refine ra_next ?_ ?_
    | with_reducible apply ra_context
    | with_reducible apply ra_error
    | with_reducible refine bind_stop ?_ (fun v s1 h1 => ?_)
    | with_reducible refine ih.block _ ?_
    | with_reducible refine ih.block_loop _ _ ?_
    | with_reducible refine ih.stmt _ ?_
    | with_reducible refine ih.if_stmt_loop _ _ _ _ _ ?_
    | with_reducible refine Sat_of_keeps ?_ (xf.expr _)
    | with_reducible refine Sat_of_keeps ?_ (xf.function_params _)
    | with_reducible refine Sat_stop_some ?_
    | split

theorem if_stmt_loop_keeps (n : Nat) (ih : StmtKeeps n) (ng : Bool) (c : luna_node_t) (b : luna_block_node_t) (e : List luna_node_t) (s : luna_parser_t) (h : ReturnAhead s) :
    (if_stmt_loop (n + 1) ng c b e s).Sat StopsOrKeeps := by
  have xf := expr_framed_all keepsReturn_frame n
  rw [if_stmt_loop]
  try dsimp only
  repeat' first
    | assumption
    | exact True.intro
    | exact Sat_stop_none
    | exact ra_of_some (by assumption)
    | exact next_is_ne _ (by assumption)
    | with_reducible refine ra_accept _ (by decide) ?_
    | with_reducible refine ra_accept_any _ (by decide) ?_
    | with_reducible apply ra_peek
    | with_reducible apply ra_is
    | with_reducible refine ra_next ?_ ?_
    | with_reducible apply ra_context
    | with_reducible apply ra_error
    | with_reducible refine bind_stop ?_ (fun v s1 h1 => ?_)
    | with_reducible refine ih.block _ ?_
    | with_reducible refine ih.block_loop _ _ ?_
    | with_reducible refine ih.stmt _ ?_
    | with_reducible refine ih.if_stmt_loop _ _ _ _ _ ?_
    | with_reducible refine Sat_of_keeps ?_ (xf.expr _)
    | with_reducible refine Sat_of_keeps ?_ (xf.function_params _)
    | with_reducible refine Sat_stop_some ?_
    | split

theorem if_stmt_keeps (n : Nat) (ih : StmtKeeps n) (s : luna_parser_t) (h : ReturnAhead s) :
    (if_stmt (n + 1) s).Sat StopsOrKeeps := by
  have xf := expr_framed_all keepsReturn_frame n
  rw [if_stmt]
  try dsimp only
  repeat' first
    | assumption
    | exact True.intro
    | exact Sat_stop_none
    | exact ra_of_some (by assumption)
    | exact next_is_ne _ (by assumption)
    | with_reducible refine ra_accept _ (by decide) ?_
    | with_reducible refine ra_accept_any _ (by decide) ?_
    | with_reducible apply ra_peek
    | with_reducible apply ra_is
    | with_reducible refine ra_next ?_ ?_
    | with_reducible apply ra_context
    | with_reducible apply ra_error
    | with_reducible refine bind_stop ?_ (fun v s1 h1 => ?_)
    | with_reducible refine ih.block _ ?_
    | with_reducible refine ih.block_loop _ _ ?_
    | with_reducible refine ih.stmt _ ?_
    | with_reducible refine ih.if_stmt_loop _ _ _ _ _ ?_
    | with_reducible refine Sat_of_keeps ?_ (xf.expr _)
    | with_reducible refine Sat_of_keeps ?_ (xf.function_params _)
    | with_reducible refine Sat_stop_some ?_
    | split

theorem while_stmt_keeps (n : Nat) (ih : StmtKeeps n) (s : luna_parser_t) (h : ReturnAhead s) :
    (while_stmt (n + 1) s).Sat StopsOrKeeps := by
  have xf := expr_framed_all keepsReturn_frame n
  rw [while_stmt]
  try dsimp only
  repeat' first
    | assumption
    | exact True.intro
    | exact Sat_stop_none
    | exact ra_of_some (by assumption)
    | exact next_is_ne _ (by assumption)
    | with_reducible refine ra_accept _ (by decide) ?_
    | with_reducible refine ra_accept_any _ (by decide) ?_
    | with_reducible apply ra_peek
    | with_reducible apply ra_is
    | with_reducible refine ra_next ?_ ?_
    | with_reducible apply ra_context
    | with_reducible apply ra_error
    | with_reducible refine bind_stop ?_ (fun v s1 h1 => ?_)
    | with_reducible refine ih.block _ ?_
    | with_reducible refine ih.block_loop _ _ ?_
    | with_reducible refine ih.stmt _ ?_
    | with_reducible refine ih.if_stmt_loop _ _ _ _ _ ?_
    | with_reducible refine Sat_of_keeps ?_ (xf.expr _)
    | with_reducible refine Sat_of_keeps ?_ (xf.function_params _)
    | with_reducible refine Sat_stop_some ?_
    | split

theorem block_loop_keeps (n : Nat) (ih : StmtKeeps n) (st : List luna_node_t) (s : luna_parser_t) (h : ReturnAhead s) :
    (block_loop (n + 1) st s).Sat StopsOrKeeps := by
  have xf := expr_framed_all keepsReturn_frame n
  rw [block_loop]
  try dsimp only
  repeat' first
    | assumption
    | exact True.intro
    | exact Sat_stop_none
    | exact ra_of_some (by assumption)
    | exact next_is_ne _ (by assumption)
    | with_reducible refine ra_accept _ (by decide) ?_
    | with_reducible refine ra_accept_any _ (by decide) ?_
    | with_reducible apply ra_peek
    | with_reducible apply ra_is
    | with_reducible refine ra_next ?_ ?_
    | with_reducible apply ra_context
    | with_reducible apply ra_error
    | with_reducible refine bind_stop ?_ (fun v s1 h1 => ?_)
    | with_reducible refine ih.block _ ?_
    | with_reducible refine ih.block_loop _ _ ?_
    | with_reducible refine ih.stmt _ ?_
    | with_reducible refine ih.if_stmt_loop _ _ _ _ _ ?_
    | with_reducible refine Sat_of_keeps ?_ (xf.expr _)
    | with_reducible refine Sat_of_keeps ?_ (xf.function_params _)
    | with_reducible refine Sat_stop_some ?_
    | split

theorem block_keeps (n : Nat) (ih : StmtKeeps n) (s : luna_parser_t) (h : ReturnAhead s) :
    (block (n + 1) s).Sat StopsOrKeeps := by
  have xf := expr_framed_all keepsReturn_frame n
  rw [block]
  try dsimp only
  repeat' first
    | assumption
    | exact True.intro
    | exact Sat_stop_none
    | exact ra_of_some (by assumption)
    | exact next_is_ne _ (by assumption)
    | with_reducible refine ra_accept _ (by decide) ?_
    | with_reducible refine ra_accept_any _ (by decide) ?_
    | with_reducible apply ra_peek
    | with_reducible apply ra_is
    | with_reducible refine ra_next ?_ ?_
    | with_reducible apply ra_context
    | with_reducible apply ra_error
    | with_reducible refine bind_stop ?_ (fun v s1 h1 => ?_)
    | with_reducible refine ih.block _ ?_
    | with_reducible refine ih.block_loop _ _ ?_
    | with_reducible refine ih.stmt _ ?_
    | with_reducible refine ih.if_stmt_loop _ _ _ _ _ ?_
    | with_reducible refine Sat_of_keeps ?_ (xf.expr _)
    | with_reducible refine Sat_of_keeps ?_ (xf.function_params _)
    | with_reducible refine Sat_stop_some ?_
    | split


/-- `return_stmt` with such a `return` ahead: if that `return` is the one it consumes, the
expression fails. -/
theorem return_stmt_keeps (n : Nat) (s : luna_parser_t) (h : ReturnAhead s) :
    (return_stmt (n + 1) s).Sat StopsOrKeeps := by
  have xf := expr_framed_all keepsReturn_frame n
  have h0 : ReturnAhead (peek (context "return statement" s)).2 := ra_peek (ra_context _ h)
  obtain ⟨lex, hl⟩ := peek_form (context "return statement" s)
  rw [return_stmt]
  by_cases hk : (peek (context "return statement" s)).1.type = .RETURN
  · rw [accept_hit_peek _ _ hk]
    simp only [if_true]
    rw [hl]
    rw [ReturnAhead, hl] at h0
    change return_without_expr ((peek (context "return statement" s)).1 :: lex) = true at h0
    rw [return_without_expr] at h0
    simp only [Bool.and_eq_true, Bool.or_eq_true, beq_iff_eq, Bool.not_eq_true',
      bne_iff_ne, ne_eq] at h0
    rcases h0.2 with h2 | h2
    · refine Sat_stop_noNode _ _ ?_
      rw [← expr_peek]
      exact expr_noNode n _ _ _ _ _ _ h2.2
    · refine bind_stop (Sat_of_keeps (s := ⟨lex, none, _, _, _, _⟩) h2 (xf.expr _))
        (fun v s1 h1 => ?_)
      split
      · exact Sat_stop_none
      · exact Sat_stop_some (ra_of_some h1)
  · rw [accept_miss_peek _ _ hk]
    exact Sat_stop_none

theorem stmt_keeps (n : Nat) (ih : StmtKeeps n) (s : luna_parser_t) (h : ReturnAhead s) :
    (stmt (n + 1) s).Sat StopsOrKeeps := by
  have xf := expr_framed_all keepsReturn_frame n
  have h0 : ReturnAhead (context "statement" (peek s).2) := ra_context _ (ra_peek h)
  rw [stmt_dispatch]
  cases (peek s).1.type <;> first
    | exact ih.if_stmt _ h0
    | exact ih.while_stmt _ h0
    | exact ih.return_stmt _ h0
    | exact ih.function_stmt _ h0
    | exact Sat_of_keeps h0 (xf.type_stmt _)
    | exact Sat_of_keeps h0 (xf.expr_stmt _)

/-- Every statement function fails or keeps the `return` ahead, at every fuel. -/
theorem stmtKeeps_all (n : Nat) : StmtKeeps n := by
  induction n with
  | zero => constructor <;> intros <;> exact True.intro
  | succ n ih =>
    exact {
      function_stmt := function_stmt_keeps n ih
      if_stmt_loop := if_stmt_loop_keeps n ih
      if_stmt := if_stmt_keeps n ih
      while_stmt := while_stmt_keeps n ih
      return_stmt := return_stmt_keeps n
      stmt := stmt_keeps n ih
      block_loop := block_loop_keeps n ih
      block := block_keeps n ih }

/-- With such a `return` ahead, the statement loop of `program` never returns a block. -/
theorem program_loop_return (n : Nat) :
    ∀ (stmts : List luna_node_t) (s : luna_parser_t), ReturnAhead s →
      ∀ (b : luna_block_node_t) (s' : luna_parser_t),
        program_loop n stmts s ≠ .ok (some b) s' := by
  induction n with
  | zero => intro stmts s _ b s' h; rw [program_loop] at h; exact absurd h (by simp)
  | succ n ih =>
    intro stmts s hra b s' h
    have hp := ra_peek hra
    obtain ⟨lex, hl⟩ := peek_form s
    have hE : (peek s).1.type ≠ .EOS := by
      rw [ReturnAhead, hl] at hp
      exact rwe_head _ _ hp
    rw [program_loop_stmt _ _ _ hE] at h
    have hs := (stmtKeeps_all n).stmt s hra
    cases hr : stmt n s with
    | undefined => rw [hr] at h; exact absurd h (by simp)
    | fuel => rw [hr] at h; exact absurd h (by simp)
    | ok v s1 =>
      rw [hr] at h hs
      cases v with
      | none => exact absurd h (by simp)
      | some v =>
        simp only [Res.bind_ok] at h
        exact ih _ s1 (ra_of_some hs) b s' h

/-- A token stream that holds, before any end-of-stream token, a `return` directly
followed by a token that cannot begin an expression never parses to a block. -/
theorem luna_parse_return (fuel : Nat) (self0 : luna_parser_t) (toks : List luna_token_t)
    (h : return_without_expr toks = true) (b : luna_block_node_t) (s' : luna_parser_t) :
    luna_parse fuel (luna_parser_init self0 toks) ≠ .ok (some b) s' :=
  program_loop_return fuel [] (luna_parser_init self0 toks) h b s'

/-! ## Missing operands, assignment chains, the unchecked `'.'` callee -/

theorem starts_primary_false (t : luna_token) (h : starts_primary t = false) :
    t ≠ .ID ∧ t ≠ .INT ∧ t ≠ .FLOAT ∧ t ≠ .STRING ∧ t ≠ .LBRACK ∧ t ≠ .LBRACE ∧ t ≠ .LPAREN := by
  revert t
  decide

theorem starts_unary_false (t : luna_token) (h : starts_unary t = false) :
    starts_primary t = false ∧
      t ∉ [luna_token.OP_INCR, .OP_DECR, .OP_BIT_NOT, .OP_PLUS, .OP_MINUS, .OP_NOT] := by
  revert t
  decide

/-- `primary_expr` on a token that begins none of its alternatives fails without
consuming it, whatever the token is otherwise. -/
theorem primary_stop (k : Nat) (lex : List luna_token_t) (t lb : luna_token_t)
    (c e : Option String) (i : Int) (ht : starts_primary t.type = false) :
    primary_expr (k + 2) ⟨lex, some t, lb, c, e, i⟩ = .ok none ⟨lex, some t, lb, c, e, i⟩ := by
  obtain ⟨h1, h2, h3, h4, h5, h6, h7⟩ := starts_primary_false _ ht
  have hp : paren_expr (k + 1) ⟨lex, some t, lb, c, e, i⟩ = .ok none ⟨lex, some t, lb, c, e, i⟩ := by
    rw [paren_expr, accept_miss _ _ _ _ _ _ _ h7]
    rfl
  rw [primary_expr]
  simp only [peek_some]
  exact hp

theorem call_stop (k : Nat) (lex : List luna_token_t) (t lb : luna_token_t)
    (c e : Option String) (i : Int) (ht : starts_primary t.type = false) :
    call_expr (k + 4) ⟨lex, some t, lb, c, e, i⟩ = .ok none ⟨lex, some t, lb, c, e, i⟩ := by
  rw [call_expr, slot_access_expr, primary_stop k _ _ _ _ _ _ ht]
  rfl

theorem unary_stop (k : Nat) (lex : List luna_token_t) (t lb : luna_token_t)
    (c e : Option String) (i : Int) (ht : starts_unary t.type = false) :
    unary_expr (k + 7) ⟨lex, some t, lb, c, e, i⟩ = .ok none ⟨lex, some t, lb, c, e, i⟩ := by
  obtain ⟨h0, h8⟩ := starts_unary_false _ ht
  rw [unary_expr, accept_any_miss _ _ _ _ _ _ _ h8]
  simp only [Bool.false_eq_true, if_false]
  rw [postfix_expr, pow_expr, call_stop k _ _ _ _ _ _ h0]
  rfl

theorem operand_stop (j : Nat) (hj : j ≤ 10) (k : Nat) (lex : List luna_token_t)
    (t lb : luna_token_t) (c e : Option String) (i : Int) (ht : starts_unary t.type = false) :
    operand_expr j (k + 7 + j) ⟨lex, some t, lb, c, e, i⟩ =
      .ok none ⟨lex, some t, lb, c, e, i⟩ := by
  induction j with
  | zero => exact unary_stop k lex t lb c e i ht
  | succ j ih =>
    show level_expr j (k + 7 + j + 1) _ = _
    by_cases h9 : j < 9
    · rw [level_expr_succ j h9, ih (by omega)]
      rfl
    · have : j = 9 := by omega
      subst this
      rw [logical_or_expr_succ, ih (by omega)]
      rfl

/-- The exit state of a binary level whose operator, the token ahead in `s`, has no
right operand: the operator is in `lb`, the token after it is buffered, the label is the
level's and the message is stored unless one was set. -/
theorem stop_state (ctx : String) (s : luna_parser_t) :
    error "missing right-hand expression"
        (peek (context ctx { (peek s).2 with lb := (peek s).1, la := none })).2 =
      ⟨(next (next s).2).2.lex, some (upcoming s 1), (peek s).1, some ctx,
        some (s.err.getD "missing right-hand expression"), s.in_args⟩ := by
  obtain ⟨lex, la, lb, c, e, i⟩ := s
  rcases lex with _ | ⟨a, _ | ⟨b, tl⟩⟩ <;> cases la <;> cases e <;> rfl

theorem upcoming_one_some (lex : List luna_token_t) (a lb : luna_token_t) (c e : Option String)
    (i : Int) : upcoming ⟨lex, some a, lb, c, e, i⟩ 1 = (luna_scan lex).1 := by
  cases lex <;> rfl

theorem upcoming_one_none (lex : List luna_token_t) (a lb : luna_token_t) (c e : Option String)
    (i : Int) : upcoming ⟨a :: lex, none, lb, c, e, i⟩ 1 = (luna_scan lex).1 := by
  cases lex <;> rfl

theorem binary_loop_stop (j : Nat) (hj : j ≤ 9) (n : Nat) (hn : 7 + j ≤ n) (k : Nat)
    (node : luna_node_t) (s : luna_parser_t)
    (ho : (peek s).1.type ∈ level_ops j) (ht : starts_unary (upcoming s 1).type = false) :
    binary_loop (level_ops j) (level_op j) (level_ctx j) (operand_expr j n) (k + 1) node s =
      .ok none (error "missing right-hand expression"
        (peek (context (level_ctx j) { (peek s).2 with lb := (peek s).1, la := none })).2) := by
  obtain ⟨m, rfl⟩ : ∃ m, n = m + 7 + j := ⟨n - (7 + j), by omega⟩
  rw [binary_loop, accept_any_hit_peek _ _ ho]
  simp only [if_true]
  rw [← operand_expr_peek j (by omega)]
  obtain ⟨lex, la, lb, c, e, i⟩ := s
  have key : ∀ (lex : List luna_token_t) (p : luna_token_t),
      starts_unary (luna_scan lex).1.type = false →
      (operand_expr j (m + 7 + j) (peek (context (level_ctx j)
          ⟨lex, none, p, c, e, i⟩)).2).bind (fun right self =>
        match right with
        | some right =>
          binary_loop (level_ops j) (level_op j) (level_ctx j) (operand_expr j (m + 7 + j)) k
            (.binary_op (level_op j ⟨lex, none, p, c, e, i⟩) node right false) self
        | none => .ok none (error "missing right-hand expression" self)) =
      .ok none (error "missing right-hand expression"
        (peek (context (level_ctx j) ⟨lex, none, p, c, e, i⟩)).2) := by
    intro lex p h
    simp only [context, peek_none]
    rw [operand_stop j (by omega) m _ _ _ _ _ _ h]
    rfl
  cases la with
  | none =>
    cases lex with
    | nil => exact key [] eos ht
    | cons a lex => exact key lex a (by rw [← upcoming_one_none lex a lb c e i]; exact ht)
  | some a => exact key lex a (by rw [← upcoming_one_some lex a lb c e i]; exact ht)

/-- The fold of a level over `op1 x1 ... opn xn` followed by one more operator of the
level and a token that cannot begin an operand. -/
theorem binary_loop_items_stop (j : Nat) (hj : j ≤ 9) (m : Nat) (hm : 7 + j ≤ m)
    (o t : luna_token_t) (rest : List luna_token_t) (e : Option String) (i : Int)
    (ho : o.type ∈ level_ops j) (ht : starts_unary t.type = false)
    (items : List (luna_token_t × luna_token_t)) :
    ∀ (k : Nat) (node : luna_node_t) (lb : luna_token_t) (c : Option String),
      items.length < k →
      (∀ it ∈ items, it.1.type ∈ level_ops j ∧ is_operand it.2.type = true) →
      binary_loop (level_ops j) (level_op j) (level_ctx j) (operand_expr j m) k node
          ⟨(luna_scan (op_stream items ++ o :: t :: rest)).2,
            some (luna_scan (op_stream items ++ o :: t :: rest)).1, lb, c, e, i⟩ =
        .ok none ⟨rest, some t, o, some (level_ctx j),
          some (e.getD "missing right-hand expression"), i⟩ := by
  induction items with
  | nil =>
    intro k node lb c hk _
    obtain ⟨k, rfl⟩ : ∃ k', k = k' + 1 := ⟨k - 1, by simp at hk; omega⟩
    simp only [op_stream, List.nil_append, scan_cons]
    rw [binary_loop_stop j hj m hm k node ⟨t :: rest, some o, lb, c, e, i⟩ ho
      (by rw [upcoming_one_some]; exact ht), stop_state]
    cases e <;> rfl
  | cons it its ih =>
    intro k node lb c hk hitems
    obtain ⟨o1, x⟩ := it
    obtain ⟨k, rfl⟩ : ∃ k', k = k' + 1 := ⟨k - 1, by simp at hk; omega⟩
    have ho1 := (hitems (o1, x) (by simp)).1
    have hx := (hitems (o1, x) (by simp)).2
    have hits : ∀ it ∈ its, it.1.type ∈ level_ops j ∧ is_operand it.2.type = true :=
      fun it hit => hitems it (by simp [hit])
    have hhead := head_not_binds j hj its o (t :: rest) (ops_not_binds j hj j (le_refl j) _ ho) hits
    have h := ih k (.binary_op o1.type node (leaf x) false) o1
      (some (level_ctx j)) (by simp at hk; omega) hits
    simp only [op_stream, List.cons_append, scan_cons]
    rw [binary_loop_step _ _ _ _ _ _ _ _ _ _ _ _ ho1, ← operand_expr_peek j (by omega)]
    simp only [peek_none, scan_cons]
    rw [operand_leaf j hj m (by omega) x _ _ _ _ _ hx hhead]
    simp only [Res.bind_ok, level_op_eq j (by omega) _ _ _ _ _ ho1]
    exact h

/-- A level on `x0 op1 x1 ... opn xn o t`: the operator `o` of the level has no right
operand. -/
theorem level_items_stop (j : Nat) (hj : j ≤ 9) (m : Nat) (hm : 7 + j ≤ m)
    (x0 o t : luna_token_t) (rest : List luna_token_t) (lb : luna_token_t)
    (c e : Option String) (i : Int) (items : List (luna_token_t × luna_token_t))
    (hlen : items.length < m) (hx0 : is_operand x0.type = true)
    (ho : o.type ∈ level_ops j) (ht : starts_unary t.type = false)
    (hitems : ∀ it ∈ items, it.1.type ∈ level_ops j ∧ is_operand it.2.type = true) :
    level_expr j (m + 1) ⟨op_stream items ++ o :: t :: rest, some x0, lb, c, e, i⟩ =
      .ok none ⟨rest, some t, o, some (level_ctx j),
        some (e.getD "missing right-hand expression"), i⟩ := by
  have h := binary_loop_items_stop j hj m hm o t rest e i ho ht items m (leaf x0) lb c hlen hitems
  have hl := operand_leaf j hj m (by omega) x0 (op_stream items ++ o :: t :: rest) lb c e i hx0
      (head_not_binds j hj items o (t :: rest) (ops_not_binds j hj j (le_refl j) _ ho) hitems)
  by_cases h9 : j < 9
  · rw [level_expr_succ j h9, hl]
    simp only [Res.bind_ok]
    exact h
  · have : j = 9 := by omega
    subst this
    rw [logical_or_expr_succ, hl]
    simp only [Res.bind_ok]
    rw [h]
    rfl

/-- A failure of one level is handed up by the levels above it. -/
theorem ladder_none (j : Nat) (hj : j ≤ 10) (n : Nat) (s s1 : luna_parser_t)
    (h : operand_expr j n s = .ok none s1) :
    logical_or_expr (n + (10 - j)) s = .ok none s1 := by
  obtain ⟨d, hd⟩ : ∃ d, d = 10 - j := ⟨_, rfl⟩
  rw [← hd]
  induction d generalizing j n with
  | zero =>
    have : j = 10 := by omega
    subst this
    exact h
  | succ d ih =>
    have e1 : n + (d + 1) = (n + 1) + d := by omega
    rw [e1]
    apply ih (j + 1) (by omega) (n + 1) _ (by omega)
    show level_expr j (n + 1) s = _
    by_cases h9 : j < 9
    · rw [level_expr_succ j h9, h]
      rfl
    · have : j = 9 := by omega
      subst this
      rw [logical_or_expr_succ, h]
      rfl

/-- A failure of `logical_or_expr` on a token other than `let` and `not` is handed up by
`expr`. -/
theorem expr_none_of_logical_or (n : Nat) (s s1 : luna_parser_t)
    (h : logical_or_expr n s = .ok none s1)
    (h1 : (peek s).1.type ≠ .LET) (h2 : (peek s).1.type ≠ .OP_LNOT) :
    expr (n + 3) s = .ok none s1 := by
  have h' : logical_or_expr n (peek s).2 = .ok none s1 := by
    have := operand_expr_peek 10 (le_refl _) n s
    exact this.trans h
  rw [expr, not_expr, accept_miss_peek _ _ h2]
  simp only [Bool.false_eq_true, if_false]
  rw [assignment_expr, accept_miss_peek _ _ (by rw [peek_idem]; exact h1)]
  simp only [peek_idem]
  rw [h']
  rfl

/-- A failure of the expression of an expression statement fails the program. -/
theorem program_loop_expr_none (n : Nat) (stmts : List luna_node_t) (s s1 : luna_parser_t)
    (hk : starts_stmt (peek s).1.type = false) (hE : (peek s).1.type ≠ .EOS)
    (h : expr n (context "statement" (peek s).2) = .ok none s1) :
    program_loop (n + 3) stmts s = .ok none s1 := by
  rw [program_loop_stmt _ _ _ hE, stmt_expr_stmt _ _ hk, expr_stmt, h]
  rfl

/-- `luna_parse` on `x0 op1 x1 ... opn xn o t`, the operators being of one level. -/
theorem parse_items_stop (j : Nat) (hj : j ≤ 9) (self0 : luna_parser_t)
    (x0 o t : luna_token_t) (rest : List luna_token_t)
    (items : List (luna_token_t × luna_token_t)) (fuel : Nat)
    (hf : 23 + items.length ≤ fuel) (hx0 : is_operand x0.type = true)
    (ho : o.type ∈ level_ops j) (ht : starts_unary t.type = false)
    (hitems : ∀ it ∈ items, it.1.type ∈ level_ops j ∧ is_operand it.2.type = true) :
    luna_parse fuel (luna_parser_init self0 (x0 :: (op_stream items ++ o :: t :: rest))) =
      .ok none ⟨rest, some t, o, some (level_ctx j),
        some "missing right-hand expression", 0⟩ := by
  obtain ⟨m, rfl⟩ : ∃ m, fuel = m + 1 + (10 - (j + 1)) + 3 + 3 :=
    ⟨fuel - 16 + j, by omega⟩
  obtain ⟨h1, h2, h3, h4⟩ := operand_not_stmt _ hx0
  have hl := level_items_stop j hj m (by omega) x0 o t rest self0.lb (some "statement") none 0
    items (by omega) hx0 ho ht hitems
  have hl2 := ladder_none (j + 1) (by omega) (m + 1) _ _ hl
  have he := expr_none_of_logical_or _ _ _ hl2 h3 h4
  exact program_loop_expr_none _ [] (luna_parser_init self0 _) _ h1 h2 he

/-- The power level after `'**'` when the next token cannot begin a primary expression. -/
theorem pow_stop (n : Nat) (hn : 4 ≤ n) (s s1 : luna_parser_t) (a : luna_node_t)
    (h : call_expr n s = .ok (some a) s1) (hq : (peek s1).1.type = .OP_POW)
    (ht : starts_primary (upcoming s1 1).type = false) :
    pow_expr (n + 1) s =
      .ok none (error "missing right-hand expression"
        (peek (context "** operation" { (peek s1).2 with lb := (peek s1).1, la := none })).2) := by
  obtain ⟨m, rfl⟩ : ∃ m, n = m + 4 := ⟨n - 4, by omega⟩
  rw [pow_expr, h]
  simp only [Res.bind_ok]
  rw [accept_hit_peek _ _ hq]
  simp only [if_true]
  rw [← call_expr_peek]
  obtain ⟨lex, la, lb, c, e, i⟩ := s1
  have key : ∀ (lex : List luna_token_t) (p : luna_token_t),
      starts_primary (luna_scan lex).1.type = false →
      (call_expr (m + 4) (peek (context "** operation" ⟨lex, none, p, c, e, i⟩)).2).bind
        (fun right self =>
          match right with
          | some right => Res.ok (some (luna_node_t.binary_op .OP_POW a right false)) self
          | none => Res.ok none (error "missing right-hand expression" self)) =
      .ok none (error "missing right-hand expression"
        (peek (context "** operation" ⟨lex, none, p, c, e, i⟩)).2) := by
    intro lex p h
    simp only [context, peek_none]
    rw [call_stop m _ _ _ _ _ _ h]
    rfl
  cases la with
  | none =>
    cases lex with
    | nil => exact key [] eos ht
    | cons x lex => exact key lex x (by rw [← upcoming_one_none lex x lb c e i]; exact ht)
  | some x => exact key lex x (by rw [← upcoming_one_some lex x lb c e i]; exact ht)

/-- The levels from `postfix_expr` to `logical_or_expr` hand up a failure of `pow_expr`
on a token that is no prefix operator. -/
theorem ladder_none_of_pow (n : Nat) (s s1 : luna_parser_t)
    (h : pow_expr n s = .ok none s1) (hu : (peek s).1.type ∉ unary_ops) :
    logical_or_expr (n + 12) s = .ok none s1 := by
  have h1 : postfix_expr (n + 1) s = .ok none s1 := by
    rw [postfix_expr, h]
    rfl
  have h2 : operand_expr 0 (n + 2) s = .ok none s1 := by
    show unary_expr (n + 2) s = _
    rw [unary_without_op _ _ hu, h1]
  exact ladder_none 0 (by omega) (n + 2) s s1 h2

/-- `luna_parse` on `a ** t` where `t` cannot begin a primary expression. -/
theorem parse_pow_stop (self0 : luna_parser_t) (a q t : luna_token_t)
    (rest : List luna_token_t) (fuel : Nat) (hf : 24 ≤ fuel)
    (ha : is_operand a.type = true) (hq : q.type = .OP_POW)
    (ht : starts_primary t.type = false) :
    luna_parse fuel (luna_parser_init self0 (a :: q :: t :: rest)) =
      .ok none ⟨rest, some t, q, some "** operation",
        some "missing right-hand expression", 0⟩ := by
  obtain ⟨m, rfl⟩ : ∃ m, fuel = m + 4 + 1 + 12 + 3 + 3 := ⟨fuel - 23, by omega⟩
  obtain ⟨h1, h2, h3, h4⟩ := operand_not_stmt _ ha
  have hc := call_leaf (m + 1) a (q :: t :: rest) self0.lb (some "statement") none 0 ha
    (by simp [scan_cons, hq]) (by simp [scan_cons, hq])
  have hp := pow_stop (m + 4) (by omega) _ _ _ hc hq (by rw [upcoming_one_some]; exact ht)
  rw [stop_state] at hp
  have hl := ladder_none_of_pow _ _ _ hp (operand_not_unary _ ha)
  have he := expr_none_of_logical_or _ _ _ hl h3 h4
  exact program_loop_expr_none _ [] (luna_parser_init self0 _) _ h1 h2 he

/-- A level whose first operator has no right operand. -/
theorem level_stop (j : Nat) (hj : j ≤ 9) (n : Nat) (hn : 7 + j ≤ n) (s s1 : luna_parser_t)
    (l : luna_node_t) (h : operand_expr j n s = .ok (some l) s1)
    (ho : (peek s1).1.type ∈ level_ops j) (ht : starts_unary (upcoming s1 1).type = false) :
    level_expr j (n + 1) s =
      .ok none ⟨(next (next s1).2).2.lex, some (upcoming s1 1), (peek s1).1, some (level_ctx j),
        some (s1.err.getD "missing right-hand expression"), s1.in_args⟩ := by
  obtain ⟨k, rfl⟩ : ∃ k, n = k + 1 := ⟨n - 1, by omega⟩
  have hb := binary_loop_stop j hj (k + 1) hn k l s1 ho ht
  rw [stop_state] at hb
  by_cases h9 : j < 9
  · rw [level_expr_succ j h9, h]
    simp only [Res.bind_ok]
    exact hb
  · have : j = 9 := by omega
    subst this
    rw [logical_or_expr_succ, h]
    simp only [Res.bind_ok]
    rw [hb]
    rfl

/-- `unary_expr` on a prefix operator followed by a token that cannot begin an
expression: the operand slot of the node is left null. -/
theorem unary_no_operand (k : Nat) (p t : luna_token_t) (lex : List luna_token_t)
    (lb : luna_token_t) (c e : Option String) (i : Int)
    (hp : p.type ∈ unary_ops) (ht : starts_expr t.type = false) :
    unary_expr (k + 8) ⟨t :: lex, some p, lb, c, e, i⟩ =
      .ok (some (.unary_op p.type none false)) ⟨lex, some t, p, c, e, i⟩ := by
  have hp2 : p.type ∈ [luna_token.OP_INCR, .OP_DECR, .OP_BIT_NOT, .OP_PLUS, .OP_MINUS,
      .OP_NOT] := hp
  rw [unary_expr, accept_any_hit _ _ _ _ _ _ _ hp2]
  simp only [if_true, prev_type]
  rw [← unary_expr_peek]
  simp only [peek_none, scan_cons]
  rw [unary_fail k _ _ _ _ _ _ ht]
  rfl

theorem unary_ops_facts (t : luna_token) (h : t ∈ unary_ops) :
    starts_stmt t = false ∧ t ≠ .EOS ∧ t ≠ .LET ∧ t ≠ .OP_LNOT := by
  revert t
  decide

/-- `luna_parse` on a prefix operator followed by end-of-stream returns a root block. -/
theorem parse_no_operand (self0 : luna_parser_t) (p t : luna_token_t)
    (rest : List luna_token_t) (fuel : Nat) (hf : 24 ≤ fuel)
    (hp : p.type ∈ unary_ops) (ht : t.type = .EOS) :
    luna_parse fuel (luna_parser_init self0 (p :: t :: rest)) =
      .ok (some (.mk [.unary_op p.type none false]))
        ⟨rest, none, t, some "statement", none, 0⟩ := by
  obtain ⟨k, rfl⟩ : ∃ k, fuel = k + 8 + 13 + 3 := ⟨fuel - 24, by omega⟩
  obtain ⟨h1, h2, h3, h4⟩ := unary_ops_facts _ hp
  have hu := unary_no_operand k p t rest self0.lb (some "statement") none 0 hp
    (by rw [ht]; decide)
  have he := expr_of_unary _ _ _ _ hu h3 h4 (by
    show binds_above t.type = false
    rw [ht]; decide)
  have hl := program_loop_last _ [] (luna_parser_init self0 (p :: t :: rest)) _ _ h1 h2 he ht
  rw [luna_parse, program, hl]
  rfl

theorem assign_ops_facts (t : luna_token) (h : t ∈ assign_ops) :
    follows_call t = false ∧ (∀ j, j ≤ 9 → t ∉ level_ops j) ∧ t ≠ .OP_FORK ∧
      (t = .OP_ASSIGN ∨ t ∈ compound_ops) := by
  revert t
  decide

theorem ends_expr_facts (t : luna_token) (h : ends_expr t = true) :
    follows_call t = false ∧ (∀ j, j ≤ 9 → t ∉ level_ops j) ∧ t ≠ .OP_FORK ∧
      t ≠ .OP_ASSIGN ∧ t ∉ compound_ops := by
  revert t
  decide

/-- `logical_or_expr` on a one-token operand followed by a token that none of the levels
up to the fork consumes. -/
theorem logical_or_leaf (k : Nat) (x : luna_token_t) (lex : List luna_token_t)
    (lb : luna_token_t) (c e : Option String) (i : Int) (hx : is_operand x.type = true)
    (h1 : follows_call (luna_scan lex).1.type = false)
    (h2 : ∀ j, j ≤ 9 → (luna_scan lex).1.type ∉ level_ops j)
    (h3 : (luna_scan lex).1.type ≠ .OP_FORK) :
    logical_or_expr (k + 16) ⟨lex, some x, lb, c, e, i⟩ =
      .ok (some (leaf x)) ⟨(luna_scan lex).2, some (luna_scan lex).1, lb, c, e, i⟩ := by
  have hu := unary_leaf k x lex lb c e i hx h1
  exact ladder_pass 0 (by omega) (k + 6) _ _ _ hu (fun j _ hj => h2 j hj) h3

/-- An assignment operator after the left-hand side: the right-hand side is what
`not_expr` returns. -/
theorem assignment_any (n : Nat) (s s1 s3 : luna_parser_t) (node right : luna_node_t)
    (h1 : logical_or_expr n (accept .LET s).2 = .ok (some node) s1)
    (h2 : (peek s1).1.type ∈ assign_ops)
    (h3 : not_expr n (context (assign_ctx (peek s1).1.type)
      { (peek s1).2 with lb := (peek s1).1, la := none }) = .ok (some right) s3) :
    assignment_expr (n + 1) s =
      .ok (some (.binary_op (peek s1).1.type node right
        (decide ((peek s1).1.type = .OP_ASSIGN) && decide ((peek s).1.type = .LET)))) s3 := by
  obtain ⟨_, _, _, h | h⟩ := assign_ops_facts _ h2
  · rw [assignment_plain n s s1 s3 node right h1 h (by rw [assign_ctx, if_pos h] at h3; exact h3)]
    simp [h]
  · have hne : (peek s1).1.type ≠ .OP_ASSIGN := by
      intro h'
      rw [h'] at h
      exact absurd h (by decide)
    rw [assignment_compound n s s1 s3 node right h1 h
      (by rw [assign_ctx, if_neg hne] at h3; exact h3)]
    simp [hne]

/-- `not_expr` on `x0 o1 x1 ... on xn k`, the `o`s being assignment operators and `k`
ending the expression. -/
theorem not_expr_chain (k : luna_token_t) (rest : List luna_token_t) (e : Option String)
    (i : Int) (hk : ends_expr k.type = true) (items : List (luna_token_t × luna_token_t)) :
    ∀ (fuel : Nat) (x0 lb : luna_token_t) (c : Option String),
      18 + 2 * items.length ≤ fuel → is_operand x0.type = true →
      (∀ it ∈ items, it.1.type ∈ assign_ops ∧ is_operand it.2.type = true) →
      ∃ lb' c', not_expr fuel ⟨op_stream items ++ k :: rest, some x0, lb, c, e, i⟩ =
        .ok (some (right_nested x0 items)) ⟨rest, some k, lb', c', e, i⟩ := by
  induction items with
  | nil =>
    intro fuel x0 lb c hf hx0 _
    refine ⟨lb, c, ?_⟩
    have := expr_leaf (fuel + 1) (by omega) x0 (k :: rest) lb c e i hx0 hk
    rw [expr] at this
    exact this
  | cons it its ih =>
    intro fuel x0 lb c hf hx0 hitems
    obtain ⟨o, x⟩ := it
    obtain ⟨m, rfl⟩ : ∃ m, fuel = m + 16 + 1 + 1 := ⟨fuel - 18, by simp at hf; omega⟩
    have ho := (hitems (o, x) (by simp)).1
    have hx := (hitems (o, x) (by simp)).2
    have hits : ∀ it ∈ its, it.1.type ∈ assign_ops ∧ is_operand it.2.type = true :=
      fun it hit => hitems it (by simp [hit])
    obtain ⟨f1, f2, f3, _⟩ := assign_ops_facts _ ho
    obtain ⟨_, _, g3, g4⟩ := operand_not_stmt _ hx0
    obtain ⟨lb', c', hr⟩ := ih (m + 16) x o (some (assign_ctx o.type))
      (by simp at hf; omega) hx hits
    refine ⟨lb', c', ?_⟩
    have hl := logical_or_leaf m x0 (o :: x :: (op_stream its ++ k :: rest)) lb c e i hx0 f1 f2 f3
    simp only [scan_cons] at hl
    have ha := assignment_any (m + 16) ⟨o :: x :: (op_stream its ++ k :: rest), some x0, lb, c, e, i⟩
      ⟨x :: (op_stream its ++ k :: rest), some o, lb, c, e, i⟩
      ⟨rest, some k, lb', c', e, i⟩ (leaf x0) (right_nested x its)
      (by rw [accept_miss _ _ _ _ _ _ _ g3]; exact hl) ho
      (by
        rw [← not_expr_peek]
        exact hr)
    rw [not_expr, accept_miss _ _ _ _ _ _ _ g4]
    simp only [Bool.false_eq_true, if_false]
    simp only [op_stream, List.cons_append, right_nested]
    rw [ha]
    have hne : x0.type ≠ .LET := g3
    simp [peek_some, hne]

/-- A leading `not` wraps what `not_expr` returns for the tokens after it. -/
theorem not_hit (n : Nat) (s s1 : luna_parser_t) (e : luna_node_t)
    (h : (peek s).1.type = .OP_LNOT)
    (h2 : not_expr n { (peek s).2 with lb := (peek s).1, la := none } = .ok (some e) s1) :
    not_expr (n + 1) s = .ok (some (.unary_op .OP_LNOT (some e) false)) s1 := by
  rw [not_expr, accept_hit_peek _ _ h]
  simp only [if_true, h2, Res.bind_ok]

/-- `expr` on `x0 o1 x1 ... on xn k`. -/
theorem expr_chain (k : luna_token_t) (rest : List luna_token_t) (e : Option String)
    (i : Int) (hk : ends_expr k.type = true) (items : List (luna_token_t × luna_token_t))
    (fuel : Nat) (x0 lb : luna_token_t) (c : Option String)
    (hf : 19 + 2 * items.length ≤ fuel) (hx0 : is_operand x0.type = true)
    (hitems : ∀ it ∈ items, it.1.type ∈ assign_ops ∧ is_operand it.2.type = true) :
    ∃ lb' c', expr fuel ⟨x0 :: (op_stream items ++ k :: rest), none, lb, c, e, i⟩ =
      .ok (some (right_nested x0 items)) ⟨rest, some k, lb', c', e, i⟩ := by
  obtain ⟨m, rfl⟩ : ∃ m, fuel = m + 1 := ⟨fuel - 1, by omega⟩
  obtain ⟨lb', c', h⟩ := not_expr_chain k rest e i hk items m x0 lb c (by omega) hx0 hitems
  refine ⟨lb', c', ?_⟩
  rw [← expr_peek, expr]
  exact h

/-- `expr` on `not x0 o1 x1 ... on xn k`. -/
theorem expr_not_chain (k : luna_token_t) (rest : List luna_token_t) (e : Option String)
    (i : Int) (hk : ends_expr k.type = true) (items : List (luna_token_t × luna_token_t))
    (fuel : Nat) (nt x0 lb : luna_token_t) (c : Option String)
    (hf : 20 + 2 * items.length ≤ fuel) (hn : nt.type = .OP_LNOT)
    (hx0 : is_operand x0.type = true)
    (hitems : ∀ it ∈ items, it.1.type ∈ assign_ops ∧ is_operand it.2.type = true) :
    ∃ lb' c', expr fuel ⟨nt :: x0 :: (op_stream items ++ k :: rest), none, lb, c, e, i⟩ =
      .ok (some (.unary_op .OP_LNOT (some (right_nested x0 items)) false))
        ⟨rest, some k, lb', c', e, i⟩ := by
  obtain ⟨m, rfl⟩ : ∃ m, fuel = m + 1 + 1 := ⟨fuel - 2, by omega⟩
  obtain ⟨lb', c', h⟩ := not_expr_chain k rest e i hk items m x0 nt c (by omega) hx0 hitems
  refine ⟨lb', c', ?_⟩
  rw [expr]
  refine not_hit m _ _ _ (by exact hn) ?_
  rw [← not_expr_peek]
  exact h

/-- `luna_parse` on `x0 o1 x1 ... on xn` followed by end-of-stream. -/
theorem parse_chain (self0 : luna_parser_t) (k : luna_token_t) (rest : List luna_token_t)
    (hk : k.type = .EOS) (items : List (luna_token_t × luna_token_t))
    (fuel : Nat) (x0 : luna_token_t)
    (hf : 22 + 2 * items.length ≤ fuel) (hx0 : is_operand x0.type = true)
    (hitems : ∀ it ∈ items, it.1.type ∈ assign_ops ∧ is_operand it.2.type = true) :
    ∃ c', luna_parse fuel (luna_parser_init self0 (x0 :: (op_stream items ++ k :: rest))) =
      .ok (some (.mk [right_nested x0 items])) ⟨rest, none, k, c', none, 0⟩ := by
  obtain ⟨m, rfl⟩ : ∃ m, fuel = m + 1 + 3 := ⟨fuel - 4, by omega⟩
  obtain ⟨lb', c', h⟩ := not_expr_chain k rest none 0 (by rw [hk]; decide) items m x0 self0.lb
    (some "statement") (by omega) hx0 hitems
  refine ⟨c', ?_⟩
  have he : expr (m + 1) ⟨op_stream items ++ k :: rest, some x0, self0.lb, some "statement",
      none, 0⟩ = .ok (some (right_nested x0 items)) ⟨rest, some k, lb', c', none, 0⟩ := by
    rw [expr]
    exact h
  exact parse_single (m + 1) _ _ _ x0 k self0.lb lb' none c' none none 0 0 he
    (operand_not_special _ hx0) hk

/-- `luna_parse` on `not x0 o1 x1 ... on xn` followed by end-of-stream. -/
theorem parse_not_chain (self0 : luna_parser_t) (k : luna_token_t) (rest : List luna_token_t)
    (hk : k.type = .EOS) (items : List (luna_token_t × luna_token_t))
    (fuel : Nat) (nt x0 : luna_token_t)
    (hf : 23 + 2 * items.length ≤ fuel) (hn : nt.type = .OP_LNOT)
    (hx0 : is_operand x0.type = true)
    (hitems : ∀ it ∈ items, it.1.type ∈ assign_ops ∧ is_operand it.2.type = true) :
    ∃ c', luna_parse fuel
        (luna_parser_init self0 (nt :: x0 :: (op_stream items ++ k :: rest))) =
      .ok (some (.mk [.unary_op .OP_LNOT (some (right_nested x0 items)) false]))
        ⟨rest, none, k, c', none, 0⟩ := by
  obtain ⟨m, rfl⟩ : ∃ m, fuel = m + 1 + 1 + 3 := ⟨fuel - 5, by omega⟩
  obtain ⟨lb', c', h⟩ := not_expr_chain k rest none 0 (by rw [hk]; decide) items m x0 nt
    (some "statement") (by omega) hx0 hitems
  refine ⟨c', ?_⟩
  have he : expr (m + 1 + 1) (context "statement"
      (peek (luna_parser_init self0 (nt :: x0 :: (op_stream items ++ k :: rest)))).2) =
      .ok (some (.unary_op .OP_LNOT (some (right_nested x0 items)) false))
        ⟨rest, some k, lb', c', none, 0⟩ := by
    rw [expr]
    refine not_hit m _ _ _ (by exact hn) ?_
    rw [← not_expr_peek]
    exact h
  have hl := program_loop_last _ [] (luna_parser_init self0 _) _ _
    (by show starts_stmt nt.type = false; rw [hn]; decide)
    (by show nt.type ≠ .EOS; rw [hn]; decide) he hk
  rw [luna_parse, program, hl]
  rfl

/-- `call_expr` on a primary followed by `'.'` and a token that begins no primary
expression: the nested `call_expr` returns null, which is then dereferenced. -/
theorem call_dot_undefined (k : Nat) (x d t : luna_token_t) (lex : List luna_token_t)
    (lb : luna_token_t) (c e : Option String) (i : Int) (hx : is_operand x.type = true)
    (hd : d.type = .OP_DOT) (ht : starts_primary t.type = false) :
    call_expr (k + 5) ⟨d :: t :: lex, some x, lb, c, e, i⟩ = .undefined := by
  have h1 : (luna_scan (d :: t :: lex)).1.type ≠ .LPAREN := by
    rw [scan_cons, hd]; decide
  rw [call_expr, slot_access_expr, primary_leaf _ _ _ _ _ _ _ hx]
  simp only [Res.bind_ok, accept_none_miss _ _ _ _ _ _ h1, Bool.false_eq_true, if_false,
    scan_cons, accept_hit _ _ _ _ _ _ _ hd, if_true]
  rw [← call_expr_peek]
  simp only [peek_none, scan_cons]
  rw [call_stop k _ _ _ _ _ _ ht]
  rfl

/-- Undefined behaviour inside one level is undefined behaviour of the levels above. -/
theorem ladder_undefined (j : Nat) (hj : j ≤ 10) (n : Nat) (s : luna_parser_t)
    (h : operand_expr j n s = .undefined) :
    logical_or_expr (n + (10 - j)) s = .undefined := by
  obtain ⟨d, hd⟩ : ∃ d, d = 10 - j := ⟨_, rfl⟩
  rw [← hd]
  induction d generalizing j n with
  | zero =>
    have : j = 10 := by omega
    subst this
    exact h
  | succ d ih =>
    have e1 : n + (d + 1) = (n + 1) + d := by omega
    rw [e1]
    apply ih (j + 1) (by omega) (n + 1) ?_ (by omega)
    show level_expr j (n + 1) s = _
    by_cases h9 : j < 9
    · rw [level_expr_succ j h9, h]
      rfl
    · have : j = 9 := by omega
      subst this
      rw [logical_or_expr_succ, h]
      rfl

theorem expr_undefined_of_logical_or (n : Nat) (s : luna_parser_t)
    (h : logical_or_expr n s = .undefined)
    (h1 : (peek s).1.type ≠ .LET) (h2 : (peek s).1.type ≠ .OP_LNOT) :
    expr (n + 3) s = .undefined := by
  have h' : logical_or_expr n (peek s).2 = .undefined := by
    have := operand_expr_peek 10 (le_refl _) n s
    exact this.trans h
  rw [expr, not_expr, accept_miss_peek _ _ h2]
  simp only [Bool.false_eq_true, if_false]
  rw [assignment_expr, accept_miss_peek _ _ (by rw [peek_idem]; exact h1)]
  simp only [peek_idem]
  rw [h']
  rfl

theorem program_loop_expr_undefined (n : Nat) (stmts : List luna_node_t) (s : luna_parser_t)
    (hk : starts_stmt (peek s).1.type = false) (hE : (peek s).1.type ≠ .EOS)
    (h : expr n (context "statement" (peek s).2) = .undefined) :
    program_loop (n + 3) stmts s = .undefined := by
  rw [program_loop_stmt _ _ _ hE, stmt_expr_stmt _ _ hk, expr_stmt, h]
  rfl

/-- `luna_parse` on `x . t`, where `t` begins no primary expression, runs into the null
dereference of `call_expr`, whatever the fuel from 24 on. -/
theorem parse_dot_undefined (self0 : luna_parser_t) (x d t : luna_token_t)
    (rest : List luna_token_t) (fuel : Nat) (hf : 24 ≤ fuel)
    (hx : is_operand x.type = true) (hd : d.type = .OP_DOT)
    (ht : starts_primary t.type = false) :
    luna_parse fuel (luna_parser_init self0 (x :: d :: t :: rest)) = .undefined := by
  obtain ⟨m, rfl⟩ : ∃ m, fuel = m + 5 + 1 + 1 + 1 + (10 - 0) + 3 + 3 := ⟨fuel - 24, by omega⟩
  obtain ⟨h1, h2, h3, h4⟩ := operand_not_stmt _ hx
  have hc := call_dot_undefined m x d t rest self0.lb (some "statement") none 0 hx hd ht
  have hp : pow_expr (m + 5 + 1) ⟨d :: t :: rest, some x, self0.lb, some "statement", none, 0⟩ =
      .undefined := by
    rw [pow_expr, hc]; rfl
  have hq : postfix_expr (m + 5 + 1 + 1)
      ⟨d :: t :: rest, some x, self0.lb, some "statement", none, 0⟩ = .undefined := by
    rw [postfix_expr, hp]; rfl
  have hu : operand_expr 0 (m + 5 + 1 + 1 + 1)
      ⟨d :: t :: rest, some x, self0.lb, some "statement", none, 0⟩ = .undefined := by
    show unary_expr _ _ = _
    rw [unary_without_op _ _ (by exact operand_not_unary _ hx), hq]
  have hl := ladder_undefined 0 (by omega) _ _ hu
  have he := expr_undefined_of_logical_or _ _ hl h3 h4
  have := program_loop_expr_undefined _ [] (luna_parser_init self0 (x :: d :: t :: rest)) h1 h2 he
  rw [luna_parse, program]
  exact this


/-! ## Where expression statements can stand -/

set_option linter.unusedTactic false
set_option linter.unreachableTactic false

theorem nodeOk_none : NodeOk none := fun _ h => absurd h (by simp)

theorem nodeOk_some (e : luna_node_t) (h : is_stmt_node e = false) : NodeOk (some e) := by
  intro e' he
  cases he
  exact h

theorem binary_loop_nodes (ops : List luna_token) (op : luna_parser_t → luna_token)
    (ctx : String) (operand : luna_parser_t → Res (Option luna_node_t)) (k : Nat) :
    ∀ (node : luna_node_t) (s : luna_parser_t), is_stmt_node node = false →
      (binary_loop ops op ctx operand k node s).Sat fun v _ => NodeOk v := by
  induction k with
  | zero => intro node s _; trivial
  | succ k ih =>
    intro node s hn
    rw [binary_loop]
    dsimp only
    split
    · refine Sat_bind (Sat_true _) (fun v s1 _ => ?_)
      split
      · exact ih _ _ rfl
      · exact nodeOk_none
    · exact nodeOk_some _ hn

theorem paren_expr_nodes (n : Nat) (ih : ExprNodes n) (s : luna_parser_t) :
    (paren_expr (n + 1) s).Sat fun v _ => NodeOk v := by
  have hlo : ∀ s, (logical_or_expr n s).Sat fun v _ => NodeOk v := ih.level_expr 9
  rw [paren_expr]
  try dsimp only
  repeat' first
    | exact True.intro
    | exact nodeOk_none
    | exact nodeOk_some _ rfl
    | assumption
    | with_reducible refine Sat_bind (ih.paren_expr _) (fun v s1 h1 => ?_)
    | with_reducible refine Sat_bind (ih.array_expr _) (fun v s1 h1 => ?_)
    | with_reducible refine Sat_bind (ih.hash_expr _) (fun v s1 h1 => ?_)
    | with_reducible refine Sat_bind (ih.primary_expr _) (fun v s1 h1 => ?_)
    | with_reducible refine Sat_bind (ih.slot_access_expr _) (fun v s1 h1 => ?_)
    | with_reducible refine Sat_bind (ih.call_expr _) (fun v s1 h1 => ?_)
    | with_reducible refine Sat_bind (ih.pow_expr _) (fun v s1 h1 => ?_)
    | with_reducible refine Sat_bind (ih.postfix_expr _) (fun v s1 h1 => ?_)
    | with_reducible refine Sat_bind (ih.unary_expr _) (fun v s1 h1 => ?_)
    | with_reducible refine Sat_bind (hlo _) (fun v s1 h1 => ?_)
    | with_reducible refine Sat_bind (ih.assignment_expr _) (fun v s1 h1 => ?_)
    | with_reducible refine Sat_bind (ih.not_expr _) (fun v s1 h1 => ?_)
    | with_reducible refine Sat_bind (ih.expr _) (fun v s1 h1 => ?_)
    | with_reducible exact ih.paren_expr _
    | with_reducible exact ih.array_expr _
    | with_reducible exact ih.hash_expr _
    | with_reducible exact ih.primary_expr _
    | with_reducible exact ih.postfix_expr _
    | with_reducible exact ih.assignment_expr _
    | with_reducible exact ih.not_expr _
    | with_reducible refine Sat_bind (Q := fun v _ => NodeOk v) ?_ (fun v s1 h1 => ?_)
    | with_reducible refine Sat_bind (Sat_true _) (fun v s1 _ => ?_)
    | with_reducible apply Sat_ok
    | split

theorem array_expr_nodes (n : Nat) (ih : ExprNodes n) (s : luna_parser_t) :
    (array_expr (n + 1) s).Sat fun v _ => NodeOk v := by
  have hlo : ∀ s, (logical_or_expr n s).Sat fun v _ => NodeOk v := ih.level_expr 9
  rw [array_expr]
  try dsimp only
  repeat' first
    | exact True.intro
    | exact nodeOk_none
    | exact nodeOk_some _ rfl
    | assumption
    | with_reducible refine Sat_bind (ih.paren_expr _) (fun v s1 h1 => ?_)
    | with_reducible refine Sat_bind (ih.array_expr _) (fun v s1 h1 => ?_)
    | with_reducible refine Sat_bind (ih.hash_expr _) (fun v s1 h1 => ?_)
    | with_reducible refine Sat_bind (ih.primary_expr _) (fun v s1 h1 => ?_)
    | with_reducible refine Sat_bind (ih.slot_access_expr _) (fun v s1 h1 => ?_)
    | with_reducible refine Sat_bind (ih.call_expr _) (fun v s1 h1 => ?_)
    | with_reducible refine Sat_bind (ih.pow_expr _) (fun v s1 h1 => ?_)
    | with_reducible refine Sat_bind (ih.postfix_expr _) (fun v s1 h1 => ?_)
    | with_reducible refine Sat_bind (ih.unary_expr _) (fun v s1 h1 => ?_)
    | with_reducible refine Sat_bind (hlo _) (fun v s1 h1 => ?_)
    | with_reducible refine Sat_bind (ih.assignment_expr _) (fun v s1 h1 => ?_)
    | with_reducible refine Sat_bind (ih.not_expr _) (fun v s1 h1 => ?_)
    | with_reducible refine Sat_bind (ih.expr _) (fun v s1 h1 => ?_)
    | with_reducible exact ih.paren_expr _
    | with_reducible exact ih.array_expr _
    | with_reducible exact ih.hash_expr _
    | with_reducible exact ih.primary_expr _
    | with_reducible exact ih.postfix_expr _
    | with_reducible exact ih.assignment_expr _
    | with_reducible exact ih.not_expr _
    | with_reducible refine Sat_bind (Q := fun v _ => NodeOk v) ?_ (fun v s1 h1 => ?_)
    | with_reducible refine Sat_bind (Sat_true _) (fun v s1 _ => ?_)
    | with_reducible apply Sat_ok
    | split

theorem hash_expr_nodes (n : Nat) (ih : ExprNodes n) (s : luna_parser_t) :
    (hash_expr (n + 1) s).Sat fun v _ => NodeOk v := by
  have hlo : ∀ s, (logical_or_expr n s).Sat fun v _ => NodeOk v := ih.level_expr 9
  rw [hash_expr]
  try dsimp only
  repeat' first
    | exact True.intro
    | exact nodeOk_none
    | exact nodeOk_some _ rfl
    | assumption
    | with_reducible refine Sat_bind (ih.paren_expr _) (fun v s1 h1 => ?_)
    | with_reducible refine Sat_bind (ih.array_expr _) (fun v s1 h1 => ?_)
    | with_reducible refine Sat_bind (ih.hash_expr _) (fun v s1 h1 => ?_)
    | with_reducible refine Sat_bind (ih.primary_expr _) (fun v s1 h1 => ?_)
    | with_reducible refine Sat_bind (ih.slot_access_expr _) (fun v s1 h1 => ?_)
    | with_reducible refine Sat_bind (ih.call_expr _) (fun v s1 h1 => ?_)
    | with_reducible refine Sat_bind (ih.pow_expr _) (fun v s1 h1 => ?_)
    | with_reducible refine Sat_bind (ih.postfix_expr _) (fun v s1 h1 => ?_)
    | with_reducible refine Sat_bind (ih.unary_expr _) (fun v s1 h1 => ?_)
    | with_reducible refine Sat_bind (hlo _) (fun v s1 h1 => ?_)
    | with_reducible refine Sat_bind (ih.assignment_expr _) (fun v s1 h1 => ?_)
    | with_reducible refine Sat_bind (ih.not_expr _) (fun v s1 h1 => ?_)
    | with_reducible refine Sat_bind (ih.expr _) (fun v s1 h1 => ?_)
    | with_reducible exact ih.paren_expr _
    | with_reducible exact ih.array_expr _
    | with_reducible exact ih.hash_expr _
    | with_reducible exact ih.primary_expr _
    | with_reducible exact ih.postfix_expr _
    | with_reducible exact ih.assignment_expr _
    | with_reducible exact ih.not_expr _
    | with_reducible refine Sat_bind (Q := fun v _ => NodeOk v) ?_ (fun v s1 h1 => ?_)
    | with_reducible refine Sat_bind (Sat_true _) (fun v s1 _ => ?_)
    | with_reducible apply Sat_ok
    | split

theorem primary_expr_nodes (n : Nat) (ih : ExprNodes n) (s : luna_parser_t) :
    (primary_expr (n + 1) s).Sat fun v _ => NodeOk v := by
  have hlo : ∀ s, (logical_or_expr n s).Sat fun v _ => NodeOk v := ih.level_expr 9
  rw [primary_expr]
  try dsimp only
  repeat' first
    | exact True.intro
    | exact nodeOk_none
    | exact nodeOk_some _ rfl
    | assumption
    | with_reducible refine Sat_bind (ih.paren_expr _) (fun v s1 h1 => ?_)
    | with_reducible refine Sat_bind (ih.array_expr _) (fun v s1 h1 => ?_)
    | with_reducible refine Sat_bind (ih.hash_expr _) (fun v s1 h1 => ?_)
    | with_reducible refine Sat_bind (ih.primary_expr _) (fun v s1 h1 => ?_)
    | with_reducible refine Sat_bind (ih.slot_access_expr _) (fun v s1 h1 => ?_)
    | with_reducible refine Sat_bind (ih.call_expr _) (fun v s1 h1 => ?_)
    | with_reducible refine Sat_bind (ih.pow_expr _) (fun v s1 h1 => ?_)
    | with_reducible refine Sat_bind (ih.postfix_expr _) (fun v s1 h1 => ?_)
    | with_reducible refine Sat_bind (ih.unary_expr _) (fun v s1 h1 => ?_)
    | with_reducible refine Sat_bind (hlo _) (fun v s1 h1 => ?_)
    | with_reducible refine Sat_bind (ih.assignment_expr _) (fun v s1 h1 => ?_)
    | with_reducible refine Sat_bind (ih.not_expr _) (fun v s1 h1 => ?_)
    | with_reducible refine Sat_bind (ih.expr _) (fun v s1 h1 => ?_)
    | with_reducible exact ih.paren_expr _
    | with_reducible exact ih.array_expr _
    | with_reducible exact ih.hash_expr _
    | with_reducible exact ih.primary_expr _
    | with_reducible exact ih.postfix_expr _
    | with_reducible exact ih.assignment_expr _
    | with_reducible exact ih.not_expr _
    | with_reducible refine Sat_bind (Q := fun v _ => NodeOk v) ?_ (fun v s1 h1 => ?_)
    | with_reducible refine Sat_bind (Sat_true _) (fun v s1 _ => ?_)
    | with_reducible apply Sat_ok
    | split

theorem slot_access_expr_nodes (n : Nat) (ih : ExprNodes n) (s : luna_parser_t) :
    (slot_access_expr (n + 1) s).Sat fun v _ => NodeOk v := by
  have hlo : ∀ s, (logical_or_expr n s).Sat fun v _ => NodeOk v := ih.level_expr 9
  rw [slot_access_expr]
  try dsimp only
  repeat' first
    | exact True.intro
    | exact nodeOk_none
    | exact nodeOk_some _ rfl
    | assumption
    | with_reducible refine Sat_bind (ih.paren_expr _) (fun v s1 h1 => ?_)
    | with_reducible refine Sat_bind (ih.array_expr _) (fun v s1 h1 => ?_)
    | with_reducible refine Sat_bind (ih.hash_expr _) (fun v s1 h1 => ?_)
    | with_reducible refine Sat_bind (ih.primary_expr _) (fun v s1 h1 => ?_)
    | with_reducible refine Sat_bind (ih.slot_access_expr _) (fun v s1 h1 => ?_)
    | with_reducible refine Sat_bind (ih.call_expr _) (fun v s1 h1 => ?_)
    | with_reducible refine Sat_bind (ih.pow_expr _) (fun v s1 h1 => ?_)
    | with_reducible refine Sat_bind (ih.postfix_expr _) (fun v s1 h1 => ?_)
    | with_reducible refine Sat_bind (ih.unary_expr _) (fun v s1 h1 => ?_)
    | with_reducible refine Sat_bind (hlo _) (fun v s1 h1 => ?_)
    | with_reducible refine Sat_bind (ih.assignment_expr _) (fun v s1 h1 => ?_)
    | with_reducible refine Sat_bind (ih.not_expr _) (fun v s1 h1 => ?_)
    | with_reducible refine Sat_bind (ih.expr _) (fun v s1 h1 => ?_)
    | with_reducible exact ih.paren_expr _
    | with_reducible exact ih.array_expr _
    | with_reducible exact ih.hash_expr _
    | with_reducible exact ih.primary_expr _
    | with_reducible exact ih.postfix_expr _
    | with_reducible exact ih.assignment_expr _
    | with_reducible exact ih.not_expr _
    | with_reducible refine Sat_bind (Q := fun v _ => NodeOk v) ?_ (fun v s1 h1 => ?_)
    | with_reducible refine Sat_bind (Sat_true _) (fun v s1 _ => ?_)
    | with_reducible apply Sat_ok
    | split

theorem call_expr_nodes (n : Nat) (ih : ExprNodes n) (s : luna_parser_t) :
    (call_expr (n + 1) s).Sat fun v _ => NodeOk v := by
  have hlo : ∀ s, (logical_or_expr n s).Sat fun v _ => NodeOk v := ih.level_expr 9
  rw [call_expr]
  try dsimp only
  repeat' first
    | exact True.intro
    | exact nodeOk_none
    | exact nodeOk_some _ rfl
    | assumption
    | with_reducible refine Sat_bind (ih.paren_expr _) (fun v s1 h1 => ?_)
    | with_reducible refine Sat_bind (ih.array_expr _) (fun v s1 h1 => ?_)
    | with_reducible refine Sat_bind (ih.hash_expr _) (fun v s1 h1 => ?_)
    | with_reducible refine Sat_bind (ih.primary_expr _) (fun v s1 h1 => ?_)
    | with_reducible refine Sat_bind (ih.slot_access_expr _) (fun v s1 h1 => ?_)
    | with_reducible refine Sat_bind (ih.call_expr _) (fun v s1 h1 => ?_)
    | with_reducible refine Sat_bind (ih.pow_expr _) (fun v s1 h1 => ?_)
    | with_reducible refine Sat_bind (ih.postfix_expr _) (fun v s1 h1 => ?_)
    | with_reducible refine Sat_bind (ih.unary_expr _) (fun v s1 h1 => ?_)
    | with_reducible refine Sat_bind (hlo _) (fun v s1 h1 => ?_)
    | with_reducible refine Sat_bind (ih.assignment_expr _) (fun v s1 h1 => ?_)
    | with_reducible refine Sat_bind (ih.not_expr _) (fun v s1 h1 => ?_)
    | with_reducible refine Sat_bind (ih.expr _) (fun v s1 h1 => ?_)
    | with_reducible exact ih.paren_expr _
    | with_reducible exact ih.array_expr _
    | with_reducible exact ih.hash_expr _
    | with_reducible exact ih.primary_expr _
    | with_reducible exact ih.postfix_expr _
    | with_reducible exact ih.assignment_expr _
    | with_reducible exact ih.not_expr _
    | with_reducible refine Sat_bind (Q := fun v _ => NodeOk v) ?_ (fun v s1 h1 => ?_)
    | with_reducible refine Sat_bind (Sat_true _) (fun v s1 _ => ?_)
    | with_reducible apply Sat_ok
    | split

theorem pow_expr_nodes (n : Nat) (ih : ExprNodes n) (s : luna_parser_t) :
    (pow_expr (n + 1) s).Sat fun v _ => NodeOk v := by
  have hlo : ∀ s, (logical_or_expr n s).Sat fun v _ => NodeOk v := ih.level_expr 9
  rw [pow_expr]
  try dsimp only
  repeat' first
    | exact True.intro
    | exact nodeOk_none
    | exact nodeOk_some _ rfl
    | assumption
    | with_reducible refine Sat_bind (ih.paren_expr _) (fun v s1 h1 => ?_)
    | with_reducible refine Sat_bind (ih.array_expr _) (fun v s1 h1 => ?_)
    | with_reducible refine Sat_bind (ih.hash_expr _) (fun v s1 h1 => ?_)
    | with_reducible refine Sat_bind (ih.primary_expr _) (fun v s1 h1 => ?_)
    | with_reducible refine Sat_bind (ih.slot_access_expr _) (fun v s1 h1 => ?_)
    | with_reducible refine Sat_bind (ih.call_expr _) (fun v s1 h1 => ?_)
    | with_reducible refine Sat_bind (ih.pow_expr _) (fun v s1 h1 => ?_)
    | with_reducible refine Sat_bind (ih.postfix_expr _) (fun v s1 h1 => ?_)
    | with_reducible refine Sat_bind (ih.unary_expr _) (fun v s1 h1 => ?_)
    | with_reducible refine Sat_bind (hlo _) (fun v s1 h1 => ?_)
    | with_reducible refine Sat_bind (ih.assignment_expr _) (fun v s1 h1 => ?_)
    | with_reducible refine Sat_bind (ih.not_expr _) (fun v s1 h1 => ?_)
    | with_reducible refine Sat_bind (ih.expr _) (fun v s1 h1 => ?_)
    | with_reducible exact ih.paren_expr _
    | with_reducible exact ih.array_expr _
    | with_reducible exact ih.hash_expr _
    | with_reducible exact ih.primary_expr _
    | with_reducible exact ih.postfix_expr _
    | with_reducible exact ih.assignment_expr _
    | with_reducible exact ih.not_expr _
    | with_reducible refine Sat_bind (Q := fun v _ => NodeOk v) ?_ (fun v s1 h1 => ?_)
    | with_reducible refine Sat_bind (Sat_true _) (fun v s1 _ => ?_)
    | with_reducible apply Sat_ok
    | split

theorem postfix_expr_nodes (n : Nat) (ih : ExprNodes n) (s : luna_parser_t) :
    (postfix_expr (n + 1) s).Sat fun v _ => NodeOk v := by
  have hlo : ∀ s, (logical_or_expr n s).Sat fun v _ => NodeOk v := ih.level_expr 9
  rw [postfix_expr]
  try dsimp only
  repeat' first
    | exact True.intro
    | exact nodeOk_none
    | exact nodeOk_some _ rfl
    | assumption
    | with_reducible refine Sat_bind (ih.paren_expr _) (fun v s1 h1 => ?_)
    | with_reducible refine Sat_bind (ih.array_expr _) (fun v s1 h1 => ?_)
    | with_reducible refine Sat_bind (ih.hash_expr _) (fun v s1 h1 => ?_)
    | with_reducible refine Sat_bind (ih.primary_expr _) (fun v s1 h1 => ?_)
    | with_reducible refine Sat_bind (ih.slot_access_expr _) (fun v s1 h1 => ?_)
    | with_reducible refine Sat_bind (ih.call_expr _) (fun v s1 h1 => ?_)
    | with_reducible refine Sat_bind (ih.pow_expr _) (fun v s1 h1 => ?_)
    | with_reducible refine Sat_bind (ih.postfix_expr _) (fun v s1 h1 => ?_)
    | with_reducible refine Sat_bind (ih.unary_expr _) (fun v s1 h1 => ?_)
    | with_reducible refine Sat_bind (hlo _) (fun v s1 h1 => ?_)
    | with_reducible refine Sat_bind (ih.assignment_expr _) (fun v s1 h1 => ?_)
    | with_reducible refine Sat_bind (ih.not_expr _) (fun v s1 h1 => ?_)
    | with_reducible refine Sat_bind (ih.expr _) (fun v s1 h1 => ?_)
    | with_reducible exact ih.paren_expr _
    | with_reducible exact ih.array_expr _
    | with_reducible exact ih.hash_expr _
    | with_reducible exact ih.primary_expr _
    | with_reducible exact ih.postfix_expr _
    | with_reducible exact ih.assignment_expr _
    | with_reducible exact ih.not_expr _
    | with_reducible refine Sat_bind (Q := fun v _ => NodeOk v) ?_ (fun v s1 h1 => ?_)
    | with_reducible refine Sat_bind (Sat_true _) (fun v s1 _ => ?_)
    | with_reducible apply Sat_ok
    | split

theorem unary_expr_nodes (n : Nat) (ih : ExprNodes n) (s : luna_parser_t) :
    (unary_expr (n + 1) s).Sat fun v _ => NodeOk v := by
  have hlo : ∀ s, (logical_or_expr n s).Sat fun v _ => NodeOk v := ih.level_expr 9
  rw [unary_expr]
  try dsimp only
  repeat' first
    | exact True.intro
    | exact nodeOk_none
    | exact nodeOk_some _ rfl
    | assumption
    | with_reducible refine Sat_bind (ih.paren_expr _) (fun v s1 h1 => ?_)
    | with_reducible refine Sat_bind (ih.array_expr _) (fun v s1 h1 => ?_)
    | with_reducible refine Sat_bind (ih.hash_expr _) (fun v s1 h1 => ?_)
    | with_reducible refine Sat_bind (ih.primary_expr _) (fun v s1 h1 => ?_)
    | with_reducible refine Sat_bind (ih.slot_access_expr _) (fun v s1 h1 => ?_)
    | with_reducible refine Sat_bind (ih.call_expr _) (fun v s1 h1 => ?_)
    | with_reducible refine Sat_bind (ih.pow_expr _) (fun v s1 h1 => ?_)
    | with_reducible refine Sat_bind (ih.postfix_expr _) (fun v s1 h1 => ?_)
    | with_reducible refine Sat_bind (ih.unary_expr _) (fun v s1 h1 => ?_)
    | with_reducible refine Sat_bind (hlo _) (fun v s1 h1 => ?_)
    | with_reducible refine Sat_bind (ih.assignment_expr _) (fun v s1 h1 => ?_)
    | with_reducible refine Sat_bind (ih.not_expr _) (fun v s1 h1 => ?_)
    | with_reducible refine Sat_bind (ih.expr _) (fun v s1 h1 => ?_)
    | with_reducible exact ih.paren_expr _
    | with_reducible exact ih.array_expr _
    | with_reducible exact ih.hash_expr _
    | with_reducible exact ih.primary_expr _
    | with_reducible exact ih.postfix_expr _
    | with_reducible exact ih.assignment_expr _
    | with_reducible exact ih.not_expr _
    | with_reducible refine Sat_bind (Q := fun v _ => NodeOk v) ?_ (fun v s1 h1 => ?_)
    | with_reducible refine Sat_bind (Sat_true _) (fun v s1 _ => ?_)
    | with_reducible apply Sat_ok
    | split

theorem assignment_expr_nodes (n : Nat) (ih : ExprNodes n) (s : luna_parser_t) :
    (assignment_expr (n + 1) s).Sat fun v _ => NodeOk v := by
  have hlo : ∀ s, (logical_or_expr n s).Sat fun v _ => NodeOk v := ih.level_expr 9
  rw [assignment_expr]
  try dsimp only
  repeat' first
    | exact True.intro
    | exact nodeOk_none
    | exact nodeOk_some _ rfl
    | assumption
    | with_reducible refine Sat_bind (ih.paren_expr _) (fun v s1 h1 => ?_)
    | with_reducible refine Sat_bind (ih.array_expr _) (fun v s1 h1 => ?_)
    | with_reducible refine Sat_bind (ih.hash_expr _) (fun v s1 h1 => ?_)
    | with_reducible refine Sat_bind (ih.primary_expr _) (fun v s1 h1 => ?_)
    | with_reducible refine Sat_bind (ih.slot_access_expr _) (fun v s1 h1 => ?_)
    | with_reducible refine Sat_bind (ih.call_expr _) (fun v s1 h1 => ?_)
    | with_reducible refine Sat_bind (ih.pow_expr _) (fun v s1 h1 => ?_)
    | with_reducible refine Sat_bind (ih.postfix_expr _) (fun v s1 h1 => ?_)
    | with_reducible refine Sat_bind (ih.unary_expr _) (fun v s1 h1 => ?_)
    | with_reducible refine Sat_bind (hlo _) (fun v s1 h1 => ?_)
    | with_reducible refine Sat_bind (ih.assignment_expr _) (fun v s1 h1 => ?_)
    | with_reducible refine Sat_bind (ih.not_expr _) (fun v s1 h1 => ?_)
    | with_reducible refine Sat_bind (ih.expr _) (fun v s1 h1 => ?_)
    | with_reducible exact ih.paren_expr _
    | with_reducible exact ih.array_expr _
    | with_reducible exact ih.hash_expr _
    | with_reducible exact ih.primary_expr _
    | with_reducible exact ih.postfix_expr _
    | with_reducible exact ih.assignment_expr _
    | with_reducible exact ih.not_expr _
    | with_reducible refine Sat_bind (Q := fun v _ => NodeOk v) ?_ (fun v s1 h1 => ?_)
    | with_reducible refine Sat_bind (Sat_true _) (fun v s1 _ => ?_)
    | with_reducible apply Sat_ok
    | split

theorem not_expr_nodes (n : Nat) (ih : ExprNodes n) (s : luna_parser_t) :
    (not_expr (n + 1) s).Sat fun v _ => NodeOk v := by
  have hlo : ∀ s, (logical_or_expr n s).Sat fun v _ => NodeOk v := ih.level_expr 9
  rw [not_expr]
  try dsimp only
  repeat' first
    | exact True.intro
    | exact nodeOk_none
    | exact nodeOk_some _ rfl
    | assumption
    | with_reducible refine Sat_bind (ih.paren_expr _) (fun v s1 h1 => ?_)
    | with_reducible refine Sat_bind (ih.array_expr _) (fun v s1 h1 => ?_)
    | with_reducible refine Sat_bind (ih.hash_expr _) (fun v s1 h1 => ?_)
    | with_reducible refine Sat_bind (ih.primary_expr _) (fun v s1 h1 => ?_)
    | with_reducible refine Sat_bind (ih.slot_access_expr _) (fun v s1 h1 => ?_)
    | with_reducible refine Sat_bind (ih.call_expr _) (fun v s1 h1 => ?_)
    | with_reducible refine Sat_bind (ih.pow_expr _) (fun v s1 h1 => ?_)
    | with_reducible refine Sat_bind (ih.postfix_expr _) (fun v s1 h1 => ?_)
    | with_reducible refine Sat_bind (ih.unary_expr _) (fun v s1 h1 => ?_)
    | with_reducible refine Sat_bind (hlo _) (fun v s1 h1 => ?_)
    | with_reducible refine Sat_bind (ih.assignment_expr _) (fun v s1 h1 => ?_)
    | with_reducible refine Sat_bind (ih.not_expr _) (fun v s1 h1 => ?_)
    | with_reducible refine Sat_bind (ih.expr _) (fun v s1 h1 => ?_)
    | with_reducible exact ih.paren_expr _
    | with_reducible exact ih.array_expr _
    | with_reducible exact ih.hash_expr _
    | with_reducible exact ih.primary_expr _
    | with_reducible exact ih.postfix_expr _
    | with_reducible exact ih.assignment_expr _
    | with_reducible exact ih.not_expr _
    | with_reducible refine Sat_bind (Q := fun v _ => NodeOk v) ?_ (fun v s1 h1 => ?_)
    | with_reducible refine Sat_bind (Sat_true _) (fun v s1 _ => ?_)
    | with_reducible apply Sat_ok
    | split

theorem expr_nodes (n : Nat) (ih : ExprNodes n) (s : luna_parser_t) :
    (expr (n + 1) s).Sat fun v _ => NodeOk v := by
  have hlo : ∀ s, (logical_or_expr n s).Sat fun v _ => NodeOk v := ih.level_expr 9
  rw [expr]
  try dsimp only
  repeat' first
    | exact True.intro
    | exact nodeOk_none
    | exact nodeOk_some _ rfl
    | assumption
    | with_reducible refine Sat_bind (ih.paren_expr _) (fun v s1 h1 => ?_)
    | with_reducible refine Sat_bind (ih.array_expr _) (fun v s1 h1 => ?_)
    | with_reducible refine Sat_bind (ih.hash_expr _) (fun v s1 h1 => ?_)
    | with_reducible refine Sat_bind (ih.primary_expr _) (fun v s1 h1 => ?_)
    | with_reducible refine Sat_bind (ih.slot_access_expr _) (fun v s1 h1 => ?_)
    | with_reducible refine Sat_bind (ih.call_expr _) (fun v s1 h1 => ?_)
    | with_reducible refine Sat_bind (ih.pow_expr _) (fun v s1 h1 => ?_)
    | with_reducible refine Sat_bind (ih.postfix_expr _) (fun v s1 h1 => ?_)
    | with_reducible refine Sat_bind (ih.unary_expr _) (fun v s1 h1 => ?_)
    | with_reducible refine Sat_bind (hlo _) (fun v s1 h1 => ?_)
    | with_reducible refine Sat_bind (ih.assignment_expr _) (fun v s1 h1 => ?_)
    | with_reducible refine Sat_bind (ih.not_expr _) (fun v s1 h1 => ?_)
    | with_reducible refine Sat_bind (ih.expr _) (fun v s1 h1 => ?_)
    | with_reducible exact ih.paren_expr _
    | with_reducible exact ih.array_expr _
    | with_reducible exact ih.hash_expr _
    | with_reducible exact ih.primary_expr _
    | with_reducible exact ih.postfix_expr _
    | with_reducible exact ih.assignment_expr _
    | with_reducible exact ih.not_expr _
    | with_reducible refine Sat_bind (Q := fun v _ => NodeOk v) ?_ (fun v s1 h1 => ?_)
    | with_reducible refine Sat_bind (Sat_true _) (fun v s1 _ => ?_)
    | with_reducible apply Sat_ok
    | split


theorem level_expr_nodes (n : Nat) (ih : ExprNodes n) (j : Nat) (s : luna_parser_t) :
    (level_expr j (n + 1) s).Sat fun v _ => NodeOk v := by
  by_cases h9 : j < 9
  · have hop : ∀ s, (operand_expr j n s).Sat fun v _ => NodeOk v := by
      cases j with
      | zero => exact ih.unary_expr
      | succ j => exact ih.level_expr j
    rw [level_expr_succ j h9]
    refine Sat_bind (hop s) (fun v s1 h1 => ?_)
    split
    · exact nodeOk_none
    · exact binary_loop_nodes _ _ _ _ _ _ _ (h1 _ rfl)
  · obtain ⟨k, rfl⟩ : ∃ k, j = k + 9 := ⟨j - 9, by omega⟩
    have hop : ∀ s, (operand_expr 9 n s).Sat fun v _ => NodeOk v := ih.level_expr 8
    rw [level_expr_ge, show logical_or_expr = level_expr 9 from rfl, logical_or_expr_succ]
    refine Sat_bind (hop s) (fun v s1 h1 => ?_)
    split
    · exact nodeOk_none
    · refine Sat_bind (binary_loop_nodes _ _ _ _ _ _ _ (h1 _ rfl)) (fun v s2 h2 => ?_)
      split
      · exact nodeOk_none
      · dsimp only
        split
        · exact nodeOk_some _ rfl
        · exact h2

/-- No expression function returns a statement node, at any fuel. -/
theorem exprNodes_all (n : Nat) : ExprNodes n := by
  induction n with
  | zero =>
    constructor
    case level_expr => intro j s; rw [level_expr_zero]; exact True.intro
    all_goals intros; exact True.intro
  | succ n ih =>
    exact {
      paren_expr := paren_expr_nodes n ih
      array_expr := array_expr_nodes n ih
      hash_expr := hash_expr_nodes n ih
      primary_expr := primary_expr_nodes n ih
      slot_access_expr := slot_access_expr_nodes n ih
      call_expr := call_expr_nodes n ih
      pow_expr := pow_expr_nodes n ih
      postfix_expr := postfix_expr_nodes n ih
      unary_expr := unary_expr_nodes n ih
      level_expr := level_expr_nodes n ih
      assignment_expr := assignment_expr_nodes n ih
      not_expr := not_expr_nodes n ih
      expr := expr_nodes n ih }

theorem stmts_closed_append (a b : List luna_node_t) :
    stmts_closed (a ++ b) = (stmts_closed a && stmts_closed b) := by
  induction a with
  | nil => simp [stmts_closed]
  | cons x xs ih => simp [stmts_closed, ih, Bool.and_assoc]

theorem stmts_closed_snoc (a : List luna_node_t) (e : luna_node_t)
    (ha : stmts_closed a = true) (he : stmt_closed e = true) :
    stmts_closed (a ++ [e]) = true := by
  rw [stmts_closed_append, ha]
  simp [stmts_closed, he]

theorem closedPost_none : ClosedPost none := fun _ h => absurd h (by simp)

theorem closedPost_some (e : luna_node_t) (h : stmt_closed e = true) : ClosedPost (some e) := by
  intro e' he
  cases he
  exact h

theorem blockPost_none : BlockPost none := fun _ h => absurd h (by simp)

theorem blockPost_some (b : luna_block_node_t) (h : block_closed b = true) :
    BlockPost (some b) := by
  intro b' hb
  cases hb
  exact h

theorem stmt_closed_is_stmt (e : luna_node_t) (h : stmt_closed e = true) :
    is_stmt_node e = true := by
  cases e <;> first | rfl | simp [stmt_closed] at h

theorem is_hit_closer (t : luna_token) (ht : t = .RPAREN ∨ t = .EOS) (s : luna_parser_t)
    (h : (is t s).1 = true) : AtCloser (is t s).2 := by
  obtain ⟨lex, hl⟩ := peek_form s
  refine ⟨(peek s).1, ?_, ?_⟩
  · show (peek s).2.la = _
    rw [hl]
  · have h2 : (peek s).1.type = t := by simpa [is] using h
    rw [h2]
    exact ht

/-- `expr_stmt` returns an expression node only with `)` or end-of-stream left in the
lookahead. -/
theorem expr_stmt_post (n : Nat) (s : luna_parser_t) :
    (expr_stmt n s).Sat fun v s' => ∀ e, v = some e → is_stmt_node e = false ∧ AtCloser s' := by
  cases n with
  | zero => exact True.intro
  | succ n =>
    rw [expr_stmt]
    refine Sat_bind ((exprNodes_all n).expr s) (fun v s1 h1 => ?_)
    split
    · exact fun _ h => absurd h (by simp)
    · dsimp only
      split
      · rename_i hr
        intro e he
        cases he
        exact ⟨h1 _ rfl, is_hit_closer _ (Or.inl rfl) _ hr⟩
      · split
        · rename_i hr
          intro e he
          cases he
          exact ⟨h1 _ rfl, is_hit_closer _ (Or.inr rfl) _ hr⟩
        · exact fun _ h => absurd h (by simp)

theorem type_stmt_loop_closed (n : Nat) :
    ∀ (ty : luna_node_t) (s : luna_parser_t), stmt_closed ty = true →
      (type_stmt_loop n ty s).Sat fun v _ => ClosedPost v := by
  induction n with
  | zero => intro ty s _; exact True.intro
  | succ n ih =>
    intro ty s hty
    rw [type_stmt_loop]
    try dsimp only
    repeat' first
      | exact True.intro
      | exact closedPost_none
      | exact closedPost_some _ hty
      | exact ih _ _ hty
      | split

theorem type_stmt_closed (n : Nat) (s : luna_parser_t) :
    (type_stmt n s).Sat fun v _ => ClosedPost v := by
  cases n with
  | zero => exact True.intro
  | succ n =>
    rw [type_stmt]
    try dsimp only
    repeat' first
      | exact True.intro
      | exact closedPost_none
      | exact type_stmt_loop_closed _ _ _ rfl
      | split

theorem return_stmt_closed (n : Nat) (s : luna_parser_t) :
    (return_stmt n s).Sat fun v _ => ClosedPost v := by
  cases n with
  | zero => exact True.intro
  | succ n =>
    rw [return_stmt]
    try dsimp only
    repeat' first
      | exact True.intro
      | exact closedPost_none
      | exact closedPost_some _ rfl
      | with_reducible refine Sat_bind (Sat_true _) (fun v s1 _ => ?_)
      | split

theorem closed_to_stmtPost {r : Res (Option luna_node_t)}
    (h : r.Sat fun v _ => ClosedPost v) : r.Sat StmtPost :=
  Sat_mono h (fun _ _ hv e he => Or.inl (hv e he))

theorem atCloser_form (s : luna_parser_t) (h : AtCloser s) :
    ∃ lex t lb c e i, s = ⟨lex, some t, lb, c, e, i⟩ ∧ (t.type = .RPAREN ∨ t.type = .EOS) := by
  obtain ⟨lex, la, lb, c, e, i⟩ := s
  obtain ⟨t, hla, ht⟩ := h
  simp only at hla
  subst hla
  exact ⟨lex, t, lb, c, e, i, rfl, ht⟩

theorem closer_facts (t : luna_token) (h : t = .RPAREN ∨ t = .EOS) :
    starts_stmt t = false ∧ starts_expr t = false ∧ t ≠ .END := by
  rcases h with rfl | rfl <;> decide

/-- `stmt` on a `)` or an end-of-stream token returns no statement. -/
theorem stmt_at_closer (n : Nat) (s : luna_parser_t) (h : AtCloser s) :
    (stmt n s).Sat fun v _ => v = none := by
  obtain ⟨lex, t, lb, c, e, i, rfl, ht⟩ := atCloser_form s h
  obtain ⟨h1, h2, _⟩ := closer_facts _ ht
  cases n with
  | zero => exact True.intro
  | succ n =>
    rw [stmt_expr_stmt _ _ (by exact h1)]
    cases n with
    | zero => exact True.intro
    | succ n =>
      rw [expr_stmt]
      have hn := expr_noNode n lex t lb (some "statement") e i h2
      simp only [peek_some, context]
      cases hr : expr n ⟨lex, some t, lb, some "statement", e, i⟩ with
      | undefined => exact True.intro
      | fuel => exact True.intro
      | ok v s1 =>
        rw [hr] at hn
        cases v with
        | none => exact rfl
        | some v => exact absurd hn (by simp [NoNode])

theorem block_loop_at_closer (n : Nat) (st : List luna_node_t) (s : luna_parser_t)
    (h : AtCloser s) : (block_loop n st s).Sat fun v _ => v = none := by
  cases n with
  | zero => exact True.intro
  | succ n =>
    rw [block_loop]
    refine Sat_bind (stmt_at_closer n s h) (fun v s1 h1 => ?_)
    subst h1
    exact rfl

theorem accept_end_at_closer (s : luna_parser_t) (h : AtCloser s) :
    accept .END s = (false, s) := by
  obtain ⟨lex, t, lb, c, e, i, rfl, ht⟩ := atCloser_form s h
  exact accept_miss _ _ _ _ _ _ _ (closer_facts _ ht).2.2

theorem while_stmt_closed (n : Nat) (ih : StmtsClosed n) (s : luna_parser_t) :
    (while_stmt (n + 1) s).Sat fun v _ => ClosedPost v := by
  rw [while_stmt]
  try dsimp only
  split
  · refine Sat_bind (Sat_true _) (fun v s1 _ => ?_)
    split
    · exact closedPost_none
    · refine Sat_bind (ih.block _) (fun v s2 h2 => ?_)
      split
      · exact closedPost_none
      · exact closedPost_some _ (by rw [stmt_closed]; exact h2 _ rfl)
  · exact closedPost_none

theorem function_stmt_closed (n : Nat) (ih : StmtsClosed n) (s : luna_parser_t) :
    (function_stmt (n + 1) s).Sat fun v _ => ClosedPost v := by
  rw [function_stmt]
  try dsimp only
  split
  · split
    · refine Sat_bind (Sat_true _) (fun v s1 _ => ?_)
      split
      · exact closedPost_none
      · refine Sat_bind (Sat_true _) (fun v s2 _ => ?_)
        split
        · exact closedPost_none
        · refine Sat_bind (ih.block _) (fun v s3 h3 => ?_)
          split
          · exact closedPost_some _ (by rw [stmt_closed]; exact h3 _ rfl)
          · exact closedPost_none
    · exact closedPost_none
  · exact closedPost_none

theorem if_stmt_loop_closed (n : Nat) (ih : StmtsClosed n) (ng : Bool) (c : luna_node_t)
    (b : luna_block_node_t) (eis : List luna_node_t) (s : luna_parser_t)
    (hb : block_closed b = true) (he : stmts_closed eis = true) :
    (if_stmt_loop (n + 1) ng c b eis s).Sat fun v _ => ClosedPost v := by
  rw [if_stmt_loop]
  try dsimp only
  split
  · split
    · refine Sat_bind (Sat_true _) (fun v s1 _ => ?_)
      split
      · exact closedPost_none
      · refine Sat_bind (ih.block _) (fun v s2 h2 => ?_)
        split
        · exact closedPost_none
        · refine ih.if_stmt_loop _ _ _ _ _ hb (stmts_closed_snoc _ _ he ?_)
          simp [stmt_closed, stmts_closed, else_closed, h2 _ rfl]
    · refine Sat_bind (ih.block _) (fun v s2 h2 => ?_)
      split
      · exact closedPost_none
      · exact closedPost_some _ (by simp [stmt_closed, else_closed, hb, he, h2 _ rfl])
  · exact closedPost_some _ (by simp [stmt_closed, else_closed, hb, he])

theorem if_stmt_closed (n : Nat) (ih : StmtsClosed n) (s : luna_parser_t) :
    (if_stmt (n + 1) s).Sat fun v _ => ClosedPost v := by
  rw [if_stmt]
  try dsimp only
  split
  · refine Sat_bind (Sat_true _) (fun v s1 _ => ?_)
    split
    · exact closedPost_none
    · refine Sat_bind (ih.block _) (fun v s2 h2 => ?_)
      split
      · exact closedPost_none
      · exact ih.if_stmt_loop _ _ _ _ _ (h2 _ rfl) rfl
  · exact closedPost_none

theorem expr_stmt_stmtPost (n : Nat) (s : luna_parser_t) : (expr_stmt n s).Sat StmtPost :=
  Sat_mono (expr_stmt_post n s) (fun _ _ hv e he => Or.inr (hv e he))

theorem stmt_closed_post (n : Nat) (ih : StmtsClosed n) (s : luna_parser_t) :
    (stmt (n + 1) s).Sat StmtPost := by
  rw [stmt]
  try dsimp only
  repeat' first
    | with_reducible exact closed_to_stmtPost (ih.if_stmt _)
    | with_reducible exact closed_to_stmtPost (ih.while_stmt _)
    | with_reducible exact closed_to_stmtPost (return_stmt_closed _ _)
    | with_reducible exact closed_to_stmtPost (ih.function_stmt _)
    | with_reducible exact closed_to_stmtPost (type_stmt_closed _ _)
    | with_reducible exact expr_stmt_stmtPost _ _
    | split

theorem block_loop_closed (n : Nat) (ih : StmtsClosed n) (st : List luna_node_t)
    (s : luna_parser_t) (hst : stmts_closed st = true) :
    (block_loop (n + 1) st s).Sat fun v _ => BlockPost v := by
  rw [block_loop]
  refine Sat_bind (ih.stmt s) (fun v s1 h1 => ?_)
  split
  · exact blockPost_none
  · rename_i node
    rcases h1 node rfl with h | ⟨_, h⟩
    · have hs := stmts_closed_snoc _ _ hst h
      dsimp only
      split
      · exact blockPost_some _ (by rw [block_closed]; exact hs)
      · exact ih.block_loop _ _ hs
    · dsimp only
      rw [accept_end_at_closer _ h]
      simp only [Bool.false_eq_true, if_false]
      exact Sat_mono (block_loop_at_closer _ _ _ h) (fun _ _ hv => by subst hv; exact blockPost_none)

theorem block_closed_post (n : Nat) (ih : StmtsClosed n) (s : luna_parser_t) :
    (block (n + 1) s).Sat fun v _ => BlockPost v := by
  rw [block]
  try dsimp only
  split
  · exact blockPost_some _ rfl
  · exact ih.block_loop _ _ rfl

/-- Every statement function returns statement nodes whose blocks hold no expression
statement, at every fuel. -/
theorem stmtsClosed_all (n : Nat) : StmtsClosed n := by
  induction n with
  | zero => constructor <;> intros <;> exact True.intro
  | succ n ih =>
    exact {
      function_stmt := function_stmt_closed n ih
      if_stmt_loop := if_stmt_loop_closed n ih
      if_stmt := if_stmt_closed n ih
      while_stmt := while_stmt_closed n ih
      stmt := stmt_closed_post n ih
      block_loop := block_loop_closed n ih
      block := block_closed_post n ih }

theorem root_shape_closed (st : List luna_node_t) (h : stmts_closed st = true) :
    root_shape (.mk st) = true := by
  rcases List.eq_nil_or_concat st with rfl | ⟨l, e, rfl⟩
  · rfl
  · rw [List.concat_eq_append, stmts_closed_append] at h
    simp only [Bool.and_eq_true, stmts_closed] at h
    simp [root_shape, h.1, h.2.1]

theorem root_shape_expr_last (st : List luna_node_t) (e : luna_node_t)
    (h : stmts_closed st = true) (he : is_stmt_node e = false) :
    root_shape (.mk (st ++ [e])) = true := by
  simp [root_shape, h, he]

/-- The statement loop of `program` on a `)` or an end-of-stream token: it fails, or the
token is end-of-stream and the block is what was gathered before. -/
theorem program_loop_at_closer (n : Nat) (st : List luna_node_t) (s : luna_parser_t)
    (h : AtCloser s) :
    (program_loop n st s).Sat fun v _ =>
      ∀ b, v = some b → (peek s).1.type = .EOS ∧ b = .mk st := by
  cases n with
  | zero => exact True.intro
  | succ n =>
    by_cases hE : (peek s).1.type = .EOS
    · rw [program_loop_eos _ _ _ hE]
      intro b hb
      cases hb
      exact ⟨hE, rfl⟩
    · rw [program_loop_stmt _ _ _ hE]
      refine Sat_bind (stmt_at_closer n s h) (fun v s1 h1 => ?_)
      subst h1
      exact fun _ hb => absurd hb (by simp)

/-- Every block the statement loop of `program` returns has the root shape, when the
statements gathered before hold no expression statement. -/
theorem program_loop_shape (n : Nat) :
    ∀ (st : List luna_node_t) (s : luna_parser_t), stmts_closed st = true →
      (program_loop n st s).Sat fun v _ => ∀ b, v = some b → root_shape b = true := by
  induction n with
  | zero => intro st s _; exact True.intro
  | succ n ih =>
    intro st s hst
    by_cases hE : (peek s).1.type = .EOS
    · rw [program_loop_eos _ _ _ hE]
      intro b hb
      cases hb
      exact root_shape_closed _ hst
    · rw [program_loop_stmt _ _ _ hE]
      refine Sat_bind ((stmtsClosed_all n).stmt s) (fun v s1 h1 => ?_)
      split
      · rename_i node
        rcases h1 node rfl with h | ⟨h, hc⟩
        · exact ih _ _ (stmts_closed_snoc _ _ hst h)
        · refine Sat_mono (program_loop_at_closer n _ s1 hc) (fun v _ hv b hb => ?_)
          rw [(hv b hb).2]
          exact root_shape_expr_last _ _ hst h
      · exact fun _ hb => absurd hb (by simp)

theorem luna_parse_shape (fuel : Nat) (s : luna_parser_t) (b : luna_block_node_t)
    (s' : luna_parser_t) (h : luna_parse fuel s = .ok (some b) s') : root_shape b = true := by
  have := program_loop_shape fuel [] s rfl
  rw [luna_parse, program] at h
  rw [h] at this
  exact this b rfl

theorem block_shape (n : Nat) (s : luna_parser_t) (b : luna_block_node_t)
    (s' : luna_parser_t) (h : block n s = .ok (some b) s') : block_closed b = true := by
  have := (stmtsClosed_all n).block s
  rw [h] at this
  exact this b rfl

theorem expr_stmt_closer (n : Nat) (s : luna_parser_t) (e : luna_node_t) (s' : luna_parser_t)
    (h : expr_stmt n s = .ok (some e) s') :
    is_stmt_node e = false ∧ ∃ t, s'.la = some t ∧ (t.type = .RPAREN ∨ t.type = .EOS) := by
  have := expr_stmt_post n s
  rw [h] at this
  exact this e rfl

/-- After an expression statement the statement loop of `program` returns a block only at
end-of-stream, and adds nothing to it. -/
theorem program_after_expr_stmt (n m : Nat) (s s1 : luna_parser_t) (e : luna_node_t)
    (acc : List luna_node_t) (b : luna_block_node_t) (s' : luna_parser_t)
    (h : stmt n s = .ok (some e) s1) (he : is_stmt_node e = false)
    (hp : program_loop m acc s1 = .ok (some b) s') :
    (peek s1).1.type = .EOS ∧ b = .mk acc := by
  have hs := (stmtsClosed_all n).stmt s
  rw [h] at hs
  rcases hs e rfl with hc | ⟨_, hc⟩
  · rw [stmt_closed_is_stmt _ hc] at he
    exact absurd he (by simp)
  · have := program_loop_at_closer m acc s1 hc
    rw [hp] at this
    exact this b rfl

/-- After an expression statement the statement loop of `block` returns no block. -/
theorem block_after_expr_stmt (n m : Nat) (s s1 : luna_parser_t) (e : luna_node_t)
    (acc : List luna_node_t) (b : luna_block_node_t) (s' : luna_parser_t)
    (h : stmt n s = .ok (some e) s1) (he : is_stmt_node e = false) :
    block_loop m acc s1 ≠ .ok (some b) s' := by
  intro hp
  have hs := (stmtsClosed_all n).stmt s
  rw [h] at hs
  rcases hs e rfl with hc | ⟨_, hc⟩
  · rw [stmt_closed_is_stmt _ hc] at he
    exact absurd he (by simp)
  · have := block_loop_at_closer m acc s1 hc
    rw [hp] at this
    exact Option.noConfusion (this : some b = none)

/-! ## Termination, progress and no backtracking -/

set_option linter.unusedTactic false
set_option linter.unreachableTactic false
set_option linter.unusedVariables false

theorem remaining_peek (s : luna_parser_t) : remaining (peek s).2 = remaining s := by
  obtain ⟨lex, la, lb, c, e, i⟩ := s
  cases la with
  | some t => rfl
  | none =>
    cases lex with
    | nil => rfl
    | cons a lex => rfl

theorem remaining_next_le (s : luna_parser_t) : remaining (next s).2 ≤ remaining s := by
  obtain ⟨lex, la, lb, c, e, i⟩ := s
  cases la with
  | some t =>
    simp only [next, remaining, pending, List.filter_cons]
    split <;> simp
  | none =>
    cases lex with
    | nil => exact Nat.le_refl _
    | cons a lex =>
      simp only [next, luna_scan, remaining, pending, List.filter_cons]
      split <;> simp

theorem remaining_next_lt (s : luna_parser_t) (h : (peek s).1.type ≠ .EOS) :
    remaining (next s).2 < remaining s := by
  obtain ⟨lex, la, lb, c, e, i⟩ := s
  cases la with
  | some t =>
    have ht : (t.type != luna_token.EOS) = true := by simpa [peek] using h
    simp [next, remaining, pending, List.filter_cons, ht]
  | none =>
    cases lex with
    | nil => exact absurd rfl h
    | cons a lex =>
      have ht : (a.type != luna_token.EOS) = true := by simpa [peek, luna_scan] using h
      simp [next, luna_scan, remaining, pending, List.filter_cons, ht]

theorem remaining_taken (x : luna_parser_t) :
    remaining { (peek x).2 with lb := (peek x).1, la := none } = remaining (next x).2 := by
  obtain ⟨lex, la, lb, c, e, i⟩ := x
  cases la with
  | some a => rfl
  | none => cases lex <;> rfl

theorem remaining_accept (t : luna_token) (s : luna_parser_t) :
    remaining (accept t s).2 =
      if (accept t s).1 = true then remaining (next s).2 else remaining s := by
  by_cases hk : (peek s).1.type = t
  · rw [accept_hit_peek _ _ hk]
    simp only [if_true]
    exact remaining_taken s
  · rw [accept_miss_peek _ _ hk]
    simp only [Bool.false_eq_true, if_false]
    exact remaining_peek s

theorem accept_hit_type (t : luna_token) (s : luna_parser_t) (h : (accept t s).1 = true) :
    (peek s).1.type = t := by
  by_cases hk : (peek s).1.type = t
  · exact hk
  · rw [accept_miss_peek _ _ hk] at h
    exact absurd h (by simp)

theorem noMore_frame : Frame NoMore where
  refl := fun s => Nat.le_refl _
  trans := fun h1 h2 => Nat.le_trans h2 h1
  peek := fun s => Nat.le_of_eq (remaining_peek s)
  next := fun s => remaining_next_le s
  accept := fun t s => by
    show remaining (accept t s).2 ≤ remaining s
    rw [remaining_accept]
    split
    · exact remaining_next_le s
    · exact Nat.le_refl _
  context := fun c s => Nat.le_refl _
  error := fun m s => Nat.le_refl _
  in_args := fun s k => Nat.le_refl _

theorem fewer_accept_hit {s x : luna_parser_t} {t : luna_token}
    (h : (accept t x).1 = true) (ht : t ≠ .EOS) (hx : NoMore s x) :
    Fewer s (accept t x).2 := by
  show remaining (accept t x).2 < remaining s
  rw [remaining_accept, if_pos h]
  have := remaining_next_lt x (by rw [accept_hit_type t x h]; exact ht)
  exact Nat.lt_of_lt_of_le this hx

theorem accept_any_hit_type (ops : List luna_token) (s : luna_parser_t)
    (h : (accept_any ops s).1 = true) : (peek s).1.type ∈ ops := by
  by_cases hk : (peek s).1.type ∈ ops
  · exact hk
  · cases ops with
    | nil => simp [accept_any] at h
    | cons a as =>
      rw [accept_any_miss_peek _ (by simp) _ hk] at h
      exact absurd h (by simp)

theorem fewer_accept_any_hit {s x : luna_parser_t} {ops : List luna_token}
    (h : (accept_any ops x).1 = true) (ht : luna_token.EOS ∉ ops) (hx : NoMore s x) :
    Fewer s (accept_any ops x).2 := by
  have hk := accept_any_hit_type ops x h
  have hne : (peek x).1.type ≠ .EOS := fun he => ht (he ▸ hk)
  show remaining (accept_any ops x).2 < remaining s
  rw [accept_any_hit_peek _ _ hk]
  rw [remaining_taken]
  exact Nat.lt_of_lt_of_le (remaining_next_lt x hne) hx

theorem fewer_next_is {s y : luna_parser_t} {k : luna_token}
    (h : (is k y).1 = true) (hk : k ≠ .EOS) (hy : NoMore s y) :
    Fewer s (next (is k y).2).2 := by
  have h2 : (peek y).1.type = k := by simpa [is] using h
  show remaining (next (peek y).2).2 < remaining s
  rw [next_peek]
  exact Nat.lt_of_lt_of_le (remaining_next_lt y (by rw [h2]; exact hk)) hy

theorem fewer_next_peek {s y : luna_parser_t} {k : luna_token}
    (h : (peek y).1.type = k) (hk : k ≠ .EOS) (hy : NoMore s y) :
    Fewer s (next (peek y).2).2 := by
  show remaining (next (peek y).2).2 < remaining s
  rw [next_peek]
  exact Nat.lt_of_lt_of_le (remaining_next_lt y (by rw [h]; exact hk)) hy

theorem fewer_noMore {s x : luna_parser_t} (h : Fewer s x) : NoMore s x := Nat.le_of_lt h

theorem fewer_step {s a b : luna_parser_t} (h : Fewer s a) (hab : NoMore a b) : Fewer s b :=
  Nat.lt_of_le_of_lt hab h

theorem fewer_peek {s a : luna_parser_t} (h : Fewer s a) : Fewer s (peek a).2 :=
  fewer_step h (noMore_frame.peek a)

theorem fewer_next {s a : luna_parser_t} (h : Fewer s a) : Fewer s (next a).2 :=
  fewer_step h (noMore_frame.next a)

theorem fewer_accept {s a : luna_parser_t} (t : luna_token) (h : Fewer s a) :
    Fewer s (accept t a).2 :=
  fewer_step h (noMore_frame.accept t a)

theorem fewer_is {s a : luna_parser_t} (t : luna_token) (h : Fewer s a) :
    Fewer s (is t a).2 :=
  fewer_step h (noMore_frame.peek a)

theorem fewer_context {s a : luna_parser_t} (c : String) (h : Fewer s a) :
    Fewer s (context c a) := h

theorem fewer_error {s a : luna_parser_t} (m : String) (h : Fewer s a) :
    Fewer s (error m a) := h

theorem fewer_in_args {s a : luna_parser_t} (k : Int) (h : Fewer s a) :
    Fewer s { a with in_args := k } := h

theorem fewer_accept_any {s a : luna_parser_t} (ops : List luna_token) (h : Fewer s a) :
    Fewer s (accept_any ops a).2 :=
  fewer_step h (noMore_frame.to_accept_any ops (noMore_frame.refl a))

theorem prog_le {α : Type} {s s1 : luna_parser_t} {v : Option α} (h : Prog s v s1) :
    NoMore s s1 := h.1

theorem prog_lt {α : Type} {s s1 : luna_parser_t} {e : α} (h : Prog s (some e) s1) :
    Fewer s s1 := h.2 (by simp)

theorem Sat_ok_fewer {α : Type} {s st : luna_parser_t} {v : α} (h : Fewer s st) :
    (Res.ok v st).Sat fun _ s1 => Fewer s s1 := h

theorem Sat_ok_taken {α : Type} {s st : luna_parser_t} {v : Option α} (h : Fewer s st) :
    (Res.ok v st).Sat (Taken s) := fun _ => h

theorem Sat_ok_taken_none {α : Type} {s st : luna_parser_t} :
    (Res.ok (none : Option α) st).Sat (Taken s) := fun h => absurd rfl h

theorem fewer_call {α : Type} (s : luna_parser_t) {c : luna_parser_t} {r : Res α}
    (h : Fewer s c) (hfr : r.Sat fun _ s1 => NoMore c s1) : r.Sat fun _ s1 => Fewer s s1 :=
  Sat_mono hfr (fun _ _ h1 => fewer_step h h1)

theorem prog_call {α : Type} (s : luna_parser_t) {c : luna_parser_t} {r : Res (Option α)}
    (h : NoMore s c) (hfr : r.Sat fun _ s1 => NoMore c s1) (hcs : r.Sat (Taken c)) :
    r.Sat (Prog s) := by
  cases r with
  | ok v s1 => exact ⟨Nat.le_trans hfr h, fun hv => Nat.lt_of_lt_of_le (hcs hv) h⟩
  | undefined => trivial
  | fuel => trivial

theorem noMore_call {α : Type} (s : luna_parser_t) {c : luna_parser_t} {r : Res α}
    (h : NoMore s c) (hfr : r.Sat fun _ s1 => NoMore c s1) : r.Sat fun _ s1 => NoMore s s1 :=
  Sat_mono hfr (fun _ _ h1 => Nat.le_trans h1 h)

theorem taken_call_lt {α : Type} (s : luna_parser_t) {c : luna_parser_t} {r : Res (Option α)}
    (h : Fewer s c) (hfr : r.Sat fun _ s1 => NoMore c s1) : r.Sat (Taken s) :=
  Sat_mono hfr (fun _ _ h1 _ => fewer_step h h1)

theorem taken_call_le {α : Type} (s : luna_parser_t) {c : luna_parser_t} {r : Res (Option α)}
    (h : NoMore s c) (hcs : r.Sat (Taken c)) : r.Sat (Taken s) :=
  Sat_mono hcs (fun _ _ h1 hv => Nat.lt_of_lt_of_le (h1 hv) h)

theorem Sat_undefined {α : Type} {P : α → luna_parser_t → Prop} :
    (Res.undefined : Res α).Sat P := True.intro

theorem primary_expr_taken (n : Nat) (ih : Consumes n) (s : luna_parser_t) :
    (primary_expr (n + 1) s).Sat (Taken s) := by
  have hp : NoMore s (peek s).2 := noMore_frame.peek s
  rw [primary_expr]
  dsimp only
  split
  · rename_i hk
    exact Sat_ok_taken (fewer_next_peek hk (by decide) (noMore_frame.refl s))
  · rename_i hk
    exact Sat_ok_taken (fewer_next_peek hk (by decide) (noMore_frame.refl s))
  · rename_i hk
    exact Sat_ok_taken (fewer_next_peek hk (by decide) (noMore_frame.refl s))
  · rename_i hk
    exact Sat_ok_taken (fewer_next_peek hk (by decide) (noMore_frame.refl s))
  · exact taken_call_le s hp (ih.array_expr _)
  · exact taken_call_le s hp (ih.hash_expr _)
  · exact taken_call_le s hp (ih.paren_expr _)

theorem level_expr_taken (n : Nat) (ih : Consumes n) (j : Nat) (s : luna_parser_t) :
    (level_expr j (n + 1) s).Sat (Taken s) := by
  have fr := framed_all noMore_frame n
  by_cases h9 : j < 9
  · have hop : ∀ s, (operand_expr j n s).Sat (Taken s) := by
      cases j with
      | zero => exact ih.unary_expr
      | succ j => exact ih.level_expr j
    have fop : ∀ s, (operand_expr j n s).Sat fun _ s' => NoMore s s' := by
      cases j with
      | zero => exact fr.unary_expr
      | succ j => exact fr.level_expr j
    rw [level_expr_succ j h9]
    refine Sat_bind (prog_call s (noMore_frame.refl s) (fop s) (hop s)) (fun v s1 h1 => ?_)
    split
    · exact Sat_ok_taken_none
    · exact taken_call_lt s (prog_lt h1) (binary_loop_frame noMore_frame _ _ _ _ fop _ _ _)
  · obtain ⟨k, rfl⟩ : ∃ k, j = k + 9 := ⟨j - 9, by omega⟩
    have hop : ∀ s, (operand_expr 9 n s).Sat (Taken s) := ih.level_expr 8
    have fop : ∀ s, (operand_expr 9 n s).Sat fun _ s' => NoMore s s' := fr.level_expr 8
    rw [level_expr_ge, show logical_or_expr = level_expr 9 from rfl, logical_or_expr_succ]
    refine Sat_bind (prog_call s (noMore_frame.refl s) (fop s) (hop s)) (fun v s1 h1 => ?_)
    split
    · exact Sat_ok_taken_none
    · refine Sat_bind (fewer_call s (prog_lt h1) (binary_loop_frame noMore_frame _ _ _ _ fop _ _ _))
        (fun v s2 h2 => ?_)
      split
      · exact Sat_ok_taken_none
      · dsimp only
        split
        · exact Sat_ok_taken (fewer_accept _ h2)
        · exact Sat_ok_taken (fewer_accept _ h2)

theorem paren_expr_taken (n : Nat) (ih : Consumes n) (s : luna_parser_t) :
    (paren_expr (n + 1) s).Sat (Taken s) := by
  have fr := framed_all noMore_frame n
  have flo : ∀ s, (logical_or_expr n s).Sat fun _ s' => NoMore s s' := fr.level_expr 9
  have clo : ∀ s, (logical_or_expr n s).Sat (Taken s) := ih.level_expr 9
  rw [paren_expr]
  try dsimp only
  repeat' first
    | assumption
    | with_reducible exact Sat_undefined
    | with_reducible exact Sat_ok_taken_none
    | with_reducible exact noMore_frame.refl _
    | with_reducible exact fewer_noMore (by assumption)
    | with_reducible exact prog_le (by assumption)
    | with_reducible exact prog_lt (by assumption)
    | with_reducible refine fewer_accept_hit (by assumption) (by decide) ?_
    | with_reducible refine fewer_accept_any_hit (by assumption) (by decide) ?_
    | with_reducible refine fewer_next_is (by assumption) (by decide) ?_
    | with_reducible apply noMore_frame.to_accept
    | with_reducible apply noMore_frame.to_peek
    | with_reducible apply noMore_frame.to_next
    | with_reducible apply noMore_frame.to_is
    | with_reducible apply noMore_frame.to_accept_any
    | with_reducible apply noMore_frame.to_context
    | with_reducible apply noMore_frame.to_error
    | with_reducible apply fewer_accept
    | with_reducible apply fewer_peek
    | with_reducible apply fewer_next
    | with_reducible apply fewer_is
    | with_reducible apply fewer_accept_any
    | with_reducible apply fewer_context
    | with_reducible apply fewer_error
    | with_reducible apply Sat_ok_taken
    | with_reducible apply Sat_ok_fewer
    | (with_reducible refine Sat_bind (fewer_call s ?_ (fr.expr _)) (fun v s1 h1 => ?_))
    | (with_reducible refine taken_call_lt s ?_ (fr.expr _))
    | with_reducible refine Sat_bind (Q := fun _ s1 => Fewer s s1) ?_ (fun v s1 h1 => ?_)
    | split

theorem array_expr_taken (n : Nat) (ih : Consumes n) (s : luna_parser_t) :
    (array_expr (n + 1) s).Sat (Taken s) := by
  have fr := framed_all noMore_frame n
  have flo : ∀ s, (logical_or_expr n s).Sat fun _ s' => NoMore s s' := fr.level_expr 9
  have clo : ∀ s, (logical_or_expr n s).Sat (Taken s) := ih.level_expr 9
  rw [array_expr]
  try dsimp only
  repeat' first
    | assumption
    | with_reducible exact Sat_undefined
    | with_reducible exact Sat_ok_taken_none
    | with_reducible exact noMore_frame.refl _
    | with_reducible exact fewer_noMore (by assumption)
    | with_reducible exact prog_le (by assumption)
    | with_reducible exact prog_lt (by assumption)
    | with_reducible refine fewer_accept_hit (by assumption) (by decide) ?_
    | with_reducible refine fewer_accept_any_hit (by assumption) (by decide) ?_
    | with_reducible refine fewer_next_is (by assumption) (by decide) ?_
    | with_reducible apply noMore_frame.to_accept
    | with_reducible apply noMore_frame.to_peek
    | with_reducible apply noMore_frame.to_next
    | with_reducible apply noMore_frame.to_is
    | with_reducible apply noMore_frame.to_accept_any
    | with_reducible apply noMore_frame.to_context
    | with_reducible apply noMore_frame.to_error
    | with_reducible apply fewer_accept
    | with_reducible apply fewer_peek
    | with_reducible apply fewer_next
    | with_reducible apply fewer_is
    | with_reducible apply fewer_accept_any
    | with_reducible apply fewer_context
    | with_reducible apply fewer_error
    | with_reducible apply Sat_ok_taken
    | with_reducible apply Sat_ok_fewer
    | (with_reducible refine Sat_bind (fewer_call s ?_ (fr.arg_list _ _ _)) (fun v s1 h1 => ?_))
    | (with_reducible refine taken_call_lt s ?_ (fr.arg_list _ _ _))
    | with_reducible refine Sat_bind (Q := fun _ s1 => Fewer s s1) ?_ (fun v s1 h1 => ?_)
    | split

theorem hash_expr_taken (n : Nat) (ih : Consumes n) (s : luna_parser_t) :
    (hash_expr (n + 1) s).Sat (Taken s) := by
  have fr := framed_all noMore_frame n
  have flo : ∀ s, (logical_or_expr n s).Sat fun _ s' => NoMore s s' := fr.level_expr 9
  have clo : ∀ s, (logical_or_expr n s).Sat (Taken s) := ih.level_expr 9
  rw [hash_expr]
  try dsimp only
  repeat' first
    | assumption
    | with_reducible exact Sat_undefined
    | with_reducible exact Sat_ok_taken_none
    | with_reducible exact noMore_frame.refl _
    | with_reducible exact fewer_noMore (by assumption)
    | with_reducible exact prog_le (by assumption)
    | with_reducible exact prog_lt (by assumption)
    | with_reducible refine fewer_accept_hit (by assumption) (by decide) ?_
    | with_reducible refine fewer_accept_any_hit (by assumption) (by decide) ?_
    | with_reducible refine fewer_next_is (by assumption) (by decide) ?_
    | with_reducible apply noMore_frame.to_accept
    | with_reducible apply noMore_frame.to_peek
    | with_reducible apply noMore_frame.to_next
    | with_reducible apply noMore_frame.to_is
    | with_reducible apply noMore_frame.to_accept_any
    | with_reducible apply noMore_frame.to_context
    | with_reducible apply noMore_frame.to_error
    | with_reducible apply fewer_accept
    | with_reducible apply fewer_peek
    | with_reducible apply fewer_next
    | with_reducible apply fewer_is
    | with_reducible apply fewer_accept_any
    | with_reducible apply fewer_context
    | with_reducible apply fewer_error
    | with_reducible apply Sat_ok_taken
    | with_reducible apply Sat_ok_fewer
    | (with_reducible refine Sat_bind (fewer_call s ?_ (fr.hash_pairs _ _ _)) (fun v s1 h1 => ?_))
    | (with_reducible refine taken_call_lt s ?_ (fr.hash_pairs _ _ _))
    | with_reducible refine Sat_bind (Q := fun _ s1 => Fewer s s1) ?_ (fun v s1 h1 => ?_)
    | split

theorem slot_access_expr_taken (n : Nat) (ih : Consumes n) (s : luna_parser_t) :
    (slot_access_expr (n + 1) s).Sat (Taken s) := by
  have fr := framed_all noMore_frame n
  have flo : ∀ s, (logical_or_expr n s).Sat fun _ s' => NoMore s s' := fr.level_expr 9
  have clo : ∀ s, (logical_or_expr n s).Sat (Taken s) := ih.level_expr 9
  rw [slot_access_expr]
  try dsimp only
  repeat' first
    | assumption
    | with_reducible exact Sat_undefined
    | with_reducible exact Sat_ok_taken_none
    | with_reducible exact noMore_frame.refl _
    | with_reducible exact fewer_noMore (by assumption)
    | with_reducible exact prog_le (by assumption)
    | with_reducible exact prog_lt (by assumption)
    | with_reducible refine fewer_accept_hit (by assumption) (by decide) ?_
    | with_reducible refine fewer_accept_any_hit (by assumption) (by decide) ?_
    | with_reducible refine fewer_next_is (by assumption) (by decide) ?_
    | with_reducible apply noMore_frame.to_accept
    | with_reducible apply noMore_frame.to_peek
    | with_reducible apply noMore_frame.to_next
    | with_reducible apply noMore_frame.to_is
    | with_reducible apply noMore_frame.to_accept_any
    | with_reducible apply noMore_frame.to_context
    | with_reducible apply noMore_frame.to_error
    | with_reducible apply fewer_accept
    | with_reducible apply fewer_peek
    | with_reducible apply fewer_next
    | with_reducible apply fewer_is
    | with_reducible apply fewer_accept_any
    | with_reducible apply fewer_context
    | with_reducible apply fewer_error
    | with_reducible apply Sat_ok_taken
    | with_reducible apply Sat_ok_fewer
    | with_reducible refine Sat_bind (prog_call s ?_ (fr.primary_expr _) (ih.primary_expr _)) (fun v s1 h1 => ?_)
    | with_reducible refine taken_call_le s ?_ (ih.primary_expr _)
    | with_reducible refine Sat_bind (Q := fun _ s1 => Fewer s s1) ?_ (fun v s1 h1 => ?_)
    | split

theorem call_expr_taken (n : Nat) (ih : Consumes n) (s : luna_parser_t) :
    (call_expr (n + 1) s).Sat (Taken s) := by
  have fr := framed_all noMore_frame n
  have flo : ∀ s, (logical_or_expr n s).Sat fun _ s' => NoMore s s' := fr.level_expr 9
  have clo : ∀ s, (logical_or_expr n s).Sat (Taken s) := ih.level_expr 9
  rw [call_expr]
  try dsimp only
  repeat' first
    | assumption
    | with_reducible exact Sat_undefined
    | with_reducible exact Sat_ok_taken_none
    | with_reducible exact noMore_frame.refl _
    | with_reducible exact fewer_noMore (by assumption)
    | with_reducible exact prog_le (by assumption)
    | with_reducible exact prog_lt (by assumption)
    | with_reducible refine fewer_accept_hit (by assumption) (by decide) ?_
    | with_reducible refine fewer_accept_any_hit (by assumption) (by decide) ?_
    | with_reducible refine fewer_next_is (by assumption) (by decide) ?_
    | with_reducible apply noMore_frame.to_accept
    | with_reducible apply noMore_frame.to_peek
    | with_reducible apply noMore_frame.to_next
    | with_reducible apply noMore_frame.to_is
    | with_reducible apply noMore_frame.to_accept_any
    | with_reducible apply noMore_frame.to_context
    | with_reducible apply noMore_frame.to_error
    | with_reducible apply fewer_accept
    | with_reducible apply fewer_peek
    | with_reducible apply fewer_next
    | with_reducible apply fewer_is
    | with_reducible apply fewer_accept_any
    | with_reducible apply fewer_context
    | with_reducible apply fewer_error
    | with_reducible apply Sat_ok_taken
    | with_reducible apply Sat_ok_fewer
    | (with_reducible refine Sat_bind (fewer_call s ?_ (fr.call_args _)) (fun v s1 h1 => ?_))
    | (with_reducible refine taken_call_lt s ?_ (fr.call_args _))
    | (with_reducible refine Sat_bind (fewer_call s ?_ (fr.call_expr _)) (fun v s1 h1 => ?_))
    | (with_reducible refine taken_call_lt s ?_ (fr.call_expr _))
    | with_reducible refine Sat_bind (prog_call s ?_ (fr.slot_access_expr _) (ih.slot_access_expr _)) (fun v s1 h1 => ?_)
    | with_reducible refine taken_call_le s ?_ (ih.slot_access_expr _)
    | with_reducible refine Sat_bind (Q := fun _ s1 => Fewer s s1) ?_ (fun v s1 h1 => ?_)
    | split

theorem pow_expr_taken (n : Nat) (ih : Consumes n) (s : luna_parser_t) :
    (pow_expr (n + 1) s).Sat (Taken s) := by
  have fr := framed_all noMore_frame n
  have flo : ∀ s, (logical_or_expr n s).Sat fun _ s' => NoMore s s' := fr.level_expr 9
  have clo : ∀ s, (logical_or_expr n s).Sat (Taken s) := ih.level_expr 9
  rw [pow_expr]
  try dsimp only
  repeat' first
    | assumption
    | with_reducible exact Sat_undefined
    | with_reducible exact Sat_ok_taken_none
    | with_reducible exact noMore_frame.refl _
    | with_reducible exact fewer_noMore (by assumption)
    | with_reducible exact prog_le (by assumption)
    | with_reducible exact prog_lt (by assumption)
    | with_reducible refine fewer_accept_hit (by assumption) (by decide) ?_
    | with_reducible refine fewer_accept_any_hit (by assumption) (by decide) ?_
    | with_reducible refine fewer_next_is (by assumption) (by decide) ?_
    | with_reducible apply noMore_frame.to_accept
    | with_reducible apply noMore_frame.to_peek
    | with_reducible apply noMore_frame.to_next
    | with_reducible apply noMore_frame.to_is
    | with_reducible apply noMore_frame.to_accept_any
    | with_reducible apply noMore_frame.to_context
    | with_reducible apply noMore_frame.to_error
    | with_reducible apply fewer_accept
    | with_reducible apply fewer_peek
    | with_reducible apply fewer_next
    | with_reducible apply fewer_is
    | with_reducible apply fewer_accept_any
    | with_reducible apply fewer_context
    | with_reducible apply fewer_error
    | with_reducible apply Sat_ok_taken
    | with_reducible apply Sat_ok_fewer
    | (with_reducible refine Sat_bind (fewer_call s ?_ (fr.call_expr _)) (fun v s1 h1 => ?_); focus ((repeat' first | assumption | with_reducible exact noMore_frame.refl _ | with_reducible exact fewer_noMore (by assumption) | with_reducible exact prog_le (by assumption) | with_reducible exact prog_lt (by assumption) | with_reducible refine fewer_accept_hit (by assumption) (by decide) ?_ | with_reducible refine fewer_accept_any_hit (by assumption) (by decide) ?_ | with_reducible refine fewer_next_is (by assumption) (by decide) ?_ | with_reducible apply noMore_frame.to_accept | with_reducible apply noMore_frame.to_peek | with_reducible apply noMore_frame.to_next | with_reducible apply noMore_frame.to_is | with_reducible apply noMore_frame.to_accept_any | with_reducible apply noMore_frame.to_context | with_reducible apply noMore_frame.to_error | with_reducible apply fewer_accept | with_reducible apply fewer_peek | with_reducible apply fewer_next | with_reducible apply fewer_is | with_reducible apply fewer_accept_any | with_reducible apply fewer_context | with_reducible apply fewer_error); done))
    | (with_reducible refine taken_call_lt s ?_ (fr.call_expr _); focus ((repeat' first | assumption | with_reducible exact noMore_frame.refl _ | with_reducible exact fewer_noMore (by assumption) | with_reducible exact prog_le (by assumption) | with_reducible exact prog_lt (by assumption) | with_reducible refine fewer_accept_hit (by assumption) (by decide) ?_ | with_reducible refine fewer_accept_any_hit (by assumption) (by decide) ?_ | with_reducible refine fewer_next_is (by assumption) (by decide) ?_ | with_reducible apply noMore_frame.to_accept | with_reducible apply noMore_frame.to_peek | with_reducible apply noMore_frame.to_next | with_reducible apply noMore_frame.to_is | with_reducible apply noMore_frame.to_accept_any | with_reducible apply noMore_frame.to_context | with_reducible apply noMore_frame.to_error | with_reducible apply fewer_accept | with_reducible apply fewer_peek | with_reducible apply fewer_next | with_reducible apply fewer_is | with_reducible apply fewer_accept_any | with_reducible apply fewer_context | with_reducible apply fewer_error); done))
    | with_reducible refine Sat_bind (prog_call s ?_ (fr.call_expr _) (ih.call_expr _)) (fun v s1 h1 => ?_)
    | with_reducible refine taken_call_le s ?_ (ih.call_expr _)
    | with_reducible refine Sat_bind (Q := fun _ s1 => Fewer s s1) ?_ (fun v s1 h1 => ?_)
    | split

theorem postfix_expr_taken (n : Nat) (ih : Consumes n) (s : luna_parser_t) :
    (postfix_expr (n + 1) s).Sat (Taken s) := by
  have fr := framed_all noMore_frame n
  have flo : ∀ s, (logical_or_expr n s).Sat fun _ s' => NoMore s s' := fr.level_expr 9
  have clo : ∀ s, (logical_or_expr n s).Sat (Taken s) := ih.level_expr 9
  rw [postfix_expr]
  try dsimp only
  repeat' first
    | assumption
    | with_reducible exact Sat_undefined
    | with_reducible exact Sat_ok_taken_none
    | with_reducible exact noMore_frame.refl _
    | with_reducible exact fewer_noMore (by assumption)
    | with_reducible exact prog_le (by assumption)
    | with_reducible exact prog_lt (by assumption)
    | with_reducible refine fewer_accept_hit (by assumption) (by decide) ?_
    | with_reducible refine fewer_accept_any_hit (by assumption) (by decide) ?_
    | with_reducible refine fewer_next_is (by assumption) (by decide) ?_
    | with_reducible apply noMore_frame.to_accept
    | with_reducible apply noMore_frame.to_peek
    | with_reducible apply noMore_frame.to_next
    | with_reducible apply noMore_frame.to_is
    | with_reducible apply noMore_frame.to_accept_any
    | with_reducible apply noMore_frame.to_context
    | with_reducible apply noMore_frame.to_error
    | with_reducible apply fewer_accept
    | with_reducible apply fewer_peek
    | with_reducible apply fewer_next
    | with_reducible apply fewer_is
    | with_reducible apply fewer_accept_any
    | with_reducible apply fewer_context
    | with_reducible apply fewer_error
    | with_reducible apply Sat_ok_taken
    | with_reducible apply Sat_ok_fewer
    | with_reducible refine Sat_bind (prog_call s ?_ (fr.pow_expr _) (ih.pow_expr _)) (fun v s1 h1 => ?_)
    | with_reducible refine taken_call_le s ?_ (ih.pow_expr _)
    | with_reducible refine Sat_bind (Q := fun _ s1 => Fewer s s1) ?_ (fun v s1 h1 => ?_)
    | split

theorem unary_expr_taken (n : Nat) (ih : Consumes n) (s : luna_parser_t) :
    (unary_expr (n + 1) s).Sat (Taken s) := by
  have fr := framed_all noMore_frame n
  have flo : ∀ s, (logical_or_expr n s).Sat fun _ s' => NoMore s s' := fr.level_expr 9
  have clo : ∀ s, (logical_or_expr n s).Sat (Taken s) := ih.level_expr 9
  rw [unary_expr]
  try dsimp only
  repeat' first
    | assumption
    | with_reducible exact Sat_undefined
    | with_reducible exact Sat_ok_taken_none
    | with_reducible exact noMore_frame.refl _
    | with_reducible exact fewer_noMore (by assumption)
    | with_reducible exact prog_le (by assumption)
    | with_reducible exact prog_lt (by assumption)
    | with_reducible refine fewer_accept_hit (by assumption) (by decide) ?_
    | with_reducible refine fewer_accept_any_hit (by assumption) (by decide) ?_
    | with_reducible refine fewer_next_is (by assumption) (by decide) ?_
    | with_reducible apply noMore_frame.to_accept
    | with_reducible apply noMore_frame.to_peek
    | with_reducible apply noMore_frame.to_next
    | with_reducible apply noMore_frame.to_is
    | with_reducible apply noMore_frame.to_accept_any
    | with_reducible apply noMore_frame.to_context
    | with_reducible apply noMore_frame.to_error
    | with_reducible apply fewer_accept
    | with_reducible apply fewer_peek
    | with_reducible apply fewer_next
    | with_reducible apply fewer_is
    | with_reducible apply fewer_accept_any
    | with_reducible apply fewer_context
    | with_reducible apply fewer_error
    | with_reducible apply Sat_ok_taken
    | with_reducible apply Sat_ok_fewer
    | (with_reducible refine Sat_bind (fewer_call s ?_ (fr.unary_expr _)) (fun v s1 h1 => ?_))
    | (with_reducible refine taken_call_lt s ?_ (fr.unary_expr _))
    | with_reducible refine Sat_bind (prog_call s ?_ (fr.postfix_expr _) (ih.postfix_expr _)) (fun v s1 h1 => ?_)
    | with_reducible refine taken_call_le s ?_ (ih.postfix_expr _)
    | with_reducible refine Sat_bind (Q := fun _ s1 => Fewer s s1) ?_ (fun v s1 h1 => ?_)
    | split

theorem assignment_expr_taken (n : Nat) (ih : Consumes n) (s : luna_parser_t) :
    (assignment_expr (n + 1) s).Sat (Taken s) := by
  have fr := framed_all noMore_frame n
  have flo : ∀ s, (logical_or_expr n s).Sat fun _ s' => NoMore s s' := fr.level_expr 9
  have clo : ∀ s, (logical_or_expr n s).Sat (Taken s) := ih.level_expr 9
  rw [assignment_expr]
  try dsimp only
  repeat' first
    | assumption
    | with_reducible exact Sat_undefined
    | with_reducible exact Sat_ok_taken_none
    | with_reducible exact noMore_frame.refl _
    | with_reducible exact fewer_noMore (by assumption)
    | with_reducible exact prog_le (by assumption)
    | with_reducible exact prog_lt (by assumption)
    | with_reducible refine fewer_accept_hit (by assumption) (by decide) ?_
    | with_reducible refine fewer_accept_any_hit (by assumption) (by decide) ?_
    | with_reducible refine fewer_next_is (by assumption) (by decide) ?_
    | with_reducible apply noMore_frame.to_accept
    | with_reducible apply noMore_frame.to_peek
    | with_reducible apply noMore_frame.to_next
    | with_reducible apply noMore_frame.to_is
    | with_reducible apply noMore_frame.to_accept_any
    | with_reducible apply noMore_frame.to_context
    | with_reducible apply noMore_frame.to_error
    | with_reducible apply fewer_accept
    | with_reducible apply fewer_peek
    | with_reducible apply fewer_next
    | with_reducible apply fewer_is
    | with_reducible apply fewer_accept_any
    | with_reducible apply fewer_context
    | with_reducible apply fewer_error
    | with_reducible apply Sat_ok_taken
    | with_reducible apply Sat_ok_fewer
    | (with_reducible refine Sat_bind (fewer_call s ?_ (fr.not_expr _)) (fun v s1 h1 => ?_))
    | (with_reducible refine taken_call_lt s ?_ (fr.not_expr _))
    | with_reducible refine Sat_bind (prog_call s ?_ (flo _) (clo _)) (fun v s1 h1 => ?_)
    | with_reducible refine taken_call_le s ?_ (clo _)
    | with_reducible refine Sat_bind (Q := fun _ s1 => Fewer s s1) ?_ (fun v s1 h1 => ?_)
    | split

theorem not_expr_taken (n : Nat) (ih : Consumes n) (s : luna_parser_t) :
    (not_expr (n + 1) s).Sat (Taken s) := by
  have fr := framed_all noMore_frame n
  have flo : ∀ s, (logical_or_expr n s).Sat fun _ s' => NoMore s s' := fr.level_expr 9
  have clo : ∀ s, (logical_or_expr n s).Sat (Taken s) := ih.level_expr 9
  rw [not_expr]
  try dsimp only
  repeat' first
    | assumption
    | with_reducible exact Sat_undefined
    | with_reducible exact Sat_ok_taken_none
    | with_reducible exact noMore_frame.refl _
    | with_reducible exact fewer_noMore (by assumption)
    | with_reducible exact prog_le (by assumption)
    | with_reducible exact prog_lt (by assumption)
    | with_reducible refine fewer_accept_hit (by assumption) (by decide) ?_
    | with_reducible refine fewer_accept_any_hit (by assumption) (by decide) ?_
    | with_reducible refine fewer_next_is (by assumption) (by decide) ?_
    | with_reducible apply noMore_frame.to_accept
    | with_reducible apply noMore_frame.to_peek
    | with_reducible apply noMore_frame.to_next
    | with_reducible apply noMore_frame.to_is
    | with_reducible apply noMore_frame.to_accept_any
    | with_reducible apply noMore_frame.to_context
    | with_reducible apply noMore_frame.to_error
    | with_reducible apply fewer_accept
    | with_reducible apply fewer_peek
    | with_reducible apply fewer_next
    | with_reducible apply fewer_is
    | with_reducible apply fewer_accept_any
    | with_reducible apply fewer_context
    | with_reducible apply fewer_error
    | with_reducible apply Sat_ok_taken
    | with_reducible apply Sat_ok_fewer
    | (with_reducible refine Sat_bind (fewer_call s ?_ (fr.not_expr _)) (fun v s1 h1 => ?_))
    | (with_reducible refine taken_call_lt s ?_ (fr.not_expr _))
    | with_reducible refine Sat_bind (prog_call s ?_ (fr.assignment_expr _) (ih.assignment_expr _)) (fun v s1 h1 => ?_)
    | with_reducible refine taken_call_le s ?_ (ih.assignment_expr _)
    | with_reducible refine Sat_bind (Q := fun _ s1 => Fewer s s1) ?_ (fun v s1 h1 => ?_)
    | split

theorem expr_taken (n : Nat) (ih : Consumes n) (s : luna_parser_t) :
    (expr (n + 1) s).Sat (Taken s) := by
  have fr := framed_all noMore_frame n
  have flo : ∀ s, (logical_or_expr n s).Sat fun _ s' => NoMore s s' := fr.level_expr 9
  have clo : ∀ s, (logical_or_expr n s).Sat (Taken s) := ih.level_expr 9
  rw [expr]
  try dsimp only
  repeat' first
    | assumption
    | with_reducible exact Sat_undefined
    | with_reducible exact Sat_ok_taken_none
    | with_reducible exact noMore_frame.refl _
    | with_reducible exact fewer_noMore (by assumption)
    | with_reducible exact prog_le (by assumption)
    | with_reducible exact prog_lt (by assumption)
    | with_reducible refine fewer_accept_hit (by assumption) (by decide) ?_
    | with_reducible refine fewer_accept_any_hit (by assumption) (by decide) ?_
    | with_reducible refine fewer_next_is (by assumption) (by decide) ?_
    | with_reducible apply noMore_frame.to_accept
    | with_reducible apply noMore_frame.to_peek
    | with_reducible apply noMore_frame.to_next
    | with_reducible apply noMore_frame.to_is
    | with_reducible apply noMore_frame.to_accept_any
    | with_reducible apply noMore_frame.to_context
    | with_reducible apply noMore_frame.to_error
    | with_reducible apply fewer_accept
    | with_reducible apply fewer_peek
    | with_reducible apply fewer_next
    | with_reducible apply fewer_is
    | with_reducible apply fewer_accept_any
    | with_reducible apply fewer_context
    | with_reducible apply fewer_error
    | with_reducible apply Sat_ok_taken
    | with_reducible apply Sat_ok_fewer
    | with_reducible refine Sat_bind (prog_call s ?_ (fr.not_expr _) (ih.not_expr _)) (fun v s1 h1 => ?_)
    | with_reducible refine taken_call_le s ?_ (ih.not_expr _)
    | with_reducible refine Sat_bind (Q := fun _ s1 => Fewer s s1) ?_ (fun v s1 h1 => ?_)
    | split

theorem expr_stmt_taken (n : Nat) (ih : Consumes n) (s : luna_parser_t) :
    (expr_stmt (n + 1) s).Sat (Taken s) := by
  have fr := framed_all noMore_frame n
  have flo : ∀ s, (logical_or_expr n s).Sat fun _ s' => NoMore s s' := fr.level_expr 9
  have clo : ∀ s, (logical_or_expr n s).Sat (Taken s) := ih.level_expr 9
  rw [expr_stmt]
  try dsimp only
  repeat' first
    | assumption
    | with_reducible exact Sat_undefined
    | with_reducible exact Sat_ok_taken_none
    | with_reducible exact noMore_frame.refl _
    | with_reducible exact fewer_noMore (by assumption)
    | with_reducible exact prog_le (by assumption)
    | with_reducible exact prog_lt (by assumption)
    | with_reducible refine fewer_accept_hit (by assumption) (by decide) ?_
    | with_reducible refine fewer_accept_any_hit (by assumption) (by decide) ?_
    | with_reducible refine fewer_next_is (by assumption) (by decide) ?_
    | with_reducible apply noMore_frame.to_accept
    | with_reducible apply noMore_frame.to_peek
    | with_reducible apply noMore_frame.to_next
    | with_reducible apply noMore_frame.to_is
    | with_reducible apply noMore_frame.to_accept_any
    | with_reducible apply noMore_frame.to_context
    | with_reducible apply noMore_frame.to_error
    | with_reducible apply fewer_accept
    | with_reducible apply fewer_peek
    | with_reducible apply fewer_next
    | with_reducible apply fewer_is
    | with_reducible apply fewer_accept_any
    | with_reducible apply fewer_context
    | with_reducible apply fewer_error
    | with_reducible apply Sat_ok_taken
    | with_reducible apply Sat_ok_fewer
    | with_reducible refine Sat_bind (prog_call s ?_ (fr.expr _) (ih.expr _)) (fun v s1 h1 => ?_)
    | with_reducible refine taken_call_le s ?_ (ih.expr _)
    | with_reducible refine Sat_bind (Q := fun _ s1 => Fewer s s1) ?_ (fun v s1 h1 => ?_)
    | split

theorem type_stmt_taken (n : Nat) (ih : Consumes n) (s : luna_parser_t) :
    (type_stmt (n + 1) s).Sat (Taken s) := by
  have fr := framed_all noMore_frame n
  have flo : ∀ s, (logical_or_expr n s).Sat fun _ s' => NoMore s s' := fr.level_expr 9
  have clo : ∀ s, (logical_or_expr n s).Sat (Taken s) := ih.level_expr 9
  rw [type_stmt]
  try dsimp only
  repeat' first
    | assumption
    | with_reducible exact Sat_undefined
    | with_reducible exact Sat_ok_taken_none
    | with_reducible exact noMore_frame.refl _
    | with_reducible exact fewer_noMore (by assumption)
    | with_reducible exact prog_le (by assumption)
    | with_reducible exact prog_lt (by assumption)
    | with_reducible refine fewer_accept_hit (by assumption) (by decide) ?_
    | with_reducible refine fewer_accept_any_hit (by assumption) (by decide) ?_
    | with_reducible refine fewer_next_is (by assumption) (by decide) ?_
    | with_reducible apply noMore_frame.to_accept
    | with_reducible apply noMore_frame.to_peek
    | with_reducible apply noMore_frame.to_next
    | with_reducible apply noMore_frame.to_is
    | with_reducible apply noMore_frame.to_accept_any
    | with_reducible apply noMore_frame.to_context
    | with_reducible apply noMore_frame.to_error
    | with_reducible apply fewer_accept
    | with_reducible apply fewer_peek
    | with_reducible apply fewer_next
    | with_reducible apply fewer_is
    | with_reducible apply fewer_accept_any
    | with_reducible apply fewer_context
    | with_reducible apply fewer_error
    | with_reducible apply Sat_ok_taken
    | with_reducible apply Sat_ok_fewer
    | (with_reducible refine Sat_bind (fewer_call s ?_ (fr.type_stmt_loop _ _)) (fun v s1 h1 => ?_))
    | (with_reducible refine taken_call_lt s ?_ (fr.type_stmt_loop _ _))
    | with_reducible refine Sat_bind (Q := fun _ s1 => Fewer s s1) ?_ (fun v s1 h1 => ?_)
    | split

theorem function_stmt_taken (n : Nat) (ih : Consumes n) (s : luna_parser_t) :
    (function_stmt (n + 1) s).Sat (Taken s) := by
  have fr := framed_all noMore_frame n
  have flo : ∀ s, (logical_or_expr n s).Sat fun _ s' => NoMore s s' := fr.level_expr 9
  have clo : ∀ s, (logical_or_expr n s).Sat (Taken s) := ih.level_expr 9
  rw [function_stmt]
  try dsimp only
  repeat' first
    | assumption
    | with_reducible exact Sat_undefined
    | with_reducible exact Sat_ok_taken_none
    | with_reducible exact noMore_frame.refl _
    | with_reducible exact fewer_noMore (by assumption)
    | with_reducible exact prog_le (by assumption)
    | with_reducible exact prog_lt (by assumption)
    | with_reducible refine fewer_accept_hit (by assumption) (by decide) ?_
    | with_reducible refine fewer_accept_any_hit (by assumption) (by decide) ?_
    | with_reducible refine fewer_next_is (by assumption) (by decide) ?_
    | with_reducible apply noMore_frame.to_accept
    | with_reducible apply noMore_frame.to_peek
    | with_reducible apply noMore_frame.to_next
    | with_reducible apply noMore_frame.to_is
    | with_reducible apply noMore_frame.to_accept_any
    | with_reducible apply noMore_frame.to_context
    | with_reducible apply noMore_frame.to_error
    | with_reducible apply fewer_accept
    | with_reducible apply fewer_peek
    | with_reducible apply fewer_next
    | with_reducible apply fewer_is
    | with_reducible apply fewer_accept_any
    | with_reducible apply fewer_context
    | with_reducible apply fewer_error
    | with_reducible apply Sat_ok_taken
    | with_reducible apply Sat_ok_fewer
    | (with_reducible refine Sat_bind (fewer_call s ?_ (fr.function_params _)) (fun v s1 h1 => ?_))
    | (with_reducible refine taken_call_lt s ?_ (fr.function_params _))
    | (with_reducible refine Sat_bind (fewer_call s ?_ (fr.block _)) (fun v s1 h1 => ?_))
    | (with_reducible refine taken_call_lt s ?_ (fr.block _))
    | with_reducible refine Sat_bind (Q := fun _ s1 => Fewer s s1) ?_ (fun v s1 h1 => ?_)
    | split

theorem if_stmt_taken (n : Nat) (ih : Consumes n) (s : luna_parser_t) :
    (if_stmt (n + 1) s).Sat (Taken s) := by
  have fr := framed_all noMore_frame n
  have flo : ∀ s, (logical_or_expr n s).Sat fun _ s' => NoMore s s' := fr.level_expr 9
  have clo : ∀ s, (logical_or_expr n s).Sat (Taken s) := ih.level_expr 9
  rw [if_stmt]
  try dsimp only
  repeat' first
    | assumption
    | with_reducible exact Sat_undefined
    | with_reducible exact Sat_ok_taken_none
    | with_reducible exact noMore_frame.refl _
    | with_reducible exact fewer_noMore (by assumption)
    | with_reducible exact prog_le (by assumption)
    | with_reducible exact prog_lt (by assumption)
    | with_reducible refine fewer_accept_hit (by assumption) (by decide) ?_
    | with_reducible refine fewer_accept_any_hit (by assumption) (by decide) ?_
    | with_reducible refine fewer_next_is (by assumption) (by decide) ?_
    | with_reducible apply noMore_frame.to_accept
    | with_reducible apply noMore_frame.to_peek
    | with_reducible apply noMore_frame.to_next
    | with_reducible apply noMore_frame.to_is
    | with_reducible apply noMore_frame.to_accept_any
    | with_reducible apply noMore_frame.to_context
    | with_reducible apply noMore_frame.to_error
    | with_reducible apply fewer_accept
    | with_reducible apply fewer_peek
    | with_reducible apply fewer_next
    | with_reducible apply fewer_is
    | with_reducible apply fewer_accept_any
    | with_reducible apply fewer_context
    | with_reducible apply fewer_error
    | with_reducible apply Sat_ok_taken
    | with_reducible apply Sat_ok_fewer
    | (with_reducible refine Sat_bind (fewer_call s ?_ (fr.expr _)) (fun v s1 h1 => ?_))
    | (with_reducible refine taken_call_lt s ?_ (fr.expr _))
    | (with_reducible refine Sat_bind (fewer_call s ?_ (fr.block _)) (fun v s1 h1 => ?_))
    | (with_reducible refine taken_call_lt s ?_ (fr.block _))
    | (with_reducible refine Sat_bind (fewer_call s ?_ (fr.if_stmt_loop _ _ _ _ _)) (fun v s1 h1 => ?_))
    | (with_reducible refine taken_call_lt s ?_ (fr.if_stmt_loop _ _ _ _ _))
    | with_reducible refine Sat_bind (Q := fun _ s1 => Fewer s s1) ?_ (fun v s1 h1 => ?_)
    | split

theorem while_stmt_taken (n : Nat) (ih : Consumes n) (s : luna_parser_t) :
    (while_stmt (n + 1) s).Sat (Taken s) := by
  have fr := framed_all noMore_frame n
  have flo : ∀ s, (logical_or_expr n s).Sat fun _ s' => NoMore s s' := fr.level_expr 9
  have clo : ∀ s, (logical_or_expr n s).Sat (Taken s) := ih.level_expr 9
  rw [while_stmt]
  try dsimp only
  repeat' first
    | assumption
    | with_reducible exact Sat_undefined
    | with_reducible exact Sat_ok_taken_none
    | with_reducible exact noMore_frame.refl _
    | with_reducible exact fewer_noMore (by assumption)
    | with_reducible exact prog_le (by assumption)
    | with_reducible exact prog_lt (by assumption)
    | with_reducible refine fewer_accept_hit (by assumption) (by decide) ?_
    | with_reducible refine fewer_accept_any_hit (by assumption) (by decide) ?_
    | with_reducible refine fewer_next_is (by assumption) (by decide) ?_
    | with_reducible apply noMore_frame.to_accept
    | with_reducible apply noMore_frame.to_peek
    | with_reducible apply noMore_frame.to_next
    | with_reducible apply noMore_frame.to_is
    | with_reducible apply noMore_frame.to_accept_any
    | with_reducible apply noMore_frame.to_context
    | with_reducible apply noMore_frame.to_error
    | with_reducible apply fewer_accept
    | with_reducible apply fewer_peek
    | with_reducible apply fewer_next
    | with_reducible apply fewer_is
    | with_reducible apply fewer_accept_any
    | with_reducible apply fewer_context
    | with_reducible apply fewer_error
    | with_reducible apply Sat_ok_taken
    | with_reducible apply Sat_ok_fewer
    | (with_reducible refine Sat_bind (fewer_call s ?_ (fr.expr _)) (fun v s1 h1 => ?_))
    | (with_reducible refine taken_call_lt s ?_ (fr.expr _))
    | (with_reducible refine Sat_bind (fewer_call s ?_ (fr.block _)) (fun v s1 h1 => ?_))
    | (with_reducible refine taken_call_lt s ?_ (fr.block _))
    | with_reducible refine Sat_bind (Q := fun _ s1 => Fewer s s1) ?_ (fun v s1 h1 => ?_)
    | split

theorem return_stmt_taken (n : Nat) (ih : Consumes n) (s : luna_parser_t) :
    (return_stmt (n + 1) s).Sat (Taken s) := by
  have fr := framed_all noMore_frame n
  have flo : ∀ s, (logical_or_expr n s).Sat fun _ s' => NoMore s s' := fr.level_expr 9
  have clo : ∀ s, (logical_or_expr n s).Sat (Taken s) := ih.level_expr 9
  rw [return_stmt]
  try dsimp only
  repeat' first
    | assumption
    | with_reducible exact Sat_undefined
    | with_reducible exact Sat_ok_taken_none
    | with_reducible exact noMore_frame.refl _
    | with_reducible exact fewer_noMore (by assumption)
    | with_reducible exact prog_le (by assumption)
    | with_reducible exact prog_lt (by assumption)
    | with_reducible refine fewer_accept_hit (by assumption) (by decide) ?_
    | with_reducible refine fewer_accept_any_hit (by assumption) (by decide) ?_
    | with_reducible refine fewer_next_is (by assumption) (by decide) ?_
    | with_reducible apply noMore_frame.to_accept
    | with_reducible apply noMore_frame.to_peek
    | with_reducible apply noMore_frame.to_next
    | with_reducible apply noMore_frame.to_is
    | with_reducible apply noMore_frame.to_accept_any
    | with_reducible apply noMore_frame.to_context
    | with_reducible apply noMore_frame.to_error
    | with_reducible apply fewer_accept
    | with_reducible apply fewer_peek
    | with_reducible apply fewer_next
    | with_reducible apply fewer_is
    | with_reducible apply fewer_accept_any
    | with_reducible apply fewer_context
    | with_reducible apply fewer_error
    | with_reducible apply Sat_ok_taken
    | with_reducible apply Sat_ok_fewer
    | (with_reducible refine Sat_bind (fewer_call s ?_ (fr.expr _)) (fun v s1 h1 => ?_))
    | (with_reducible refine taken_call_lt s ?_ (fr.expr _))
    | with_reducible refine Sat_bind (Q := fun _ s1 => Fewer s s1) ?_ (fun v s1 h1 => ?_)
    | split

theorem stmt_taken (n : Nat) (ih : Consumes n) (s : luna_parser_t) :
    (stmt (n + 1) s).Sat (Taken s) := by
  have fr := framed_all noMore_frame n
  have flo : ∀ s, (logical_or_expr n s).Sat fun _ s' => NoMore s s' := fr.level_expr 9
  have clo : ∀ s, (logical_or_expr n s).Sat (Taken s) := ih.level_expr 9
  rw [stmt]
  try dsimp only
  repeat' first
    | assumption
    | with_reducible exact Sat_undefined
    | with_reducible exact Sat_ok_taken_none
    | with_reducible exact noMore_frame.refl _
    | with_reducible exact fewer_noMore (by assumption)
    | with_reducible exact prog_le (by assumption)
    | with_reducible exact prog_lt (by assumption)
    | with_reducible refine fewer_accept_hit (by assumption) (by decide) ?_
    | with_reducible refine fewer_accept_any_hit (by assumption) (by decide) ?_
    | with_reducible refine fewer_next_is (by assumption) (by decide) ?_
    | with_reducible apply noMore_frame.to_accept
    | with_reducible apply noMore_frame.to_peek
    | with_reducible apply noMore_frame.to_next
    | with_reducible apply noMore_frame.to_is
    | with_reducible apply noMore_frame.to_accept_any
    | with_reducible apply noMore_frame.to_context
    | with_reducible apply noMore_frame.to_error
    | with_reducible apply fewer_accept
    | with_reducible apply fewer_peek
    | with_reducible apply fewer_next
    | with_reducible apply fewer_is
    | with_reducible apply fewer_accept_any
    | with_reducible apply fewer_context
    | with_reducible apply fewer_error
    | with_reducible apply Sat_ok_taken
    | with_reducible apply Sat_ok_fewer
    | with_reducible refine Sat_bind (prog_call s ?_ (fr.if_stmt _) (ih.if_stmt _)) (fun v s1 h1 => ?_)
    | with_reducible refine taken_call_le s ?_ (ih.if_stmt _)
    | with_reducible refine Sat_bind (prog_call s ?_ (fr.while_stmt _) (ih.while_stmt _)) (fun v s1 h1 => ?_)
    | with_reducible refine taken_call_le s ?_ (ih.while_stmt _)
    | with_reducible refine Sat_bind (prog_call s ?_ (fr.return_stmt _) (ih.return_stmt _)) (fun v s1 h1 => ?_)
    | with_reducible refine taken_call_le s ?_ (ih.return_stmt _)
    | with_reducible refine Sat_bind (prog_call s ?_ (fr.function_stmt _) (ih.function_stmt _)) (fun v s1 h1 => ?_)
    | with_reducible refine taken_call_le s ?_ (ih.function_stmt _)
    | with_reducible refine Sat_bind (prog_call s ?_ (fr.type_stmt _) (ih.type_stmt _)) (fun v s1 h1 => ?_)
    | with_reducible refine taken_call_le s ?_ (ih.type_stmt _)
    | with_reducible refine Sat_bind (prog_call s ?_ (fr.expr_stmt _) (ih.expr_stmt _)) (fun v s1 h1 => ?_)
    | with_reducible refine taken_call_le s ?_ (ih.expr_stmt _)
    | with_reducible refine Sat_bind (Q := fun _ s1 => Fewer s s1) ?_ (fun v s1 h1 => ?_)
    | split

/-- Every function that returns a node or a statement consumes at least one token when
it returns one, at every fuel. -/
theorem consumes_all (n : Nat) : Consumes n := by
  induction n with
  | zero =>
    constructor
    case level_expr => intro j s; rw [level_expr_zero]; exact True.intro
    all_goals intros; exact True.intro
  | succ n ih =>
    exact {
      paren_expr := paren_expr_taken n ih
      array_expr := array_expr_taken n ih
      hash_expr := hash_expr_taken n ih
      primary_expr := primary_expr_taken n ih
      slot_access_expr := slot_access_expr_taken n ih
      call_expr := call_expr_taken n ih
      pow_expr := pow_expr_taken n ih
      postfix_expr := postfix_expr_taken n ih
      unary_expr := unary_expr_taken n ih
      level_expr := level_expr_taken n ih
      assignment_expr := assignment_expr_taken n ih
      not_expr := not_expr_taken n ih
      expr := expr_taken n ih
      expr_stmt := expr_stmt_taken n ih
      type_stmt := type_stmt_taken n ih
      function_stmt := function_stmt_taken n ih
      if_stmt := if_stmt_taken n ih
      while_stmt := while_stmt_taken n ih
      return_stmt := return_stmt_taken n ih
      stmt := stmt_taken n ih }


theorem Ends_ok {α : Type} {v : α} {s : luna_parser_t} : Ends (Res.ok v s) :=
  fun h => Res.noConfusion h

theorem Ends_undefined {α : Type} : Ends (Res.undefined : Res α) :=
  fun h => Res.noConfusion h

theorem ends_bind {α β : Type} {r : Res α} {k : α → luna_parser_t → Res β}
    {Q : α → luna_parser_t → Prop} (hr : Ends r) (hq : r.Sat Q)
    (hk : ∀ v s1, Q v s1 → Ends (k v s1)) : Ends (r.bind k) := by
  cases r with
  | ok v s1 => exact hk v s1 hq
  | undefined => exact Ends_undefined
  | fuel => exact absurd rfl hr

theorem bound_lt {s c : luna_parser_t} {n a b : Nat} (hb : 25 * remaining s + a ≤ n + 1)
    (h : Fewer s c) (hab : b ≤ 24 + a) : 25 * remaining c + b ≤ n := by
  unfold Fewer at h
  omega

theorem bound_le {s c : luna_parser_t} {n a b : Nat} (hb : 25 * remaining s + a ≤ n + 1)
    (h : NoMore s c) (hab : b < a) : 25 * remaining c + b ≤ n := by
  unfold NoMore at h
  omega

theorem level_ops_no_eos (j : Nat) : luna_token.EOS ∉ level_ops j := by
  by_cases h : j ≤ 9
  · interval_cases j <;> decide
  · have : level_ops j = [] := by
      obtain ⟨k, rfl⟩ : ∃ k, j = k + 10 := ⟨j - 10, by omega⟩
      rfl
    rw [this]
    simp

theorem binary_loop_ends (ops : List luna_token) (hE : luna_token.EOS ∉ ops)
    (op : luna_parser_t → luna_token) (ctx : String)
    (operand : luna_parser_t → Res (Option luna_node_t))
    (fop : ∀ c, (operand c).Sat fun _ s' => NoMore c s') (k : Nat) :
    ∀ (node : luna_node_t) (s : luna_parser_t), remaining s < k →
      (∀ c, Fewer s c → Ends (operand c)) →
      Ends (binary_loop ops op ctx operand k node s) := by
  induction k with
  | zero => intro node s h _; exact absurd h (by omega)
  | succ k ih =>
    intro node s hk hop
    rw [binary_loop]
    dsimp only
    split
    · rename_i hit
      have hc : Fewer s (context ctx (accept_any ops s).2) :=
        fewer_context _ (fewer_accept_any_hit hit hE (noMore_frame.refl s))
      refine ends_bind (hop _ hc) (fewer_call s hc (fop _)) (fun v s1 h1 => ?_)
      split
      · refine ih _ _ ?_ (fun c hcc => hop c ?_)
        · unfold Fewer at h1
          omega
        · unfold Fewer at h1 hcc ⊢
          omega
      · exact Ends_ok
    · exact Ends_ok

theorem primary_expr_ends (n : Nat) (tm : Terminates n) (s : luna_parser_t)
    (hb : 25 * remaining s + 2 ≤ n + 1) : Ends (primary_expr (n + 1) s) := by
  have hp : NoMore s (peek s).2 := noMore_frame.peek s
  rw [primary_expr]
  dsimp only
  split
  · exact Ends_ok
  · exact Ends_ok
  · exact Ends_ok
  · exact Ends_ok
  · exact tm.array_expr _ (bound_le hb hp (by decide))
  · exact tm.hash_expr _ (bound_le hb hp (by decide))
  · exact tm.paren_expr _ (bound_le hb hp (by decide))

theorem level_expr_ends (n : Nat) (tm : Terminates n) (j : Nat) (s : luna_parser_t)
    (hj : j ≤ 9) (hb : 25 * remaining s + (8 + j) ≤ n + 1) :
    Ends (level_expr j (n + 1) s) := by
  have fr := framed_all noMore_frame n
  have cs := consumes_all n
  have top : ∀ c, 25 * remaining c + (7 + j) ≤ n → Ends (operand_expr j n c) := by
    cases j with
    | zero => exact tm.unary_expr
    | succ j =>
      intro c h
      exact tm.level_expr j c (by omega) (by omega)
  have fop : ∀ c, (operand_expr j n c).Sat fun _ s' => NoMore c s' := by
    cases j with
    | zero => exact fr.unary_expr
    | succ j => exact fr.level_expr j
  have hloop : ∀ (node : luna_node_t) (s1 : luna_parser_t), NoMore s s1 →
      Ends (binary_loop (level_ops j) (level_op j) (level_ctx j) (operand_expr j n) n node s1) := by
    intro node s1 h1
    refine binary_loop_ends _ (level_ops_no_eos j) _ _ _ fop n node s1 ?_ (fun c hc => top c ?_)
    · unfold NoMore at h1
      omega
    · unfold NoMore at h1
      unfold Fewer at hc
      omega
  by_cases h9 : j < 9
  · rw [level_expr_succ j h9]
    refine ends_bind (top s (by omega)) (noMore_call s (noMore_frame.refl s) (fop s))
      (fun v s1 h1 => ?_)
    split
    · exact Ends_ok
    · exact hloop _ _ h1
  · have : j = 9 := by omega
    subst this
    rw [logical_or_expr_succ]
    refine ends_bind (top s (by omega)) (noMore_call s (noMore_frame.refl s) (fop s))
      (fun v s1 h1 => ?_)
    split
    · exact Ends_ok
    · refine ends_bind (hloop _ _ h1) (Sat_true _) (fun v s2 _ => ?_)
      split
      · exact Ends_ok
      · dsimp only
        split
        · exact Ends_ok
        · exact Ends_ok

theorem paren_expr_ends (n : Nat) (tm : Terminates n) (s : luna_parser_t)
    (hb : 25 * remaining s + 1 ≤ n + 1) : Ends (paren_expr (n + 1) s) := by
  have fr := framed_all noMore_frame n
  have cs := consumes_all n
  have flo : ∀ s, (logical_or_expr n s).Sat fun _ s' => NoMore s s' := fr.level_expr 9
  have clo : ∀ s, (logical_or_expr n s).Sat (Taken s) := cs.level_expr 9
  have tlo : ∀ s, 25 * remaining s + 17 ≤ n → Ends (logical_or_expr n s) :=
    fun s h => tm.level_expr 9 s (Nat.le_refl 9) h
  rw [paren_expr]
  try dsimp only
  repeat' first
    | assumption
    | with_reducible exact Sat_undefined
    | with_reducible exact Sat_ok_taken_none
    | with_reducible exact noMore_frame.refl _
    | with_reducible exact fewer_noMore (by assumption)
    | with_reducible exact prog_le (by assumption)
    | with_reducible exact prog_lt (by assumption)
    | with_reducible refine fewer_accept_hit (by assumption) (by decide) ?_
    | with_reducible refine fewer_accept_any_hit (by assumption) (by decide) ?_
    | with_reducible refine fewer_next_is (by assumption) (by decide) ?_
    | with_reducible apply noMore_frame.to_accept
    | with_reducible apply noMore_frame.to_peek
    | with_reducible apply noMore_frame.to_next
    | with_reducible apply noMore_frame.to_is
    | with_reducible apply noMore_frame.to_accept_any
    | with_reducible apply noMore_frame.to_context
    | with_reducible apply noMore_frame.to_error
    | with_reducible apply fewer_accept
    | with_reducible apply fewer_peek
    | with_reducible apply fewer_next
    | with_reducible apply fewer_is
    | with_reducible apply fewer_accept_any
    | with_reducible apply fewer_context
    | with_reducible apply fewer_error
    | with_reducible apply Sat_ok_taken
    | with_reducible apply Sat_ok_fewer
    | with_reducible exact Ends_ok
    | with_reducible exact Ends_undefined
    | (with_reducible refine ends_bind (tm.expr _ (bound_lt hb ?_ (by decide))) (fewer_call s ?_ (fr.expr _)) (fun v s1 h1 => ?_))
    | (with_reducible refine (tm.expr _ (bound_lt hb ?_ (by decide))))
    | (with_reducible refine Sat_bind (fewer_call s ?_ (fr.expr _)) (fun v s1 h1 => ?_))
    | with_reducible refine ends_bind (Q := fun _ s1 => Fewer s s1) ?_ ?_ (fun v s1 h1 => ?_)
    | with_reducible refine Sat_bind (Q := fun _ s1 => Fewer s s1) ?_ (fun v s1 h1 => ?_)
    | split

theorem arg_list_ends (n : Nat) (tm : Terminates n) (arr : List luna_node_t) (d : luna_token) (s : luna_parser_t)
    (hb : 25 * remaining s + 21 ≤ n + 1) : Ends (arg_list (n + 1) arr d s) := by
  have fr := framed_all noMore_frame n
  have cs := consumes_all n
  have flo : ∀ s, (logical_or_expr n s).Sat fun _ s' => NoMore s s' := fr.level_expr 9
  have clo : ∀ s, (logical_or_expr n s).Sat (Taken s) := cs.level_expr 9
  have tlo : ∀ s, 25 * remaining s + 17 ≤ n → Ends (logical_or_expr n s) :=
    fun s h => tm.level_expr 9 s (Nat.le_refl 9) h
  rw [arg_list]
  try dsimp only
  repeat' first
    | assumption
    | with_reducible exact Sat_undefined
    | with_reducible exact Sat_ok_taken_none
    | with_reducible exact noMore_frame.refl _
    | with_reducible exact fewer_noMore (by assumption)
    | with_reducible exact prog_le (by assumption)
    | with_reducible exact prog_lt (by assumption)
    | with_reducible refine fewer_accept_hit (by assumption) (by decide) ?_
    | with_reducible refine fewer_accept_any_hit (by assumption) (by decide) ?_
    | with_reducible refine fewer_next_is (by assumption) (by decide) ?_
    | with_reducible apply noMore_frame.to_accept
    | with_reducible apply noMore_frame.to_peek
    | with_reducible apply noMore_frame.to_next
    | with_reducible apply noMore_frame.to_is
    | with_reducible apply noMore_frame.to_accept_any
    | with_reducible apply noMore_frame.to_context
    | with_reducible apply noMore_frame.to_error
    | with_reducible apply fewer_accept
    | with_reducible apply fewer_peek
    | with_reducible apply fewer_next
    | with_reducible apply fewer_is
    | with_reducible apply fewer_accept_any
    | with_reducible apply fewer_context
    | with_reducible apply fewer_error
    | with_reducible apply Sat_ok_taken
    | with_reducible apply Sat_ok_fewer
    | with_reducible exact Ends_ok
    | with_reducible exact Ends_undefined
    | (with_reducible refine ends_bind (tm.arg_list _ _ _ (bound_lt hb ?_ (by decide))) (fewer_call s ?_ (fr.arg_list _ _ _)) (fun v s1 h1 => ?_))
    | (with_reducible refine (tm.arg_list _ _ _ (bound_lt hb ?_ (by decide))))
    | (with_reducible refine Sat_bind (fewer_call s ?_ (fr.arg_list _ _ _)) (fun v s1 h1 => ?_))
    | with_reducible refine ends_bind (tm.expr _ (bound_le hb ?_ (by decide))) (prog_call s ?_ (fr.expr _) (cs.expr _)) (fun v s1 h1 => ?_)
    | with_reducible refine Sat_bind (prog_call s ?_ (fr.expr _) (cs.expr _)) (fun v s1 h1 => ?_)
    | with_reducible refine (tm.expr _ (bound_le hb ?_ (by decide)))
    | with_reducible refine ends_bind (Q := fun _ s1 => Fewer s s1) ?_ ?_ (fun v s1 h1 => ?_)
    | with_reducible refine Sat_bind (Q := fun _ s1 => Fewer s s1) ?_ (fun v s1 h1 => ?_)
    | split

theorem array_expr_ends (n : Nat) (tm : Terminates n) (s : luna_parser_t)
    (hb : 25 * remaining s + 1 ≤ n + 1) : Ends (array_expr (n + 1) s) := by
  have fr := framed_all noMore_frame n
  have cs := consumes_all n
  have flo : ∀ s, (logical_or_expr n s).Sat fun _ s' => NoMore s s' := fr.level_expr 9
  have clo : ∀ s, (logical_or_expr n s).Sat (Taken s) := cs.level_expr 9
  have tlo : ∀ s, 25 * remaining s + 17 ≤ n → Ends (logical_or_expr n s) :=
    fun s h => tm.level_expr 9 s (Nat.le_refl 9) h
  rw [array_expr]
  try dsimp only
  repeat' first
    | assumption
    | with_reducible exact Sat_undefined
    | with_reducible exact Sat_ok_taken_none
    | with_reducible exact noMore_frame.refl _
    | with_reducible exact fewer_noMore (by assumption)
    | with_reducible exact prog_le (by assumption)
    | with_reducible exact prog_lt (by assumption)
    | with_reducible refine fewer_accept_hit (by assumption) (by decide) ?_
    | with_reducible refine fewer_accept_any_hit (by assumption) (by decide) ?_
    | with_reducible refine fewer_next_is (by assumption) (by decide) ?_
    | with_reducible apply noMore_frame.to_accept
    | with_reducible apply noMore_frame.to_peek
    | with_reducible apply noMore_frame.to_next
    | with_reducible apply noMore_frame.to_is
    | with_reducible apply noMore_frame.to_accept_any
    | with_reducible apply noMore_frame.to_context
    | with_reducible apply noMore_frame.to_error
    | with_reducible apply fewer_accept
    | with_reducible apply fewer_peek
    | with_reducible apply fewer_next
    | with_reducible apply fewer_is
    | with_reducible apply fewer_accept_any
    | with_reducible apply fewer_context
    | with_reducible apply fewer_error
    | with_reducible apply Sat_ok_taken
    | with_reducible apply Sat_ok_fewer
    | with_reducible exact Ends_ok
    | with_reducible exact Ends_undefined
    | (with_reducible refine ends_bind (tm.arg_list _ _ _ (bound_lt hb ?_ (by decide))) (fewer_call s ?_ (fr.arg_list _ _ _)) (fun v s1 h1 => ?_))
    | (with_reducible refine (tm.arg_list _ _ _ (bound_lt hb ?_ (by decide))))
    | (with_reducible refine Sat_bind (fewer_call s ?_ (fr.arg_list _ _ _)) (fun v s1 h1 => ?_))
    | with_reducible refine ends_bind (Q := fun _ s1 => Fewer s s1) ?_ ?_ (fun v s1 h1 => ?_)
    | with_reducible refine Sat_bind (Q := fun _ s1 => Fewer s s1) ?_ (fun v s1 h1 => ?_)
    | split

theorem hash_pairs_ends (n : Nat) (tm : Terminates n) (h : List (String × luna_node_t)) (d : luna_token) (s : luna_parser_t)
    (hb : 25 * remaining s + 21 ≤ n + 1) : Ends (hash_pairs (n + 1) h d s) := by
  have fr := framed_all noMore_frame n
  have cs := consumes_all n
  have flo : ∀ s, (logical_or_expr n s).Sat fun _ s' => NoMore s s' := fr.level_expr 9
  have clo : ∀ s, (logical_or_expr n s).Sat (Taken s) := cs.level_expr 9
  have tlo : ∀ s, 25 * remaining s + 17 ≤ n → Ends (logical_or_expr n s) :=
    fun s h => tm.level_expr 9 s (Nat.le_refl 9) h
  rw [hash_pairs]
  try dsimp only
  repeat' first
    | assumption
    | with_reducible exact Sat_undefined
    | with_reducible exact Sat_ok_taken_none
    | with_reducible exact noMore_frame.refl _
    | with_reducible exact fewer_noMore (by assumption)
    | with_reducible exact prog_le (by assumption)
    | with_reducible exact prog_lt (by assumption)
    | with_reducible refine fewer_accept_hit (by assumption) (by decide) ?_
    | with_reducible refine fewer_accept_any_hit (by assumption) (by decide) ?_
    | with_reducible refine fewer_next_is (by assumption) (by decide) ?_
    | with_reducible apply noMore_frame.to_accept
    | with_reducible apply noMore_frame.to_peek
    | with_reducible apply noMore_frame.to_next
    | with_reducible apply noMore_frame.to_is
    | with_reducible apply noMore_frame.to_accept_any
    | with_reducible apply noMore_frame.to_context
    | with_reducible apply noMore_frame.to_error
    | with_reducible apply fewer_accept
    | with_reducible apply fewer_peek
    | with_reducible apply fewer_next
    | with_reducible apply fewer_is
    | with_reducible apply fewer_accept_any
    | with_reducible apply fewer_context
    | with_reducible apply fewer_error
    | with_reducible apply Sat_ok_taken
    | with_reducible apply Sat_ok_fewer
    | with_reducible exact Ends_ok
    | with_reducible exact Ends_undefined
    | (with_reducible refine ends_bind (tm.expr _ (bound_lt hb ?_ (by decide))) (fewer_call s ?_ (fr.expr _)) (fun v s1 h1 => ?_))
    | (with_reducible refine (tm.expr _ (bound_lt hb ?_ (by decide))))
    | (with_reducible refine Sat_bind (fewer_call s ?_ (fr.expr _)) (fun v s1 h1 => ?_))
    | (with_reducible refine ends_bind (tm.hash_pairs _ _ _ (bound_lt hb ?_ (by decide))) (fewer_call s ?_ (fr.hash_pairs _ _ _)) (fun v s1 h1 => ?_))
    | (with_reducible refine (tm.hash_pairs _ _ _ (bound_lt hb ?_ (by decide))))
    | (with_reducible refine Sat_bind (fewer_call s ?_ (fr.hash_pairs _ _ _)) (fun v s1 h1 => ?_))
    | with_reducible refine ends_bind (Q := fun _ s1 => Fewer s s1) ?_ ?_ (fun v s1 h1 => ?_)
    | with_reducible refine Sat_bind (Q := fun _ s1 => Fewer s s1) ?_ (fun v s1 h1 => ?_)
    | split

theorem hash_expr_ends (n : Nat) (tm : Terminates n) (s : luna_parser_t)
    (hb : 25 * remaining s + 1 ≤ n + 1) : Ends (hash_expr (n + 1) s) := by
  have fr := framed_all noMore_frame n
  have cs := consumes_all n
  have flo : ∀ s, (logical_or_expr n s).Sat fun _ s' => NoMore s s' := fr.level_expr 9
  have clo : ∀ s, (logical_or_expr n s).Sat (Taken s) := cs.level_expr 9
  have tlo : ∀ s, 25 * remaining s + 17 ≤ n → Ends (logical_or_expr n s) :=
    fun s h => tm.level_expr 9 s (Nat.le_refl 9) h
  rw [hash_expr]
  try dsimp only
  repeat' first
    | assumption
    | with_reducible exact Sat_undefined
    | with_reducible exact Sat_ok_taken_none
    | with_reducible exact noMore_frame.refl _
    | with_reducible exact fewer_noMore (by assumption)
    | with_reducible exact prog_le (by assumption)
    | with_reducible exact prog_lt (by assumption)
    | with_reducible refine fewer_accept_hit (by assumption) (by decide) ?_
    | with_reducible refine fewer_accept_any_hit (by assumption) (by decide) ?_
    | with_reducible refine fewer_next_is (by assumption) (by decide) ?_
    | with_reducible apply noMore_frame.to_accept
    | with_reducible apply noMore_frame.to_peek
    | with_reducible apply noMore_frame.to_next
    | with_reducible apply noMore_frame.to_is
    | with_reducible apply noMore_frame.to_accept_any
    | with_reducible apply noMore_frame.to_context
    | with_reducible apply noMore_frame.to_error
    | with_reducible apply fewer_accept
    | with_reducible apply fewer_peek
    | with_reducible apply fewer_next
    | with_reducible apply fewer_is
    | with_reducible apply fewer_accept_any
    | with_reducible apply fewer_context
    | with_reducible apply fewer_error
    | with_reducible apply Sat_ok_taken
    | with_reducible apply Sat_ok_fewer
    | with_reducible exact Ends_ok
    | with_reducible exact Ends_undefined
    | (with_reducible refine ends_bind (tm.hash_pairs _ _ _ (bound_lt hb ?_ (by decide))) (fewer_call s ?_ (fr.hash_pairs _ _ _)) (fun v s1 h1 => ?_))
    | (with_reducible refine (tm.hash_pairs _ _ _ (bound_lt hb ?_ (by decide))))
    | (with_reducible refine Sat_bind (fewer_call s ?_ (fr.hash_pairs _ _ _)) (fun v s1 h1 => ?_))
    | with_reducible refine ends_bind (Q := fun _ s1 => Fewer s s1) ?_ ?_ (fun v s1 h1 => ?_)
    | with_reducible refine Sat_bind (Q := fun _ s1 => Fewer s s1) ?_ (fun v s1 h1 => ?_)
    | split

theorem slot_access_expr_ends (n : Nat) (tm : Terminates n) (s : luna_parser_t)
    (hb : 25 * remaining s + 3 ≤ n + 1) : Ends (slot_access_expr (n + 1) s) := by
  have fr := framed_all noMore_frame n
  have cs := consumes_all n
  have flo : ∀ s, (logical_or_expr n s).Sat fun _ s' => NoMore s s' := fr.level_expr 9
  have clo : ∀ s, (logical_or_expr n s).Sat (Taken s) := cs.level_expr 9
  have tlo : ∀ s, 25 * remaining s + 17 ≤ n → Ends (logical_or_expr n s) :=
    fun s h => tm.level_expr 9 s (Nat.le_refl 9) h
  rw [slot_access_expr]
  try dsimp only
  repeat' first
    | assumption
    | with_reducible exact Sat_undefined
    | with_reducible exact Sat_ok_taken_none
    | with_reducible exact noMore_frame.refl _
    | with_reducible exact fewer_noMore (by assumption)
    | with_reducible exact prog_le (by assumption)
    | with_reducible exact prog_lt (by assumption)
    | with_reducible refine fewer_accept_hit (by assumption) (by decide) ?_
    | with_reducible refine fewer_accept_any_hit (by assumption) (by decide) ?_
    | with_reducible refine fewer_next_is (by assumption) (by decide) ?_
    | with_reducible apply noMore_frame.to_accept
    | with_reducible apply noMore_frame.to_peek
    | with_reducible apply noMore_frame.to_next
    | with_reducible apply noMore_frame.to_is
    | with_reducible apply noMore_frame.to_accept_any
    | with_reducible apply noMore_frame.to_context
    | with_reducible apply noMore_frame.to_error
    | with_reducible apply fewer_accept
    | with_reducible apply fewer_peek
    | with_reducible apply fewer_next
    | with_reducible apply fewer_is
    | with_reducible apply fewer_accept_any
    | with_reducible apply fewer_context
    | with_reducible apply fewer_error
    | with_reducible apply Sat_ok_taken
    | with_reducible apply Sat_ok_fewer
    | with_reducible exact Ends_ok
    | with_reducible exact Ends_undefined
    | with_reducible refine ends_bind (tm.primary_expr _ (bound_le hb ?_ (by decide))) (prog_call s ?_ (fr.primary_expr _) (cs.primary_expr _)) (fun v s1 h1 => ?_)
    | with_reducible refine Sat_bind (prog_call s ?_ (fr.primary_expr _) (cs.primary_expr _)) (fun v s1 h1 => ?_)
    | with_reducible refine (tm.primary_expr _ (bound_le hb ?_ (by decide)))
    | with_reducible refine ends_bind (Q := fun _ s1 => Fewer s s1) ?_ ?_ (fun v s1 h1 => ?_)
    | with_reducible refine Sat_bind (Q := fun _ s1 => Fewer s s1) ?_ (fun v s1 h1 => ?_)
    | split

theorem call_args_loop_ends (n : Nat) (tm : Terminates n) (a : luna_args_node_t luna_node_t) (s : luna_parser_t)
    (hb : 25 * remaining s + 21 ≤ n + 1) : Ends (call_args_loop (n + 1) a s) := by
  have fr := framed_all noMore_frame n
  have cs := consumes_all n
  have flo : ∀ s, (logical_or_expr n s).Sat fun _ s' => NoMore s s' := fr.level_expr 9
  have clo : ∀ s, (logical_or_expr n s).Sat (Taken s) := cs.level_expr 9
  have tlo : ∀ s, 25 * remaining s + 17 ≤ n → Ends (logical_or_expr n s) :=
    fun s h => tm.level_expr 9 s (Nat.le_refl 9) h
  rw [call_args_loop]
  try dsimp only
  repeat' first
    | assumption
    | with_reducible exact Sat_undefined
    | with_reducible exact Sat_ok_taken_none
    | with_reducible exact noMore_frame.refl _
    | with_reducible exact fewer_noMore (by assumption)
    | with_reducible exact prog_le (by assumption)
    | with_reducible exact prog_lt (by assumption)
    | with_reducible refine fewer_accept_hit (by assumption) (by decide) ?_
    | with_reducible refine fewer_accept_any_hit (by assumption) (by decide) ?_
    | with_reducible refine fewer_next_is (by assumption) (by decide) ?_
    | with_reducible apply noMore_frame.to_accept
    | with_reducible apply noMore_frame.to_peek
    | with_reducible apply noMore_frame.to_next
    | with_reducible apply noMore_frame.to_is
    | with_reducible apply noMore_frame.to_accept_any
    | with_reducible apply noMore_frame.to_context
    | with_reducible apply noMore_frame.to_error
    | with_reducible apply fewer_accept
    | with_reducible apply fewer_peek
    | with_reducible apply fewer_next
    | with_reducible apply fewer_is
    | with_reducible apply fewer_accept_any
    | with_reducible apply fewer_context
    | with_reducible apply fewer_error
    | with_reducible apply Sat_ok_taken
    | with_reducible apply Sat_ok_fewer
    | with_reducible apply noMore_frame.to_in_args
    | with_reducible apply fewer_in_args
    | with_reducible exact Ends_ok
    | with_reducible exact Ends_undefined
    | (with_reducible refine ends_bind (tm.expr _ (bound_lt hb ?_ (by decide))) (fewer_call s ?_ (fr.expr _)) (fun v s1 h1 => ?_); focus ((repeat' first | assumption | with_reducible exact noMore_frame.refl _ | with_reducible exact fewer_noMore (by assumption) | with_reducible exact prog_le (by assumption) | with_reducible exact prog_lt (by assumption) | with_reducible refine fewer_accept_hit (by assumption) (by decide) ?_ | with_reducible refine fewer_accept_any_hit (by assumption) (by decide) ?_ | with_reducible refine fewer_next_is (by assumption) (by decide) ?_ | with_reducible apply noMore_frame.to_accept | with_reducible apply noMore_frame.to_peek | with_reducible apply noMore_frame.to_next | with_reducible apply noMore_frame.to_is | with_reducible apply noMore_frame.to_accept_any | with_reducible apply noMore_frame.to_context | with_reducible apply noMore_frame.to_error | with_reducible apply fewer_accept | with_reducible apply fewer_peek | with_reducible apply fewer_next | with_reducible apply fewer_is | with_reducible apply fewer_accept_any | with_reducible apply fewer_context | with_reducible apply fewer_error); done); focus ((repeat' first | assumption | with_reducible exact noMore_frame.refl _ | with_reducible exact fewer_noMore (by assumption) | with_reducible exact prog_le (by assumption) | with_reducible exact prog_lt (by assumption) | with_reducible refine fewer_accept_hit (by assumption) (by decide) ?_ | with_reducible refine fewer_accept_any_hit (by assumption) (by decide) ?_ | with_reducible refine fewer_next_is (by assumption) (by decide) ?_ | with_reducible apply noMore_frame.to_accept | with_reducible apply noMore_frame.to_peek | with_reducible apply noMore_frame.to_next | with_reducible apply noMore_frame.to_is | with_reducible apply noMore_frame.to_accept_any | with_reducible apply noMore_frame.to_context | with_reducible apply noMore_frame.to_error | with_reducible apply fewer_accept | with_reducible apply fewer_peek | with_reducible apply fewer_next | with_reducible apply fewer_is | with_reducible apply fewer_accept_any | with_reducible apply fewer_context | with_reducible apply fewer_error); done))
    | (with_reducible refine (tm.expr _ (bound_lt hb ?_ (by decide))); focus ((repeat' first | assumption | with_reducible exact noMore_frame.refl _ | with_reducible exact fewer_noMore (by assumption) | with_reducible exact prog_le (by assumption) | with_reducible exact prog_lt (by assumption) | with_reducible refine fewer_accept_hit (by assumption) (by decide) ?_ | with_reducible refine fewer_accept_any_hit (by assumption) (by decide) ?_ | with_reducible refine fewer_next_is (by assumption) (by decide) ?_ | with_reducible apply noMore_frame.to_accept | with_reducible apply noMore_frame.to_peek | with_reducible apply noMore_frame.to_next | with_reducible apply noMore_frame.to_is | with_reducible apply noMore_frame.to_accept_any | with_reducible apply noMore_frame.to_context | with_reducible apply noMore_frame.to_error | with_reducible apply fewer_accept | with_reducible apply fewer_peek | with_reducible apply fewer_next | with_reducible apply fewer_is | with_reducible apply fewer_accept_any | with_reducible apply fewer_context | with_reducible apply fewer_error); done))
    | (with_reducible refine Sat_bind (fewer_call s ?_ (fr.expr _)) (fun v s1 h1 => ?_); focus ((repeat' first | assumption | with_reducible exact noMore_frame.refl _ | with_reducible exact fewer_noMore (by assumption) | with_reducible exact prog_le (by assumption) | with_reducible exact prog_lt (by assumption) | with_reducible refine fewer_accept_hit (by assumption) (by decide) ?_ | with_reducible refine fewer_accept_any_hit (by assumption) (by decide) ?_ | with_reducible refine fewer_next_is (by assumption) (by decide) ?_ | with_reducible apply noMore_frame.to_accept | with_reducible apply noMore_frame.to_peek | with_reducible apply noMore_frame.to_next | with_reducible apply noMore_frame.to_is | with_reducible apply noMore_frame.to_accept_any | with_reducible apply noMore_frame.to_context | with_reducible apply noMore_frame.to_error | with_reducible apply fewer_accept | with_reducible apply fewer_peek | with_reducible apply fewer_next | with_reducible apply fewer_is | with_reducible apply fewer_accept_any | with_reducible apply fewer_context | with_reducible apply fewer_error); done))
    | (with_reducible refine ends_bind (tm.call_args_loop _ _ (bound_lt hb ?_ (by decide))) (fewer_call s ?_ (fr.call_args_loop _ _)) (fun v s1 h1 => ?_))
    | (with_reducible refine (tm.call_args_loop _ _ (bound_lt hb ?_ (by decide))))
    | (with_reducible refine Sat_bind (fewer_call s ?_ (fr.call_args_loop _ _)) (fun v s1 h1 => ?_))
    | with_reducible refine ends_bind (tm.expr _ (bound_le hb ?_ (by decide))) (prog_call s ?_ (fr.expr _) (cs.expr _)) (fun v s1 h1 => ?_)
    | with_reducible refine Sat_bind (prog_call s ?_ (fr.expr _) (cs.expr _)) (fun v s1 h1 => ?_)
    | with_reducible refine (tm.expr _ (bound_le hb ?_ (by decide)))
    | with_reducible refine ends_bind (Q := fun _ s1 => Fewer s s1) ?_ ?_ (fun v s1 h1 => ?_)
    | with_reducible refine Sat_bind (Q := fun _ s1 => Fewer s s1) ?_ (fun v s1 h1 => ?_)
    | split

theorem call_args_ends (n : Nat) (tm : Terminates n) (s : luna_parser_t)
    (hb : 25 * remaining s + 22 ≤ n + 1) : Ends (call_args (n + 1) s) := by
  have fr := framed_all noMore_frame n
  have cs := consumes_all n
  have flo : ∀ s, (logical_or_expr n s).Sat fun _ s' => NoMore s s' := fr.level_expr 9
  have clo : ∀ s, (logical_or_expr n s).Sat (Taken s) := cs.level_expr 9
  have tlo : ∀ s, 25 * remaining s + 17 ≤ n → Ends (logical_or_expr n s) :=
    fun s h => tm.level_expr 9 s (Nat.le_refl 9) h
  rw [call_args]
  try dsimp only
  repeat' first
    | assumption
    | with_reducible exact Sat_undefined
    | with_reducible exact Sat_ok_taken_none
    | with_reducible exact noMore_frame.refl _
    | with_reducible exact fewer_noMore (by assumption)
    | with_reducible exact prog_le (by assumption)
    | with_reducible exact prog_lt (by assumption)
    | with_reducible refine fewer_accept_hit (by assumption) (by decide) ?_
    | with_reducible refine fewer_accept_any_hit (by assumption) (by decide) ?_
    | with_reducible refine fewer_next_is (by assumption) (by decide) ?_
    | with_reducible apply noMore_frame.to_accept
    | with_reducible apply noMore_frame.to_peek
    | with_reducible apply noMore_frame.to_next
    | with_reducible apply noMore_frame.to_is
    | with_reducible apply noMore_frame.to_accept_any
    | with_reducible apply noMore_frame.to_context
    | with_reducible apply noMore_frame.to_error
    | with_reducible apply fewer_accept
    | with_reducible apply fewer_peek
    | with_reducible apply fewer_next
    | with_reducible apply fewer_is
    | with_reducible apply fewer_accept_any
    | with_reducible apply fewer_context
    | with_reducible apply fewer_error
    | with_reducible apply Sat_ok_taken
    | with_reducible apply Sat_ok_fewer
    | with_reducible apply noMore_frame.to_in_args
    | with_reducible apply fewer_in_args
    | with_reducible exact Ends_ok
    | with_reducible exact Ends_undefined
    | with_reducible refine (tm.call_args_loop _ _ (bound_le hb ?_ (by decide)))
    | with_reducible refine ends_bind (Q := fun _ s1 => Fewer s s1) ?_ ?_ (fun v s1 h1 => ?_)
    | with_reducible refine Sat_bind (Q := fun _ s1 => Fewer s s1) ?_ (fun v s1 h1 => ?_)
    | split

theorem call_expr_ends (n : Nat) (tm : Terminates n) (s : luna_parser_t)
    (hb : 25 * remaining s + 4 ≤ n + 1) : Ends (call_expr (n + 1) s) := by
  have fr := framed_all noMore_frame n
  have cs := consumes_all n
  have flo : ∀ s, (logical_or_expr n s).Sat fun _ s' => NoMore s s' := fr.level_expr 9
  have clo : ∀ s, (logical_or_expr n s).Sat (Taken s) := cs.level_expr 9
  have tlo : ∀ s, 25 * remaining s + 17 ≤ n → Ends (logical_or_expr n s) :=
    fun s h => tm.level_expr 9 s (Nat.le_refl 9) h
  rw [call_expr]
  try dsimp only
  repeat' first
    | assumption
    | with_reducible exact Sat_undefined
    | with_reducible exact Sat_ok_taken_none
    | with_reducible exact noMore_frame.refl _
    | with_reducible exact fewer_noMore (by assumption)
    | with_reducible exact prog_le (by assumption)
    | with_reducible exact prog_lt (by assumption)
    | with_reducible refine fewer_accept_hit (by assumption) (by decide) ?_
    | with_reducible refine fewer_accept_any_hit (by assumption) (by decide) ?_
    | with_reducible refine fewer_next_is (by assumption) (by decide) ?_
    | with_reducible apply noMore_frame.to_accept
    | with_reducible apply noMore_frame.to_peek
    | with_reducible apply noMore_frame.to_next
    | with_reducible apply noMore_frame.to_is
    | with_reducible apply noMore_frame.to_accept_any
    | with_reducible apply noMore_frame.to_context
    | with_reducible apply noMore_frame.to_error
    | with_reducible apply fewer_accept
    | with_reducible apply fewer_peek
    | with_reducible apply fewer_next
    | with_reducible apply fewer_is
    | with_reducible apply fewer_accept_any
    | with_reducible apply fewer_context
    | with_reducible apply fewer_error
    | with_reducible apply Sat_ok_taken
    | with_reducible apply Sat_ok_fewer
    | with_reducible exact Ends_ok
    | with_reducible exact Ends_undefined
    | (with_reducible refine ends_bind (tm.call_args _ (bound_lt hb ?_ (by decide))) (fewer_call s ?_ (fr.call_args _)) (fun v s1 h1 => ?_))
    | (with_reducible refine (tm.call_args _ (bound_lt hb ?_ (by decide))))
    | (with_reducible refine Sat_bind (fewer_call s ?_ (fr.call_args _)) (fun v s1 h1 => ?_))
    | (with_reducible refine ends_bind (tm.call_expr _ (bound_lt hb ?_ (by decide))) (fewer_call s ?_ (fr.call_expr _)) (fun v s1 h1 => ?_))
    | (with_reducible refine (tm.call_expr _ (bound_lt hb ?_ (by decide))))
    | (with_reducible refine Sat_bind (fewer_call s ?_ (fr.call_expr _)) (fun v s1 h1 => ?_))
    | with_reducible refine ends_bind (tm.slot_access_expr _ (bound_le hb ?_ (by decide))) (prog_call s ?_ (fr.slot_access_expr _) (cs.slot_access_expr _)) (fun v s1 h1 => ?_)
    | with_reducible refine Sat_bind (prog_call s ?_ (fr.slot_access_expr _) (cs.slot_access_expr _)) (fun v s1 h1 => ?_)
    | with_reducible refine (tm.slot_access_expr _ (bound_le hb ?_ (by decide)))
    | with_reducible refine ends_bind (Q := fun _ s1 => Fewer s s1) ?_ ?_ (fun v s1 h1 => ?_)
    | with_reducible refine Sat_bind (Q := fun _ s1 => Fewer s s1) ?_ (fun v s1 h1 => ?_)
    | split

theorem pow_expr_ends (n : Nat) (tm : Terminates n) (s : luna_parser_t)
    (hb : 25 * remaining s + 5 ≤ n + 1) : Ends (pow_expr (n + 1) s) := by
  have fr := framed_all noMore_frame n
  have cs := consumes_all n
  have flo : ∀ s, (logical_or_expr n s).Sat fun _ s' => NoMore s s' := fr.level_expr 9
  have clo : ∀ s, (logical_or_expr n s).Sat (Taken s) := cs.level_expr 9
  have tlo : ∀ s, 25 * remaining s + 17 ≤ n → Ends (logical_or_expr n s) :=
    fun s h => tm.level_expr 9 s (Nat.le_refl 9) h
  rw [pow_expr]
  try dsimp only
  repeat' first
    | assumption
    | with_reducible exact Sat_undefined
    | with_reducible exact Sat_ok_taken_none
    | with_reducible exact noMore_frame.refl _
    | with_reducible exact fewer_noMore (by assumption)
    | with_reducible exact prog_le (by assumption)
    | with_reducible exact prog_lt (by assumption)
    | with_reducible refine fewer_accept_hit (by assumption) (by decide) ?_
    | with_reducible refine fewer_accept_any_hit (by assumption) (by decide) ?_
    | with_reducible refine fewer_next_is (by assumption) (by decide) ?_
    | with_reducible apply noMore_frame.to_accept
    | with_reducible apply noMore_frame.to_peek
    | with_reducible apply noMore_frame.to_next
    | with_reducible apply noMore_frame.to_is
    | with_reducible apply noMore_frame.to_accept_any
    | with_reducible apply noMore_frame.to_context
    | with_reducible apply noMore_frame.to_error
    | with_reducible apply fewer_accept
    | with_reducible apply fewer_peek
    | with_reducible apply fewer_next
    | with_reducible apply fewer_is
    | with_reducible apply fewer_accept_any
    | with_reducible apply fewer_context
    | with_reducible apply fewer_error
    | with_reducible apply Sat_ok_taken
    | with_reducible apply Sat_ok_fewer
    | with_reducible exact Ends_ok
    | with_reducible exact Ends_undefined
    | (with_reducible refine ends_bind (tm.call_expr _ (bound_lt hb ?_ (by decide))) (fewer_call s ?_ (fr.call_expr _)) (fun v s1 h1 => ?_); focus ((repeat' first | assumption | with_reducible exact noMore_frame.refl _ | with_reducible exact fewer_noMore (by assumption) | with_reducible exact prog_le (by assumption) | with_reducible exact prog_lt (by assumption) | with_reducible refine fewer_accept_hit (by assumption) (by decide) ?_ | with_reducible refine fewer_accept_any_hit (by assumption) (by decide) ?_ | with_reducible refine fewer_next_is (by assumption) (by decide) ?_ | with_reducible apply noMore_frame.to_accept | with_reducible apply noMore_frame.to_peek | with_reducible apply noMore_frame.to_next | with_reducible apply noMore_frame.to_is | with_reducible apply noMore_frame.to_accept_any | with_reducible apply noMore_frame.to_context | with_reducible apply noMore_frame.to_error | with_reducible apply fewer_accept | with_reducible apply fewer_peek | with_reducible apply fewer_next | with_reducible apply fewer_is | with_reducible apply fewer_accept_any | with_reducible apply fewer_context | with_reducible apply fewer_error); done); focus ((repeat' first | assumption | with_reducible exact noMore_frame.refl _ | with_reducible exact fewer_noMore (by assumption) | with_reducible exact prog_le (by assumption) | with_reducible exact prog_lt (by assumption) | with_reducible refine fewer_accept_hit (by assumption) (by decide) ?_ | with_reducible refine fewer_accept_any_hit (by assumption) (by decide) ?_ | with_reducible refine fewer_next_is (by assumption) (by decide) ?_ | with_reducible apply noMore_frame.to_accept | with_reducible apply noMore_frame.to_peek | with_reducible apply noMore_frame.to_next | with_reducible apply noMore_frame.to_is | with_reducible apply noMore_frame.to_accept_any | with_reducible apply noMore_frame.to_context | with_reducible apply noMore_frame.to_error | with_reducible apply fewer_accept | with_reducible apply fewer_peek | with_reducible apply fewer_next | with_reducible apply fewer_is | with_reducible apply fewer_accept_any | with_reducible apply fewer_context | with_reducible apply fewer_error); done))
    | (with_reducible refine (tm.call_expr _ (bound_lt hb ?_ (by decide))); focus ((repeat' first | assumption | with_reducible exact noMore_frame.refl _ | with_reducible exact fewer_noMore (by assumption) | with_reducible exact prog_le (by assumption) | with_reducible exact prog_lt (by assumption) | with_reducible refine fewer_accept_hit (by assumption) (by decide) ?_ | with_reducible refine fewer_accept_any_hit (by assumption) (by decide) ?_ | with_reducible refine fewer_next_is (by assumption) (by decide) ?_ | with_reducible apply noMore_frame.to_accept | with_reducible apply noMore_frame.to_peek | with_reducible apply noMore_frame.to_next | with_reducible apply noMore_frame.to_is | with_reducible apply noMore_frame.to_accept_any | with_reducible apply noMore_frame.to_context | with_reducible apply noMore_frame.to_error | with_reducible apply fewer_accept | with_reducible apply fewer_peek | with_reducible apply fewer_next | with_reducible apply fewer_is | with_reducible apply fewer_accept_any | with_reducible apply fewer_context | with_reducible apply fewer_error); done))
    | (with_reducible refine Sat_bind (fewer_call s ?_ (fr.call_expr _)) (fun v s1 h1 => ?_); focus ((repeat' first | assumption | with_reducible exact noMore_frame.refl _ | with_reducible exact fewer_noMore (by assumption) | with_reducible exact prog_le (by assumption) | with_reducible exact prog_lt (by assumption) | with_reducible refine fewer_accept_hit (by assumption) (by decide) ?_ | with_reducible refine fewer_accept_any_hit (by assumption) (by decide) ?_ | with_reducible refine fewer_next_is (by assumption) (by decide) ?_ | with_reducible apply noMore_frame.to_accept | with_reducible apply noMore_frame.to_peek | with_reducible apply noMore_frame.to_next | with_reducible apply noMore_frame.to_is | with_reducible apply noMore_frame.to_accept_any | with_reducible apply noMore_frame.to_context | with_reducible apply noMore_frame.to_error | with_reducible apply fewer_accept | with_reducible apply fewer_peek | with_reducible apply fewer_next | with_reducible apply fewer_is | with_reducible apply fewer_accept_any | with_reducible apply fewer_context | with_reducible apply fewer_error); done))
    | with_reducible refine ends_bind (tm.call_expr _ (bound_le hb ?_ (by decide))) (prog_call s ?_ (fr.call_expr _) (cs.call_expr _)) (fun v s1 h1 => ?_)
    | with_reducible refine Sat_bind (prog_call s ?_ (fr.call_expr _) (cs.call_expr _)) (fun v s1 h1 => ?_)
    | with_reducible refine (tm.call_expr _ (bound_le hb ?_ (by decide)))
    | with_reducible refine ends_bind (Q := fun _ s1 => Fewer s s1) ?_ ?_ (fun v s1 h1 => ?_)
    | with_reducible refine Sat_bind (Q := fun _ s1 => Fewer s s1) ?_ (fun v s1 h1 => ?_)
    | split

theorem postfix_expr_ends (n : Nat) (tm : Terminates n) (s : luna_parser_t)
    (hb : 25 * remaining s + 6 ≤ n + 1) : Ends (postfix_expr (n + 1) s) := by
  have fr := framed_all noMore_frame n
  have cs := consumes_all n
  have flo : ∀ s, (logical_or_expr n s).Sat fun _ s' => NoMore s s' := fr.level_expr 9
  have clo : ∀ s, (logical_or_expr n s).Sat (Taken s) := cs.level_expr 9
  have tlo : ∀ s, 25 * remaining s + 17 ≤ n → Ends (logical_or_expr n s) :=
    fun s h => tm.level_expr 9 s (Nat.le_refl 9) h
  rw [postfix_expr]
  try dsimp only
  repeat' first
    | assumption
    | with_reducible exact Sat_undefined
    | with_reducible exact Sat_ok_taken_none
    | with_reducible exact noMore_frame.refl _
    | with_reducible exact fewer_noMore (by assumption)
    | with_reducible exact prog_le (by assumption)
    | with_reducible exact prog_lt (by assumption)
    | with_reducible refine fewer_accept_hit (by assumption) (by decide) ?_
    | with_reducible refine fewer_accept_any_hit (by assumption) (by decide) ?_
    | with_reducible refine fewer_next_is (by assumption) (by decide) ?_
    | with_reducible apply noMore_frame.to_accept
    | with_reducible apply noMore_frame.to_peek
    | with_reducible apply noMore_frame.to_next
    | with_reducible apply noMore_frame.to_is
    | with_reducible apply noMore_frame.to_accept_any
    | with_reducible apply noMore_frame.to_context
    | with_reducible apply noMore_frame.to_error
    | with_reducible apply fewer_accept
    | with_reducible apply fewer_peek
    | with_reducible apply fewer_next
    | with_reducible apply fewer_is
    | with_reducible apply fewer_accept_any
    | with_reducible apply fewer_context
    | with_reducible apply fewer_error
    | with_reducible apply Sat_ok_taken
    | with_reducible apply Sat_ok_fewer
    | with_reducible exact Ends_ok
    | with_reducible exact Ends_undefined
    | with_reducible refine ends_bind (tm.pow_expr _ (bound_le hb ?_ (by decide))) (prog_call s ?_ (fr.pow_expr _) (cs.pow_expr _)) (fun v s1 h1 => ?_)
    | with_reducible refine Sat_bind (prog_call s ?_ (fr.pow_expr _) (cs.pow_expr _)) (fun v s1 h1 => ?_)
    | with_reducible refine (tm.pow_expr _ (bound_le hb ?_ (by decide)))
    | with_reducible refine ends_bind (Q := fun _ s1 => Fewer s s1) ?_ ?_ (fun v s1 h1 => ?_)
    | with_reducible refine Sat_bind (Q := fun _ s1 => Fewer s s1) ?_ (fun v s1 h1 => ?_)
    | split

theorem unary_expr_ends (n : Nat) (tm : Terminates n) (s : luna_parser_t)
    (hb : 25 * remaining s + 7 ≤ n + 1) : Ends (unary_expr (n + 1) s) := by
  have fr := framed_all noMore_frame n
  have cs := consumes_all n
  have flo : ∀ s, (logical_or_expr n s).Sat fun _ s' => NoMore s s' := fr.level_expr 9
  have clo : ∀ s, (logical_or_expr n s).Sat (Taken s) := cs.level_expr 9
  have tlo : ∀ s, 25 * remaining s + 17 ≤ n → Ends (logical_or_expr n s) :=
    fun s h => tm.level_expr 9 s (Nat.le_refl 9) h
  rw [unary_expr]
  try dsimp only
  repeat' first
    | assumption
    | with_reducible exact Sat_undefined
    | with_reducible exact Sat_ok_taken_none
    | with_reducible exact noMore_frame.refl _
    | with_reducible exact fewer_noMore (by assumption)
    | with_reducible exact prog_le (by assumption)
    | with_reducible exact prog_lt (by assumption)
    | with_reducible refine fewer_accept_hit (by assumption) (by decide) ?_
    | with_reducible refine fewer_accept_any_hit (by assumption) (by decide) ?_
    | with_reducible refine fewer_next_is (by assumption) (by decide) ?_
    | with_reducible apply noMore_frame.to_accept
    | with_reducible apply noMore_frame.to_peek
    | with_reducible apply noMore_frame.to_next
    | with_reducible apply noMore_frame.to_is
    | with_reducible apply noMore_frame.to_accept_any
    | with_reducible apply noMore_frame.to_context
    | with_reducible apply noMore_frame.to_error
    | with_reducible apply fewer_accept
    | with_reducible apply fewer_peek
    | with_reducible apply fewer_next
    | with_reducible apply fewer_is
    | with_reducible apply fewer_accept_any
    | with_reducible apply fewer_context
    | with_reducible apply fewer_error
    | with_reducible apply Sat_ok_taken
    | with_reducible apply Sat_ok_fewer
    | with_reducible exact Ends_ok
    | with_reducible exact Ends_undefined
    | (with_reducible refine ends_bind (tm.unary_expr _ (bound_lt hb ?_ (by decide))) (fewer_call s ?_ (fr.unary_expr _)) (fun v s1 h1 => ?_))
    | (with_reducible refine (tm.unary_expr _ (bound_lt hb ?_ (by decide))))
    | (with_reducible refine Sat_bind (fewer_call s ?_ (fr.unary_expr _)) (fun v s1 h1 => ?_))
    | with_reducible refine ends_bind (tm.postfix_expr _ (bound_le hb ?_ (by decide))) (prog_call s ?_ (fr.postfix_expr _) (cs.postfix_expr _)) (fun v s1 h1 => ?_)
    | with_reducible refine Sat_bind (prog_call s ?_ (fr.postfix_expr _) (cs.postfix_expr _)) (fun v s1 h1 => ?_)
    | with_reducible refine (tm.postfix_expr _ (bound_le hb ?_ (by decide)))
    | with_reducible refine ends_bind (Q := fun _ s1 => Fewer s s1) ?_ ?_ (fun v s1 h1 => ?_)
    | with_reducible refine Sat_bind (Q := fun _ s1 => Fewer s s1) ?_ (fun v s1 h1 => ?_)
    | split

theorem assignment_expr_ends (n : Nat) (tm : Terminates n) (s : luna_parser_t)
    (hb : 25 * remaining s + 18 ≤ n + 1) : Ends (assignment_expr (n + 1) s) := by
  have fr := framed_all noMore_frame n
  have cs := consumes_all n
  have flo : ∀ s, (logical_or_expr n s).Sat fun _ s' => NoMore s s' := fr.level_expr 9
  have clo : ∀ s, (logical_or_expr n s).Sat (Taken s) := cs.level_expr 9
  have tlo : ∀ s, 25 * remaining s + 17 ≤ n → Ends (logical_or_expr n s) :=
    fun s h => tm.level_expr 9 s (Nat.le_refl 9) h
  rw [assignment_expr]
  try dsimp only
  repeat' first
    | assumption
    | with_reducible exact Sat_undefined
    | with_reducible exact Sat_ok_taken_none
    | with_reducible exact noMore_frame.refl _
    | with_reducible exact fewer_noMore (by assumption)
    | with_reducible exact prog_le (by assumption)
    | with_reducible exact prog_lt (by assumption)
    | with_reducible refine fewer_accept_hit (by assumption) (by decide) ?_
    | with_reducible refine fewer_accept_any_hit (by assumption) (by decide) ?_
    | with_reducible refine fewer_next_is (by assumption) (by decide) ?_
    | with_reducible apply noMore_frame.to_accept
    | with_reducible apply noMore_frame.to_peek
    | with_reducible apply noMore_frame.to_next
    | with_reducible apply noMore_frame.to_is
    | with_reducible apply noMore_frame.to_accept_any
    | with_reducible apply noMore_frame.to_context
    | with_reducible apply noMore_frame.to_error
    | with_reducible apply fewer_accept
    | with_reducible apply fewer_peek
    | with_reducible apply fewer_next
    | with_reducible apply fewer_is
    | with_reducible apply fewer_accept_any
    | with_reducible apply fewer_context
    | with_reducible apply fewer_error
    | with_reducible apply Sat_ok_taken
    | with_reducible apply Sat_ok_fewer
    | with_reducible exact Ends_ok
    | with_reducible exact Ends_undefined
    | (with_reducible refine ends_bind (tm.not_expr _ (bound_lt hb ?_ (by decide))) (fewer_call s ?_ (fr.not_expr _)) (fun v s1 h1 => ?_))
    | (with_reducible refine (tm.not_expr _ (bound_lt hb ?_ (by decide))))
    | (with_reducible refine Sat_bind (fewer_call s ?_ (fr.not_expr _)) (fun v s1 h1 => ?_))
    | with_reducible refine ends_bind (tlo _ (bound_le hb ?_ (by decide))) (prog_call s ?_ (flo _) (clo _)) (fun v s1 h1 => ?_)
    | with_reducible refine Sat_bind (prog_call s ?_ (flo _) (clo _)) (fun v s1 h1 => ?_)
    | with_reducible refine (tlo _ (bound_le hb ?_ (by decide)))
    | with_reducible refine ends_bind (Q := fun _ s1 => Fewer s s1) ?_ ?_ (fun v s1 h1 => ?_)
    | with_reducible refine Sat_bind (Q := fun _ s1 => Fewer s s1) ?_ (fun v s1 h1 => ?_)
    | split

theorem not_expr_ends (n : Nat) (tm : Terminates n) (s : luna_parser_t)
    (hb : 25 * remaining s + 19 ≤ n + 1) : Ends (not_expr (n + 1) s) := by
  have fr := framed_all noMore_frame n
  have cs := consumes_all n
  have flo : ∀ s, (logical_or_expr n s).Sat fun _ s' => NoMore s s' := fr.level_expr 9
  have clo : ∀ s, (logical_or_expr n s).Sat (Taken s) := cs.level_expr 9
  have tlo : ∀ s, 25 * remaining s + 17 ≤ n → Ends (logical_or_expr n s) :=
    fun s h => tm.level_expr 9 s (Nat.le_refl 9) h
  rw [not_expr]
  try dsimp only
  repeat' first
    | assumption
    | with_reducible exact Sat_undefined
    | with_reducible exact Sat_ok_taken_none
    | with_reducible exact noMore_frame.refl _
    | with_reducible exact fewer_noMore (by assumption)
    | with_reducible exact prog_le (by assumption)
    | with_reducible exact prog_lt (by assumption)
    | with_reducible refine fewer_accept_hit (by assumption) (by decide) ?_
    | with_reducible refine fewer_accept_any_hit (by assumption) (by decide) ?_
    | with_reducible refine fewer_next_is (by assumption) (by decide) ?_
    | with_reducible apply noMore_frame.to_accept
    | with_reducible apply noMore_frame.to_peek
    | with_reducible apply noMore_frame.to_next
    | with_reducible apply noMore_frame.to_is
    | with_reducible apply noMore_frame.to_accept_any
    | with_reducible apply noMore_frame.to_context
    | with_reducible apply noMore_frame.to_error
    | with_reducible apply fewer_accept
    | with_reducible apply fewer_peek
    | with_reducible apply fewer_next
    | with_reducible apply fewer_is
    | with_reducible apply fewer_accept_any
    | with_reducible apply fewer_context
    | with_reducible apply fewer_error
    | with_reducible apply Sat_ok_taken
    | with_reducible apply Sat_ok_fewer
    | with_reducible exact Ends_ok
    | with_reducible exact Ends_undefined
    | (with_reducible refine ends_bind (tm.not_expr _ (bound_lt hb ?_ (by decide))) (fewer_call s ?_ (fr.not_expr _)) (fun v s1 h1 => ?_))
    | (with_reducible refine (tm.not_expr _ (bound_lt hb ?_ (by decide))))
    | (with_reducible refine Sat_bind (fewer_call s ?_ (fr.not_expr _)) (fun v s1 h1 => ?_))
    | with_reducible refine ends_bind (tm.assignment_expr _ (bound_le hb ?_ (by decide))) (prog_call s ?_ (fr.assignment_expr _) (cs.assignment_expr _)) (fun v s1 h1 => ?_)
    | with_reducible refine Sat_bind (prog_call s ?_ (fr.assignment_expr _) (cs.assignment_expr _)) (fun v s1 h1 => ?_)
    | with_reducible refine (tm.assignment_expr _ (bound_le hb ?_ (by decide)))
    | with_reducible refine ends_bind (Q := fun _ s1 => Fewer s s1) ?_ ?_ (fun v s1 h1 => ?_)
    | with_reducible refine Sat_bind (Q := fun _ s1 => Fewer s s1) ?_ (fun v s1 h1 => ?_)
    | split

theorem expr_ends (n : Nat) (tm : Terminates n) (s : luna_parser_t)
    (hb : 25 * remaining s + 20 ≤ n + 1) : Ends (expr (n + 1) s) := by
  have fr := framed_all noMore_frame n
  have cs := consumes_all n
  have flo : ∀ s, (logical_or_expr n s).Sat fun _ s' => NoMore s s' := fr.level_expr 9
  have clo : ∀ s, (logical_or_expr n s).Sat (Taken s) := cs.level_expr 9
  have tlo : ∀ s, 25 * remaining s + 17 ≤ n → Ends (logical_or_expr n s) :=
    fun s h => tm.level_expr 9 s (Nat.le_refl 9) h
  rw [expr]
  try dsimp only
  repeat' first
    | assumption
    | with_reducible exact Sat_undefined
    | with_reducible exact Sat_ok_taken_none
    | with_reducible exact noMore_frame.refl _
    | with_reducible exact fewer_noMore (by assumption)
    | with_reducible exact prog_le (by assumption)
    | with_reducible exact prog_lt (by assumption)
    | with_reducible refine fewer_accept_hit (by assumption) (by decide) ?_
    | with_reducible refine fewer_accept_any_hit (by assumption) (by decide) ?_
    | with_reducible refine fewer_next_is (by assumption) (by decide) ?_
    | with_reducible apply noMore_frame.to_accept
    | with_reducible apply noMore_frame.to_peek
    | with_reducible apply noMore_frame.to_next
    | with_reducible apply noMore_frame.to_is
    | with_reducible apply noMore_frame.to_accept_any
    | with_reducible apply noMore_frame.to_context
    | with_reducible apply noMore_frame.to_error
    | with_reducible apply fewer_accept
    | with_reducible apply fewer_peek
    | with_reducible apply fewer_next
    | with_reducible apply fewer_is
    | with_reducible apply fewer_accept_any
    | with_reducible apply fewer_context
    | with_reducible apply fewer_error
    | with_reducible apply Sat_ok_taken
    | with_reducible apply Sat_ok_fewer
    | with_reducible exact Ends_ok
    | with_reducible exact Ends_undefined
    | with_reducible refine ends_bind (tm.not_expr _ (bound_le hb ?_ (by decide))) (prog_call s ?_ (fr.not_expr _) (cs.not_expr _)) (fun v s1 h1 => ?_)
    | with_reducible refine Sat_bind (prog_call s ?_ (fr.not_expr _) (cs.not_expr _)) (fun v s1 h1 => ?_)
    | with_reducible refine (tm.not_expr _ (bound_le hb ?_ (by decide)))
    | with_reducible refine ends_bind (Q := fun _ s1 => Fewer s s1) ?_ ?_ (fun v s1 h1 => ?_)
    | with_reducible refine Sat_bind (Q := fun _ s1 => Fewer s s1) ?_ (fun v s1 h1 => ?_)
    | split

theorem expr_stmt_ends (n : Nat) (tm : Terminates n) (s : luna_parser_t)
    (hb : 25 * remaining s + 21 ≤ n + 1) : Ends (expr_stmt (n + 1) s) := by
  have fr := framed_all noMore_frame n
  have cs := consumes_all n
  have flo : ∀ s, (logical_or_expr n s).Sat fun _ s' => NoMore s s' := fr.level_expr 9
  have clo : ∀ s, (logical_or_expr n s).Sat (Taken s) := cs.level_expr 9
  have tlo : ∀ s, 25 * remaining s + 17 ≤ n → Ends (logical_or_expr n s) :=
    fun s h => tm.level_expr 9 s (Nat.le_refl 9) h
  rw [expr_stmt]
  try dsimp only
  repeat' first
    | assumption
    | with_reducible exact Sat_undefined
    | with_reducible exact Sat_ok_taken_none
    | with_reducible exact noMore_frame.refl _
    | with_reducible exact fewer_noMore (by assumption)
    | with_reducible exact prog_le (by assumption)
    | with_reducible exact prog_lt (by assumption)
    | with_reducible refine fewer_accept_hit (by assumption) (by decide) ?_
    | with_reducible refine fewer_accept_any_hit (by assumption) (by decide) ?_
    | with_reducible refine fewer_next_is (by assumption) (by decide) ?_
    | with_reducible apply noMore_frame.to_accept
    | with_reducible apply noMore_frame.to_peek
    | with_reducible apply noMore_frame.to_next
    | with_reducible apply noMore_frame.to_is
    | with_reducible apply noMore_frame.to_accept_any
    | with_reducible apply noMore_frame.to_context
    | with_reducible apply noMore_frame.to_error
    | with_reducible apply fewer_accept
    | with_reducible apply fewer_peek
    | with_reducible apply fewer_next
    | with_reducible apply fewer_is
    | with_reducible apply fewer_accept_any
    | with_reducible apply fewer_context
    | with_reducible apply fewer_error
    | with_reducible apply Sat_ok_taken
    | with_reducible apply Sat_ok_fewer
    | with_reducible exact Ends_ok
    | with_reducible exact Ends_undefined
    | with_reducible refine ends_bind (tm.expr _ (bound_le hb ?_ (by decide))) (prog_call s ?_ (fr.expr _) (cs.expr _)) (fun v s1 h1 => ?_)
    | with_reducible refine Sat_bind (prog_call s ?_ (fr.expr _) (cs.expr _)) (fun v s1 h1 => ?_)
    | with_reducible refine (tm.expr _ (bound_le hb ?_ (by decide)))
    | with_reducible refine ends_bind (Q := fun _ s1 => Fewer s s1) ?_ ?_ (fun v s1 h1 => ?_)
    | with_reducible refine Sat_bind (Q := fun _ s1 => Fewer s s1) ?_ (fun v s1 h1 => ?_)
    | split

theorem type_stmt_loop_ends (n : Nat) (tm : Terminates n) (t : luna_node_t) (s : luna_parser_t)
    (hb : 25 * remaining s + 1 ≤ n + 1) : Ends (type_stmt_loop (n + 1) t s) := by
  have fr := framed_all noMore_frame n
  have cs := consumes_all n
  have flo : ∀ s, (logical_or_expr n s).Sat fun _ s' => NoMore s s' := fr.level_expr 9
  have clo : ∀ s, (logical_or_expr n s).Sat (Taken s) := cs.level_expr 9
  have tlo : ∀ s, 25 * remaining s + 17 ≤ n → Ends (logical_or_expr n s) :=
    fun s h => tm.level_expr 9 s (Nat.le_refl 9) h
  rw [type_stmt_loop]
  try dsimp only
  repeat' first
    | assumption
    | with_reducible exact Sat_undefined
    | with_reducible exact Sat_ok_taken_none
    | with_reducible exact noMore_frame.refl _
    | with_reducible exact fewer_noMore (by assumption)
    | with_reducible exact prog_le (by assumption)
    | with_reducible exact prog_lt (by assumption)
    | with_reducible refine fewer_accept_hit (by assumption) (by decide) ?_
    | with_reducible refine fewer_accept_any_hit (by assumption) (by decide) ?_
    | with_reducible refine fewer_next_is (by assumption) (by decide) ?_
    | with_reducible apply noMore_frame.to_accept
    | with_reducible apply noMore_frame.to_peek
    | with_reducible apply noMore_frame.to_next
    | with_reducible apply noMore_frame.to_is
    | with_reducible apply noMore_frame.to_accept_any
    | with_reducible apply noMore_frame.to_context
    | with_reducible apply noMore_frame.to_error
    | with_reducible apply fewer_accept
    | with_reducible apply fewer_peek
    | with_reducible apply fewer_next
    | with_reducible apply fewer_is
    | with_reducible apply fewer_accept_any
    | with_reducible apply fewer_context
    | with_reducible apply fewer_error
    | with_reducible apply Sat_ok_taken
    | with_reducible apply Sat_ok_fewer
    | with_reducible exact Ends_ok
    | with_reducible exact Ends_undefined
    | (with_reducible refine ends_bind (tm.type_stmt_loop _ _ (bound_lt hb ?_ (by decide))) (fewer_call s ?_ (fr.type_stmt_loop _ _)) (fun v s1 h1 => ?_))
    | (with_reducible refine (tm.type_stmt_loop _ _ (bound_lt hb ?_ (by decide))))
    | (with_reducible refine Sat_bind (fewer_call s ?_ (fr.type_stmt_loop _ _)) (fun v s1 h1 => ?_))
    | with_reducible refine ends_bind (Q := fun _ s1 => Fewer s s1) ?_ ?_ (fun v s1 h1 => ?_)
    | with_reducible refine Sat_bind (Q := fun _ s1 => Fewer s s1) ?_ (fun v s1 h1 => ?_)
    | split

theorem type_stmt_ends (n : Nat) (tm : Terminates n) (s : luna_parser_t)
    (hb : 25 * remaining s + 2 ≤ n + 1) : Ends (type_stmt (n + 1) s) := by
  have fr := framed_all noMore_frame n
  have cs := consumes_all n
  have flo : ∀ s, (logical_or_expr n s).Sat fun _ s' => NoMore s s' := fr.level_expr 9
  have clo : ∀ s, (logical_or_expr n s).Sat (Taken s) := cs.level_expr 9
  have tlo : ∀ s, 25 * remaining s + 17 ≤ n → Ends (logical_or_expr n s) :=
    fun s h => tm.level_expr 9 s (Nat.le_refl 9) h
  rw [type_stmt]
  try dsimp only
  repeat' first
    | assumption
    | with_reducible exact Sat_undefined
    | with_reducible exact Sat_ok_taken_none
    | with_reducible exact noMore_frame.refl _
    | with_reducible exact fewer_noMore (by assumption)
    | with_reducible exact prog_le (by assumption)
    | with_reducible exact prog_lt (by assumption)
    | with_reducible refine fewer_accept_hit (by assumption) (by decide) ?_
    | with_reducible refine fewer_accept_any_hit (by assumption) (by decide) ?_
    | with_reducible refine fewer_next_is (by assumption) (by decide) ?_
    | with_reducible apply noMore_frame.to_accept
    | with_reducible apply noMore_frame.to_peek
    | with_reducible apply noMore_frame.to_next
    | with_reducible apply noMore_frame.to_is
    | with_reducible apply noMore_frame.to_accept_any
    | with_reducible apply noMore_frame.to_context
    | with_reducible apply noMore_frame.to_error
    | with_reducible apply fewer_accept
    | with_reducible apply fewer_peek
    | with_reducible apply fewer_next
    | with_reducible apply fewer_is
    | with_reducible apply fewer_accept_any
    | with_reducible apply fewer_context
    | with_reducible apply fewer_error
    | with_reducible apply Sat_ok_taken
    | with_reducible apply Sat_ok_fewer
    | with_reducible exact Ends_ok
    | with_reducible exact Ends_undefined
    | (with_reducible refine ends_bind (tm.type_stmt_loop _ _ (bound_lt hb ?_ (by decide))) (fewer_call s ?_ (fr.type_stmt_loop _ _)) (fun v s1 h1 => ?_))
    | (with_reducible refine (tm.type_stmt_loop _ _ (bound_lt hb ?_ (by decide))))
    | (with_reducible refine Sat_bind (fewer_call s ?_ (fr.type_stmt_loop _ _)) (fun v s1 h1 => ?_))
    | with_reducible refine ends_bind (Q := fun _ s1 => Fewer s s1) ?_ ?_ (fun v s1 h1 => ?_)
    | with_reducible refine Sat_bind (Q := fun _ s1 => Fewer s s1) ?_ (fun v s1 h1 => ?_)
    | split

theorem function_params_loop_ends (n : Nat) (tm : Terminates n) (p : List luna_node_t) (s : luna_parser_t)
    (hb : 25 * remaining s + 1 ≤ n + 1) : Ends (function_params_loop (n + 1) p s) := by
  have fr := framed_all noMore_frame n
  have cs := consumes_all n
  have flo : ∀ s, (logical_or_expr n s).Sat fun _ s' => NoMore s s' := fr.level_expr 9
  have clo : ∀ s, (logical_or_expr n s).Sat (Taken s) := cs.level_expr 9
  have tlo : ∀ s, 25 * remaining s + 17 ≤ n → Ends (logical_or_expr n s) :=
    fun s h => tm.level_expr 9 s (Nat.le_refl 9) h
  rw [function_params_loop]
  try dsimp only
  repeat' first
    | assumption
    | with_reducible exact Sat_undefined
    | with_reducible exact Sat_ok_taken_none
    | with_reducible exact noMore_frame.refl _
    | with_reducible exact fewer_noMore (by assumption)
    | with_reducible exact prog_le (by assumption)
    | with_reducible exact prog_lt (by assumption)
    | with_reducible refine fewer_accept_hit (by assumption) (by decide) ?_
    | with_reducible refine fewer_accept_any_hit (by assumption) (by decide) ?_
    | with_reducible refine fewer_next_is (by assumption) (by decide) ?_
    | with_reducible apply noMore_frame.to_accept
    | with_reducible apply noMore_frame.to_peek
    | with_reducible apply noMore_frame.to_next
    | with_reducible apply noMore_frame.to_is
    | with_reducible apply noMore_frame.to_accept_any
    | with_reducible apply noMore_frame.to_context
    | with_reducible apply noMore_frame.to_error
    | with_reducible apply fewer_accept
    | with_reducible apply fewer_peek
    | with_reducible apply fewer_next
    | with_reducible apply fewer_is
    | with_reducible apply fewer_accept_any
    | with_reducible apply fewer_context
    | with_reducible apply fewer_error
    | with_reducible apply Sat_ok_taken
    | with_reducible apply Sat_ok_fewer
    | with_reducible exact Ends_ok
    | with_reducible exact Ends_undefined
    | (with_reducible refine ends_bind (tm.expr _ (bound_lt hb ?_ (by decide))) (fewer_call s ?_ (fr.expr _)) (fun v s1 h1 => ?_))
    | (with_reducible refine (tm.expr _ (bound_lt hb ?_ (by decide))))
    | (with_reducible refine Sat_bind (fewer_call s ?_ (fr.expr _)) (fun v s1 h1 => ?_))
    | (with_reducible refine ends_bind (tm.function_params_loop _ _ (bound_lt hb ?_ (by decide))) (fewer_call s ?_ (fr.function_params_loop _ _)) (fun v s1 h1 => ?_))
    | (with_reducible refine (tm.function_params_loop _ _ (bound_lt hb ?_ (by decide))))
    | (with_reducible refine Sat_bind (fewer_call s ?_ (fr.function_params_loop _ _)) (fun v s1 h1 => ?_))
    | with_reducible refine ends_bind (Q := fun _ s1 => Fewer s s1) ?_ ?_ (fun v s1 h1 => ?_)
    | with_reducible refine Sat_bind (Q := fun _ s1 => Fewer s s1) ?_ (fun v s1 h1 => ?_)
    | split

theorem function_params_ends (n : Nat) (tm : Terminates n) (s : luna_parser_t)
    (hb : 25 * remaining s + 2 ≤ n + 1) : Ends (function_params (n + 1) s) := by
  have fr := framed_all noMore_frame n
  have cs := consumes_all n
  have flo : ∀ s, (logical_or_expr n s).Sat fun _ s' => NoMore s s' := fr.level_expr 9
  have clo : ∀ s, (logical_or_expr n s).Sat (Taken s) := cs.level_expr 9
  have tlo : ∀ s, 25 * remaining s + 17 ≤ n → Ends (logical_or_expr n s) :=
    fun s h => tm.level_expr 9 s (Nat.le_refl 9) h
  rw [function_params]
  try dsimp only
  repeat' first
    | assumption
    | with_reducible exact Sat_undefined
    | with_reducible exact Sat_ok_taken_none
    | with_reducible exact noMore_frame.refl _
    | with_reducible exact fewer_noMore (by assumption)
    | with_reducible exact prog_le (by assumption)
    | with_reducible exact prog_lt (by assumption)
    | with_reducible refine fewer_accept_hit (by assumption) (by decide) ?_
    | with_reducible refine fewer_accept_any_hit (by assumption) (by decide) ?_
    | with_reducible refine fewer_next_is (by assumption) (by decide) ?_
    | with_reducible apply noMore_frame.to_accept
    | with_reducible apply noMore_frame.to_peek
    | with_reducible apply noMore_frame.to_next
    | with_reducible apply noMore_frame.to_is
    | with_reducible apply noMore_frame.to_accept_any
    | with_reducible apply noMore_frame.to_context
    | with_reducible apply noMore_frame.to_error
    | with_reducible apply fewer_accept
    | with_reducible apply fewer_peek
    | with_reducible apply fewer_next
    | with_reducible apply fewer_is
    | with_reducible apply fewer_accept_any
    | with_reducible apply fewer_context
    | with_reducible apply fewer_error
    | with_reducible apply Sat_ok_taken
    | with_reducible apply Sat_ok_fewer
    | with_reducible exact Ends_ok
    | with_reducible exact Ends_undefined
    | with_reducible refine (tm.function_params_loop _ _ (bound_le hb ?_ (by decide)))
    | with_reducible refine ends_bind (Q := fun _ s1 => Fewer s s1) ?_ ?_ (fun v s1 h1 => ?_)
    | with_reducible refine Sat_bind (Q := fun _ s1 => Fewer s s1) ?_ (fun v s1 h1 => ?_)
    | split

theorem function_stmt_ends (n : Nat) (tm : Terminates n) (s : luna_parser_t)
    (hb : 25 * remaining s + 1 ≤ n + 1) : Ends (function_stmt (n + 1) s) := by
  have fr := framed_all noMore_frame n
  have cs := consumes_all n
  have flo : ∀ s, (logical_or_expr n s).Sat fun _ s' => NoMore s s' := fr.level_expr 9
  have clo : ∀ s, (logical_or_expr n s).Sat (Taken s) := cs.level_expr 9
  have tlo : ∀ s, 25 * remaining s + 17 ≤ n → Ends (logical_or_expr n s) :=
    fun s h => tm.level_expr 9 s (Nat.le_refl 9) h
  rw [function_stmt]
  try dsimp only
  repeat' first
    | assumption
    | with_reducible exact Sat_undefined
    | with_reducible exact Sat_ok_taken_none
    | with_reducible exact noMore_frame.refl _
    | with_reducible exact fewer_noMore (by assumption)
    | with_reducible exact prog_le (by assumption)
    | with_reducible exact prog_lt (by assumption)
    | with_reducible refine fewer_accept_hit (by assumption) (by decide) ?_
    | with_reducible refine fewer_accept_any_hit (by assumption) (by decide) ?_
    | with_reducible refine fewer_next_is (by assumption) (by decide) ?_
    | with_reducible apply noMore_frame.to_accept
    | with_reducible apply noMore_frame.to_peek
    | with_reducible apply noMore_frame.to_next
    | with_reducible apply noMore_frame.to_is
    | with_reducible apply noMore_frame.to_accept_any
    | with_reducible apply noMore_frame.to_context
    | with_reducible apply noMore_frame.to_error
    | with_reducible apply fewer_accept
    | with_reducible apply fewer_peek
    | with_reducible apply fewer_next
    | with_reducible apply fewer_is
    | with_reducible apply fewer_accept_any
    | with_reducible apply fewer_context
    | with_reducible apply fewer_error
    | with_reducible apply Sat_ok_taken
    | with_reducible apply Sat_ok_fewer
    | with_reducible exact Ends_ok
    | with_reducible exact Ends_undefined
    | (with_reducible refine ends_bind (tm.function_params _ (bound_lt hb ?_ (by decide))) (fewer_call s ?_ (fr.function_params _)) (fun v s1 h1 => ?_))
    | (with_reducible refine (tm.function_params _ (bound_lt hb ?_ (by decide))))
    | (with_reducible refine Sat_bind (fewer_call s ?_ (fr.function_params _)) (fun v s1 h1 => ?_))
    | (with_reducible refine ends_bind (tm.block _ (bound_lt hb ?_ (by decide))) (fewer_call s ?_ (fr.block _)) (fun v s1 h1 => ?_))
    | (with_reducible refine (tm.block _ (bound_lt hb ?_ (by decide))))
    | (with_reducible refine Sat_bind (fewer_call s ?_ (fr.block _)) (fun v s1 h1 => ?_))
    | with_reducible refine ends_bind (Q := fun _ s1 => Fewer s s1) ?_ ?_ (fun v s1 h1 => ?_)
    | with_reducible refine Sat_bind (Q := fun _ s1 => Fewer s s1) ?_ (fun v s1 h1 => ?_)
    | split

theorem if_stmt_loop_ends (n : Nat) (tm : Terminates n) (ng : Bool) (c : luna_node_t) (b : luna_block_node_t) (e : List luna_node_t) (s : luna_parser_t)
    (hb : 25 * remaining s + 1 ≤ n + 1) : Ends (if_stmt_loop (n + 1) ng c b e s) := by
  have fr := framed_all noMore_frame n
  have cs := consumes_all n
  have flo : ∀ s, (logical_or_expr n s).Sat fun _ s' => NoMore s s' := fr.level_expr 9
  have clo : ∀ s, (logical_or_expr n s).Sat (Taken s) := cs.level_expr 9
  have tlo : ∀ s, 25 * remaining s + 17 ≤ n → Ends (logical_or_expr n s) :=
    fun s h => tm.level_expr 9 s (Nat.le_refl 9) h
  rw [if_stmt_loop]
  try dsimp only
  repeat' first
    | assumption
    | with_reducible exact Sat_undefined
    | with_reducible exact Sat_ok_taken_none
    | with_reducible exact noMore_frame.refl _
    | with_reducible exact fewer_noMore (by assumption)
    | with_reducible exact prog_le (by assumption)
    | with_reducible exact prog_lt (by assumption)
    | with_reducible refine fewer_accept_hit (by assumption) (by decide) ?_
    | with_reducible refine fewer_accept_any_hit (by assumption) (by decide) ?_
    | with_reducible refine fewer_next_is (by assumption) (by decide) ?_
    | with_reducible apply noMore_frame.to_accept
    | with_reducible apply noMore_frame.to_peek
    | with_reducible apply noMore_frame.to_next
    | with_reducible apply noMore_frame.to_is
    | with_reducible apply noMore_frame.to_accept_any
    | with_reducible apply noMore_frame.to_context
    | with_reducible apply noMore_frame.to_error
    | with_reducible apply fewer_accept
    | with_reducible apply fewer_peek
    | with_reducible apply fewer_next
    | with_reducible apply fewer_is
    | with_reducible apply fewer_accept_any
    | with_reducible apply fewer_context
    | with_reducible apply fewer_error
    | with_reducible apply Sat_ok_taken
    | with_reducible apply Sat_ok_fewer
    | with_reducible exact Ends_ok
    | with_reducible exact Ends_undefined
    | (with_reducible refine ends_bind (tm.expr _ (bound_lt hb ?_ (by decide))) (fewer_call s ?_ (fr.expr _)) (fun v s1 h1 => ?_))
    | (with_reducible refine (tm.expr _ (bound_lt hb ?_ (by decide))))
    | (with_reducible refine Sat_bind (fewer_call s ?_ (fr.expr _)) (fun v s1 h1 => ?_))
    | (with_reducible refine ends_bind (tm.block _ (bound_lt hb ?_ (by decide))) (fewer_call s ?_ (fr.block _)) (fun v s1 h1 => ?_))
    | (with_reducible refine (tm.block _ (bound_lt hb ?_ (by decide))))
    | (with_reducible refine Sat_bind (fewer_call s ?_ (fr.block _)) (fun v s1 h1 => ?_))
    | (with_reducible refine ends_bind (tm.if_stmt_loop _ _ _ _ _ (bound_lt hb ?_ (by decide))) (fewer_call s ?_ (fr.if_stmt_loop _ _ _ _ _)) (fun v s1 h1 => ?_))
    | (with_reducible refine (tm.if_stmt_loop _ _ _ _ _ (bound_lt hb ?_ (by decide))))
    | (with_reducible refine Sat_bind (fewer_call s ?_ (fr.if_stmt_loop _ _ _ _ _)) (fun v s1 h1 => ?_))
    | with_reducible refine ends_bind (Q := fun _ s1 => Fewer s s1) ?_ ?_ (fun v s1 h1 => ?_)
    | with_reducible refine Sat_bind (Q := fun _ s1 => Fewer s s1) ?_ (fun v s1 h1 => ?_)
    | split

theorem if_stmt_ends (n : Nat) (tm : Terminates n) (s : luna_parser_t)
    (hb : 25 * remaining s + 1 ≤ n + 1) : Ends (if_stmt (n + 1) s) := by
  have fr := framed_all noMore_frame n
  have cs := consumes_all n
  have flo : ∀ s, (logical_or_expr n s).Sat fun _ s' => NoMore s s' := fr.level_expr 9
  have clo : ∀ s, (logical_or_expr n s).Sat (Taken s) := cs.level_expr 9
  have tlo : ∀ s, 25 * remaining s + 17 ≤ n → Ends (logical_or_expr n s) :=
    fun s h => tm.level_expr 9 s (Nat.le_refl 9) h
  rw [if_stmt]
  try dsimp only
  repeat' first
    | assumption
    | with_reducible exact Sat_undefined
    | with_reducible exact Sat_ok_taken_none
    | with_reducible exact noMore_frame.refl _
    | with_reducible exact fewer_noMore (by assumption)
    | with_reducible exact prog_le (by assumption)
    | with_reducible exact prog_lt (by assumption)
    | with_reducible refine fewer_accept_hit (by assumption) (by decide) ?_
    | with_reducible refine fewer_accept_any_hit (by assumption) (by decide) ?_
    | with_reducible refine fewer_next_is (by assumption) (by decide) ?_
    | with_reducible apply noMore_frame.to_accept
    | with_reducible apply noMore_frame.to_peek
    | with_reducible apply noMore_frame.to_next
    | with_reducible apply noMore_frame.to_is
    | with_reducible apply noMore_frame.to_accept_any
    | with_reducible apply noMore_frame.to_context
    | with_reducible apply noMore_frame.to_error
    | with_reducible apply fewer_accept
    | with_reducible apply fewer_peek
    | with_reducible apply fewer_next
    | with_reducible apply fewer_is
    | with_reducible apply fewer_accept_any
    | with_reducible apply fewer_context
    | with_reducible apply fewer_error
    | with_reducible apply Sat_ok_taken
    | with_reducible apply Sat_ok_fewer
    | with_reducible exact Ends_ok
    | with_reducible exact Ends_undefined
    | (with_reducible refine ends_bind (tm.expr _ (bound_lt hb ?_ (by decide))) (fewer_call s ?_ (fr.expr _)) (fun v s1 h1 => ?_))
    | (with_reducible refine (tm.expr _ (bound_lt hb ?_ (by decide))))
    | (with_reducible refine Sat_bind (fewer_call s ?_ (fr.expr _)) (fun v s1 h1 => ?_))
    | (with_reducible refine ends_bind (tm.block _ (bound_lt hb ?_ (by decide))) (fewer_call s ?_ (fr.block _)) (fun v s1 h1 => ?_))
    | (with_reducible refine (tm.block _ (bound_lt hb ?_ (by decide))))
    | (with_reducible refine Sat_bind (fewer_call s ?_ (fr.block _)) (fun v s1 h1 => ?_))
    | (with_reducible refine ends_bind (tm.if_stmt_loop _ _ _ _ _ (bound_lt hb ?_ (by decide))) (fewer_call s ?_ (fr.if_stmt_loop _ _ _ _ _)) (fun v s1 h1 => ?_))
    | (with_reducible refine (tm.if_stmt_loop _ _ _ _ _ (bound_lt hb ?_ (by decide))))
    | (with_reducible refine Sat_bind (fewer_call s ?_ (fr.if_stmt_loop _ _ _ _ _)) (fun v s1 h1 => ?_))
    | with_reducible refine ends_bind (Q := fun _ s1 => Fewer s s1) ?_ ?_ (fun v s1 h1 => ?_)
    | with_reducible refine Sat_bind (Q := fun _ s1 => Fewer s s1) ?_ (fun v s1 h1 => ?_)
    | split

theorem while_stmt_ends (n : Nat) (tm : Terminates n) (s : luna_parser_t)
    (hb : 25 * remaining s + 1 ≤ n + 1) : Ends (while_stmt (n + 1) s) := by
  have fr := framed_all noMore_frame n
  have cs := consumes_all n
  have flo : ∀ s, (logical_or_expr n s).Sat fun _ s' => NoMore s s' := fr.level_expr 9
  have clo : ∀ s, (logical_or_expr n s).Sat (Taken s) := cs.level_expr 9
  have tlo : ∀ s, 25 * remaining s + 17 ≤ n → Ends (logical_or_expr n s) :=
    fun s h => tm.level_expr 9 s (Nat.le_refl 9) h
  rw [while_stmt]
  try dsimp only
  repeat' first
    | assumption
    | with_reducible exact Sat_undefined
    | with_reducible exact Sat_ok_taken_none
    | with_reducible exact noMore_frame.refl _
    | with_reducible exact fewer_noMore (by assumption)
    | with_reducible exact prog_le (by assumption)
    | with_reducible exact prog_lt (by assumption)
    | with_reducible refine fewer_accept_hit (by assumption) (by decide) ?_
    | with_reducible refine fewer_accept_any_hit (by assumption) (by decide) ?_
    | with_reducible refine fewer_next_is (by assumption) (by decide) ?_
    | with_reducible apply noMore_frame.to_accept
    | with_reducible apply noMore_frame.to_peek
    | with_reducible apply noMore_frame.to_next
    | with_reducible apply noMore_frame.to_is
    | with_reducible apply noMore_frame.to_accept_any
    | with_reducible apply noMore_frame.to_context
    | with_reducible apply noMore_frame.to_error
    | with_reducible apply fewer_accept
    | with_reducible apply fewer_peek
    | with_reducible apply fewer_next
    | with_reducible apply fewer_is
    | with_reducible apply fewer_accept_any
    | with_reducible apply fewer_context
    | with_reducible apply fewer_error
    | with_reducible apply Sat_ok_taken
    | with_reducible apply Sat_ok_fewer
    | with_reducible exact Ends_ok
    | with_reducible exact Ends_undefined
    | (with_reducible refine ends_bind (tm.expr _ (bound_lt hb ?_ (by decide))) (fewer_call s ?_ (fr.expr _)) (fun v s1 h1 => ?_))
    | (with_reducible refine (tm.expr _ (bound_lt hb ?_ (by decide))))
    | (with_reducible refine Sat_bind (fewer_call s ?_ (fr.expr _)) (fun v s1 h1 => ?_))
    | (with_reducible refine ends_bind (tm.block _ (bound_lt hb ?_ (by decide))) (fewer_call s ?_ (fr.block _)) (fun v s1 h1 => ?_))
    | (with_reducible refine (tm.block _ (bound_lt hb ?_ (by decide))))
    | (with_reducible refine Sat_bind (fewer_call s ?_ (fr.block _)) (fun v s1 h1 => ?_))
    | with_reducible refine ends_bind (Q := fun _ s1 => Fewer s s1) ?_ ?_ (fun v s1 h1 => ?_)
    | with_reducible refine Sat_bind (Q := fun _ s1 => Fewer s s1) ?_ (fun v s1 h1 => ?_)
    | split

theorem return_stmt_ends (n : Nat) (tm : Terminates n) (s : luna_parser_t)
    (hb : 25 * remaining s + 1 ≤ n + 1) : Ends (return_stmt (n + 1) s) := by
  have fr := framed_all noMore_frame n
  have cs := consumes_all n
  have flo : ∀ s, (logical_or_expr n s).Sat fun _ s' => NoMore s s' := fr.level_expr 9
  have clo : ∀ s, (logical_or_expr n s).Sat (Taken s) := cs.level_expr 9
  have tlo : ∀ s, 25 * remaining s + 17 ≤ n → Ends (logical_or_expr n s) :=
    fun s h => tm.level_expr 9 s (Nat.le_refl 9) h
  rw [return_stmt]
  try dsimp only
  repeat' first
    | assumption
    | with_reducible exact Sat_undefined
    | with_reducible exact Sat_ok_taken_none
    | with_reducible exact noMore_frame.refl _
    | with_reducible exact fewer_noMore (by assumption)
    | with_reducible exact prog_le (by assumption)
    | with_reducible exact prog_lt (by assumption)
    | with_reducible refine fewer_accept_hit (by assumption) (by decide) ?_
    | with_reducible refine fewer_accept_any_hit (by assumption) (by decide) ?_
    | with_reducible refine fewer_next_is (by assumption) (by decide) ?_
    | with_reducible apply noMore_frame.to_accept
    | with_reducible apply noMore_frame.to_peek
    | with_reducible apply noMore_frame.to_next
    | with_reducible apply noMore_frame.to_is
    | with_reducible apply noMore_frame.to_accept_any
    | with_reducible apply noMore_frame.to_context
    | with_reducible apply noMore_frame.to_error
    | with_reducible apply fewer_accept
    | with_reducible apply fewer_peek
    | with_reducible apply fewer_next
    | with_reducible apply fewer_is
    | with_reducible apply fewer_accept_any
    | with_reducible apply fewer_context
    | with_reducible apply fewer_error
    | with_reducible apply Sat_ok_taken
    | with_reducible apply Sat_ok_fewer
    | with_reducible exact Ends_ok
    | with_reducible exact Ends_undefined
    | (with_reducible refine ends_bind (tm.expr _ (bound_lt hb ?_ (by decide))) (fewer_call s ?_ (fr.expr _)) (fun v s1 h1 => ?_))
    | (with_reducible refine (tm.expr _ (bound_lt hb ?_ (by decide))))
    | (with_reducible refine Sat_bind (fewer_call s ?_ (fr.expr _)) (fun v s1 h1 => ?_))
    | with_reducible refine ends_bind (Q := fun _ s1 => Fewer s s1) ?_ ?_ (fun v s1 h1 => ?_)
    | with_reducible refine Sat_bind (Q := fun _ s1 => Fewer s s1) ?_ (fun v s1 h1 => ?_)
    | split

theorem stmt_ends (n : Nat) (tm : Terminates n) (s : luna_parser_t)
    (hb : 25 * remaining s + 22 ≤ n + 1) : Ends (stmt (n + 1) s) := by
  have fr := framed_all noMore_frame n
  have cs := consumes_all n
  have flo : ∀ s, (logical_or_expr n s).Sat fun _ s' => NoMore s s' := fr.level_expr 9
  have clo : ∀ s, (logical_or_expr n s).Sat (Taken s) := cs.level_expr 9
  have tlo : ∀ s, 25 * remaining s + 17 ≤ n → Ends (logical_or_expr n s) :=
    fun s h => tm.level_expr 9 s (Nat.le_refl 9) h
  rw [stmt]
  try dsimp only
  repeat' first
    | assumption
    | with_reducible exact Sat_undefined
    | with_reducible exact Sat_ok_taken_none
    | with_reducible exact noMore_frame.refl _
    | with_reducible exact fewer_noMore (by assumption)
    | with_reducible exact prog_le (by assumption)
    | with_reducible exact prog_lt (by assumption)
    | with_reducible refine fewer_accept_hit (by assumption) (by decide) ?_
    | with_reducible refine fewer_accept_any_hit (by assumption) (by decide) ?_
    | with_reducible refine fewer_next_is (by assumption) (by decide) ?_
    | with_reducible apply noMore_frame.to_accept
    | with_reducible apply noMore_frame.to_peek
    | with_reducible apply noMore_frame.to_next
    | with_reducible apply noMore_frame.to_is
    | with_reducible apply noMore_frame.to_accept_any
    | with_reducible apply noMore_frame.to_context
    | with_reducible apply noMore_frame.to_error
    | with_reducible apply fewer_accept
    | with_reducible apply fewer_peek
    | with_reducible apply fewer_next
    | with_reducible apply fewer_is
    | with_reducible apply fewer_accept_any
    | with_reducible apply fewer_context
    | with_reducible apply fewer_error
    | with_reducible apply Sat_ok_taken
    | with_reducible apply Sat_ok_fewer
    | with_reducible exact Ends_ok
    | with_reducible exact Ends_undefined
    | with_reducible refine ends_bind (tm.if_stmt _ (bound_le hb ?_ (by decide))) (prog_call s ?_ (fr.if_stmt _) (cs.if_stmt _)) (fun v s1 h1 => ?_)
    | with_reducible refine Sat_bind (prog_call s ?_ (fr.if_stmt _) (cs.if_stmt _)) (fun v s1 h1 => ?_)
    | with_reducible refine (tm.if_stmt _ (bound_le hb ?_ (by decide)))
    | with_reducible refine ends_bind (tm.while_stmt _ (bound_le hb ?_ (by decide))) (prog_call s ?_ (fr.while_stmt _) (cs.while_stmt _)) (fun v s1 h1 => ?_)
    | with_reducible refine Sat_bind (prog_call s ?_ (fr.while_stmt _) (cs.while_stmt _)) (fun v s1 h1 => ?_)
    | with_reducible refine (tm.while_stmt _ (bound_le hb ?_ (by decide)))
    | with_reducible refine ends_bind (tm.return_stmt _ (bound_le hb ?_ (by decide))) (prog_call s ?_ (fr.return_stmt _) (cs.return_stmt _)) (fun v s1 h1 => ?_)
    | with_reducible refine Sat_bind (prog_call s ?_ (fr.return_stmt _) (cs.return_stmt _)) (fun v s1 h1 => ?_)
    | with_reducible refine (tm.return_stmt _ (bound_le hb ?_ (by decide)))
    | with_reducible refine ends_bind (tm.function_stmt _ (bound_le hb ?_ (by decide))) (prog_call s ?_ (fr.function_stmt _) (cs.function_stmt _)) (fun v s1 h1 => ?_)
    | with_reducible refine Sat_bind (prog_call s ?_ (fr.function_stmt _) (cs.function_stmt _)) (fun v s1 h1 => ?_)
    | with_reducible refine (tm.function_stmt _ (bound_le hb ?_ (by decide)))
    | with_reducible refine ends_bind (tm.type_stmt _ (bound_le hb ?_ (by decide))) (prog_call s ?_ (fr.type_stmt _) (cs.type_stmt _)) (fun v s1 h1 => ?_)
    | with_reducible refine Sat_bind (prog_call s ?_ (fr.type_stmt _) (cs.type_stmt _)) (fun v s1 h1 => ?_)
    | with_reducible refine (tm.type_stmt _ (bound_le hb ?_ (by decide)))
    | with_reducible refine ends_bind (tm.expr_stmt _ (bound_le hb ?_ (by decide))) (prog_call s ?_ (fr.expr_stmt _) (cs.expr_stmt _)) (fun v s1 h1 => ?_)
    | with_reducible refine Sat_bind (prog_call s ?_ (fr.expr_stmt _) (cs.expr_stmt _)) (fun v s1 h1 => ?_)
    | with_reducible refine (tm.expr_stmt _ (bound_le hb ?_ (by decide)))
    | with_reducible refine ends_bind (Q := fun _ s1 => Fewer s s1) ?_ ?_ (fun v s1 h1 => ?_)
    | with_reducible refine Sat_bind (Q := fun _ s1 => Fewer s s1) ?_ (fun v s1 h1 => ?_)
    | split

theorem block_loop_ends (n : Nat) (tm : Terminates n) (st : List luna_node_t) (s : luna_parser_t)
    (hb : 25 * remaining s + 23 ≤ n + 1) : Ends (block_loop (n + 1) st s) := by
  have fr := framed_all noMore_frame n
  have cs := consumes_all n
  have flo : ∀ s, (logical_or_expr n s).Sat fun _ s' => NoMore s s' := fr.level_expr 9
  have clo : ∀ s, (logical_or_expr n s).Sat (Taken s) := cs.level_expr 9
  have tlo : ∀ s, 25 * remaining s + 17 ≤ n → Ends (logical_or_expr n s) :=
    fun s h => tm.level_expr 9 s (Nat.le_refl 9) h
  rw [block_loop]
  try dsimp only
  repeat' first
    | assumption
    | with_reducible exact Sat_undefined
    | with_reducible exact Sat_ok_taken_none
    | with_reducible exact noMore_frame.refl _
    | with_reducible exact fewer_noMore (by assumption)
    | with_reducible exact prog_le (by assumption)
    | with_reducible exact prog_lt (by assumption)
    | with_reducible refine fewer_accept_hit (by assumption) (by decide) ?_
    | with_reducible refine fewer_accept_any_hit (by assumption) (by decide) ?_
    | with_reducible refine fewer_next_is (by assumption) (by decide) ?_
    | with_reducible apply noMore_frame.to_accept
    | with_reducible apply noMore_frame.to_peek
    | with_reducible apply noMore_frame.to_next
    | with_reducible apply noMore_frame.to_is
    | with_reducible apply noMore_frame.to_accept_any
    | with_reducible apply noMore_frame.to_context
    | with_reducible apply noMore_frame.to_error
    | with_reducible apply fewer_accept
    | with_reducible apply fewer_peek
    | with_reducible apply fewer_next
    | with_reducible apply fewer_is
    | with_reducible apply fewer_accept_any
    | with_reducible apply fewer_context
    | with_reducible apply fewer_error
    | with_reducible apply Sat_ok_taken
    | with_reducible apply Sat_ok_fewer
    | with_reducible exact Ends_ok
    | with_reducible exact Ends_undefined
    | (with_reducible refine ends_bind (tm.block_loop _ _ (bound_lt hb ?_ (by decide))) (fewer_call s ?_ (fr.block_loop _ _)) (fun v s1 h1 => ?_))
    | (with_reducible refine (tm.block_loop _ _ (bound_lt hb ?_ (by decide))))
    | (with_reducible refine Sat_bind (fewer_call s ?_ (fr.block_loop _ _)) (fun v s1 h1 => ?_))
    | with_reducible refine ends_bind (tm.stmt _ (bound_le hb ?_ (by decide))) (prog_call s ?_ (fr.stmt _) (cs.stmt _)) (fun v s1 h1 => ?_)
    | with_reducible refine Sat_bind (prog_call s ?_ (fr.stmt _) (cs.stmt _)) (fun v s1 h1 => ?_)
    | with_reducible refine (tm.stmt _ (bound_le hb ?_ (by decide)))
    | with_reducible refine ends_bind (Q := fun _ s1 => Fewer s s1) ?_ ?_ (fun v s1 h1 => ?_)
    | with_reducible refine Sat_bind (Q := fun _ s1 => Fewer s s1) ?_ (fun v s1 h1 => ?_)
    | split

theorem block_ends (n : Nat) (tm : Terminates n) (s : luna_parser_t)
    (hb : 25 * remaining s + 24 ≤ n + 1) : Ends (block (n + 1) s) := by
  have fr := framed_all noMore_frame n
  have cs := consumes_all n
  have flo : ∀ s, (logical_or_expr n s).Sat fun _ s' => NoMore s s' := fr.level_expr 9
  have clo : ∀ s, (logical_or_expr n s).Sat (Taken s) := cs.level_expr 9
  have tlo : ∀ s, 25 * remaining s + 17 ≤ n → Ends (logical_or_expr n s) :=
    fun s h => tm.level_expr 9 s (Nat.le_refl 9) h
  rw [block]
  try dsimp only
  repeat' first
    | assumption
    | with_reducible exact Sat_undefined
    | with_reducible exact Sat_ok_taken_none
    | with_reducible exact noMore_frame.refl _
    | with_reducible exact fewer_noMore (by assumption)
    | with_reducible exact prog_le (by assumption)
    | with_reducible exact prog_lt (by assumption)
    | with_reducible refine fewer_accept_hit (by assumption) (by decide) ?_
    | with_reducible refine fewer_accept_any_hit (by assumption) (by decide) ?_
    | with_reducible refine fewer_next_is (by assumption) (by decide) ?_
    | with_reducible apply noMore_frame.to_accept
    | with_reducible apply noMore_frame.to_peek
    | with_reducible apply noMore_frame.to_next
    | with_reducible apply noMore_frame.to_is
    | with_reducible apply noMore_frame.to_accept_any
    | with_reducible apply noMore_frame.to_context
    | with_reducible apply noMore_frame.to_error
    | with_reducible apply fewer_accept
    | with_reducible apply fewer_peek
    | with_reducible apply fewer_next
    | with_reducible apply fewer_is
    | with_reducible apply fewer_accept_any
    | with_reducible apply fewer_context
    | with_reducible apply fewer_error
    | with_reducible apply Sat_ok_taken
    | with_reducible apply Sat_ok_fewer
    | with_reducible exact Ends_ok
    | with_reducible exact Ends_undefined
    | with_reducible refine (tm.block_loop _ _ (bound_le hb ?_ (by decide)))
    | with_reducible refine ends_bind (Q := fun _ s1 => Fewer s s1) ?_ ?_ (fun v s1 h1 => ?_)
    | with_reducible refine Sat_bind (Q := fun _ s1 => Fewer s s1) ?_ (fun v s1 h1 => ?_)
    | split

/-- Every grammar function ends when it has 25 units of fuel for each token left, plus
its depth below `block`. -/
theorem terminates_all (n : Nat) : Terminates n := by
  induction n with
  | zero => constructor <;> intros <;> omega
  | succ n ih =>
    exact {
      paren_expr := fun s hb => paren_expr_ends n ih s hb
      arg_list := fun arr d s hb => arg_list_ends n ih arr d s hb
      array_expr := fun s hb => array_expr_ends n ih s hb
      hash_pairs := fun h d s hb => hash_pairs_ends n ih h d s hb
      hash_expr := fun s hb => hash_expr_ends n ih s hb
      primary_expr := fun s hb => primary_expr_ends n ih s hb
      slot_access_expr := fun s hb => slot_access_expr_ends n ih s hb
      call_args_loop := fun a s hb => call_args_loop_ends n ih a s hb
      call_args := fun s hb => call_args_ends n ih s hb
      call_expr := fun s hb => call_expr_ends n ih s hb
      pow_expr := fun s hb => pow_expr_ends n ih s hb
      postfix_expr := fun s hb => postfix_expr_ends n ih s hb
      unary_expr := fun s hb => unary_expr_ends n ih s hb
      level_expr := fun j s hj hb => level_expr_ends n ih j s hj hb
      assignment_expr := fun s hb => assignment_expr_ends n ih s hb
      not_expr := fun s hb => not_expr_ends n ih s hb
      expr := fun s hb => expr_ends n ih s hb
      expr_stmt := fun s hb => expr_stmt_ends n ih s hb
      type_stmt_loop := fun t s hb => type_stmt_loop_ends n ih t s hb
      type_stmt := fun s hb => type_stmt_ends n ih s hb
      function_params_loop := fun p s hb => function_params_loop_ends n ih p s hb
      function_params := fun s hb => function_params_ends n ih s hb
      function_stmt := fun s hb => function_stmt_ends n ih s hb
      if_stmt_loop := fun ng c b e s hb => if_stmt_loop_ends n ih ng c b e s hb
      if_stmt := fun s hb => if_stmt_ends n ih s hb
      while_stmt := fun s hb => while_stmt_ends n ih s hb
      return_stmt := fun s hb => return_stmt_ends n ih s hb
      stmt := fun s hb => stmt_ends n ih s hb
      block_loop := fun st s hb => block_loop_ends n ih st s hb
      block := fun s hb => block_ends n ih s hb }


/-- The statement loop of `program` ends when it has 25 units of fuel for each token left
and 23 more. -/
theorem program_loop_ends (n : Nat) :
    ∀ (st : List luna_node_t) (s : luna_parser_t), 25 * remaining s + 23 ≤ n →
      Ends (program_loop n st s) := by
  induction n with
  | zero => intro st s h; omega
  | succ n ih =>
    intro st s hb
    have tm := terminates_all n
    have cs := consumes_all n
    have ha : NoMore s (accept .EOS s).2 := noMore_frame.accept _ s
    rw [program_loop]
    try dsimp only
    split
    · exact Ends_ok
    · refine ends_bind (tm.stmt _ (bound_le hb ha (by decide)))
        (prog_call s ha ((framed_all noMore_frame n).stmt _) (cs.stmt _)) (fun v s1 h1 => ?_)
      split
      · refine ih _ _ ?_
        have := (prog_lt h1)
        unfold Fewer at this
        omega
      · exact Ends_ok

theorem remaining_init (self0 : luna_parser_t) (toks : List luna_token_t) :
    remaining (luna_parser_init self0 toks) ≤ toks.length :=
  List.length_filter_le _ _

/-- `luna_parse` ends on every token stream, given 25 units of fuel for each token and 23
more. -/
theorem luna_parse_ends (self0 : luna_parser_t) (toks : List luna_token_t) (fuel : Nat)
    (hf : 25 * toks.length + 23 ≤ fuel) :
    Ends (luna_parse fuel (luna_parser_init self0 toks)) := by
  have := remaining_init self0 toks
  exact program_loop_ends fuel [] _ (by omega)

theorem ends_cases {α : Type} (r : Res (Option α)) (h : Ends r) :
    (∃ b s', r = .ok (some b) s') ∨ (∃ s', r = .ok none s') ∨ r = .undefined := by
  cases r with
  | ok v s' =>
    cases v with
    | none => exact Or.inr (Or.inl ⟨s', rfl⟩)
    | some b => exact Or.inl ⟨b, s', rfl⟩
  | undefined => exact Or.inr (Or.inr rfl)
  | fuel => exact absurd rfl h

theorem upcoming_taken (x : luna_parser_t) (i : Nat) :
    upcoming { (peek x).2 with lb := (peek x).1, la := none } i = upcoming (next x).2 i := by
  obtain ⟨lex, la, lb, c, e, k⟩ := x
  cases la with
  | some a => rfl
  | none => cases lex <;> rfl

theorem advanced_frame : Frame Advanced where
  refl := fun s => ⟨0, fun i => rfl⟩
  trans := fun h1 h2 => by
    obtain ⟨d1, h1⟩ := h1
    obtain ⟨d2, h2⟩ := h2
    exact ⟨d2 + d1, fun i => by rw [h2, h1, Nat.add_assoc]⟩
  peek := fun s => ⟨0, fun i => upcoming_peek s i⟩
  next := fun s => ⟨1, fun i => upcoming_next s i⟩
  accept := fun t s => by
    by_cases hk : (peek s).1.type = t
    · rw [accept_hit_peek _ _ hk]
      exact ⟨1, fun i => by rw [upcoming_taken, upcoming_next]⟩
    · rw [accept_miss_peek _ _ hk]
      exact ⟨0, fun i => upcoming_peek s i⟩
  context := fun c s => ⟨0, fun i => rfl⟩
  error := fun m s => ⟨0, fun i => rfl⟩
  in_args := fun s k => ⟨0, fun i => rfl⟩

theorem luna_parse_advanced (fuel : Nat) (s : luna_parser_t) (v : Option luna_block_node_t)
    (s' : luna_parser_t) (h : luna_parse fuel s = .ok v s') : Advanced s s' := by
  have := luna_parse_frame advanced_frame fuel s
  rw [h] at this
  exact this

theorem stmt_progress (n : Nat) (s : luna_parser_t) (e : luna_node_t) (s' : luna_parser_t)
    (h : stmt n s = .ok (some e) s') : Advanced s s' ∧ remaining s' < remaining s := by
  have h1 := (framed_all advanced_frame n).stmt s
  have h2 := (consumes_all n).stmt s
  rw [h] at h1 h2
  exact ⟨h1, h2 (by simp)⟩

theorem expr_progress (n : Nat) (s : luna_parser_t) (e : luna_node_t) (s' : luna_parser_t)
    (h : expr n s = .ok (some e) s') : Advanced s s' ∧ remaining s' < remaining s := by
  have h1 := (framed_all advanced_frame n).expr s
  have h2 := (consumes_all n).expr s
  rw [h] at h1 h2
  exact ⟨h1, h2 (by simp)⟩

/-! ## Claims -/

/-- C1: for every left-associative binary level (multiplicative, additive, shift,
relational, equality, bitwise-AND, bitwise-XOR, bitwise-OR, logical-AND, logical-OR) and
every non-empty sequence of operator and operand pairs whose operators all belong to that
one level and whose operands are identifier or literal tokens, `luna_parse` on
`x0 op1 x1 ... opn xn` followed by end-of-stream returns the root block holding the
left-deep tree, each node recording its own operator. -/
theorem C1_left_associative (j : Nat) (hj : j ≤ 9) (self0 : luna_parser_t) (x0 : luna_token_t)
    (items : List (luna_token_t × luna_token_t)) (fuel : Nat)
    (hx0 : is_operand x0.type = true) (_hne : items ≠ [])
    (hitems : ∀ it ∈ items, it.1.type ∈ level_ops j ∧ is_operand it.2.type = true)
    (hfuel : items.length + 32 ≤ fuel) :
    (luna_parse fuel (luna_parser_init self0 (x0 :: (op_stream items ++ [eos])))).value =
      some (some (.mk [left_deep (leaf x0) items])) :=
  parse_level_items j hj self0 x0 items fuel hx0 hitems hfuel

/-- C1 at the tokens of `1-2-3`: the result is `BinaryOp('-', BinaryOp('-',1,2), 3)`. -/
theorem C1_left_associative_witness :
    (luna_parse 34 (luna_parser_init parser_zero
      [int_lit 1, tok .OP_MINUS, int_lit 2, tok .OP_MINUS, int_lit 3, eos])).value =
      some (some (.mk [.binary_op .OP_MINUS
        (.binary_op .OP_MINUS (.int 1) (.int 2) false) (.int 3) false])) :=
  C1_left_associative 1 (by decide) parser_zero (int_lit 1)
    [(tok .OP_MINUS, int_lit 2), (tok .OP_MINUS, int_lit 3)] 34 rfl (by simp)
    (by simp [level_ops, is_operand, tok, int_lit]) (by decide)

/-- C2: the binary levels form a strict precedence order: for operators `op_hi` of a
level strictly tighter than that of `op_lo` and identifier or literal operands, the
tokens `x op_lo y op_hi z` parse to `BinaryOp(op_lo, x, BinaryOp(op_hi, y, z))` and the
tokens `x op_hi y op_lo z` parse to `BinaryOp(op_lo, BinaryOp(op_hi, x, y), z)`. -/
theorem C2_precedence (hi lo : Nat) (hlt : hi < lo) (hlo : lo ≤ 9) (self0 : luna_parser_t)
    (x y z op_hi op_lo : luna_token_t) (fuel : Nat)
    (hx : is_operand x.type = true) (hy : is_operand y.type = true)
    (hz : is_operand z.type = true)
    (hhi : op_hi.type ∈ level_ops hi) (hlo2 : op_lo.type ∈ level_ops lo)
    (hfuel : 40 ≤ fuel) :
    (luna_parse fuel (luna_parser_init self0 [x, op_lo, y, op_hi, z, eos])).value =
        some (some (.mk [.binary_op op_lo.type (leaf x)
          (.binary_op op_hi.type (leaf y) (leaf z) false) false])) ∧
    (luna_parse fuel (luna_parser_init self0 [x, op_hi, y, op_lo, z, eos])).value =
        some (some (.mk [.binary_op op_lo.type
          (.binary_op op_hi.type (leaf x) (leaf y) false) (leaf z) false])) :=
  parse_two_levels hi lo hlt hlo self0 x y z op_hi op_lo fuel hx hy hz hhi hlo2 hfuel

/-- C2 at `a + b * c` and `a * b + c`. -/
theorem C2_precedence_witness :
    (luna_parse 40 (luna_parser_init parser_zero
      [ident "a", tok .OP_PLUS, ident "b", tok .OP_MUL, ident "c", eos])).value =
        some (some (.mk [.binary_op .OP_PLUS (.id "a")
          (.binary_op .OP_MUL (.id "b") (.id "c") false) false])) ∧
    (luna_parse 40 (luna_parser_init parser_zero
      [ident "a", tok .OP_MUL, ident "b", tok .OP_PLUS, ident "c", eos])).value =
        some (some (.mk [.binary_op .OP_PLUS
          (.binary_op .OP_MUL (.id "a") (.id "b") false) (.id "c") false])) :=
  C2_precedence 0 1 (by decide) (by decide) parser_zero (ident "a") (ident "b") (ident "c")
    (tok .OP_MUL) (tok .OP_PLUS) 40 rfl rfl rfl (by simp [level_ops, tok])
    (by simp [level_ops, tok]) (by decide)

/-- C3 (the code departs from the claim): on the tokens of `f(1,2,x:3)` the positional
sequence of the call is `[1, 2, x]`, not `[1, 2]`: `call_args` pushes the key identifier
of a named argument onto the positional vector as well.  The name to value table is
`x : 3` as claimed. -/
theorem C3_named_key_among_positional :
    (luna_parse 60 (fresh [ident "f", tok .LPAREN, int_lit 1, tok .COMMA, int_lit 2,
      tok .COMMA, ident "x", tok .COLON, int_lit 3, tok .RPAREN, eos])).value =
    some (some (.mk [.call (.id "f")
      (some { vec := [.int 1, .int 2, .id "x"], hash := [("x", some (.int 3))] })])) := rfl

/-- C4: the UFCS rewrite of `call_expr`.  When the receiver part (a primary with an
optional call) yields `r`, a `'.'` follows, and the nested `call_expr` yields `e`: if `e`
is a call `Call(m, args)` the result is that call with `r` appended as its last
positional argument, and if `e` is not a call the result is `SlotAccess(r, e)`. -/
theorem C4_ufcs_rewrite (n : Nat) (s s1 s2 s3 : luna_parser_t) (r e : luna_node_t)
    (h1 : call_expr_head n s = .ok (some r) s1)
    (h2 : accept .OP_DOT s1 = (true, s2))
    (h3 : call_expr n s2 = .ok (some e) s3) :
    (∀ m args, e = .call m (some args) →
      call_expr (n + 1) s =
        .ok (some (.call m (some { args with vec := args.vec ++ [r] }))) s3) ∧
    ((∀ m a, e ≠ .call m a) → call_expr (n + 1) s = .ok (some (.slot r e)) s3) :=
  call_expr_dot n s s1 s2 s3 r e h1 h2 h3

/-- C4 at the tokens of `a.b(c)` and of `a.b`: `call_expr` yields `Call(b, [c, a])` and
`SlotAccess(a, b)`, and so does the whole parse. -/
theorem C4_ufcs_rewrite_witness :
    call_expr 31 ⟨[tok .OP_DOT, ident "b", tok .LPAREN, ident "c", tok .RPAREN, eos],
        some (ident "a"), tok .ILLEGAL, none, none, 0⟩ =
      .ok (some (.call (.id "b") (some { vec := [.id "c", .id "a"], hash := [] })))
        ⟨[], some eos, tok .RPAREN, some "function call", none, 0⟩ ∧
    call_expr 31 ⟨[tok .OP_DOT, ident "b", eos], some (ident "a"), tok .ILLEGAL, none, none, 0⟩ =
      .ok (some (.slot (.id "a") (.id "b"))) ⟨[], some eos, tok .OP_DOT, none, none, 0⟩ ∧
    (luna_parse 60 (fresh [ident "a", tok .OP_DOT, ident "b", tok .LPAREN, ident "c",
      tok .RPAREN, eos])).value =
      some (some (.mk [.call (.id "b") (some { vec := [.id "c", .id "a"], hash := [] })])) ∧
    (luna_parse 60 (fresh [ident "a", tok .OP_DOT, ident "b", eos])).value =
      some (some (.mk [.slot (.id "a") (.id "b")])) :=
  ⟨(C4_ufcs_rewrite 30
      ⟨[tok .OP_DOT, ident "b", tok .LPAREN, ident "c", tok .RPAREN, eos],
        some (ident "a"), tok .ILLEGAL, none, none, 0⟩
      ⟨[ident "b", tok .LPAREN, ident "c", tok .RPAREN, eos], some (tok .OP_DOT),
        tok .ILLEGAL, none, none, 0⟩
      ⟨[ident "b", tok .LPAREN, ident "c", tok .RPAREN, eos], none, tok .OP_DOT, none, none, 0⟩
      ⟨[], some eos, tok .RPAREN, some "function call", none, 0⟩
      (.id "a") (.call (.id "b") (some { vec := [.id "c"], hash := [] })) rfl rfl rfl).1
      (.id "b") { vec := [.id "c"], hash := [] } rfl,
   (C4_ufcs_rewrite 30
      ⟨[tok .OP_DOT, ident "b", eos], some (ident "a"), tok .ILLEGAL, none, none, 0⟩
      ⟨[ident "b", eos], some (tok .OP_DOT), tok .ILLEGAL, none, none, 0⟩
      ⟨[ident "b", eos], none, tok .OP_DOT, none, none, 0⟩
      ⟨[], some eos, tok .OP_DOT, none, none, 0⟩
      (.id "a") (.id "b") rfl rfl rfl).2 (fun _ _ h => luna_node_t.noConfusion h),
   rfl, rfl⟩

/-- C5: sticky first error.  `error(message)` on a state with no error sets the error to
exactly that message, and on a state whose error is set leaves the state as it is.
Consequently every grammar function, and `luna_parse` itself, started in a state whose
error is set, returns with that same error, for every token stream and every fuel.  On
the tokens of `[1 +` (an unterminated array whose inner expression lacks its right-hand
operand) the parse fails with the inner "missing right-hand expression"; on the tokens
of `f(a * ]` the later "missing closing ')'" of `call_expr` does not replace it. -/
theorem C5_sticky_first_error :
    (∀ (msg : String) (s : luna_parser_t), s.err = none → (error msg s).err = some msg) ∧
    (∀ (msg : String) (s : luna_parser_t) (e : String), s.err = some e → error msg s = s) ∧
    (∀ n, Framed Sticky n) ∧
    (∀ (fuel : Nat) (s : luna_parser_t) (e : String), s.err = some e →
      (luna_parse fuel s).Sat fun _ s' => s'.err = some e) ∧
    ((luna_parse 60 (fresh [tok .LBRACK, int_lit 1, tok .OP_PLUS, eos])).value = some none ∧
      ((luna_parse 60 (fresh [tok .LBRACK, int_lit 1, tok .OP_PLUS, eos])).state.map
        fun s => s.err) = some (some "missing right-hand expression")) ∧
    ((luna_parse 60 (fresh [ident "f", tok .LPAREN, ident "a", tok .OP_MUL, tok .RBRACK,
        eos])).value = some none ∧
      ((luna_parse 60 (fresh [ident "f", tok .LPAREN, ident "a", tok .OP_MUL, tok .RBRACK,
        eos])).state.map fun s => s.err) = some (some "missing right-hand expression")) := by
  refine ⟨?_, ?_, fun n => framed_all sticky_frame n, ?_, ⟨rfl, rfl⟩, ⟨rfl, rfl⟩⟩
  · intro msg s h
    simp [error, h]
  · intro msg s e h
    obtain ⟨lex, la, lb, c, err, i⟩ := s
    simp only at h
    subst h
    rfl
  · intro fuel s e h
    have := luna_parse_frame sticky_frame fuel s
    cases hr : luna_parse fuel s with
    | ok v s' =>
      rw [hr] at this
      exact this e h
    | undefined => exact True.intro
    | fuel => exact True.intro

/-- C5 at a parser whose error is already set to "earlier", run on `]`: the parse fails
and the message read afterwards is still "earlier". -/
theorem C5_sticky_first_error_witness :
    (luna_parse 30 { fresh [tok .RBRACK, eos] with err := some "earlier" }).Sat
      fun _ s' => s'.err = some "earlier" :=
  C5_sticky_first_error.2.2.2.1 30 { fresh [tok .RBRACK, eos] with err := some "earlier" }
    "earlier" rfl

/-- C6 (the code departs from the claim): successful parses return nodes with an absent
mandatory child.  On `+` followed by end-of-stream the root block holds a `UnaryOp`
with no operand; on the tokens of `f(a*)` it holds a `Call` with no argument container;
on the tokens of `f(x:)` the named argument `x` has no value node. -/
theorem C6_absent_children :
    (luna_parse 30 (fresh [tok .OP_PLUS, eos])).value =
      some (some (.mk [.unary_op .OP_PLUS none false])) ∧
    (luna_parse 60 (fresh [ident "f", tok .LPAREN, ident "a", tok .OP_MUL, tok .RPAREN,
      eos])).value = some (some (.mk [.call (.id "f") none])) ∧
    (luna_parse 60 (fresh [ident "f", tok .LPAREN, ident "x", tok .COLON, tok .RPAREN,
      eos])).value =
      some (some (.mk [.call (.id "f") (some { vec := [.id "x"], hash := [("x", none)] })])) :=
  ⟨rfl, rfl, rfl⟩

/-- C7 (the claim fails as stated): on the single token `)` followed by end-of-stream,
`luna_parse` on a freshly initialised parser returns the failure sentinel with the
sticky error still unset. -/
theorem C7_silent_failure :
    ∃ s', luna_parse 30 (fresh [tok .RPAREN, eos]) = .ok none s' ∧ s'.err = none :=
  ⟨⟨[eos], some (tok .RPAREN), tok .ILLEGAL, some "statement", none, 0⟩, rfl, rfl⟩

/-- C7 as amended: whenever `luna_parse`, started on a freshly initialised parser,
returns the failure sentinel, the context label is set, and either the sticky error
message is set or the token left in the lookahead cannot begin a primary expression (it
is no identifier, literal, `[`, `\x7b` or `(`), for every token stream and every fuel. -/
theorem C7_failure_diagnostic (fuel : Nat) (self0 : luna_parser_t) (toks : List luna_token_t)
    (s' : luna_parser_t) (h : luna_parse fuel (luna_parser_init self0 toks) = .ok none s') :
    s'.ctx ≠ none ∧
      (s'.err ≠ none ∨ ∃ t, s'.la = some t ∧ starts_primary t.type = false) :=
  luna_parse_failure fuel _ s' h

/-- C7 as amended, at the token `)`: the failed parse leaves the label "statement" and
the token `)` in the lookahead. -/
theorem C7_failure_diagnostic_witness :
    (⟨[eos], some (tok .RPAREN), tok .ILLEGAL, some "statement", none, 0⟩ :
        luna_parser_t).ctx ≠ none ∧
      ((⟨[eos], some (tok .RPAREN), tok .ILLEGAL, some "statement", none, 0⟩ :
          luna_parser_t).err ≠ none ∨
        ∃ t, (⟨[eos], some (tok .RPAREN), tok .ILLEGAL, some "statement", none, 0⟩ :
          luna_parser_t).la = some t ∧ starts_primary t.type = false) :=
  C7_failure_diagnostic 30 parser_zero [tok .RPAREN, eos]
    ⟨[eos], some (tok .RPAREN), tok .ILLEGAL, some "statement", none, 0⟩ rfl

/-- C8: array literal trailing comma.  For every non-empty sequence of element
expressions, each a complete expression that parses to its node, the array literal
written without a trailing comma before `]` and the one written with it parse, given
enough fuel, to the same `ArrayLiteral`, whose elements are exactly the nodes of those
expressions in source order. -/
theorem C8_array_trailing_comma (elems : List (List luna_token_t × luna_node_t))
    (hne : elems ≠ []) (h : ∀ el ∈ elems, ParsesTo el.1 el.2) :
    ∃ f0, ∀ fuel, f0 ≤ fuel → ∀ (lbk rb : luna_token_t) (rest : List luna_token_t)
      (lb : luna_token_t) (c err : Option String) (ia : Int),
      lbk.type = .LBRACK → rb.type = .RBRACK →
      (array_expr fuel ⟨comma_sep (elems.map (·.1)) ++ rb :: rest, some lbk, lb, c, err, ia⟩).value =
        some (some (.array (elems.map (·.2)))) ∧
      (array_expr fuel ⟨comma_sep (elems.map (·.1)) ++ tok .COMMA :: rb :: rest,
          some lbk, lb, c, err, ia⟩).value =
        some (some (.array (elems.map (·.2)))) :=
  array_expr_elems elems hne h

/-- C8 at the elements `1`, `2`, `3`, and the whole parse of the tokens of `[1,2,3]` and
of `[1,2,3,]`: both give the array `[1, 2, 3]`. -/
theorem C8_array_trailing_comma_witness :
    (∃ f0, ∀ fuel, f0 ≤ fuel → ∀ (lbk rb : luna_token_t) (rest : List luna_token_t)
      (lb : luna_token_t) (c err : Option String) (ia : Int),
      lbk.type = .LBRACK → rb.type = .RBRACK →
      (array_expr fuel ⟨[int_lit 1, tok .COMMA, int_lit 2, tok .COMMA, int_lit 3] ++ rb :: rest,
          some lbk, lb, c, err, ia⟩).value =
        some (some (.array [.int 1, .int 2, .int 3])) ∧
      (array_expr fuel ⟨[int_lit 1, tok .COMMA, int_lit 2, tok .COMMA, int_lit 3] ++
          tok .COMMA :: rb :: rest, some lbk, lb, c, err, ia⟩).value =
        some (some (.array [.int 1, .int 2, .int 3]))) ∧
    (luna_parse 60 (fresh [tok .LBRACK, int_lit 1, tok .COMMA, int_lit 2, tok .COMMA, int_lit 3,
      tok .RBRACK, eos])).value = some (some (.mk [.array [.int 1, .int 2, .int 3]])) ∧
    (luna_parse 60 (fresh [tok .LBRACK, int_lit 1, tok .COMMA, int_lit 2, tok .COMMA, int_lit 3,
      tok .COMMA, tok .RBRACK, eos])).value =
      some (some (.mk [.array [.int 1, .int 2, .int 3]])) :=
  ⟨C8_array_trailing_comma
      [([int_lit 1], .int 1), ([int_lit 2], .int 2), ([int_lit 3], .int 3)]
      (List.cons_ne_nil _ _)
      (fun el hel => by
        simp only [List.mem_cons, List.mem_singleton, List.not_mem_nil, or_false] at hel
        rcases hel with rfl | rfl | rfl
        · exact parsesTo_leaf (int_lit 1) rfl
        · exact parsesTo_leaf (int_lit 2) rfl
        · exact parsesTo_leaf (int_lit 3) rfl),
   rfl, rfl⟩

/-- C9: hash literal duplicate-key overwrite.  For every hash literal
`k1 : e1 , ... , kn : en` between braces with identifier keys and complete expressions as
values, `hash_expr` returns, given enough fuel, the `HashLiteral` whose table is built by
setting the pairs in source order; that table maps every key to the value of its last
occurrence, and holds one entry per distinct key. -/
theorem C9_hash_duplicate_key (pairs : List (String × List luna_token_t × luna_node_t))
    (h : ∀ p ∈ pairs, ParsesTo p.2.1 p.2.2) :
    (∃ f0, ∀ fuel, f0 ≤ fuel → ∀ (lbr rb : luna_token_t) (rest : List luna_token_t)
      (lb : luna_token_t) (c err : Option String) (ia : Int),
      lbr.type = .LBRACE → rb.type = .RBRACE →
      (hash_expr fuel ⟨hash_stream (pairs.map fun p => (p.1, p.2.1)) ++ rb :: rest,
          some lbr, lb, c, err, ia⟩).value =
        some (some (.hash (hash_of (pairs.map fun p => (p.1, p.2.2)))))) ∧
    (∀ key, luna_hash_get (hash_of (pairs.map fun p => (p.1, p.2.2))) key =
      last_value (pairs.map fun p => (p.1, p.2.2)) key) ∧
    ((hash_of (pairs.map fun p => (p.1, p.2.2))).map Prod.fst).Nodup ∧
    (∀ key, key ∈ (hash_of (pairs.map fun p => (p.1, p.2.2))).map Prod.fst ↔
      key ∈ pairs.map Prod.fst) := by
  refine ⟨hash_expr_pairs pairs h, fun key => ?_, ?_, fun key => ?_⟩
  · rw [hash_of, hash_fold_get]
    cases last_value (pairs.map fun p => (p.1, p.2.2)) key <;> rfl
  · exact (hash_fold_keys _ [] (by simp)).1
  · rw [hash_of, (hash_fold_keys _ [] (by simp)).2]
    simp

/-- C9 at the pairs `a : 1`, `a : 2`, and the whole parse of the tokens of `{a:1,a:2}`:
a single-entry table in which `a` maps to `2`. -/
theorem C9_hash_duplicate_key_witness :
    (∃ f0, ∀ fuel, f0 ≤ fuel → ∀ (lbr rb : luna_token_t) (rest : List luna_token_t)
      (lb : luna_token_t) (c err : Option String) (ia : Int),
      lbr.type = .LBRACE → rb.type = .RBRACE →
      (hash_expr fuel ⟨[ident "a", tok .COLON, int_lit 1, tok .COMMA, ident "a", tok .COLON,
          int_lit 2] ++ rb :: rest, some lbr, lb, c, err, ia⟩).value =
        some (some (.hash [("a", .int 2)]))) ∧
    (luna_parse 60 (fresh [tok .LBRACE, ident "a", tok .COLON, int_lit 1, tok .COMMA, ident "a",
      tok .COLON, int_lit 2, tok .RBRACE, eos])).value =
      some (some (.mk [.hash [("a", .int 2)]])) :=
  ⟨(C9_hash_duplicate_key [("a", [int_lit 1], .int 1), ("a", [int_lit 2], .int 2)]
      (fun p hp => by
        simp only [List.mem_cons, List.mem_singleton, List.not_mem_nil, or_false] at hp
        rcases hp with rfl | rfl
        · exact parsesTo_leaf (int_lit 1) rfl
        · exact parsesTo_leaf (int_lit 2) rfl)).1,
   rfl⟩

/-- C10: prefix chaining, and the operator each node records.  `unary_expr` builds its node
with `luna_unary_op_node_new(prev->type, unary_expr(self), 0)`, and C leaves the order of
the two arguments to the compiler.  With the operand parsed first, every node of a chain
`p1 ... pn x` records the kind of the token accepted last inside the operand, not the
operator consumed at its own level: `-!x` comes out as `UnaryOp(!, UnaryOp(!, x))`, the
node of `!f(x)` records `)`, and the node of `-x++` records `++`.  With `prev->type` read
first, the chain is `UnaryOp(p1, UnaryOp(p2, ... UnaryOp(pn, x)))` as claimed.  The tokens
of `!!x` give `UnaryOp(!, UnaryOp(!, x))` in both orders. -/
theorem C10_prefix_operator_order :
    luna_parse_rtl 40 (fresh [tok .OP_MINUS, tok .OP_NOT, ident "x", eos]) =
      .ok (some (.mk [.unary_op .OP_NOT
          (some (.unary_op .OP_NOT (some (.id "x")) false)) false]))
        ⟨[], none, eos, some "statement", none, 0⟩ ∧
    luna_parse_rtl 60
        (fresh [tok .OP_NOT, ident "f", tok .LPAREN, ident "x", tok .RPAREN, eos]) =
      .ok (some (.mk [.unary_op .RPAREN
          (some (.call (.id "f") (some ⟨[.id "x"], []⟩))) false]))
        ⟨[], none, eos, some "function call", none, 0⟩ ∧
    luna_parse_rtl 40 (fresh [tok .OP_MINUS, ident "x", tok .OP_INCR, eos]) =
      .ok (some (.mk [.unary_op .OP_INCR
          (some (.unary_op .OP_INCR (some (.id "x")) true)) false]))
        ⟨[], none, eos, some "statement", none, 0⟩ ∧
    (∀ (n : Nat) (lex : List luna_token_t) (c e : Option String) (i : Int) (x : luna_node_t)
        (s' : luna_parser_t) (ps : List luna_token_t) (hne : ps ≠ []) (lb : luna_token_t),
      (∀ p ∈ ps, p.type ∈ unary_ops) →
      unary_expr_rtl n ⟨lex, none, ps.getLast hne, c, e, i⟩ = .ok (some x) s' →
      unary_expr_rtl (n + ps.length) ⟨ps ++ lex, none, lb, c, e, i⟩ =
        .ok (some (unary_chain (ps.map fun _ => s'.lb) x)) s') ∧
    (∀ (n : Nat) (lex : List luna_token_t) (c e : Option String) (i : Int) (x : luna_node_t)
        (s' : luna_parser_t) (ps : List luna_token_t) (hne : ps ≠ []) (lb : luna_token_t),
      (∀ p ∈ ps, p.type ∈ unary_ops) →
      unary_expr n ⟨lex, none, ps.getLast hne, c, e, i⟩ = .ok (some x) s' →
      unary_expr (n + ps.length) ⟨ps ++ lex, none, lb, c, e, i⟩ =
        .ok (some (unary_chain ps x)) s') ∧
    luna_parse 40 (fresh [tok .OP_MINUS, tok .OP_NOT, ident "x", eos]) =
      .ok (some (.mk [.unary_op .OP_MINUS
          (some (.unary_op .OP_NOT (some (.id "x")) false)) false]))
        ⟨[], none, eos, some "statement", none, 0⟩ ∧
    luna_parse_rtl 40 (fresh [tok .OP_NOT, tok .OP_NOT, ident "x", eos]) =
      .ok (some (.mk [.unary_op .OP_NOT
          (some (.unary_op .OP_NOT (some (.id "x")) false)) false]))
        ⟨[], none, eos, some "statement", none, 0⟩ ∧
    luna_parse 40 (fresh [tok .OP_NOT, tok .OP_NOT, ident "x", eos]) =
      .ok (some (.mk [.unary_op .OP_NOT
          (some (.unary_op .OP_NOT (some (.id "x")) false)) false]))
        ⟨[], none, eos, some "statement", none, 0⟩ :=
  ⟨rfl, rfl, rfl,
   fun n lex c e i x s' ps hne lb hps hx => unary_expr_rtl_chain n lex c e i x s' ps hne lb hps hx,
   fun n lex c e i x s' ps hne lb hps hx => unary_expr_chain n lex c e i x s' ps hne lb hps hx,
   rfl, rfl, rfl⟩

/-- C10 at the tokens of `-!x` handed to `unary_expr`: operand first, both nodes record
`!`; `prev->type` first, the outer node records `-` and the inner one `!`. -/
theorem C10_prefix_operator_order_witness :
    unary_expr_rtl 12
        ⟨[tok .OP_MINUS, tok .OP_NOT, ident "x", eos], none, tok .ILLEGAL, none, none, 0⟩ =
      .ok (some (.unary_op .OP_NOT (some (.unary_op .OP_NOT (some (.id "x")) false)) false))
        ⟨[], some eos, tok .OP_NOT, none, none, 0⟩ ∧
    unary_expr 12
        ⟨[tok .OP_MINUS, tok .OP_NOT, ident "x", eos], none, tok .ILLEGAL, none, none, 0⟩ =
      .ok (some (.unary_op .OP_MINUS (some (.unary_op .OP_NOT (some (.id "x")) false)) false))
        ⟨[], some eos, tok .OP_NOT, none, none, 0⟩ :=
  ⟨C10_prefix_operator_order.2.2.2.1 10 [ident "x", eos] none none 0 (.id "x")
      ⟨[], some eos, tok .OP_NOT, none, none, 0⟩ [tok .OP_MINUS, tok .OP_NOT]
      (List.cons_ne_nil _ _) (tok .ILLEGAL) (by simp [unary_ops, tok]) rfl,
   C10_prefix_operator_order.2.2.2.2.1 10 [ident "x", eos] none none 0 (.id "x")
      ⟨[], some eos, tok .OP_NOT, none, none, 0⟩ [tok .OP_MINUS, tok .OP_NOT]
      (List.cons_ne_nil _ _) (tok .ILLEGAL) (by simp [unary_ops, tok]) rfl⟩


/-- C11: postfix non-chaining.  For every one-token operand `x` and postfix operators
`q1`, `q2` (each `++` or `--`), `luna_parse` on `x q1 q2` followed by any tokens returns
the failure sentinel, with the error "missing newline" and `q2` left unconsumed, while
`luna_parse` on `x q1` followed by end-of-stream returns the root block holding
`UnaryOp(q1, x, is_postfix = true)`.  For an operand of any shape, `postfix_expr` consumes
the one postfix operator that follows what `pow_expr` parsed and looks no further. -/
theorem C11_postfix_non_chaining (self0 : luna_parser_t) (x q1 q2 : luna_token_t)
    (rest : List luna_token_t) (fuel : Nat) (hx : is_operand x.type = true)
    (hq1 : q1.type ∈ postfix_ops) (hq2 : q2.type ∈ postfix_ops) (hf : 22 ≤ fuel) :
    luna_parse fuel (luna_parser_init self0 (x :: q1 :: q2 :: rest)) =
      .ok none ⟨rest, some q2, q1, some "statement", some "missing newline", 0⟩ ∧
    luna_parse fuel (luna_parser_init self0 [x, q1, eos]) =
      .ok (some (.mk [.unary_op q1.type (some (leaf x)) true]))
        ⟨[], none, eos, some "statement", none, 0⟩ ∧
    (∀ (n : Nat) (s s1 : luna_parser_t) (node : luna_node_t),
      pow_expr n s = .ok (some node) s1 → (peek s1).1.type ∈ postfix_ops →
      postfix_expr (n + 1) s =
        .ok (some (.unary_op (peek s1).1.type (some node) true))
          { (peek s1).2 with lb := (peek s1).1, la := none }) :=
  ⟨parse_postfix_twice self0 x q1 q2 rest fuel hx hq1 hq2 hf,
    parse_postfix_once self0 x q1 fuel hx hq1 hf,
    fun n s s1 node h hq => postfix_hit n s s1 node h hq⟩

/-- C11 at the tokens of `x++--` and of `x++`. -/
theorem C11_postfix_non_chaining_witness :
    luna_parse 22 (fresh [ident "x", tok .OP_INCR, tok .OP_DECR, eos]) =
      .ok none ⟨[eos], some (tok .OP_DECR), tok .OP_INCR, some "statement",
        some "missing newline", 0⟩ ∧
    luna_parse 22 (fresh [ident "x", tok .OP_INCR, eos]) =
      .ok (some (.mk [.unary_op .OP_INCR (some (.id "x")) true]))
        ⟨[], none, eos, some "statement", none, 0⟩ :=
  ⟨(C11_postfix_non_chaining parser_zero (ident "x") (tok .OP_INCR) (tok .OP_DECR) [eos] 22 rfl
      (by decide) (by decide) (by decide)).1,
   (C11_postfix_non_chaining parser_zero (ident "x") (tok .OP_INCR) (tok .OP_DECR) [eos] 22 rfl
      (by decide) (by decide) (by decide)).2.1⟩

/-- C12: fork sugar.  Whenever the `'||'` fold of `logical_or_expr` yields `e` and the
fork token is next, `logical_or_expr` returns `Call(Identifier("fork"), positional = [e])`
around the whole of `e` and has consumed that token.  For one-token operands,
`luna_parse` on `x0 || x1 ... || xn &` followed by end-of-stream returns the root block
holding the call of `fork` on the left-deep `'||'` tree. -/
theorem C12_fork_sugar :
    (∀ (n : Nat) (s s1 : luna_parser_t) (e : luna_node_t),
      logical_or_fold n s = .ok (some e) s1 → (peek s1).1.type = .OP_FORK →
      logical_or_expr (n + 1) s =
        .ok (some (.call (.id "fork") (some { vec := [e], hash := [] })))
          { (peek s1).2 with lb := (peek s1).1, la := none }) ∧
    (∀ (self0 : luna_parser_t) (x0 f : luna_token_t)
      (items : List (luna_token_t × luna_token_t)) (fuel : Nat),
      is_operand x0.type = true → f.type = .OP_FORK →
      (∀ it ∈ items, it.1.type = .OP_OR ∧ is_operand it.2.type = true) →
      items.length + 32 ≤ fuel →
      (luna_parse fuel (luna_parser_init self0 (x0 :: (op_stream items ++ [f, eos])))).value =
        some (some (.mk [.call (.id "fork")
          (some { vec := [left_deep (leaf x0) items], hash := [] })]))) := by
  refine ⟨fun n s s1 e h hF => logical_or_fork n s s1 e h hF, ?_⟩
  intro self0 x0 f items fuel hx hf hitems hfuel
  obtain ⟨c', h⟩ := parse_fork self0 x0 f items fuel hx hf
    (fun it hit => ⟨by simp [level_ops, (hitems it hit).1], (hitems it hit).2⟩) hfuel
  rw [h]
  rfl

/-- C12 at the tokens of `x &` and of `x || y &`. -/
theorem C12_fork_sugar_witness :
    logical_or_expr 16 ⟨[tok .OP_FORK, eos], some (ident "x"), tok .ILLEGAL, none, none, 0⟩ =
      .ok (some (.call (.id "fork") (some { vec := [.id "x"], hash := [] })))
        ⟨[eos], none, tok .OP_FORK, none, none, 0⟩ ∧
    (luna_parse 32 (fresh [ident "x", tok .OP_FORK, eos])).value =
      some (some (.mk [.call (.id "fork") (some { vec := [.id "x"], hash := [] })])) ∧
    (luna_parse 33 (fresh [ident "x", tok .OP_OR, ident "y", tok .OP_FORK, eos])).value =
      some (some (.mk [.call (.id "fork")
        (some { vec := [.binary_op .OP_OR (.id "x") (.id "y") false], hash := [] })])) :=
  ⟨C12_fork_sugar.1 15 ⟨[tok .OP_FORK, eos], some (ident "x"), tok .ILLEGAL, none, none, 0⟩
      ⟨[eos], some (tok .OP_FORK), tok .ILLEGAL, none, none, 0⟩ (.id "x") rfl rfl,
   C12_fork_sugar.2 parser_zero (ident "x") (tok .OP_FORK) [] 32 rfl rfl
      (fun it hit => absurd hit (List.not_mem_nil _)) (by decide),
   C12_fork_sugar.2 parser_zero (ident "x") (tok .OP_FORK) [(tok .OP_OR, ident "y")] 33 rfl rfl
      (fun it hit => by
        simp only [List.mem_singleton] at hit
        subst hit
        exact ⟨rfl, rfl⟩) (by decide)⟩

/-- C14: power non-chaining.  For one-token operands `a`, `b`: `luna_parse` on `a ** b`
followed by end-of-stream returns the root block holding `BinaryOp('**', a, b)`; on
`a ** b **` followed by any tokens (`c` and end-of-stream among them) `pow_expr` returns
`BinaryOp('**', a, b)` with the second `'**'` left unconsumed in the lookahead, and
`luna_parse` returns the failure sentinel with the error "missing newline": no power tree
over three operands is built. -/
theorem C14_power_non_chaining (self0 : luna_parser_t) (a p1 b p2 : luna_token_t)
    (rest : List luna_token_t) (fuel : Nat) (ha : is_operand a.type = true)
    (hp1 : p1.type = .OP_POW) (hb : is_operand b.type = true) (hp2 : p2.type = .OP_POW)
    (hf : 22 ≤ fuel) :
    luna_parse fuel (luna_parser_init self0 [a, p1, b, eos]) =
      .ok (some (.mk [.binary_op .OP_POW (leaf a) (leaf b) false]))
        ⟨[], none, eos, some "** operation", none, 0⟩ ∧
    (∀ (lb : luna_token_t) (c e : Option String) (i : Int),
      pow_expr fuel ⟨p1 :: b :: p2 :: rest, some a, lb, c, e, i⟩ =
        .ok (some (.binary_op .OP_POW (leaf a) (leaf b) false))
          ⟨rest, some p2, p1, some "** operation", e, i⟩) ∧
    luna_parse fuel (luna_parser_init self0 (a :: p1 :: b :: p2 :: rest)) =
      .ok none ⟨rest, some p2, p1, some "** operation", some "missing newline", 0⟩ := by
  refine ⟨parse_pow_once self0 a p1 b fuel ha hp1 hb hf, fun lb c e i => ?_,
    parse_pow_twice self0 a p1 b p2 rest fuel ha hp1 hb hp2 hf⟩
  obtain ⟨k, rfl⟩ : ∃ k, fuel = k + 4 := ⟨fuel - 4, by omega⟩
  exact pow_leaf k a p1 b (p2 :: rest) lb c e i ha hp1 hb (by rw [scan_cons, hp2]; decide)
    (by rw [scan_cons, hp2]; decide)

/-- C14 at the tokens of `2**3` and of `2**3**4`. -/
theorem C14_power_non_chaining_witness :
    luna_parse 22 (fresh [int_lit 2, tok .OP_POW, int_lit 3, eos]) =
      .ok (some (.mk [.binary_op .OP_POW (.int 2) (.int 3) false]))
        ⟨[], none, eos, some "** operation", none, 0⟩ ∧
    luna_parse 22 (fresh [int_lit 2, tok .OP_POW, int_lit 3, tok .OP_POW, int_lit 4, eos]) =
      .ok none ⟨[int_lit 4, eos], some (tok .OP_POW), tok .OP_POW, some "** operation",
        some "missing newline", 0⟩ :=
  ⟨(C14_power_non_chaining parser_zero (int_lit 2) (tok .OP_POW) (int_lit 3) (tok .OP_POW)
      [int_lit 4, eos] 22 rfl rfl rfl rfl (by decide)).1,
   (C14_power_non_chaining parser_zero (int_lit 2) (tok .OP_POW) (int_lit 3) (tok .OP_POW)
      [int_lit 4, eos] 22 rfl rfl rfl rfl (by decide)).2.2⟩

/-- C15: the let flag.  When `assignment_expr` consumes a plain `'='` after its
left-hand side, the node it builds has `is_let_decl` true exactly when the token at its
entry was `let`; when it consumes a compound assignment operator the flag is false,
`let` or not.  Every node `assignment_expr` returns is its left-hand side handed on or
one of those two.  Every node a binary level or `pow_expr` returns is its operand handed
on, a `BinaryOp` whose flag is false, or the fork call.  On the tokens of `let a = 1`,
`a = 1`, `let a += 1` and `a + 1` the flags are true, false, false and false. -/
theorem C15_let_flag :
    (∀ (n : Nat) (s s1 s3 : luna_parser_t) (node right : luna_node_t),
      logical_or_expr n (accept .LET s).2 = .ok (some node) s1 →
      (peek s1).1.type = .OP_ASSIGN →
      not_expr n (context "assignment" { (peek s1).2 with lb := (peek s1).1, la := none }) =
        .ok (some right) s3 →
      assignment_expr (n + 1) s =
        .ok (some (.binary_op .OP_ASSIGN node right (decide ((peek s).1.type = .LET)))) s3) ∧
    (∀ (n : Nat) (s s1 s3 : luna_parser_t) (node right : luna_node_t),
      logical_or_expr n (accept .LET s).2 = .ok (some node) s1 →
      (peek s1).1.type ∈ compound_ops →
      not_expr n (context "compoound assignment"
        { (peek s1).2 with lb := (peek s1).1, la := none }) = .ok (some right) s3 →
      assignment_expr (n + 1) s =
        .ok (some (.binary_op (peek s1).1.type node right false)) s3) ∧
    (∀ (n : Nat) (s s' : luna_parser_t) (v : luna_node_t),
      assignment_expr (n + 1) s = .ok (some v) s' →
      (∃ s1, logical_or_expr n (accept .LET s).2 = .ok (some v) s1) ∨
      (∃ l r, v = .binary_op .OP_ASSIGN l r (decide ((peek s).1.type = .LET))) ∨
      (∃ o l r, o ∈ compound_ops ∧ v = .binary_op o l r false)) ∧
    (∀ (j : Nat), j ≤ 9 → ∀ (n : Nat) (s s' : luna_parser_t) (v : luna_node_t),
      level_expr j (n + 1) s = .ok (some v) s' →
      (∃ s1, operand_expr j n s = .ok (some v) s1) ∨
      (∃ o l r, v = .binary_op o l r false) ∨
      (j = 9 ∧ ∃ e, v = .call (.id "fork") (some { vec := [e], hash := [] }))) ∧
    (∀ (n : Nat) (s s' : luna_parser_t) (v : luna_node_t),
      pow_expr (n + 1) s = .ok (some v) s' →
      (∃ s1, call_expr n s = .ok (some v) s1) ∨ ∃ l r, v = .binary_op .OP_POW l r false) ∧
    (luna_parse 40 (fresh [tok .LET, ident "a", tok .OP_ASSIGN, int_lit 1, eos])).value =
      some (some (.mk [.binary_op .OP_ASSIGN (.id "a") (.int 1) true])) ∧
    (luna_parse 40 (fresh [ident "a", tok .OP_ASSIGN, int_lit 1, eos])).value =
      some (some (.mk [.binary_op .OP_ASSIGN (.id "a") (.int 1) false])) ∧
    (luna_parse 40 (fresh [tok .LET, ident "a", tok .OP_PLUS_ASSIGN, int_lit 1, eos])).value =
      some (some (.mk [.binary_op .OP_PLUS_ASSIGN (.id "a") (.int 1) false])) ∧
    (luna_parse 40 (fresh [ident "a", tok .OP_PLUS, int_lit 1, eos])).value =
      some (some (.mk [.binary_op .OP_PLUS (.id "a") (.int 1) false])) :=
  ⟨assignment_plain, assignment_compound, assignment_shape,
    fun j hj n s s' v h => level_flag j hj n s s' v h, pow_flag, rfl, rfl, rfl, rfl⟩

/-- C15 at `assignment_expr` run on the tokens of `let a = 1` and of `let a += 1`. -/
theorem C15_let_flag_witness :
    assignment_expr 31 ⟨[ident "a", tok .OP_ASSIGN, int_lit 1, eos], some (tok .LET),
        tok .ILLEGAL, none, none, 0⟩ =
      .ok (some (.binary_op .OP_ASSIGN (.id "a") (.int 1) true))
        ⟨[], some eos, tok .OP_ASSIGN, some "assignment", none, 0⟩ ∧
    assignment_expr 31 ⟨[ident "a", tok .OP_PLUS_ASSIGN, int_lit 1, eos], some (tok .LET),
        tok .ILLEGAL, none, none, 0⟩ =
      .ok (some (.binary_op .OP_PLUS_ASSIGN (.id "a") (.int 1) false))
        ⟨[], some eos, tok .OP_PLUS_ASSIGN, some "compoound assignment", none, 0⟩ :=
  ⟨C15_let_flag.1 30 ⟨[ident "a", tok .OP_ASSIGN, int_lit 1, eos], some (tok .LET),
      tok .ILLEGAL, none, none, 0⟩
      ⟨[int_lit 1, eos], some (tok .OP_ASSIGN), tok .LET, none, none, 0⟩
      ⟨[], some eos, tok .OP_ASSIGN, some "assignment", none, 0⟩ (.id "a") (.int 1) rfl rfl rfl,
   C15_let_flag.2.1 30 ⟨[ident "a", tok .OP_PLUS_ASSIGN, int_lit 1, eos], some (tok .LET),
      tok .ILLEGAL, none, none, 0⟩
      ⟨[int_lit 1, eos], some (tok .OP_PLUS_ASSIGN), tok .LET, none, none, 0⟩
      ⟨[], some eos, tok .OP_PLUS_ASSIGN, some "compoound assignment", none, 0⟩
      (.id "a") (.int 1) rfl (by decide) rfl⟩

/-- C16: the token cursor `accept(kind)`, on every parser state.  If the next token is
of that kind, `accept` returns it: the token is copied to the look-behind slot, the
lookahead buffer is cleared and exactly that one token is consumed, every later token
moving up by one.  Otherwise `accept` returns the failure sentinel and consumes nothing:
the look-behind slot is unchanged, the tokens to come are the same, and `peek`, `next` and
any `accept` behave on the state left as they do on the state before.  In both cases the
context label, the error and the nesting counter are untouched. -/
theorem C16_accept_cursor (k : luna_token) (s : luna_parser_t) :
    ((upcoming s 0).type = k →
      (accept k s).1 = true ∧ (accept k s).2.lb = upcoming s 0 ∧ (accept k s).2.la = none ∧
      (∀ i, upcoming (accept k s).2 i = upcoming s (i + 1)) ∧
      (accept k s).2.ctx = s.ctx ∧ (accept k s).2.err = s.err ∧
      (accept k s).2.in_args = s.in_args) ∧
    ((upcoming s 0).type ≠ k →
      (accept k s).1 = false ∧ (accept k s).2.lb = s.lb ∧
      (∀ i, upcoming (accept k s).2 i = upcoming s i) ∧
      peek (accept k s).2 = peek s ∧ next (accept k s).2 = next s ∧
      (∀ k', accept k' (accept k s).2 = accept k' s) ∧
      (accept k s).2.ctx = s.ctx ∧ (accept k s).2.err = s.err ∧
      (accept k s).2.in_args = s.in_args) := by
  obtain ⟨lex, hl⟩ := peek_form s
  rw [upcoming_zero]
  constructor
  · intro h
    rw [accept_hit_peek _ _ h]
    refine ⟨rfl, rfl, rfl, fun i => ?_, ?_, ?_, ?_⟩
    · rw [← upcoming_next, ← next_peek, hl]
      rfl
    · rw [hl]
    · rw [hl]
    · rw [hl]
  · intro h
    rw [accept_miss_peek _ _ h]
    refine ⟨rfl, ?_, fun i => upcoming_peek s i, peek_idem s, next_peek s,
      fun k' => accept_peek k' s, ?_, ?_, ?_⟩ <;> rw [hl]

/-- C16 at the state that has `x` buffered and `y` to come: `accept(ID)` takes `x`, and
`accept(INT)` takes nothing. -/
theorem C16_accept_cursor_witness :
    accept .ID ⟨[ident "y", eos], some (ident "x"), tok .ILLEGAL, none, none, 0⟩ =
      (true, ⟨[ident "y", eos], none, ident "x", none, none, 0⟩) ∧
    (accept .ID ⟨[ident "y", eos], some (ident "x"), tok .ILLEGAL, none, none, 0⟩).2.lb =
      ident "x" ∧
    (accept .INT ⟨[ident "x", ident "y", eos], none, tok .ILLEGAL, none, none, 0⟩).1 = false ∧
    peek (accept .INT ⟨[ident "x", ident "y", eos], none, tok .ILLEGAL, none, none, 0⟩).2 =
      peek ⟨[ident "x", ident "y", eos], none, tok .ILLEGAL, none, none, 0⟩ :=
  ⟨rfl,
   ((C16_accept_cursor .ID
      ⟨[ident "y", eos], some (ident "x"), tok .ILLEGAL, none, none, 0⟩).1 rfl).2.1,
   ((C16_accept_cursor .INT
      ⟨[ident "x", ident "y", eos], none, tok .ILLEGAL, none, none, 0⟩).2 (by decide)).1,
   ((C16_accept_cursor .INT
      ⟨[ident "x", ident "y", eos], none, tok .ILLEGAL, none, none, 0⟩).2 (by decide)).2.2.2.1⟩

/-- C13: conditional chain.  For a keyword `if` or `unless`, a condition, a body block,
any number of `else if` clauses (each a condition and a block) and an optional final
`else` block (one that does not begin with `if`), followed by a token that may follow a
statement, `if_stmt` returns, given enough fuel, one `If` node: its negate flag is true
exactly for `unless`, its else-if sequence holds one `If` per clause in source order, each
with negate false, no else-ifs and no else of its own, and its else block is present
exactly when the final `else` is written.  Exactly the tokens of the conditional are
consumed. -/
theorem C13_conditional_chain (kw : luna_token_t)
    (cond : List luna_token_t × luna_node_t) (body : List luna_token_t × luna_block_node_t)
    (clauses : List ((List luna_token_t × luna_node_t) × (List luna_token_t × luna_block_node_t)))
    (els : Option (List luna_token_t × luna_block_node_t))
    (hkw : kw.type ∈ [luna_token.IF, .UNLESS])
    (hc : ClauseParses cond.1 cond.2) (hb : BlockParses body.1 body.2)
    (hcl : ∀ cl ∈ clauses, ClauseParses cl.1.1 cl.1.2 ∧ BlockParses cl.2.1 cl.2.2)
    (hels : ∀ e ∈ els, BlockParses e.1 e.2 ∧ ∀ t ∈ e.1.head?, t.type ≠ .IF) :
    ∃ f0, ∀ fuel, f0 ≤ fuel → ∀ (k : luna_token_t) (rest : List luna_token_t)
      (lb : luna_token_t) (c err : Option String) (ia : Int), follows_stmt k.type = true →
      ∃ s' lb' c' err' ia',
        if_stmt fuel ⟨if_stream kw cond.1 body.1 (clauses.map fun cl => (cl.1.1, cl.2.1))
            (els.map (·.1)) ++ k :: rest, none, lb, c, err, ia⟩ =
          .ok (some (.if_stmt (decide (kw.type = .UNLESS)) cond.2 body.2
            (clauses.map fun cl => .if_stmt false cl.1.2 cl.2.2 [] none) (els.map (·.2)))) s' ∧
        (peek s').2 = ⟨rest, some k, lb', c', err', ia'⟩ :=
  if_stmt_chain kw hkw cond body clauses els hc hb hcl hels

/-- C13 at the tokens of `if a return x end else if b return y end else return z end`:
one `If` node with one else-if clause and a populated else block, from `if_stmt` and from
the whole parse. -/
theorem C13_conditional_chain_witness :
    (∃ f0, ∀ fuel, f0 ≤ fuel → ∀ (k : luna_token_t) (rest : List luna_token_t)
      (lb : luna_token_t) (c err : Option String) (ia : Int), follows_stmt k.type = true →
      ∃ s' lb' c' err' ia',
        if_stmt fuel ⟨[tok .IF, ident "a", tok .RETURN, ident "x", tok .END,
            tok .ELSE, tok .IF, ident "b", tok .RETURN, ident "y", tok .END,
            tok .ELSE, tok .RETURN, ident "z", tok .END] ++ k :: rest, none, lb, c, err, ia⟩ =
          .ok (some (.if_stmt false (.id "a") (.mk [.return_stmt (.id "x")])
            [.if_stmt false (.id "b") (.mk [.return_stmt (.id "y")]) [] none]
            (some (.mk [.return_stmt (.id "z")])))) s' ∧
        (peek s').2 = ⟨rest, some k, lb', c', err', ia'⟩) ∧
    (luna_parse 60 (fresh [tok .IF, ident "a", tok .RETURN, ident "x", tok .END,
        tok .ELSE, tok .IF, ident "b", tok .RETURN, ident "y", tok .END,
        tok .ELSE, tok .RETURN, ident "z", tok .END, eos])).value =
      some (some (.mk [.if_stmt false (.id "a") (.mk [.return_stmt (.id "x")])
        [.if_stmt false (.id "b") (.mk [.return_stmt (.id "y")]) [] none]
        (some (.mk [.return_stmt (.id "z")]))])) ∧
    (luna_parse 60 (fresh [tok .UNLESS, ident "a", tok .END, eos])).value =
      some (some (.mk [.if_stmt true (.id "a") (.mk []) [] none])) :=
  ⟨C13_conditional_chain (tok .IF) ([ident "a"], .id "a")
      ([tok .RETURN, ident "x", tok .END], .mk [.return_stmt (.id "x")])
      [(([ident "b"], .id "b"), ([tok .RETURN, ident "y", tok .END], .mk [.return_stmt (.id "y")]))]
      (some ([tok .RETURN, ident "z", tok .END], .mk [.return_stmt (.id "z")]))
      (by decide) (clauseParses_leaf (ident "a") rfl)
      (blockParses_return (tok .RETURN) (ident "x") (tok .END) rfl rfl rfl)
      (fun cl hcl => by
        simp only [List.mem_singleton] at hcl
        subst hcl
        exact ⟨clauseParses_leaf (ident "b") rfl,
          blockParses_return (tok .RETURN) (ident "y") (tok .END) rfl rfl rfl⟩)
      (fun e he => by
        simp only [Option.mem_def, Option.some.injEq] at he
        subst he
        exact ⟨blockParses_return (tok .RETURN) (ident "z") (tok .END) rfl rfl rfl,
          fun t ht => by
            simp only [List.head?_cons, Option.mem_def, Option.some.injEq] at ht
            subst ht
            decide⟩),
   rfl, rfl⟩

/-- C17 (the claim fails as stated): an expression statement cannot sit in a block.  `x`
followed by end-of-stream is a statement that `stmt` parses, but `block` on `x end`
returns the failure sentinel with the error "missing newline", and so does the whole
parse of `if a x end`: `expr_stmt` accepts only `')'` or end-of-stream after the
expression. -/
theorem C17_expr_stmt_in_block :
    (stmt 30 (fresh [ident "x", eos])).value = some (some (.id "x")) ∧
    block 30 (fresh [ident "x", tok .END, eos]) =
      .ok none ⟨[eos], some (tok .END), tok .ILLEGAL, some "statement",
        some "missing newline", 0⟩ ∧
    (luna_parse 60 (fresh [tok .IF, ident "a", ident "x", tok .END, eos])).value = some none :=
  ⟨rfl, rfl, rfl⟩

/-- C17 as amended: block sequencing.  For every sequence of statements, each beginning
with a statement keyword (a conditional, loop, return, function declaration or type
declaration) and parsed by `stmt` to its node, followed by `end`, `block` returns, given
enough fuel, the `Block` whose statement sequence is exactly those nodes in source order,
and has consumed the `end`; with no statement the `Block` is empty. -/
theorem C17_block_sequencing (stmts : List (List luna_token_t × luna_node_t))
    (h : ∀ st ∈ stmts, StmtParses st.1 st.2) :
    ∃ f0, ∀ fuel, f0 ≤ fuel → ∀ (en : luna_token_t) (rest : List luna_token_t)
      (lb : luna_token_t) (c err : Option String) (ia : Int), en.type = .END →
      ∃ c' err' ia',
        block fuel ⟨stmt_stream (stmts.map (·.1)) ++ en :: rest, none, lb, c, err, ia⟩ =
          .ok (some (.mk (stmts.map (·.2)))) ⟨rest, none, en, c', err', ia'⟩ :=
  block_stmts stmts h

/-- C17 as amended, at the statements `return x`, `type T a : b end`, `while c end`,
`if d end` and `def f end`, and at no statement. -/
theorem C17_block_sequencing_witness :
    (∃ f0, ∀ fuel, f0 ≤ fuel → ∀ (en : luna_token_t) (rest : List luna_token_t)
      (lb : luna_token_t) (c err : Option String) (ia : Int), en.type = .END →
      ∃ c' err' ia',
        block fuel ⟨[tok .RETURN, ident "x", tok .TYPE, ident "T", ident "a", tok .COLON,
            ident "b", tok .END, tok .WHILE, ident "c", tok .END, tok .IF, ident "d", tok .END,
            tok .DEF, ident "f", tok .END] ++ en :: rest, none, lb, c, err, ia⟩ =
          .ok (some (.mk [.return_stmt (.id "x"), .type "T", .while_stmt false (.id "c") (.mk []),
            .if_stmt false (.id "d") (.mk []) [] none, .function "f" none (.mk []) []]))
            ⟨rest, none, en, c', err', ia'⟩) ∧
    block 60 (fresh [tok .RETURN, ident "x", tok .TYPE, ident "T", ident "a", tok .COLON,
        ident "b", tok .END, tok .WHILE, ident "c", tok .END, tok .IF, ident "d", tok .END,
        tok .DEF, ident "f", tok .END, tok .END, eos]) =
      .ok (some (.mk [.return_stmt (.id "x"), .type "T", .while_stmt false (.id "c") (.mk []),
        .if_stmt false (.id "d") (.mk []) [] none, .function "f" none (.mk []) []]))
        ⟨[eos], none, tok .END, some "function", none, 0⟩ ∧
    block 2 (fresh [tok .END, eos]) = .ok (some (.mk [])) ⟨[eos], none, tok .END, none, none, 0⟩ :=
  ⟨C17_block_sequencing
      [([tok .RETURN, ident "x"], .return_stmt (.id "x")),
       ([tok .TYPE, ident "T", ident "a", tok .COLON, ident "b", tok .END], .type "T"),
       ([tok .WHILE, ident "c", tok .END], .while_stmt false (.id "c") (.mk [])),
       ([tok .IF, ident "d", tok .END], .if_stmt false (.id "d") (.mk []) [] none),
       ([tok .DEF, ident "f", tok .END], .function "f" none (.mk []) [])]
      (fun st hst => by
        simp only [List.mem_cons, List.mem_singleton, List.not_mem_nil, or_false] at hst
        rcases hst with rfl | rfl | rfl | rfl | rfl
        · exact stmtParses_return (tok .RETURN) rfl [ident "x"] (.id "x")
            (clauseParses_leaf (ident "x") rfl)
        · exact stmtParses_type (tok .TYPE) (ident "T") (tok .END) rfl rfl rfl
            [(ident "a", ident "b")] (by simp) (fun fd hfd => by
              simp only [List.mem_singleton] at hfd
              subst hfd
              exact ⟨rfl, rfl⟩)
        · exact stmtParses_while (tok .WHILE) (by decide) ([ident "c"], .id "c")
            ([tok .END], .mk []) (clauseParses_leaf (ident "c") rfl)
            (blockParses_empty (tok .END) rfl)
        · exact stmtParses_if (tok .IF) (by decide) ([ident "d"], .id "d")
            ([tok .END], .mk []) [] none (clauseParses_leaf (ident "d") rfl)
            (blockParses_empty (tok .END) rfl)
            (fun cl hcl => absurd hcl (List.not_mem_nil _))
            (fun e he => absurd he (by simp))
        · exact stmtParses_def "f" none none ([tok .END], .mk [])
            (fun ps hps => absurd hps (by simp)) (blockParses_empty (tok .END) rfl)),
   rfl, rfl⟩

/-- C18: function declaration.  For `def` and a name, then an optional parenthesized
list of parameters `name : type`, each with an optional `= default` whose default is a
complete expression, then an optional `: type` return annotation, then a body block,
`function_stmt` returns, given enough fuel, `FunctionDecl(name, return type, body, params)`
having consumed exactly those tokens: the parameters are one `ParamDecl(name, type,
default)` per written parameter in source order, the default present exactly when one is
written; omitted parentheses and an empty `()` both give no parameter; the return type is
absent exactly when no annotation is written. -/
theorem C18_function_declaration (name : String)
    (params : Option (List (String × String × Option (List luna_token_t × luna_node_t))))
    (ret : Option String) (body : List luna_token_t × luna_block_node_t)
    (hp : ∀ ps ∈ params, ∀ p ∈ ps, ∀ d ∈ p.2.2, ParsesTo d.1 d.2)
    (hb : BlockParses body.1 body.2) :
    ∃ f0, ∀ fuel, f0 ≤ fuel → ∀ (rest : List luna_token_t) (lb : luna_token_t)
      (c err : Option String) (ia : Int),
      ∃ lb' c' err' ia',
        function_stmt fuel
          ⟨function_stream name
              (params.map fun ps => ps.map fun p => param_tokens p.1 p.2.1 (p.2.2.map (·.1)))
              ret body.1 ++ rest, none, lb, c, err, ia⟩ =
        .ok (some (.function name ret body.2
            ((params.getD []).map fun p => .decl p.1 p.2.1 (p.2.2.map (·.2)))))
          ⟨rest, none, lb', c', err', ia'⟩ :=
  function_stmt_decl name params ret body hp hb

/-- C18 at the tokens of `def f(a : int, b : int = 1) : int return a end`, of `def g end`
and of `def h() end`. -/
theorem C18_function_declaration_witness :
    (∃ f0, ∀ fuel, f0 ≤ fuel → ∀ (rest : List luna_token_t) (lb : luna_token_t)
      (c err : Option String) (ia : Int),
      ∃ lb' c' err' ia',
        function_stmt fuel
          ⟨[tok .DEF, ident "f", tok .LPAREN, ident "a", tok .COLON, ident "int", tok .COMMA,
            ident "b", tok .COLON, ident "int", tok .OP_ASSIGN, int_lit 1, tok .RPAREN,
            tok .COLON, ident "int", tok .RETURN, ident "a", tok .END] ++ rest,
            none, lb, c, err, ia⟩ =
        .ok (some (.function "f" (some "int") (.mk [.return_stmt (.id "a")])
            [.decl "a" "int" none, .decl "b" "int" (some (.int 1))]))
          ⟨rest, none, lb', c', err', ia'⟩) ∧
    (luna_parse 60 (fresh [tok .DEF, ident "f", tok .LPAREN, ident "a", tok .COLON, ident "int",
        tok .COMMA, ident "b", tok .COLON, ident "int", tok .OP_ASSIGN, int_lit 1, tok .RPAREN,
        tok .COLON, ident "int", tok .RETURN, ident "a", tok .END, eos])).value =
      some (some (.mk [.function "f" (some "int") (.mk [.return_stmt (.id "a")])
        [.decl "a" "int" none, .decl "b" "int" (some (.int 1))]])) ∧
    (luna_parse 30 (fresh [tok .DEF, ident "g", tok .END, eos])).value =
      some (some (.mk [.function "g" none (.mk []) []])) ∧
    (luna_parse 30 (fresh [tok .DEF, ident "h", tok .LPAREN, tok .RPAREN, tok .END, eos])).value =
      some (some (.mk [.function "h" none (.mk []) []])) :=
  ⟨C18_function_declaration "f"
      (some [("a", "int", none), ("b", "int", some ([int_lit 1], .int 1))]) (some "int")
      ([tok .RETURN, ident "a", tok .END], .mk [.return_stmt (.id "a")])
      (fun ps hps p hp d hd => by
        simp only [Option.mem_def, Option.some.injEq] at hps
        subst hps
        simp only [List.mem_cons, List.mem_singleton, List.not_mem_nil, or_false] at hp
        rcases hp with rfl | rfl
        · exact absurd hd (by simp)
        · simp only [Option.mem_def, Option.some.injEq] at hd
          subst hd
          exact parsesTo_leaf (int_lit 1) rfl)
      (blockParses_return (tok .RETURN) (ident "a") (tok .END) rfl rfl rfl),
   rfl, rfl, rfl⟩

/-- C19 (the code departs from the claim): a type declaration with no field entry is
rejected.  On the tokens of `type T end`, `type_stmt` returns the failure sentinel with
the error "expecting field" and the `end` left unconsumed, and the whole parse fails; the
field loop runs its body once before it looks for `end`.  With one field, `type T a : b
end`, `type_stmt` returns `TypeDecl(T)` and has consumed through the `end`. -/
theorem C19_type_no_field :
    type_stmt 30 (fresh [tok .TYPE, ident "T", tok .END, eos]) =
      .ok none ⟨[eos], some (tok .END), tok .TYPE, some "type statement",
        some "expecting field", 0⟩ ∧
    (luna_parse 30 (fresh [tok .TYPE, ident "T", tok .END, eos])).value = some none ∧
    type_stmt 30 (fresh [tok .TYPE, ident "T", ident "a", tok .COLON, ident "b", tok .END,
        eos]) =
      .ok (some (.type "T")) ⟨[eos], none, tok .END, some "type statement", none, 0⟩ :=
  ⟨rfl, rfl, rfl⟩

/-- C20: return requires an expression.  When `return` is followed by a token that
cannot begin an expression (end-of-stream and `end` among them), `return_stmt` returns
the failure sentinel, and `luna_parse` on a stream that begins so returns the failure
sentinel, given enough fuel.  A stream that holds such a `return` anywhere before its
first end-of-stream token never parses to a block, whatever the fuel.  When `expr` parses
an expression `e` after the `return`, `return_stmt` returns `Return(e)`. -/
theorem C20_return_requires_expr :
    (∀ (self0 : luna_parser_t) (r : luna_token_t) (lex : List luna_token_t) (fuel : Nat),
      r.type = .RETURN → starts_expr (luna_scan lex).1.type = false → 23 ≤ fuel →
      (∀ (lb : luna_token_t) (c e : Option String) (i : Int),
        return_stmt fuel ⟨r :: lex, none, lb, c, e, i⟩ =
          .ok none ⟨(luna_scan lex).2, some (luna_scan lex).1, r, some "return statement",
            e, i⟩) ∧
      luna_parse fuel (luna_parser_init self0 (r :: lex)) =
        .ok none ⟨(luna_scan lex).2, some (luna_scan lex).1, r, some "return statement",
          none, 0⟩) ∧
    (∀ (fuel : Nat) (self0 : luna_parser_t) (toks : List luna_token_t),
      return_without_expr toks = true →
      ∀ (b : luna_block_node_t) (s' : luna_parser_t),
        luna_parse fuel (luna_parser_init self0 toks) ≠ .ok (some b) s') ∧
    (∀ (n : Nat) (s s1 : luna_parser_t) (e : luna_node_t),
      (peek s).1.type = .RETURN →
      expr n (context "return statement" { (peek s).2 with lb := (peek s).1, la := none }) =
        .ok (some e) s1 →
      return_stmt (n + 1) s = .ok (some (.return_stmt e)) s1) := by
  refine ⟨fun self0 r lex fuel hr ht hf => ⟨fun lb c e i => ?_,
    parse_return_fail self0 r lex fuel hr ht hf⟩, luna_parse_return, return_ok⟩
  rw [← return_stmt_peek]
  exact return_fail fuel (by omega) r lex lb c e i hr ht

/-- C20 at the tokens of `return` alone, of `return end`, of `if a return end end` and of
`return x`. -/
theorem C20_return_requires_expr_witness :
    luna_parse 23 (fresh [tok .RETURN, eos]) =
      .ok none ⟨[], some eos, tok .RETURN, some "return statement", none, 0⟩ ∧
    return_stmt 23 ⟨[tok .RETURN, tok .END, eos], none, tok .ILLEGAL, none, none, 0⟩ =
      .ok none ⟨[eos], some (tok .END), tok .RETURN, some "return statement", none, 0⟩ ∧
    luna_parse 60 (fresh [tok .IF, ident "a", tok .RETURN, tok .END, tok .END, eos]) ≠
      .ok (some (.mk [])) parser_zero ∧
    (luna_parse 60 (fresh [tok .IF, ident "a", tok .RETURN, tok .END, tok .END, eos])).value =
      some none ∧
    return_stmt 21 ⟨[tok .RETURN, ident "x", eos], none, tok .ILLEGAL, none, none, 0⟩ =
      .ok (some (.return_stmt (.id "x")))
        ⟨[], some eos, tok .RETURN, some "return statement", none, 0⟩ ∧
    (luna_parse 30 (fresh [tok .RETURN, ident "x", eos])).value =
      some (some (.mk [.return_stmt (.id "x")])) :=
  ⟨(C20_return_requires_expr.1 parser_zero (tok .RETURN) [eos] 23 rfl rfl (by decide)).2,
   (C20_return_requires_expr.1 parser_zero (tok .RETURN) [tok .END, eos] 23 rfl rfl
      (by decide)).1 (tok .ILLEGAL) none none 0,
   C20_return_requires_expr.2.1 60 parser_zero
      [tok .IF, ident "a", tok .RETURN, tok .END, tok .END, eos] rfl (.mk []) parser_zero,
   rfl,
   C20_return_requires_expr.2.2 20
      ⟨[tok .RETURN, ident "x", eos], none, tok .ILLEGAL, none, none, 0⟩
      ⟨[], some eos, tok .RETURN, some "return statement", none, 0⟩ (.id "x") rfl rfl,
   rfl⟩

/-! ## Claims C21 to C26 -/

/-- C21: missing right-hand operand of a binary operator.  On every fold level `j`
(multiplicative 0 to logical-or 9), when the token ahead is an operator of the level and
the token after it cannot begin an operand (it begins no primary expression and is no
prefix operator), the fold loop, at any iteration and whatever the left operand `node`,
and so the level after a first operand `l`, returns the failure sentinel: the operator is
consumed, the token after it stays buffered, the context label is the level's label and
the sticky error is "missing right-hand expression" unless one was set before.  The
same holds for the power level when the token after `**` begins no primary expression,
with the label "** operation".  `luna_parse` on `x0 op1 x1 ... opn xn o t` and on
`a ** t` fails in that state, given enough fuel. -/
theorem C21_missing_right_operand :
    (∀ (j n k : Nat) (node : luna_node_t) (s : luna_parser_t), j ≤ 9 → 7 + j ≤ n →
      (peek s).1.type ∈ level_ops j → starts_unary (upcoming s 1).type = false →
      binary_loop (level_ops j) (level_op j) (level_ctx j) (operand_expr j n) (k + 1) node s =
        .ok none ⟨(next (next s).2).2.lex, some (upcoming s 1), (peek s).1,
          some (level_ctx j), some (s.err.getD "missing right-hand expression"), s.in_args⟩) ∧
    (∀ (j n : Nat) (s s1 : luna_parser_t) (l : luna_node_t), j ≤ 9 → 7 + j ≤ n →
      operand_expr j n s = .ok (some l) s1 →
      (peek s1).1.type ∈ level_ops j → starts_unary (upcoming s1 1).type = false →
      level_expr j (n + 1) s =
        .ok none ⟨(next (next s1).2).2.lex, some (upcoming s1 1), (peek s1).1,
          some (level_ctx j), some (s1.err.getD "missing right-hand expression"),
          s1.in_args⟩) ∧
    (∀ (n : Nat) (s s1 : luna_parser_t) (l : luna_node_t), 4 ≤ n →
      call_expr n s = .ok (some l) s1 →
      (peek s1).1.type = .OP_POW → starts_primary (upcoming s1 1).type = false →
      pow_expr (n + 1) s =
        .ok none ⟨(next (next s1).2).2.lex, some (upcoming s1 1), (peek s1).1,
          some "** operation", some (s1.err.getD "missing right-hand expression"),
          s1.in_args⟩) ∧
    (∀ (j : Nat) (self0 : luna_parser_t) (x0 o t : luna_token_t) (rest : List luna_token_t)
      (items : List (luna_token_t × luna_token_t)) (fuel : Nat),
      j ≤ 9 → 23 + items.length ≤ fuel → is_operand x0.type = true →
      o.type ∈ level_ops j → starts_unary t.type = false →
      (∀ it ∈ items, it.1.type ∈ level_ops j ∧ is_operand it.2.type = true) →
      luna_parse fuel (luna_parser_init self0 (x0 :: (op_stream items ++ o :: t :: rest))) =
        .ok none ⟨rest, some t, o, some (level_ctx j),
          some "missing right-hand expression", 0⟩) ∧
    (∀ (self0 : luna_parser_t) (a q t : luna_token_t) (rest : List luna_token_t) (fuel : Nat),
      24 ≤ fuel → is_operand a.type = true → q.type = .OP_POW →
      starts_primary t.type = false →
      luna_parse fuel (luna_parser_init self0 (a :: q :: t :: rest)) =
        .ok none ⟨rest, some t, q, some "** operation",
          some "missing right-hand expression", 0⟩) := by
  refine ⟨fun j n k node s hj hn ho ht => ?_,
    fun j n s s1 l hj hn h ho ht => level_stop j hj n hn s s1 l h ho ht,
    fun n s s1 l hn h hq ht => ?_,
    fun j self0 x0 o t rest items fuel hj hf hx ho ht hi =>
      parse_items_stop j hj self0 x0 o t rest items fuel hf hx ho ht hi,
    fun self0 a q t rest fuel hf ha hq ht => parse_pow_stop self0 a q t rest fuel hf ha hq ht⟩
  · rw [binary_loop_stop j hj n hn k node s ho ht, stop_state]
  · rw [pow_stop n hn s s1 l h hq ht, stop_state]

/-- C21 at `a +`, at `a * b *` followed by `)`, and at `a ** - b`. -/
theorem C21_missing_right_operand_witness :
    binary_loop (level_ops 1) (level_op 1) (level_ctx 1) (operand_expr 1 8) 1 (.id "a")
        ⟨[eos], some (tok .OP_PLUS), ident "a", some "statement", none, 0⟩ =
      .ok none ⟨[], some eos, tok .OP_PLUS, some "additive operation",
        some "missing right-hand expression", 0⟩ ∧
    level_expr 1 9 ⟨[ident "a", tok .OP_PLUS, eos], none, tok .ILLEGAL, none,
        some "earlier message", 0⟩ =
      .ok none ⟨[], some eos, tok .OP_PLUS, some "additive operation",
        some "earlier message", 0⟩ ∧
    pow_expr 5 ⟨[ident "a", tok .OP_POW, tok .OP_MINUS, ident "b", eos], none, tok .ILLEGAL,
        none, none, 0⟩ =
      .ok none ⟨[ident "b", eos], some (tok .OP_MINUS), tok .OP_POW, some "** operation",
        some "missing right-hand expression", 0⟩ ∧
    luna_parse 25 (fresh [ident "a", tok .OP_MUL, ident "b", tok .OP_MUL, tok .RPAREN, eos]) =
      .ok none ⟨[eos], some (tok .RPAREN), tok .OP_MUL, some "multiplicative operation",
        some "missing right-hand expression", 0⟩ ∧
    luna_parse 24 (fresh [ident "a", tok .OP_POW, tok .OP_MINUS, ident "b", eos]) =
      .ok none ⟨[ident "b", eos], some (tok .OP_MINUS), tok .OP_POW, some "** operation",
        some "missing right-hand expression", 0⟩ :=
  ⟨C21_missing_right_operand.1 1 8 0 (.id "a")
      ⟨[eos], some (tok .OP_PLUS), ident "a", some "statement", none, 0⟩
      (by decide) (by decide) (by decide) rfl,
   C21_missing_right_operand.2.1 1 8
      ⟨[ident "a", tok .OP_PLUS, eos], none, tok .ILLEGAL, none, some "earlier message", 0⟩
      ⟨[eos], some (tok .OP_PLUS), tok .ILLEGAL, none, some "earlier message", 0⟩ (.id "a")
      (by decide) (by decide) rfl (by decide) rfl,
   C21_missing_right_operand.2.2.1 4
      ⟨[ident "a", tok .OP_POW, tok .OP_MINUS, ident "b", eos], none, tok .ILLEGAL, none, none, 0⟩
      ⟨[tok .OP_MINUS, ident "b", eos], some (tok .OP_POW), tok .ILLEGAL, none, none, 0⟩
      (.id "a") (by decide) rfl rfl rfl,
   C21_missing_right_operand.2.2.2.1 0 parser_zero (ident "a") (tok .OP_MUL) (tok .RPAREN) [eos]
      [(tok .OP_MUL, ident "b")] 25 (by decide) (by decide) rfl (by decide) rfl
      (by decide),
   C21_missing_right_operand.2.2.2.2 parser_zero (ident "a") (tok .OP_POW) (tok .OP_MINUS)
      [ident "b", eos] 24 (by decide) rfl rfl rfl⟩

/-- C22: a prefix operator without an operand.  For every prefix operator `p` of
`++ -- ~ + - !` followed by a token that cannot begin an expression, `unary_expr` returns
not the failure sentinel but the node `UnaryOp(p, NULL)`: the result of its recursive call
is stored unchecked.  When that token is end-of-stream, `luna_parse` returns a root block
holding the node, with no error message set. -/
theorem C22_prefix_without_operand :
    (∀ (k : Nat) (p t : luna_token_t) (lex : List luna_token_t) (lb : luna_token_t)
      (c e : Option String) (i : Int),
      p.type ∈ unary_ops → starts_expr t.type = false →
      unary_expr (k + 8) ⟨t :: lex, some p, lb, c, e, i⟩ =
        .ok (some (.unary_op p.type none false)) ⟨lex, some t, p, c, e, i⟩) ∧
    (∀ (self0 : luna_parser_t) (p t : luna_token_t) (rest : List luna_token_t) (fuel : Nat),
      24 ≤ fuel → p.type ∈ unary_ops → t.type = .EOS →
      luna_parse fuel (luna_parser_init self0 (p :: t :: rest)) =
        .ok (some (.mk [.unary_op p.type none false]))
          ⟨rest, none, t, some "statement", none, 0⟩) :=
  ⟨fun k p t lex lb c e i hp ht => unary_no_operand k p t lex lb c e i hp ht,
   fun self0 p t rest fuel hf hp ht => parse_no_operand self0 p t rest fuel hf hp ht⟩

/-- C22 at `!` followed by `)` and at `+` followed by end-of-stream. -/
theorem C22_prefix_without_operand_witness :
    unary_expr 8 ⟨[tok .RPAREN, eos], some (tok .OP_NOT), tok .ILLEGAL, none, none, 0⟩ =
      .ok (some (.unary_op .OP_NOT none false))
        ⟨[eos], some (tok .RPAREN), tok .OP_NOT, none, none, 0⟩ ∧
    luna_parse 24 (fresh [tok .OP_PLUS, eos]) =
      .ok (some (.mk [.unary_op .OP_PLUS none false]))
        ⟨[], none, eos, some "statement", none, 0⟩ :=
  ⟨C22_prefix_without_operand.1 0 (tok .OP_NOT) (tok .RPAREN) [eos] (tok .ILLEGAL) none none 0
      (by decide) rfl,
   C22_prefix_without_operand.2 parser_zero (tok .OP_PLUS) eos [] 24 (by decide) (by decide) rfl⟩

/-- C23: assignment nests to the right.  When `logical_or_expr` returns the left side and
an assignment operator follows, plain or compound, `assignment_expr` returns the binary
node of that operator over the left side and whatever `not_expr` returns for the right
side; a leading `not` wraps what `not_expr` returns for the rest in `UnaryOp(not, _)`
with the postfix flag false.  So the tokens `x0 o1 x1 ... on xn` of one-token operands
and assignment operators, followed by a token that ends an expression, parse to
`x0 o1 (x1 o2 (... xn))`, and with a leading `not` to `UnaryOp(not, x0 o1 (...))`; ended
by end-of-stream they parse to a root block of that one statement. -/
theorem C23_assignment_right_nested :
    (∀ (n : Nat) (s s1 s3 : luna_parser_t) (node right : luna_node_t),
      logical_or_expr n (accept .LET s).2 = .ok (some node) s1 →
      (peek s1).1.type ∈ assign_ops →
      not_expr n (context (assign_ctx (peek s1).1.type)
        { (peek s1).2 with lb := (peek s1).1, la := none }) = .ok (some right) s3 →
      assignment_expr (n + 1) s =
        .ok (some (.binary_op (peek s1).1.type node right
          (decide ((peek s1).1.type = .OP_ASSIGN) && decide ((peek s).1.type = .LET)))) s3) ∧
    (∀ (n : Nat) (s s1 : luna_parser_t) (e : luna_node_t),
      (peek s).1.type = .OP_LNOT →
      not_expr n { (peek s).2 with lb := (peek s).1, la := none } = .ok (some e) s1 →
      not_expr (n + 1) s = .ok (some (.unary_op .OP_LNOT (some e) false)) s1) ∧
    (∀ (k : luna_token_t) (rest : List luna_token_t) (e : Option String) (i : Int)
      (items : List (luna_token_t × luna_token_t)) (fuel : Nat) (x0 lb : luna_token_t)
      (c : Option String),
      ends_expr k.type = true → 19 + 2 * items.length ≤ fuel → is_operand x0.type = true →
      (∀ it ∈ items, it.1.type ∈ assign_ops ∧ is_operand it.2.type = true) →
      ∃ lb' c', expr fuel ⟨x0 :: (op_stream items ++ k :: rest), none, lb, c, e, i⟩ =
        .ok (some (right_nested x0 items)) ⟨rest, some k, lb', c', e, i⟩) ∧
    (∀ (k : luna_token_t) (rest : List luna_token_t) (e : Option String) (i : Int)
      (items : List (luna_token_t × luna_token_t)) (fuel : Nat) (nt x0 lb : luna_token_t)
      (c : Option String),
      ends_expr k.type = true → 20 + 2 * items.length ≤ fuel → nt.type = .OP_LNOT →
      is_operand x0.type = true →
      (∀ it ∈ items, it.1.type ∈ assign_ops ∧ is_operand it.2.type = true) →
      ∃ lb' c', expr fuel ⟨nt :: x0 :: (op_stream items ++ k :: rest), none, lb, c, e, i⟩ =
        .ok (some (.unary_op .OP_LNOT (some (right_nested x0 items)) false))
          ⟨rest, some k, lb', c', e, i⟩) ∧
    (∀ (self0 : luna_parser_t) (k : luna_token_t) (rest : List luna_token_t)
      (items : List (luna_token_t × luna_token_t)) (fuel : Nat) (x0 : luna_token_t),
      k.type = .EOS → 22 + 2 * items.length ≤ fuel → is_operand x0.type = true →
      (∀ it ∈ items, it.1.type ∈ assign_ops ∧ is_operand it.2.type = true) →
      ∃ c', luna_parse fuel (luna_parser_init self0 (x0 :: (op_stream items ++ k :: rest))) =
        .ok (some (.mk [right_nested x0 items])) ⟨rest, none, k, c', none, 0⟩) ∧
    (∀ (self0 : luna_parser_t) (k : luna_token_t) (rest : List luna_token_t)
      (items : List (luna_token_t × luna_token_t)) (fuel : Nat) (nt x0 : luna_token_t),
      k.type = .EOS → 23 + 2 * items.length ≤ fuel → nt.type = .OP_LNOT →
      is_operand x0.type = true →
      (∀ it ∈ items, it.1.type ∈ assign_ops ∧ is_operand it.2.type = true) →
      ∃ c', luna_parse fuel
          (luna_parser_init self0 (nt :: x0 :: (op_stream items ++ k :: rest))) =
        .ok (some (.mk [.unary_op .OP_LNOT (some (right_nested x0 items)) false]))
          ⟨rest, none, k, c', none, 0⟩) :=
  ⟨assignment_any, not_hit,
   fun k rest e i items fuel x0 lb c hk hf hx hi =>
     expr_chain k rest e i hk items fuel x0 lb c hf hx hi,
   fun k rest e i items fuel nt x0 lb c hk hf hn hx hi =>
     expr_not_chain k rest e i hk items fuel nt x0 lb c hf hn hx hi,
   fun self0 k rest items fuel x0 hk hf hx hi =>
     parse_chain self0 k rest hk items fuel x0 hf hx hi,
   fun self0 k rest items fuel nt x0 hk hf hn hx hi =>
     parse_not_chain self0 k rest hk items fuel nt x0 hf hn hx hi⟩

/-- C23 at `a = b = c`, `a += b = c`, `a = b -= c` and `not a = b`. -/
theorem C23_assignment_right_nested_witness :
    (∃ c', luna_parse 26
        (fresh [ident "a", tok .OP_ASSIGN, ident "b", tok .OP_ASSIGN, ident "c", eos]) =
      .ok (some (.mk [.binary_op .OP_ASSIGN (.id "a")
        (.binary_op .OP_ASSIGN (.id "b") (.id "c") false) false]))
        ⟨[], none, eos, c', none, 0⟩) ∧
    (∃ c', luna_parse 26
        (fresh [ident "a", tok .OP_PLUS_ASSIGN, ident "b", tok .OP_ASSIGN, ident "c", eos]) =
      .ok (some (.mk [.binary_op .OP_PLUS_ASSIGN (.id "a")
        (.binary_op .OP_ASSIGN (.id "b") (.id "c") false) false]))
        ⟨[], none, eos, c', none, 0⟩) ∧
    (∃ lb' c', expr 23 ⟨[ident "a", tok .OP_ASSIGN, ident "b", tok .OP_MINUS_ASSIGN, ident "c",
        tok .RPAREN], none, tok .ILLEGAL, none, none, 0⟩ =
      .ok (some (.binary_op .OP_ASSIGN (.id "a")
        (.binary_op .OP_MINUS_ASSIGN (.id "b") (.id "c") false) false))
        ⟨[], some (tok .RPAREN), lb', c', none, 0⟩) ∧
    (∃ c', luna_parse 25 (fresh [tok .OP_LNOT, ident "a", tok .OP_ASSIGN, ident "b", eos]) =
      .ok (some (.mk [.unary_op .OP_LNOT
        (some (.binary_op .OP_ASSIGN (.id "a") (.id "b") false)) false]))
        ⟨[], none, eos, c', none, 0⟩) ∧
    luna_parse 26
        (fresh [ident "a", tok .OP_ASSIGN, ident "b", tok .OP_ASSIGN, ident "c", eos]) =
      .ok (some (.mk [.binary_op .OP_ASSIGN (.id "a")
        (.binary_op .OP_ASSIGN (.id "b") (.id "c") false) false]))
        ⟨[], none, eos, some "assignment", none, 0⟩ :=
  ⟨C23_assignment_right_nested.2.2.2.2.1 parser_zero eos []
      [(tok .OP_ASSIGN, ident "b"), (tok .OP_ASSIGN, ident "c")] 26 (ident "a") rfl
      (by decide) rfl (by decide),
   C23_assignment_right_nested.2.2.2.2.1 parser_zero eos []
      [(tok .OP_PLUS_ASSIGN, ident "b"), (tok .OP_ASSIGN, ident "c")] 26 (ident "a") rfl
      (by decide) rfl (by decide),
   C23_assignment_right_nested.2.2.1 (tok .RPAREN) [] none 0
      [(tok .OP_ASSIGN, ident "b"), (tok .OP_MINUS_ASSIGN, ident "c")] 23 (ident "a")
      (tok .ILLEGAL) none rfl (by decide) rfl (by decide),
   C23_assignment_right_nested.2.2.2.2.2 parser_zero eos []
      [(tok .OP_ASSIGN, ident "b")] 25 (tok .OP_LNOT) (ident "a") rfl (by decide) rfl rfl
      (by decide),
   rfl⟩

/-- C26: the argument-nesting counter is left raised.  On the tokens of `f(()` and of
`f(a*)`, each followed by end-of-stream, `luna_parse` returns a root block, holding a call
whose argument container is null, and `in_args` is 1: `call_args` returns the failure
sentinel before its decrement, and `call_expr` goes on to accept the `)`.  In the first
case no error message is set either. -/
theorem C26_in_args_left_raised :
    luna_parse 70 (fresh [ident "f", tok .LPAREN, tok .LPAREN, tok .RPAREN, eos]) =
      .ok (some (.mk [.call (.id "f") none]))
        ⟨[], none, eos, some "function call", none, 1⟩ ∧
    luna_parse 60 (fresh [ident "f", tok .LPAREN, ident "a", tok .OP_MUL, tok .RPAREN, eos]) =
      .ok (some (.mk [.call (.id "f") none]))
        ⟨[], none, eos, some "multiplicative operation",
          some "missing right-hand expression", 1⟩ :=
  ⟨rfl, rfl⟩

/-- C24: termination with a result, and no backtracking.  `luna_parse` ends on every token
stream, given 25 units of fuel for each token and 23 more, and so does every grammar
function on its own measure; no function moves the cursor back, and every node or
statement that is returned cost at least one token.  But the result need not be a root
block or the failure sentinel: on the tokens `x . t`, where `x` is a one-token operand and
`t` begins no primary expression (end-of-stream among them), `call_expr` reads the type of
the node its nested call returned, which is null, and the parse ends in undefined
behaviour, for every fuel from 24 on. -/
theorem C24_termination_and_result :
    (∀ (self0 : luna_parser_t) (x d t : luna_token_t) (rest : List luna_token_t) (fuel : Nat),
      24 ≤ fuel → is_operand x.type = true → d.type = .OP_DOT →
      starts_primary t.type = false →
      luna_parse fuel (luna_parser_init self0 (x :: d :: t :: rest)) = .undefined) ∧
    (∀ (self0 : luna_parser_t) (toks : List luna_token_t) (fuel : Nat),
      25 * toks.length + 23 ≤ fuel →
      (∃ b s', luna_parse fuel (luna_parser_init self0 toks) = .ok (some b) s') ∨
      (∃ s', luna_parse fuel (luna_parser_init self0 toks) = .ok none s') ∨
      luna_parse fuel (luna_parser_init self0 toks) = .undefined) ∧
    (∀ n : Nat, Terminates n) ∧
    (∀ n : Nat, Framed Advanced n) ∧
    (∀ n : Nat, Consumes n) ∧
    (∀ (fuel : Nat) (s : luna_parser_t) (v : Option luna_block_node_t) (s' : luna_parser_t),
      luna_parse fuel s = .ok v s' → Advanced s s') ∧
    (∀ (n : Nat) (s : luna_parser_t) (e : luna_node_t) (s' : luna_parser_t),
      stmt n s = .ok (some e) s' → Advanced s s' ∧ remaining s' < remaining s) ∧
    (∀ (n : Nat) (s : luna_parser_t) (e : luna_node_t) (s' : luna_parser_t),
      expr n s = .ok (some e) s' → Advanced s s' ∧ remaining s' < remaining s) :=
  ⟨fun self0 x d t rest fuel hf hx hd ht => parse_dot_undefined self0 x d t rest fuel hf hx hd ht,
   fun self0 toks fuel hf => ends_cases _ (luna_parse_ends self0 toks fuel hf),
   terminates_all, framed_all advanced_frame, consumes_all,
   luna_parse_advanced, stmt_progress, expr_progress⟩

/-- C24 at `a .` followed by end-of-stream, at `a b` followed by end-of-stream (which
ends with the failure sentinel, one of the three outcomes), and at the statement `a`
in front of a `)`. -/
theorem C24_termination_and_result_witness :
    luna_parse 24 (fresh [ident "a", tok .OP_DOT, eos]) = .undefined ∧
    ((∃ b s', luna_parse 98 (fresh [ident "a", ident "b", eos]) = .ok (some b) s') ∨
      (∃ s', luna_parse 98 (fresh [ident "a", ident "b", eos]) = .ok none s') ∨
      luna_parse 98 (fresh [ident "a", ident "b", eos]) = .undefined) ∧
    Advanced (fresh [ident "a", eos]) ⟨[], none, eos, some "statement", none, 0⟩ ∧
    (Advanced ⟨[ident "a", tok .RPAREN, eos], none, tok .ILLEGAL, none, none, 0⟩
        ⟨[eos], some (tok .RPAREN), tok .ILLEGAL, some "statement", none, 0⟩ ∧
      remaining ⟨[eos], some (tok .RPAREN), tok .ILLEGAL, some "statement", none, 0⟩ <
        remaining ⟨[ident "a", tok .RPAREN, eos], none, tok .ILLEGAL, none, none, 0⟩) ∧
    (Advanced ⟨[ident "a", tok .RPAREN, eos], none, tok .ILLEGAL, none, none, 0⟩
        ⟨[eos], some (tok .RPAREN), tok .ILLEGAL, none, none, 0⟩ ∧
      remaining ⟨[eos], some (tok .RPAREN), tok .ILLEGAL, none, none, 0⟩ <
        remaining ⟨[ident "a", tok .RPAREN, eos], none, tok .ILLEGAL, none, none, 0⟩) :=
  ⟨C24_termination_and_result.1 parser_zero (ident "a") (tok .OP_DOT) eos [] 24 (by decide)
      rfl rfl rfl,
   C24_termination_and_result.2.1 parser_zero [ident "a", ident "b", eos] 98 (by decide),
   C24_termination_and_result.2.2.2.2.2.1 30 (fresh [ident "a", eos])
      (some (.mk [.id "a"])) ⟨[], none, eos, some "statement", none, 0⟩ rfl,
   C24_termination_and_result.2.2.2.2.2.2.1 30
      ⟨[ident "a", tok .RPAREN, eos], none, tok .ILLEGAL, none, none, 0⟩ (.id "a")
      ⟨[eos], some (tok .RPAREN), tok .ILLEGAL, some "statement", none, 0⟩ rfl,
   C24_termination_and_result.2.2.2.2.2.2.2 30
      ⟨[ident "a", tok .RPAREN, eos], none, tok .ILLEGAL, none, none, 0⟩ (.id "a")
      ⟨[eos], some (tok .RPAREN), tok .ILLEGAL, none, none, 0⟩ rfl⟩

/-- C25: where expression statements can stand.  `expr_stmt` returns a node only with a
`)` or an end-of-stream token left unconsumed in the lookahead, and the node is no
statement node.  Every block that `block` returns holds, at any depth, statement nodes
only.  Every root block that `luna_parse` returns has the root shape: all its statements
but the last are statement nodes whose blocks hold no expression statement, and the last
is one too or is an expression statement.  After an expression statement the statement
loop of `program` returns a block only when the next token is end-of-stream, adding no
further statement, and the statement loop of `block` returns no block at all. -/
theorem C25_expr_stmt_placement :
    (∀ (n : Nat) (s : luna_parser_t) (e : luna_node_t) (s' : luna_parser_t),
      expr_stmt n s = .ok (some e) s' →
      is_stmt_node e = false ∧ ∃ t, s'.la = some t ∧ (t.type = .RPAREN ∨ t.type = .EOS)) ∧
    (∀ (n : Nat) (s : luna_parser_t) (b : luna_block_node_t) (s' : luna_parser_t),
      block n s = .ok (some b) s' → block_closed b = true) ∧
    (∀ (fuel : Nat) (s : luna_parser_t) (b : luna_block_node_t) (s' : luna_parser_t),
      luna_parse fuel s = .ok (some b) s' → root_shape b = true) ∧
    (∀ (n m : Nat) (s s1 : luna_parser_t) (e : luna_node_t) (acc : List luna_node_t)
      (b : luna_block_node_t) (s' : luna_parser_t),
      stmt n s = .ok (some e) s1 → is_stmt_node e = false →
      program_loop m acc s1 = .ok (some b) s' → (peek s1).1.type = .EOS ∧ b = .mk acc) ∧
    (∀ (n m : Nat) (s s1 : luna_parser_t) (e : luna_node_t) (acc : List luna_node_t)
      (b : luna_block_node_t) (s' : luna_parser_t),
      stmt n s = .ok (some e) s1 → is_stmt_node e = false →
      block_loop m acc s1 ≠ .ok (some b) s') :=
  ⟨expr_stmt_closer, block_shape, luna_parse_shape, program_after_expr_stmt,
    block_after_expr_stmt⟩

/-- C25 at the tokens of `if a return b end x` followed by end-of-stream, at the block
`return b end`, at the expression statement `x` followed by `)`, at `x` followed by
end-of-stream, and at `x )` followed by `end`. -/
theorem C25_expr_stmt_placement_witness :
    root_shape (.mk [.if_stmt false (.id "a") (.mk [.return_stmt (.id "b")]) [] none,
      .id "x"]) = true ∧
    block_closed (.mk [.return_stmt (.id "b")]) = true ∧
    (is_stmt_node (.id "x") = false ∧
      ∃ t, (⟨[eos], some (tok .RPAREN), tok .ILLEGAL, none, none, 0⟩ : luna_parser_t).la =
        some t ∧ (t.type = .RPAREN ∨ t.type = .EOS)) ∧
    ((peek ⟨[], some eos, tok .ILLEGAL, some "statement", none, 0⟩).1.type = .EOS ∧
      luna_block_node_t.mk [.id "x"] = .mk [.id "x"]) ∧
    block_loop 30 [.id "x"]
        ⟨[tok .END, eos], some (tok .RPAREN), tok .ILLEGAL, some "statement", none, 0⟩ ≠
      .ok (some (.mk [.id "x"])) ⟨[eos], none, tok .END, some "statement", none, 0⟩ :=
  ⟨C25_expr_stmt_placement.2.2.1 60
      (fresh [tok .IF, ident "a", tok .RETURN, ident "b", tok .END, ident "x", eos])
      (.mk [.if_stmt false (.id "a") (.mk [.return_stmt (.id "b")]) [] none, .id "x"])
      ⟨[], none, eos, some "statement", none, 0⟩ rfl,
   C25_expr_stmt_placement.2.1 40
      ⟨[tok .RETURN, ident "b", tok .END, eos], none, tok .ILLEGAL, none, none, 0⟩
      (.mk [.return_stmt (.id "b")])
      ⟨[eos], none, tok .END, some "return statement", none, 0⟩ rfl,
   C25_expr_stmt_placement.1 30
      ⟨[ident "x", tok .RPAREN, eos], none, tok .ILLEGAL, none, none, 0⟩ (.id "x")
      ⟨[eos], some (tok .RPAREN), tok .ILLEGAL, none, none, 0⟩ rfl,
   C25_expr_stmt_placement.2.2.2.1 30 30
      ⟨[ident "x", eos], none, tok .ILLEGAL, none, none, 0⟩
      ⟨[], some eos, tok .ILLEGAL, some "statement", none, 0⟩ (.id "x") [.id "x"]
      (.mk [.id "x"]) ⟨[], none, eos, some "statement", none, 0⟩ rfl rfl rfl,
   C25_expr_stmt_placement.2.2.2.2 30 30
      ⟨[ident "x", tok .RPAREN, tok .END, eos], none, tok .ILLEGAL, none, none, 0⟩
      ⟨[tok .END, eos], some (tok .RPAREN), tok .ILLEGAL, some "statement", none, 0⟩ (.id "x")
      [.id "x"] (.mk [.id "x"]) ⟨[eos], none, tok .END, some "statement", none, 0⟩ rfl rfl⟩
end Luna
